import Mathlib

/-! LL-SimpleWireless: channel, net device and queues

A shallow embedding of `src/model/simple-wireless-channel.{h,cc}`,
`src/model/simple-wireless-net-device.{h,cc}`, `src/model/drop-head-queue.{h,cc}`
and `src/model/priority-queue.{h,cc}`.

Modelling conventions
* `double` values (distances, ranges, error rates, uniform draws) are exact
  rationals; rounding of IEEE arithmetic is not modelled.
* `Time` is a whole number of nanosecond ticks, the simulator's resolution.
* The simulator, the mobility models and the random variables are external to
  the repository; they appear as the environment `Env`: the current time, the
  distance between the mobility models of two nodes, and one stream of values
  per random variable.  The channel state records how many values of each
  stream have been consumed.
* A `std::map` is its sorted sequence of (key, value) pairs; an iterator is an
  index into that sequence, `end()` being the length.
* `NS_ASSERT` failures and undefined iterator operations are results
  `Except.error`; the `while` loop of `CheckStochasticError` takes a bound on
  its number of iterations and reports `Fault.outOfFuel` when it is exceeded,
  and so does the eviction loop of `DropHeadQueue::DoEnqueue`.
* A packet is its list of link-layer headers, its payload bytes and its list
  of packet tags; `uint32_t` counters are natural numbers reduced modulo 2^32.
* The state of a device together with what it has scheduled and observed is a
  `World`: the device, the channel, the delays of the pending
  `TransmitComplete` events, the arrivals scheduled by the channel and the
  trace of observations.  The queue of the device is any implementation of the
  `ns3::Queue` interface (`QueueOps`).
-/

set_option maxRecDepth 20000

namespace SimpleWireless

/-! ## Basic types -/

/-- Simulated time in nanosecond ticks. -/
abbrev Time := Int

/-- `MicroSeconds (n)` for a whole number of microseconds. -/
def MicroSeconds (us : Nat) : Time := 1000 * (us : Int)

/-- `Seconds (s)`: the tick count of a duration given in seconds. -/
def Seconds (s : ℚ) : Time := ⌊s * 1000000000⌋

/-- `DataRate::CalculateTxTime (bytes)` of the simulator library: seconds
needed to send `bytes` bytes at `bps` bits per second. -/
def CalculateTxTime (bps : Nat) (bytes : Nat) : ℚ := ((bytes : ℚ) * 8) / (bps : ℚ)

/-- Link-layer address (48 bits). -/
abbrev Mac48Address := Nat

/-- The destination hint meaning that no directional neighbor is selected. -/
def NO_DIRECTIONAL_NBR : Nat := 0xFFFFFFFF

inductive ErrorModelType where
  | CONSTANT
  | PER_CURVE
  | STOCHASTIC
  deriving DecidableEq, Repr

inductive Fault where
  | assertFailed
  | undefinedBehaviour
  | outOfFuel
  deriving DecidableEq, Repr

/-- Conversion of a `uint32_t` to `int` (two's complement). -/
def toInt32 (n : Nat) : Int :=
  if n % 4294967296 < 2147483648 then ((n % 4294967296 : Nat) : Int)
  else ((n % 4294967296 : Nat) : Int) - 4294967296

/-- The value an `int` holds after arithmetic carried out modulo 2^32. -/
def wrapInt32 (x : Int) : Int := (x + 2147483648) % 4294967296 - 2147483648

structure StochasticKey where
  srcNodeId : Int
  destNodeId : Int
  deriving DecidableEq, Repr

/-- `StochasticKey::operator<`. -/
def StochasticKey.lt (l r : StochasticKey) : Bool :=
  if l.srcNodeId = r.srcNodeId then decide (l.destNodeId < r.destNodeId)
  else decide (l.srcNodeId < r.srcNodeId)

structure StochasticLink where
  linkState : Bool
  stateExpireTime : Time
  deriving DecidableEq, Repr

/-- A `SimpleWirelessNetDevice` as the channel sees it: the object identity
(`ptr`) and the id of the node that owns it. -/
structure Device where
  ptr : Nat
  nodeId : Nat
  deriving DecidableEq, Repr

/-! ## Ordered maps (`std::map`) -/

/-- `std::map::find`: the value stored under a key equivalent to `k`
(neither less than the other), scanning the sorted sequence. -/
def omFind {κ β : Type} (lt : κ → κ → Bool) (k : κ) : List (κ × β) → Option β
  | [] => none
  | (k1, v) :: rest => if !(lt k k1) && !(lt k1 k) then some v else omFind lt k rest

/-- Position at which a new key is placed: before the first greater key. -/
def omPlace {κ β : Type} (lt : κ → κ → Bool) (k : κ) (v : β) : List (κ × β) → List (κ × β)
  | [] => [(k, v)]
  | (k1, v1) :: rest =>
    if lt k k1 then (k, v) :: (k1, v1) :: rest else (k1, v1) :: omPlace lt k v rest

/-- `std::map::insert`: no effect when an equivalent key is present. -/
def omInsert {κ β : Type} (lt : κ → κ → Bool) (k : κ) (v : β) (m : List (κ × β)) : List (κ × β) :=
  match omFind lt k m with
  | some _ => m
  | none => omPlace lt k v m

/-- Assignment to `iter->second` for the iterator returned by `find (k)`. -/
def omAssign {κ β : Type} (lt : κ → κ → Bool) (k : κ) (v : β) : List (κ × β) → List (κ × β)
  | [] => []
  | (k1, v1) :: rest =>
    if !(lt k k1) && !(lt k1 k) then (k1, v) :: rest else (k1, v1) :: omAssign lt k v rest

/-- `std::map::upper_bound`: index of the first key greater than `k`, the
length of the sequence when there is none. -/
def omUpperBound {κ β : Type} (lt : κ → κ → Bool) (k : κ) : List (κ × β) → Nat
  | [] => 0
  | (k1, _) :: rest => if lt k k1 then 0 else omUpperBound lt k rest + 1

/-- `operator<` on `double`. -/
def dlt (a b : ℚ) : Bool := decide (a < b)

/-! ## Environment and channel state -/

structure Env where
  /-- `Simulator::Now ()`. -/
  now : Time
  /-- Whether the node has a `MobilityModel` aggregated. -/
  hasMobility : Nat → Bool
  /-- `a->GetDistanceFrom (b)` for the mobility models of two nodes. -/
  distance : Nat → Nat → ℚ
  /-- Successive values of `m_random->GetValue ()`. -/
  uniform : Nat → ℚ
  /-- Successive values of `m_randomUp->GetValue ()`, in whole microseconds. -/
  randomUp : Nat → Nat
  /-- Successive values of `m_randomDown->GetValue ()`, in whole microseconds. -/
  randomDown : Nat → Nat

structure Channel where
  m_devices : List Device
  m_range : ℚ
  m_errorRate : ℚ
  m_ErrorModel : ErrorModelType
  mPERmap : List (ℚ × ℚ)
  m_fixedContentionEnabled : Bool
  m_fixedContentionRange : ℚ
  m_upDuration : Time
  m_downDuration : Time
  m_StochasticLinks : List (StochasticKey × StochasticLink)
  /-- Number of values drawn from `m_random`. -/
  randomPos : Nat
  /-- Number of values drawn from `m_randomUp`. -/
  upPos : Nat
  /-- Number of values drawn from `m_randomDown`. -/
  downPos : Nat

/-- The constructor `SimpleWirelessChannel ()` with the attribute defaults of
`GetTypeId`. -/
def Channel.new : Channel :=
  { m_devices := []
    m_range := 250
    m_errorRate := 0
    m_ErrorModel := ErrorModelType.CONSTANT
    mPERmap := []
    m_fixedContentionEnabled := false
    m_fixedContentionRange := 0
    m_upDuration := MicroSeconds 10000
    m_downDuration := MicroSeconds 100
    m_StochasticLinks := []
    randomPos := 0
    upPos := 0
    downPos := 0 }

/-- `SimpleWirelessChannel::Add`. -/
def Add (c : Channel) (device : Device) : Channel :=
  { c with m_devices := c.m_devices ++ [device] }

/-- `SimpleWirelessChannel::setErrorModelType`. -/
def setErrorModelType (c : Channel) (type : ErrorModelType) : Channel :=
  if type = ErrorModelType.PER_CURVE then { c with m_ErrorModel := type, m_range := 0 }
  else { c with m_ErrorModel := type }

/-- `SimpleWirelessChannel::setErrorRate`. -/
def setErrorRate (c : Channel) (error : ℚ) : Channel :=
  { c with m_errorRate := error }

/-- `SimpleWirelessChannel::addToPERmodel`. -/
def addToPERmodel (c : Channel) (distance error : ℚ) : Channel :=
  let c1 := { c with mPERmap := omInsert dlt distance error c.mPERmap }
  if distance > c1.m_range then { c1 with m_range := distance } else c1

/-- `SimpleWirelessChannel::SetFixedContentionRange`. -/
def SetFixedContentionRange (c : Channel) (range : ℚ) : Channel :=
  { c with m_fixedContentionRange := range }

/-! ## Contention counters of the device -/

/-- `SimpleWirelessNetDevice::ClearNbrCount`: the new value of `m_nbrCount`. -/
def ClearNbrCount (_m_nbrCount : Int) : Int := 1

/-- `SimpleWirelessNetDevice::IncrementNbrCount`: the new value of `m_nbrCount`. -/
def IncrementNbrCount (m_nbrCount : Int) : Int := wrapInt32 (m_nbrCount + 1)

/-- `SimpleWirelessChannel::EnableFixedContention`.  `nbr` gives the
`m_nbrCount` of every device, by object identity; the result holds the channel
and the counters after `ClearNbrCount` has been called on each attached
device. -/
def EnableFixedContention (c : Channel) (nbr : Nat → Int) : Channel × (Nat → Int) :=
  ({ c with m_fixedContentionEnabled := true },
    c.m_devices.foldl (fun f tmp => Function.update f tmp.ptr (ClearNbrCount (f tmp.ptr))) nbr)

/-! ## Stochastic error functions -/

/-- Inner loop of `InitStochasticModel` for one source node id. -/
def initInner (env : Env) (src : Int) : List Device → Channel → Channel
  | [], c => c
  | j :: js, c =>
    let dst := toInt32 j.nodeId
    if src = dst then initInner env src js c
    else
      let tempLink : StochasticLink :=
        { linkState := true
          stateExpireTime := env.now + MicroSeconds (env.randomUp c.upPos) }
      initInner env src js
        { c with
          m_StochasticLinks :=
            omInsert StochasticKey.lt (StochasticKey.mk src dst) tempLink c.m_StochasticLinks
          upPos := c.upPos + 1 }

/-- Outer loop of `InitStochasticModel`. -/
def initOuter (env : Env) (all : List Device) : List Device → Channel → Channel
  | [], c => c
  | i :: is, c => initOuter env all is (initInner env (toInt32 i.nodeId) all c)

/-- `SimpleWirelessChannel::InitStochasticModel`.  The two exponential random
variables it creates read their values from the streams of the environment,
from the current positions on. -/
def InitStochasticModel (env : Env) (c : Channel) : Channel :=
  if c.m_ErrorModel = ErrorModelType.STOCHASTIC then initOuter env c.m_devices c.m_devices c
  else c

/-- The `while (endTime < currTime)` loop of `CheckStochasticError`, run for at
most `fuel` iterations.  Returns the end time, the state and the numbers of
values consumed from the two duration streams. -/
def replayLoop (env : Env) (currTime : Time) :
    Nat → Time → Bool → Nat → Nat → Except Fault (Time × Bool × Nat × Nat)
  | 0, endTime, tempState, up, down =>
    if endTime < currTime then Except.error Fault.outOfFuel
    else Except.ok (endTime, tempState, up, down)
  | fuel + 1, endTime, tempState, up, down =>
    if endTime < currTime then
      if !tempState then
        replayLoop env currTime fuel (endTime + MicroSeconds (env.randomUp up)) (!tempState)
          (up + 1) down
      else
        replayLoop env currTime fuel (endTime + MicroSeconds (env.randomDown down)) (!tempState)
          up (down + 1)
    else Except.ok (endTime, tempState, up, down)

/-- `StochasticKey (srcId, dstId)` built from two `uint32_t` node ids. -/
def linkKey (srcId dstId : Nat) : StochasticKey :=
  StochasticKey.mk (toInt32 srcId) (toInt32 dstId)

/-- `SimpleWirelessChannel::CheckStochasticError`: the new channel state and
the verdict (`true` = do not send). -/
def CheckStochasticError (env : Env) (fuel : Nat) (c : Channel) (srcId dstId : Nat) :
    Except Fault (Channel × Bool) :=
  if c.m_ErrorModel = ErrorModelType.STOCHASTIC then
    let key := linkKey srcId dstId
    match omFind StochasticKey.lt key c.m_StochasticLinks with
    | none => Except.error Fault.assertFailed
    | some link =>
      let currTime := env.now
      if currTime ≥ link.stateExpireTime then
        match replayLoop env currTime fuel link.stateExpireTime link.linkState c.upPos c.downPos with
        | Except.error f => Except.error f
        | Except.ok (endTime, tempState, up, down) =>
          let c1 : Channel :=
            { c with
              m_StochasticLinks :=
                omAssign StochasticKey.lt key
                  { linkState := tempState, stateExpireTime := endTime } c.m_StochasticLinks
              upPos := up
              downPos := down }
          Except.ok (c1, !tempState)
      else Except.ok (c, !link.linkState)
  else Except.ok (c, false)

/-! ## Error model -/

/-- `SimpleWirelessChannel::packetInError`: the new channel state (a value of
`m_random` may have been consumed) and the verdict. -/
def packetInError (env : Env) (c : Channel) (distance : ℚ) : Except Fault (Channel × Bool) :=
  if c.m_ErrorModel = ErrorModelType.CONSTANT then
    Except.ok ({ c with randomPos := c.randomPos + 1 },
      decide (env.uniform c.randomPos < c.m_errorRate))
  else if c.m_ErrorModel = ErrorModelType.PER_CURVE then
    match omFind dlt distance c.mPERmap with
    | some second =>
      Except.ok ({ c with randomPos := c.randomPos + 1 },
        decide (env.uniform c.randomPos < second))
    | none =>
      let up_iter := omUpperBound dlt distance c.mPERmap
      if up_iter = c.mPERmap.length then Except.ok (c, true)
      else
        match up_iter with
        | 0 => Except.error Fault.undefinedBehaviour
        | low_iter + 1 =>
          match c.mPERmap.get? low_iter, c.mPERmap.get? (low_iter + 1) with
          | some low, some up =>
            let errorRate :=
              low.2 + (((distance - low.1) / (up.1 - low.1)) * (up.2 - low.2))
            Except.ok ({ c with randomPos := c.randomPos + 1 },
              decide (env.uniform c.randomPos < errorRate))
          | _, _ => Except.error Fault.undefinedBehaviour
  else Except.ok (c, false)

/-! ## Send -/

/-- An event scheduled with `Simulator::ScheduleWithContext` that calls
`SimpleWirelessNetDevice::Receive` on `device`. -/
structure Event (P : Type) where
  context : Nat
  /-- The argument of `NanoSeconds`: delay after now, in nanoseconds. -/
  delayNs : ℚ
  device : Device
  packet : P
  protocol : Nat
  toAddr : Mac48Address
  fromAddr : Mac48Address

/-- What `Send` changes: the channel and the sender's `m_nbrCount`. -/
structure SendState where
  ch : Channel
  nbrCount : Int

/-- Body of the `for` loop of `Send` for the candidate `tmp`: the new state and
the events scheduled in this iteration. -/
def sendBody {P : Type} (env : Env) (fuel : Nat) (p : P) (protocol : Nat)
    (toAddr fromAddr : Mac48Address) (sender : Device) (txTime : Time) (destId : Nat)
    (s : SendState) (tmp : Device) : Except Fault (SendState × List (Event P)) :=
  let senderNodeId := sender.nodeId
  let destNodeId := tmp.nodeId
  if tmp.ptr = sender.ptr then Except.ok (s, [])
  else if destId ≠ NO_DIRECTIONAL_NBR ∧ destNodeId ≠ destId then Except.ok (s, [])
  else
    match CheckStochasticError env fuel s.ch senderNodeId destNodeId with
    | Except.error f => Except.error f
    | Except.ok (c1, true) => Except.ok ({ s with ch := c1 }, [])
    | Except.ok (c1, false) =>
      if !(env.hasMobility senderNodeId && env.hasMobility destNodeId) then
        Except.error Fault.assertFailed
      else
        let distance := env.distance senderNodeId destNodeId
        let n1 :=
          if c1.m_fixedContentionEnabled = true ∧ distance < c1.m_fixedContentionRange then
            IncrementNbrCount s.nbrCount
          else s.nbrCount
        if distance > c1.m_range then Except.ok ({ ch := c1, nbrCount := n1 }, [])
        else
          match packetInError env c1 distance with
          | Except.error f => Except.error f
          | Except.ok (c2, true) => Except.ok ({ ch := c2, nbrCount := n1 }, [])
          | Except.ok (c2, false) =>
            let propDelay : ℚ := (33 / 10) * distance
            Except.ok ({ ch := c2, nbrCount := n1 },
              [{ context := destNodeId
                 delayNs := (txTime : ℚ) + propDelay
                 device := tmp
                 packet := p
                 protocol := protocol
                 toAddr := toAddr
                 fromAddr := fromAddr }])

/-- The `for` loop of `Send` over the device list. -/
def sendLoop {P : Type} (env : Env) (fuel : Nat) (p : P) (protocol : Nat)
    (toAddr fromAddr : Mac48Address) (sender : Device) (txTime : Time) (destId : Nat) :
    List Device → SendState → Except Fault (SendState × List (Event P))
  | [], s => Except.ok (s, [])
  | tmp :: rest, s =>
    match sendBody env fuel p protocol toAddr fromAddr sender txTime destId s tmp with
    | Except.error f => Except.error f
    | Except.ok (s1, evs) =>
      match sendLoop env fuel p protocol toAddr fromAddr sender txTime destId rest s1 with
      | Except.error f => Except.error f
      | Except.ok (s2, evs2) => Except.ok (s2, evs ++ evs2)

/-- `SimpleWirelessChannel::Send`.  `nbrCount` is the sender's `m_nbrCount` on
entry; the result holds the channel, the sender's `m_nbrCount` on return and
the arrival events scheduled, in scheduling order. -/
def Send {P : Type} (env : Env) (fuel : Nat) (c : Channel) (p : P) (protocol : Nat)
    (toAddr fromAddr : Mac48Address) (sender : Device) (nbrCount : Int) (txTime : Time) (destId : Nat) :
    Except Fault (SendState × List (Event P)) :=
  let s0 : SendState :=
    if c.m_fixedContentionEnabled = true then
      { ch :=
          if c.m_fixedContentionRange = 0 then { c with m_fixedContentionRange := c.m_range }
          else c
        nbrCount := ClearNbrCount nbrCount }
    else { ch := c, nbrCount := nbrCount }
  sendLoop env fuel p protocol toAddr fromAddr sender txTime destId c.m_devices s0

/-! ## Packets -/

/-- The fields of an `EthernetHeader` the device sets and reads. -/
structure EthernetHeader where
  m_source : Mac48Address
  m_destination : Mac48Address
  m_lengthType : Nat
  deriving DecidableEq, Repr

/-- A packet tag: `TimestampTag` or `DestinationIdTag`. -/
inductive Tag where
  | timestamp (m_timestamp : Time)
  | destinationId (m_destnodeid : Nat)
  deriving DecidableEq, Repr

/-- A packet: the link-layer headers at its front (outermost first), the bytes
below them, and its packet tag list (most recently added first). -/
structure Packet where
  headers : List EthernetHeader
  payload : List Nat
  tags : List Tag
  deriving DecidableEq, Repr

/-- `Packet::AddHeader`. -/
def Packet.AddHeader (p : Packet) (h : EthernetHeader) : Packet :=
  { p with headers := h :: p.headers }

/-- `Packet::RemoveHeader`: the header read and the packet without it; `none`
when there is no link-layer header at the front. -/
def Packet.RemoveHeader (p : Packet) : Option (EthernetHeader × Packet) :=
  match p.headers with
  | [] => none
  | h :: rest => some (h, { p with headers := rest })

/-- `Packet::PeekHeader`. -/
def Packet.PeekHeader (p : Packet) : Option EthernetHeader := p.headers.head?

/-- `Packet::GetSize`: 14 bytes per link-layer header plus the bytes below;
tags do not count. -/
def Packet.GetSize (p : Packet) : Nat := 14 * p.headers.length + p.payload.length

/-- `Packet::AddPacketTag`. -/
def Packet.AddPacketTag (p : Packet) (t : Tag) : Packet := { p with tags := t :: p.tags }

/-- Removes the first `TimestampTag` of a tag list. -/
def removeTimestamp : List Tag → Option (Time × List Tag)
  | [] => none
  | Tag.timestamp t :: rest => some (t, rest)
  | Tag.destinationId d :: rest =>
    match removeTimestamp rest with
    | none => none
    | some (t, rest1) => some (t, Tag.destinationId d :: rest1)

/-- Removes the first `DestinationIdTag` of a tag list. -/
def removeDestinationId : List Tag → Option (Nat × List Tag)
  | [] => none
  | Tag.destinationId d :: rest => some (d, rest)
  | Tag.timestamp t :: rest =>
    match removeDestinationId rest with
    | none => none
    | some (d, rest1) => some (d, Tag.timestamp t :: rest1)

/-- `Packet::RemovePacketTag` for a `TimestampTag`: the timestamp read and the
packet without the tag.  When the packet carries no such tag the tag object
keeps its default timestamp 0 and the packet is unchanged. -/
def Packet.RemoveTimestampTag (p : Packet) : Time × Packet :=
  match removeTimestamp p.tags with
  | none => (0, p)
  | some (t, rest) => (t, { p with tags := rest })

/-- `Packet::RemovePacketTag` for a `DestinationIdTag`: the node id read and
the packet without the tag; `none` when the packet carries no such tag (the
tag object is then left uninitialised). -/
def Packet.RemoveDestinationIdTag (p : Packet) : Option (Nat × Packet) :=
  match removeDestinationId p.tags with
  | none => none
  | some (d, rest) => some (d, { p with tags := rest })

/-- `Packet::Copy`. -/
def Packet.Copy (p : Packet) : Packet := p

/-- The broadcast address ff:ff:ff:ff:ff:ff. -/
def broadcastAddress : Mac48Address := 0xFFFFFFFFFFFF

/-- `Mac48Address::IsBroadcast`. -/
def IsBroadcast (a : Mac48Address) : Bool := decide (a = broadcastAddress)

/-! ## Queues -/

/-- The virtual interface `ns3::Queue` as the device uses it: `Enqueue` returns
the new queue and whether the packet was accepted, `Dequeue` the new queue and
the packet removed (`none` for a null pointer). -/
structure QueueOps (Q : Type) where
  Enqueue : Q → Packet → Except Fault (Q × Bool)
  Dequeue : Q → Except Fault (Q × Option Packet)

/-- `DropHeadQueue::QueueMode`. -/
inductive QueueMode where
  | QUEUE_MODE_PACKETS
  | QUEUE_MODE_BYTES
  deriving DecidableEq, Repr

/-- State of a `DropHeadQueue`; the head of `m_packets` is the front of the
queue, `dropped` lists the packets passed to `Drop`, oldest first. -/
structure DropHeadQueue where
  m_packets : List Packet
  m_bytesInQueue : Nat
  m_maxPackets : Nat
  m_maxBytes : Nat
  m_mode : QueueMode
  dropped : List Packet
  deriving DecidableEq, Repr

/-- `DropHeadQueue::DoDequeue`; `m_bytesInQueue` is a `uint32_t`. -/
def DropHeadQueue.DoDequeue (q : DropHeadQueue) : DropHeadQueue × Option Packet :=
  match q.m_packets with
  | [] => (q, none)
  | p :: rest =>
    ({ q with
       m_packets := rest
       m_bytesInQueue := (q.m_bytesInQueue + 4294967296 - p.GetSize % 4294967296) % 4294967296 },
     some p)

/-- `DropHeadQueue::DoPeek`. -/
def DropHeadQueue.DoPeek (q : DropHeadQueue) : Option Packet := q.m_packets.head?

/-- One eviction of `DoEnqueue`: `Dequeue` followed by `Drop`, which
dereferences the packet. -/
def DropHeadQueue.evict (q : DropHeadQueue) : Except Fault DropHeadQueue :=
  match q.DoDequeue with
  | (_, none) => Except.error Fault.undefinedBehaviour
  | (q1, some head_packet) => Except.ok { q1 with dropped := q1.dropped ++ [head_packet] }

/-- The `while` loop of `DoEnqueue` in byte mode, run for at most `fuel`
iterations. -/
def DropHeadQueue.evictLoop (p : Packet) : Nat → DropHeadQueue → Except Fault DropHeadQueue
  | 0, q =>
    if (q.m_bytesInQueue + p.GetSize) % 4294967296 ≥ q.m_maxBytes then
      Except.error Fault.outOfFuel
    else Except.ok q
  | fuel + 1, q =>
    if (q.m_bytesInQueue + p.GetSize) % 4294967296 ≥ q.m_maxBytes then
      match q.evict with
      | Except.error f => Except.error f
      | Except.ok q1 => DropHeadQueue.evictLoop p fuel q1
    else Except.ok q

/-- `DropHeadQueue::DoEnqueue`. -/
def DropHeadQueue.DoEnqueue (fuel : Nat) (q : DropHeadQueue) (p : Packet) :
    Except Fault (DropHeadQueue × Bool) :=
  let r1 : Except Fault DropHeadQueue :=
    if q.m_mode = QueueMode.QUEUE_MODE_PACKETS ∧ q.m_packets.length ≥ q.m_maxPackets then q.evict
    else Except.ok q
  match r1 with
  | Except.error f => Except.error f
  | Except.ok q1 =>
    let r2 : Except Fault DropHeadQueue :=
      if q1.m_mode = QueueMode.QUEUE_MODE_BYTES then DropHeadQueue.evictLoop p fuel q1
      else Except.ok q1
    match r2 with
    | Except.error f => Except.error f
    | Except.ok q2 =>
      Except.ok
        ({ q2 with
           m_bytesInQueue := (q2.m_bytesInQueue + p.GetSize) % 4294967296
           m_packets := q2.m_packets ++ [p] }, true)

/-- A `DropHeadQueue` behind the `ns3::Queue` interface. -/
def dropHeadOps (fuel : Nat) : QueueOps DropHeadQueue :=
  { Enqueue := fun q p => DropHeadQueue.DoEnqueue fuel q p
    Dequeue := fun q => Except.ok q.DoDequeue }

/-! ## The net device -/

/-- `SimpleWirelessNetDevice::TxMachineState`. -/
inductive TxMachineState where
  | READY
  | BUSY
  deriving DecidableEq, Repr

/-- State of a `SimpleWirelessNetDevice` with a queue of type `Q`: `self` is
the identity of the object and the id of its node, `m_queue` is `none` for a
null pointer, `mDirectionalNbrs` is a `std::map` from node id to address. -/
structure NetDevice (Q : Type) where
  self : Device
  m_address : Mac48Address
  m_bps : Nat
  m_txMachineState : TxMachineState
  m_currentPkt : Option Packet
  m_queue : Option Q
  m_pcapEnabled : Bool
  m_fixedNbrListEnabled : Bool
  mDirectionalNbrs : List (Nat × Mac48Address)
  m_nbrCount : Int
  m_pktRcvTotal : Nat
  m_pktRcvDrop : Nat
  /-- Whether `m_receiveErrorModel` points to an error model. -/
  m_receiveErrorModel : Bool := false
  /-- Whether `m_promiscCallback` holds a callback. -/
  m_promiscCallback : Bool := false

/-- Order of the keys of `mDirectionalNbrs`. -/
def nlt (a b : Nat) : Bool := decide (a < b)

/-- `std::map::erase` at the position `find` returns for key `k`. -/
def omErase {κ ν : Type} (lt : κ → κ → Bool) (k : κ) : List (κ × ν) → List (κ × ν)
  | [] => []
  | (k1, v1) :: rest =>
    if !(lt k k1) && !(lt k1 k) then rest else (k1, v1) :: omErase lt k rest

/-- `SimpleWirelessNetDevice::AddDirectionalNeighbor`: the device and the
value returned. -/
def NetDevice.AddDirectionalNeighbor {Q : Type} (d : NetDevice Q) (nodeid : Nat)
    (macAddr : Mac48Address) : NetDevice Q × Bool :=
  if !d.m_fixedNbrListEnabled then (d, false)
  else ({ d with mDirectionalNbrs := omInsert nlt nodeid macAddr d.mDirectionalNbrs }, true)

/-- `SimpleWirelessNetDevice::AddDirectionalNeighbors`; `nodesToAdd` is a
`std::map`, traversed in key order. -/
def NetDevice.AddDirectionalNeighbors {Q : Type} (d : NetDevice Q)
    (nodesToAdd : List (Nat × Mac48Address)) : NetDevice Q × Bool :=
  if !d.m_fixedNbrListEnabled then (d, false)
  else
    ({ d with
       mDirectionalNbrs :=
         nodesToAdd.foldl (fun m it => omInsert nlt it.1 it.2 m) d.mDirectionalNbrs }, true)

/-- `SimpleWirelessNetDevice::DeleteDirectionalNeighbor`. -/
def NetDevice.DeleteDirectionalNeighbor {Q : Type} (d : NetDevice Q) (nodeid : Nat) :
    NetDevice Q :=
  match omFind nlt nodeid d.mDirectionalNbrs with
  | some _ => { d with mDirectionalNbrs := omErase nlt nodeid d.mDirectionalNbrs }
  | none => d

/-- `SimpleWirelessNetDevice::DeleteDirectionalNeighbors`; `nodeids` is a
`std::set`, traversed in order. -/
def NetDevice.DeleteDirectionalNeighbors {Q : Type} (d : NetDevice Q) (nodeids : List Nat) :
    NetDevice Q :=
  nodeids.foldl (fun d1 it => NetDevice.DeleteDirectionalNeighbor d1 it) d

/-- What the device lets the outside see: the trace sources it fires and the
calls it makes to `SimpleWirelessChannel::Send`, with their arguments. -/
inductive Observation where
  | macTx (p : Packet)
  | promiscSniffer (p : Packet)
  | queueLatency (p : Packet) (latency : Time)
  | txBegin (p : Packet) (fromAddr toAddr : Mac48Address) (protocol : Nat)
  | channelSend (p : Packet) (protocol : Nat) (toAddr fromAddr : Mac48Address) (txTime : Time)
      (destId : Nat)
  deriving DecidableEq, Repr

/-- Why a call on the device does not return. -/
inductive DevFault where
  /-- `NS_ASSERT_MSG (m_txMachineState == READY, ...)` of `TransmitStart`. -/
  | notReady
  /-- `NS_ASSERT_MSG (m_txMachineState == BUSY, ...)` of `TransmitComplete`. -/
  | notBusy
  /-- `NS_ASSERT_MSG (m_currentPkt != 0, ...)` of `TransmitComplete`. -/
  | noCurrentPkt
  /-- A null `m_queue` or a null packet is dereferenced. -/
  | nullPointer
  /-- A header or a destination tag is read that the packet does not carry. -/
  | malformedPacket
  /-- The call to `SimpleWirelessChannel::Send` failed. -/
  | channel (f : Fault)
  /-- A call on the queue failed. -/
  | queue (f : Fault)
  deriving DecidableEq, Repr

/-- A device together with what its calls reach: the channel it is attached
to, the delays of the `TransmitComplete` events it has scheduled and that have
not run yet, the arrival events the channel has scheduled, and the
observations made so far. -/
structure World (Q : Type) where
  dev : NetDevice Q
  ch : Channel
  txComplete : List Time
  arrivals : List (Event Packet)
  trace : List Observation

/-- Appends an observation. -/
def World.observe {Q : Type} (w : World Q) (o : Observation) : World Q :=
  { w with trace := w.trace ++ [o] }

/-- The call `m_channel->Send (p, protocol, to, from, this, txTime, destId)`:
the channel and the sender's `m_nbrCount` are updated and the arrivals
scheduled. -/
def callChannelSend {Q : Type} (env : Env) (fuel : Nat) (w : World Q) (p : Packet)
    (protocol : Nat) (toAddr fromAddr : Mac48Address) (txTime : Time) (destId : Nat) :
    Except DevFault (World Q) :=
  match Send env fuel w.ch p protocol toAddr fromAddr w.dev.self w.dev.m_nbrCount txTime destId with
  | Except.error f => Except.error (DevFault.channel f)
  | Except.ok (st, evs) =>
    Except.ok
      { w with
        ch := st.ch
        dev := { w.dev with m_nbrCount := st.nbrCount }
        arrivals := w.arrivals ++ evs
        trace := w.trace ++ [Observation.channelSend p protocol toAddr fromAddr txTime destId] }

/-- `SimpleWirelessNetDevice::TransmitStart`.  `m_currentPkt` points to the
packet that is stripped in place. -/
def NetDevice.TransmitStart {Q : Type} (env : Env) (fuel : Nat) (w : World Q) (p : Packet) :
    Except DevFault (World Q) :=
  if w.dev.m_txMachineState ≠ TxMachineState.READY then Except.error DevFault.notReady
  else
    let w1 : World Q := { w with dev := { w.dev with m_txMachineState := TxMachineState.BUSY } }
    let w2 : World Q := if w1.dev.m_pcapEnabled then w1.observe (Observation.promiscSniffer p) else w1
    let timeEnqueued : Time := p.RemoveTimestampTag.1
    let p1 : Packet := p.RemoveTimestampTag.2
    let latency : Time := env.now - timeEnqueued
    let w3 : World Q := w2.observe (Observation.queueLatency p1 latency)
    match p1.RemoveHeader with
    | none => Except.error DevFault.malformedPacket
    | some (ethHeader, p2) =>
      let toAddr := ethHeader.m_destination
      let fromAddr := ethHeader.m_source
      let protocol := ethHeader.m_lengthType
      match p2.RemoveDestinationIdTag with
      | none => Except.error DevFault.malformedPacket
      | some (destId, p3) =>
        let txTime : Time := Seconds (CalculateTxTime w3.dev.m_bps p3.GetSize)
        let txTime : Time :=
          if w3.dev.m_nbrCount ≠ 0 then
            if w3.dev.m_fixedNbrListEnabled then txTime * 2 else txTime * w3.dev.m_nbrCount
          else txTime
        let txCompleteTime := txTime
        let w4 : World Q :=
          { w3 with
            dev := { w3.dev with m_currentPkt := some p3 }
            txComplete := w3.txComplete ++ [txCompleteTime] }
        let w5 : World Q := w4.observe (Observation.txBegin p3 fromAddr toAddr protocol)
        callChannelSend env fuel w5 p3 protocol toAddr fromAddr txTime destId

/-- `SimpleWirelessNetDevice::TransmitComplete`, as the scheduler runs it. -/
def NetDevice.TransmitComplete {Q : Type} (ops : QueueOps Q) (env : Env) (fuel : Nat)
    (w : World Q) : Except DevFault (World Q) :=
  if w.dev.m_txMachineState ≠ TxMachineState.BUSY then Except.error DevFault.notBusy
  else
    let w1 : World Q := { w with dev := { w.dev with m_txMachineState := TxMachineState.READY } }
    if w1.dev.m_currentPkt.isNone then Except.error DevFault.noCurrentPkt
    else
      let w2 : World Q := { w1 with dev := { w1.dev with m_currentPkt := none } }
      match w2.dev.m_queue with
      | none => Except.error DevFault.nullPointer
      | some q =>
        match ops.Dequeue q with
        | Except.error f => Except.error (DevFault.queue f)
        | Except.ok (q1, none) => Except.ok { w2 with dev := { w2.dev with m_queue := some q1 } }
        | Except.ok (q1, some p) =>
          NetDevice.TransmitStart env fuel { w2 with dev := { w2.dev with m_queue := some q1 } } p

/-- `SimpleWirelessNetDevice::EnqueuePacket`: the new state and the value
returned. -/
def NetDevice.EnqueuePacket {Q : Type} (ops : QueueOps Q) (env : Env) (fuel : Nat) (w : World Q)
    (packet : Packet) (fromAddr toAddr : Mac48Address) (protocolNumber : Nat) (destId : Nat) :
    Except DevFault (World Q × Bool) :=
  match w.dev.m_queue with
  | some q =>
    let packet := packet.AddPacketTag (Tag.timestamp env.now)
    let packet := packet.AddPacketTag (Tag.destinationId destId)
    match ops.Enqueue q packet with
    | Except.error f => Except.error (DevFault.queue f)
    | Except.ok (q1, true) =>
      let w1 : World Q := { w with dev := { w.dev with m_queue := some q1 } }
      if w1.dev.m_txMachineState = TxMachineState.READY then
        match ops.Dequeue q1 with
        | Except.error f => Except.error (DevFault.queue f)
        | Except.ok (_, none) => Except.error DevFault.nullPointer
        | Except.ok (q2, some packet) =>
          match NetDevice.TransmitStart env fuel
              { w1 with dev := { w1.dev with m_queue := some q2 } } packet with
          | Except.error f => Except.error f
          | Except.ok w2 => Except.ok (w2, true)
      else Except.ok (w1, true)
    | Except.ok (q1, false) =>
      Except.ok ({ w with dev := { w.dev with m_queue := some q1 } }, true)
  | none =>
    let w1 : World Q :=
      if w.dev.m_pcapEnabled then w.observe (Observation.promiscSniffer packet) else w
    match packet.RemoveHeader with
    | none => Except.error DevFault.malformedPacket
    | some (_, packet) =>
      let w2 : World Q :=
        w1.observe (Observation.txBegin packet w1.dev.m_address toAddr protocolNumber)
      let txTime : Time := Seconds (CalculateTxTime w2.dev.m_bps packet.GetSize)
      let txTime : Time :=
        if w2.dev.m_nbrCount ≠ 0 then
          if w2.dev.m_fixedNbrListEnabled then txTime * 2 else txTime * w2.dev.m_nbrCount
        else txTime
      match callChannelSend env fuel w2 packet protocolNumber toAddr fromAddr txTime destId with
      | Except.error f => Except.error f
      | Except.ok w3 => Except.ok (w3, true)

/-- The loop of `Send` and `SendFrom` over `mDirectionalNbrs` for a broadcast
packet. -/
def NetDevice.broadcastLoop {Q : Type} (ops : QueueOps Q) (env : Env) (fuel : Nat)
    (packet : Packet) (fromAddr toAddr : Mac48Address) (protocolNumber : Nat) :
    List (Nat × Mac48Address) → World Q → Except DevFault (World Q)
  | [], w => Except.ok w
  | it :: rest, w =>
    match NetDevice.EnqueuePacket ops env fuel w packet.Copy fromAddr toAddr protocolNumber
        it.1 with
    | Except.error f => Except.error f
    | Except.ok (w1, _) =>
      NetDevice.broadcastLoop ops env fuel packet fromAddr toAddr protocolNumber rest w1

/-- The loop of `Send` and `SendFrom` over `mDirectionalNbrs` for a unicast
packet; it stops at the first entry whose address is `toAddr`. -/
def NetDevice.unicastLoop {Q : Type} (ops : QueueOps Q) (env : Env) (fuel : Nat)
    (packet : Packet) (fromAddr toAddr : Mac48Address) (protocolNumber : Nat) :
    List (Nat × Mac48Address) → World Q → Except DevFault (World Q)
  | [], w => Except.ok w
  | it :: rest, w =>
    if it.2 = toAddr then
      match NetDevice.EnqueuePacket ops env fuel w packet.Copy fromAddr toAddr protocolNumber
          it.1 with
      | Except.error f => Except.error f
      | Except.ok (w1, _) => Except.ok w1
    else NetDevice.unicastLoop ops env fuel packet fromAddr toAddr protocolNumber rest w

/-- `SimpleWirelessNetDevice::SendFrom`: the new state and the value
returned. -/
def NetDevice.SendFrom {Q : Type} (ops : QueueOps Q) (env : Env) (fuel : Nat) (w : World Q)
    (packet : Packet) (source dest : Mac48Address) (protocolNumber : Nat) :
    Except DevFault (World Q × Bool) :=
  let toAddr := dest
  let fromAddr := source
  let ethHeader : EthernetHeader :=
    { m_source := fromAddr, m_destination := toAddr, m_lengthType := protocolNumber }
  let packet := packet.AddHeader ethHeader
  let w1 : World Q := w.observe (Observation.macTx packet)
  if w1.dev.m_fixedNbrListEnabled then
    match packet.PeekHeader with
    | none => Except.error DevFault.malformedPacket
    | some ethHeader =>
      let toAddr := ethHeader.m_destination
      if IsBroadcast toAddr then
        match NetDevice.broadcastLoop ops env fuel packet fromAddr toAddr protocolNumber
            w1.dev.mDirectionalNbrs w1 with
        | Except.error f => Except.error f
        | Except.ok w2 => Except.ok (w2, true)
      else
        match NetDevice.unicastLoop ops env fuel packet fromAddr toAddr protocolNumber
            w1.dev.mDirectionalNbrs w1 with
        | Except.error f => Except.error f
        | Except.ok w2 => Except.ok (w2, true)
  else
    match NetDevice.EnqueuePacket ops env fuel w1 packet fromAddr toAddr protocolNumber
        NO_DIRECTIONAL_NBR with
    | Except.error f => Except.error f
    | Except.ok (w2, _) => Except.ok (w2, true)

/-- `SimpleWirelessNetDevice::Send`: the new state and the value returned. -/
def NetDevice.Send {Q : Type} (ops : QueueOps Q) (env : Env) (fuel : Nat) (w : World Q)
    (packet : Packet) (dest : Mac48Address) (protocolNumber : Nat) :
    Except DevFault (World Q × Bool) :=
  let toAddr := dest
  let ethHeader : EthernetHeader :=
    { m_source := w.dev.m_address, m_destination := toAddr, m_lengthType := protocolNumber }
  let packet := packet.AddHeader ethHeader
  let w1 : World Q := w.observe (Observation.macTx packet)
  if w1.dev.m_fixedNbrListEnabled then
    match packet.PeekHeader with
    | none => Except.error DevFault.malformedPacket
    | some ethHeader =>
      let toAddr := ethHeader.m_destination
      if IsBroadcast toAddr then
        match NetDevice.broadcastLoop ops env fuel packet w1.dev.m_address toAddr protocolNumber
            w1.dev.mDirectionalNbrs w1 with
        | Except.error f => Except.error f
        | Except.ok w2 => Except.ok (w2, true)
      else
        match NetDevice.unicastLoop ops env fuel packet w1.dev.m_address toAddr protocolNumber
            w1.dev.mDirectionalNbrs w1 with
        | Except.error f => Except.error f
        | Except.ok w2 => Except.ok (w2, true)
  else
    match NetDevice.EnqueuePacket ops env fuel w1 packet w1.dev.m_address toAddr protocolNumber
        NO_DIRECTIONAL_NBR with
    | Except.error f => Except.error f
    | Except.ok (w2, _) => Except.ok (w2, true)

/-! ## Receive -/

/-- `NetDevice::PacketType`. -/
inductive PacketType where
  | PACKET_HOST
  | PACKET_BROADCAST
  | PACKET_MULTICAST
  | PACKET_OTHERHOST
  deriving DecidableEq, Repr

/-- What `Receive` lets the outside see: the trace sources it fires and the
callbacks it invokes, with their arguments. -/
inductive RxObservation where
  | phyRxBegin (p : Packet) (fromAddr toAddr : Mac48Address) (protocol : Nat)
  | phyRxDrop (p : Packet) (fromAddr toAddr : Mac48Address) (protocol : Nat)
  | promiscSniffer (p : Packet)
  | phyRxEnd (p : Packet) (fromAddr toAddr : Mac48Address) (protocol : Nat)
  | macRx (p : Packet)
  | rxCallback (p : Packet) (protocol : Nat) (fromAddr : Mac48Address)
  | promiscCallback (p : Packet) (protocol : Nat) (fromAddr toAddr : Mac48Address)
      (packetType : PacketType)
  deriving DecidableEq, Repr

/-- The packet `Receive` builds for the sniffer in its buffer: destination,
source and protocol in front of the data of the packet. -/
def snifferPacket (packet : Packet) (protocol : Nat) (toAddr fromAddr : Mac48Address) : Packet :=
  { headers :=
      { m_source := fromAddr, m_destination := toAddr, m_lengthType := protocol } :: packet.headers
    payload := packet.payload
    tags := [] }

/-- `SimpleWirelessNetDevice::Receive`: the device and the observations, in
order.  `IsGroup` is `Mac48Address::IsGroup`, `isCorrupt` the answer of
`ErrorModel::IsCorrupt`; the counters are `uint32_t`; with pcap enabled the
packet is copied behind the 14 header bytes of `uint8_t buffer[8192]`. -/
def NetDevice.Receive {Q : Type} (IsGroup : Mac48Address → Bool) (isCorrupt : Packet → Bool)
    (d : NetDevice Q) (packet : Packet) (protocol : Nat) (toAddr fromAddr : Mac48Address) :
    Except Fault (NetDevice Q × List RxObservation) :=
  let obs1 : List RxObservation := [RxObservation.phyRxBegin packet fromAddr toAddr protocol]
  let d1 : NetDevice Q := { d with m_pktRcvTotal := (d.m_pktRcvTotal + 1) % 4294967296 }
  if (d1.m_receiveErrorModel && isCorrupt packet) = true then
    Except.ok
      ({ d1 with m_pktRcvDrop := (d1.m_pktRcvDrop + 1) % 4294967296 },
       obs1 ++ [RxObservation.phyRxDrop packet fromAddr toAddr protocol])
  else
    let r2 : Except Fault (List RxObservation) :=
      if d1.m_pcapEnabled = true then
        if 14 + packet.GetSize > 8192 then Except.error Fault.undefinedBehaviour
        else
          Except.ok
            (obs1 ++ [RxObservation.promiscSniffer (snifferPacket packet protocol toAddr fromAddr)])
      else Except.ok obs1
    match r2 with
    | Except.error f => Except.error f
    | Except.ok obs2 =>
      let packetType : PacketType :=
        if toAddr = d1.m_address then PacketType.PACKET_HOST
        else if IsBroadcast toAddr = true then PacketType.PACKET_BROADCAST
        else if IsGroup toAddr = true then PacketType.PACKET_MULTICAST
        else PacketType.PACKET_OTHERHOST
      let obs3 : List RxObservation :=
        obs2 ++ [RxObservation.phyRxEnd packet fromAddr toAddr protocol]
      let obs4 : List RxObservation :=
        if packetType ≠ PacketType.PACKET_OTHERHOST then
          obs3 ++ [RxObservation.macRx packet, RxObservation.rxCallback packet protocol fromAddr]
        else obs3
      let obs5 : List RxObservation :=
        if d1.m_promiscCallback = true then
          obs4 ++ [RxObservation.promiscCallback packet protocol fromAddr toAddr packetType]
        else obs4
      Except.ok (d1, obs5)

/-! ## The priority queue -/

/-- The interface `ns3::Queue` as `PriorityQueue` uses it on its sub-queues:
besides `Enqueue` and `Dequeue`, `IsEmpty` and `Peek`, which are `const`. -/
structure QueueIface (Q : Type) extends QueueOps Q where
  IsEmpty : Q → Bool
  Peek : Q → Option Packet

/-- A `DropHeadQueue` as a sub-queue.  `Queue::IsEmpty` reads the packet
counter of the base class, which `Queue::Enqueue` and `Queue::Dequeue` keep
equal to the number of packets held. -/
def dropHeadIface (fuel : Nat) : QueueIface DropHeadQueue :=
  { Enqueue := fun q p => DropHeadQueue.DoEnqueue fuel q p
    Dequeue := fun q => Except.ok q.DoDequeue
    IsEmpty := fun q => q.m_packets.isEmpty
    Peek := fun q => q.DoPeek }

/-- `PriorityQueue::PacketClass`. -/
inductive PacketClass where
  | PACKET_CLASS_CONTROL
  | PACKET_CLASS_DATA
  deriving DecidableEq, Repr

/-- State of a `PriorityQueue` whose sub-queues have the types `C` and `D`. -/
structure PriorityQueue (C D : Type) where
  m_controlQueue : C
  m_dataQueue : D

/-- `PriorityQueue::Classify`; `filter` is the value `pcap_offline_filter`
returns for the compiled classifier on the bytes of the packet. -/
def PriorityQueue.Classify (filter : Packet → Int) (p : Packet) : PacketClass :=
  let ret := filter p
  if ret = 0 then PacketClass.PACKET_CLASS_DATA else PacketClass.PACKET_CLASS_CONTROL

/-- `PriorityQueue::DoEnqueue`. -/
def PriorityQueue.DoEnqueue {C D : Type} (cq : QueueIface C) (dq : QueueIface D)
    (filter : Packet → Int) (q : PriorityQueue C D) (p : Packet) :
    Except Fault (PriorityQueue C D × Bool) :=
  let packetClass := PriorityQueue.Classify filter p
  if packetClass = PacketClass.PACKET_CLASS_CONTROL then
    match cq.Enqueue q.m_controlQueue p with
    | Except.error f => Except.error f
    | Except.ok (c1, r) => Except.ok ({ q with m_controlQueue := c1 }, r)
  else
    match dq.Enqueue q.m_dataQueue p with
    | Except.error f => Except.error f
    | Except.ok (d1, r) => Except.ok ({ q with m_dataQueue := d1 }, r)

/-- `PriorityQueue::DoDequeue`. -/
def PriorityQueue.DoDequeue {C D : Type} (cq : QueueIface C) (dq : QueueIface D)
    (q : PriorityQueue C D) : Except Fault (PriorityQueue C D × Option Packet) :=
  if (!cq.IsEmpty q.m_controlQueue) = true then
    match cq.Dequeue q.m_controlQueue with
    | Except.error f => Except.error f
    | Except.ok (c1, p) => Except.ok ({ q with m_controlQueue := c1 }, p)
  else
    match dq.Dequeue q.m_dataQueue with
    | Except.error f => Except.error f
    | Except.ok (d1, p) => Except.ok ({ q with m_dataQueue := d1 }, p)

/-- `PriorityQueue::DoPeek`. -/
def PriorityQueue.DoPeek {C D : Type} (cq : QueueIface C) (dq : QueueIface D)
    (q : PriorityQueue C D) : Option Packet :=
  if (!cq.IsEmpty q.m_controlQueue) = true then cq.Peek q.m_controlQueue
  else dq.Peek q.m_dataQueue

/-- A `PriorityQueue` behind the `ns3::Queue` interface of the device. -/
def priorityOps {C D : Type} (cq : QueueIface C) (dq : QueueIface D) (filter : Packet → Int) :
    QueueOps (PriorityQueue C D) :=
  { Enqueue := fun q p => PriorityQueue.DoEnqueue cq dq filter q p
    Dequeue := fun q => PriorityQueue.DoDequeue cq dq q }

/-- `DoDequeue` called `n` times in a row: the queue left and the packets
returned, in order (a null result adds nothing). -/
def PriorityQueue.dequeueN {C D : Type} (cq : QueueIface C) (dq : QueueIface D) :
    Nat → PriorityQueue C D → Except Fault (PriorityQueue C D × List Packet)
  | 0, q => Except.ok (q, [])
  | n + 1, q =>
    match PriorityQueue.DoDequeue cq dq q with
    | Except.error f => Except.error f
    | Except.ok (q1, r) =>
      match PriorityQueue.dequeueN cq dq n q1 with
      | Except.error f => Except.error f
      | Except.ok (q2, rs) =>
        Except.ok (q2, (match r with | some p => [p] | none => []) ++ rs)

/-! ## Auxiliary notions used in the statements -/

/-- The configuration of a channel: every field except the link table and the
positions in the random streams. -/
def SameConfig (c c1 : Channel) : Prop :=
  c1.m_devices = c.m_devices ∧ c1.m_range = c.m_range ∧ c1.m_errorRate = c.m_errorRate ∧
  c1.m_ErrorModel = c.m_ErrorModel ∧ c1.mPERmap = c.mPERmap ∧
  c1.m_fixedContentionEnabled = c.m_fixedContentionEnabled ∧
  c1.m_fixedContentionRange = c.m_fixedContentionRange

/-- The candidate is neither the sender nor excluded by the destination hint. -/
def reaches (sender : Device) (destId : Nat) (tmp : Device) : Prop :=
  tmp.ptr ≠ sender.ptr ∧ ¬ (destId ≠ NO_DIRECTIONAL_NBR ∧ tmp.nodeId ≠ destId)

instance (sender : Device) (destId : Nat) (tmp : Device) : Decidable (reaches sender destId tmp) := by
  unfold reaches
  exact inferInstance

/-- The arrival event `Send` schedules for candidate `tmp`. -/
def arrival {P : Type} (env : Env) (p : P) (protocol : Nat) (toAddr fromAddr : Mac48Address)
    (sender : Device) (txTime : Time) (tmp : Device) : Event P :=
  { context := tmp.nodeId
    delayNs := (txTime : ℚ) + (33 / 10) * env.distance sender.nodeId tmp.nodeId
    device := tmp
    packet := p
    protocol := protocol
    toAddr := toAddr
    fromAddr := fromAddr }

/-- The sender's neighbor count after the contention test for one candidate. -/
def pegged (env : Env) (c1 : Channel) (sender tmp : Device) (n : Int) : Int :=
  if c1.m_fixedContentionEnabled = true ∧
      env.distance sender.nodeId tmp.nodeId < c1.m_fixedContentionRange then
    IncrementNbrCount n
  else n

/-- The state in which `Send` enters its loop. -/
def sendInit (c : Channel) (nbrCount : Int) : SendState :=
  if c.m_fixedContentionEnabled = true then
    { ch :=
        if c.m_fixedContentionRange = 0 then { c with m_fixedContentionRange := c.m_range }
        else c
      nbrCount := ClearNbrCount nbrCount }
  else { ch := c, nbrCount := nbrCount }

/-- The test of `Send` in the absence of a destination hint, of link outages
and of packet errors: the candidate is not the sender and is within range. -/
def inRangeOther (env : Env) (range : ℚ) (sender : Device) (d : Device) : Bool :=
  decide (d.ptr ≠ sender.ptr) && decide (env.distance sender.nodeId d.nodeId ≤ range)

/-- Representation invariant of `mPERmap`: keys strictly increasing. -/
def SortedKeys (m : List (ℚ × ℚ)) : Prop := m.Pairwise (fun a b => a.1 < b.1)

/-- Whether the channel state lets the link from `srcId` to `dstId` through:
always under the non-stochastic models, and under the stochastic model when
the stored state of the link is ON. -/
def linkAllows (c : Channel) (srcId dstId : Nat) : Bool :=
  if c.m_ErrorModel = ErrorModelType.STOCHASTIC then
    match omFind StochasticKey.lt (linkKey srcId dstId) c.m_StochasticLinks with
    | some l => l.linkState
    | none => false
  else true

/-- The candidates counted as contending neighbors, as the specification words
it: not the sender, admitted by the destination hint, link not down, and
distance within (strictly less than) the contention range.  `c` is the channel
as `Send` leaves it: its link table holds, for every link `Send` looked up,
the state that lookup found or committed. -/
def contends (env : Env) (c : Channel) (sender : Device) (destId : Nat) (d : Device) : Bool :=
  decide (reaches sender destId d) && linkAllows c sender.nodeId d.nodeId &&
    decide (env.distance sender.nodeId d.nodeId < c.m_fixedContentionRange)

/-! ## Scenarios used to exercise the theorems -/

/-- Device of node 0. -/
def dev0 : Device := { ptr := 0, nodeId := 0 }

/-- Device of node 1. -/
def dev1 : Device := { ptr := 1, nodeId := 1 }

/-- Device of node 2. -/
def dev2 : Device := { ptr := 2, nodeId := 2 }

/-- Position of a node on a line: node 0 at 0, node 1 at 50, every other node
at 150. -/
def linePos (n : Nat) : ℚ := if n = 0 then 0 else if n = 1 then 50 else 150

/-- Every node has a mobility model, nodes stand on a line, every uniform draw
is 1/2 and every link duration is one microsecond. -/
def lineEnv : Env :=
  { now := 0
    hasMobility := fun _ => true
    distance := fun a b => |linePos a - linePos b|
    uniform := fun _ => 1 / 2
    randomUp := fun _ => 1
    randomDown := fun _ => 1 }

/-- Channel of the example programs: range 100, constant error rate 0, with
the devices of nodes 0, 1 and 2 attached. -/
def lineChannel : Channel :=
  Add (Add (Add (setErrorModelType (setErrorRate { Channel.new with m_range := 100 } 0)
    ErrorModelType.CONSTANT) dev0) dev1) dev2

/-- Channel of `queue_test.cc`: range 100, constant error rate 0, with the
devices of nodes 0 and 1 attached. -/
def pairChannel : Channel :=
  Add (Add (setErrorModelType (setErrorRate { Channel.new with m_range := 100 } 0)
    ErrorModelType.CONSTANT) dev0) dev1

/-- A payload of 1000 bytes. -/
def payload1000 : List Nat := List.replicate 1000 7

/-- Channel of `error_model_test.cc` with the PER curve error model. -/
def curveChannel : Channel :=
  addToPERmodel (addToPERmodel (addToPERmodel (addToPERmodel (addToPERmodel (addToPERmodel
    (addToPERmodel (addToPERmodel (addToPERmodel (addToPERmodel (addToPERmodel
      (setErrorModelType { Channel.new with m_range := 100 } ErrorModelType.PER_CURVE)
      0 0) 10 0) 20 (5 / 100)) 30 (7 / 100)) 40 (12 / 100)) 50 (15 / 100)) 60 (5 / 10))
      70 (6 / 10)) 80 (7 / 10)) 90 (8 / 10)) 100 1

/-- The curve of `curveChannel` as a sequence of control points. -/
def curvePoints : List (ℚ × ℚ) :=
  [(0, 0), (10, 0), (20, 5 / 100), (30, 7 / 100), (40, 12 / 100), (50, 15 / 100),
   (60, 5 / 10), (70, 6 / 10), (80, 7 / 10), (90, 8 / 10), (100, 1)]

/-- The line scenario read at time 3500 ns. -/
def lateEnv : Env := { lineEnv with now := 3500 }

/-- A stochastic channel with the devices of nodes 0 and 1, initialised at
time 0: both links are ON until 1000 ns. -/
def stochChannel : Channel :=
  InitStochasticModel lineEnv
    (Add (Add (setErrorModelType { Channel.new with m_range := 100 } ErrorModelType.STOCHASTIC)
      dev0) dev1)

/-- The channel `stochChannel` after the link from node 0 to node 1 has been
read at time 3500 ns: three durations of 1000 ns were replayed, the link is
OFF until 4000 ns. -/
def stochChannelRead : Channel :=
  { stochChannel with
    m_StochasticLinks :=
      omAssign StochasticKey.lt (linkKey 0 1) { linkState := false, stateExpireTime := 4000 }
        stochChannel.m_StochasticLinks
    upPos := 3
    downPos := 2 }

/-- The channel of the line scenario with fixed contention enabled and a
contention range of 200, larger than the transmission range 100. -/
def contentionChannel : Channel :=
  SetFixedContentionRange (EnableFixedContention lineChannel (fun _ => 0)).1 200

/-- The state `Send` from node 0 leaves on `contentionChannel`: one uniform
draw consumed and a neighbor count of 3. -/
def contentionAfter : SendState :=
  { ch := { contentionChannel with randomPos := 1 }, nbrCount := 3 }

/-- A second device of node 0. -/
def dev0b : Device := { ptr := 3, nodeId := 0 }

/-- A stochastic channel to which two devices of node 0 are attached, after
`InitStochasticModel`. -/
def sameNodeChannel : Channel :=
  InitStochasticModel lineEnv
    (Add (Add (setErrorModelType { Channel.new with m_range := 100 } ErrorModelType.STOCHASTIC)
      dev0) dev0b)

/-- As the specification words it: the candidates that pass the directional and
stochastic filters and the range check of `Send` (distance not greater than
the max range). -/
def passesRangeCheck (env : Env) (c : Channel) (sender : Device) (destId : Nat) (d : Device) :
    Bool :=
  decide (reaches sender destId d) && linkAllows c sender.nodeId d.nodeId &&
    decide (¬ env.distance sender.nodeId d.nodeId > c.m_range)

/-- The channel of the line scenario with fixed contention enabled and no
contention range configured (0); the max range is 100. -/
def defaultContentionChannel : Channel :=
  (EnableFixedContention lineChannel (fun _ => 0)).1

/-- The state `Send` from node 1 leaves on `defaultContentionChannel`: the max
range adopted as contention range, two uniform draws consumed and a neighbor
count of 2. -/
def defaultContentionAfter : SendState :=
  { ch := { defaultContentionChannel with m_fixedContentionRange := 100, randomPos := 2 }
    nbrCount := 2 }

/-- An operation on the neighbor count of a device. -/
inductive NbrOp where
  | clear
  | increment
  deriving DecidableEq, Repr

/-- The neighbor count after one operation. -/
def applyNbrOp : NbrOp → Int → Int
  | NbrOp.clear, n => ClearNbrCount n
  | NbrOp.increment, n => IncrementNbrCount n

/-- The neighbor count after a sequence of operations, first operation first. -/
def applyNbrOps : List NbrOp → Int → Int
  | [], n => n
  | op :: ops, n => applyNbrOps ops (applyNbrOp op n)

/-- No `m_nbrCount++` of the sequence is applied to `INT_MAX`. -/
def noOverflow : List NbrOp → Int → Bool
  | [], _ => true
  | NbrOp.clear :: ops, n => noOverflow ops (ClearNbrCount n)
  | NbrOp.increment :: ops, n => decide (n < 2147483647) && noOverflow ops (IncrementNbrCount n)

/-- Representation invariant of `mDirectionalNbrs`: keys strictly increasing. -/
def NbrsSorted (m : List (Nat × Mac48Address)) : Prop := m.Pairwise (fun a b => a.1 < b.1)

/-- The queue of the example programs: drop-head, packet mode, room for 100
packets, empty. -/
def emptyQueue : DropHeadQueue :=
  { m_packets := []
    m_bytesInQueue := 0
    m_maxPackets := 100
    m_maxBytes := 6553500
    m_mode := QueueMode.QUEUE_MODE_PACKETS
    dropped := [] }

/-- The device of node 0 as the example programs set it up: address
00:00:00:00:00:01, 1 Mbit/s, a drop-head queue attached, directional mode off,
freshly constructed otherwise. -/
def omniDevice : NetDevice DropHeadQueue :=
  { self := dev0
    m_address := 1
    m_bps := 1000000
    m_txMachineState := TxMachineState.READY
    m_currentPkt := none
    m_queue := some emptyQueue
    m_pcapEnabled := false
    m_fixedNbrListEnabled := false
    mDirectionalNbrs := []
    m_nbrCount := 0
    m_pktRcvTotal := 0
    m_pktRcvDrop := 0 }

/-- The device of node 0 with directional mode enabled and the nodes 1, 2 and
3 (addresses 2, 3 and 4) as directional neighbors. -/
def directionalDevice : NetDevice DropHeadQueue :=
  { omniDevice with
    m_fixedNbrListEnabled := true
    mDirectionalNbrs := [(1, 2), (2, 3), (3, 4)] }

/-- The arguments of one call of `EnqueuePacket`. -/
structure EnqueueCall where
  packet : Packet
  fromAddr : Mac48Address
  toAddr : Mac48Address
  protocolNumber : Nat
  destId : Nat
  deriving DecidableEq, Repr

/-- The given calls of `EnqueuePacket` made one after the other, each on the
state the one before left. -/
def enqueueEach {Q : Type} (ops : QueueOps Q) (env : Env) (fuel : Nat) :
    List EnqueueCall → World Q → Except DevFault (World Q)
  | [], w => Except.ok w
  | c :: rest, w =>
    match NetDevice.EnqueuePacket ops env fuel w c.packet c.fromAddr c.toAddr c.protocolNumber
        c.destId with
    | Except.error f => Except.error f
    | Except.ok (w1, _) => enqueueEach ops env fuel rest w1

/-- The end of `Send` and `SendFrom`: `return true`. -/
def returnTrue {Q : Type} (r : Except DevFault (World Q)) : Except DevFault (World Q × Bool) :=
  match r with
  | Except.error f => Except.error f
  | Except.ok w => Except.ok (w, true)

/-- The packet with the link-layer header `Send` and `SendFrom` put in front. -/
def framed (packet : Packet) (source dest : Mac48Address) (protocolNumber : Nat) : Packet :=
  packet.AddHeader { m_source := source, m_destination := dest, m_lengthType := protocolNumber }

/-- A world around a device: the line channel, nothing scheduled, nothing
observed. -/
def worldOf (d : NetDevice DropHeadQueue) : World DropHeadQueue :=
  { dev := d, ch := lineChannel, txComplete := [], arrivals := [], trace := [] }

/-- A packet of 1000 bytes without header and tags. -/
def packet1000 : Packet := { headers := [], payload := payload1000, tags := [] }

/-- The device of node 0 with directional mode enabled and a table in which
the nodes 1 and 2 share the address 2. -/
def sharedAddrDevice : NetDevice DropHeadQueue :=
  { omniDevice with
    m_fixedNbrListEnabled := true
    mDirectionalNbrs := [(1, 2), (2, 2), (3, 4)] }

/-- The observations in the state a call on the device returns; none when it
does not return. -/
def resultTrace {Q : Type} (r : Except DevFault (World Q × Bool)) : List Observation :=
  match r with
  | Except.ok (w, _) => w.trace
  | Except.error _ => []

/-- The packets in the drop-head queue of the state a call on the device
returns, front first. -/
def resultQueue (r : Except DevFault (World DropHeadQueue × Bool)) : List Packet :=
  match r with
  | Except.ok (w, _) =>
    match w.dev.m_queue with
    | some q => q.m_packets
    | none => []
  | Except.error _ => []

/-- The device of node 0 with directional mode disabled and a neighbor table
that is not empty. -/
def omniWithTable : NetDevice DropHeadQueue :=
  { omniDevice with mDirectionalNbrs := [(1, 2), (2, 3), (3, 4)] }

/-- The base transmit duration `Seconds (m_bps.CalculateTxTime (p->GetSize ()))`
of a packet, in nanosecond ticks. -/
def baseDuration (bps : Nat) (p : Packet) : Time := Seconds (CalculateTxTime bps p.GetSize)

/-- As the specification words it: the transmit duration under contention scaling,
the base when the neighbor count is 0, twice the base when it is not 0 and
directional mode is enabled, the neighbor count times the base otherwise. -/
def scaledDuration (base : Time) (nbrCount : Int) (directional : Bool) : Time :=
  if nbrCount = 0 then base else if directional = true then 2 * base else nbrCount * base

/-- The state in which `TransmitStart` calls the channel for the packet `p`
whose stripped form is `p3`: the device is BUSY with `p3` in flight, a
`TransmitComplete` is scheduled after `txTime`, and the sniffer (with pcap
enabled), queue latency and transmit begin observations have been made. -/
def startedWorld {Q : Type} (env : Env) (w : World Q) (p p3 : Packet) (ethHeader : EthernetHeader)
    (txTime : Time) : World Q :=
  { w with
    dev := { w.dev with m_txMachineState := TxMachineState.BUSY, m_currentPkt := some p3 }
    txComplete := w.txComplete ++ [txTime]
    trace :=
      (if w.dev.m_pcapEnabled then w.trace ++ [Observation.promiscSniffer p] else w.trace) ++
        [Observation.queueLatency p.RemoveTimestampTag.2 (env.now - p.RemoveTimestampTag.1),
         Observation.txBegin p3 ethHeader.m_source ethHeader.m_destination
           ethHeader.m_lengthType] }

/-- The device of node 0 with directional mode off and a neighbor count of 3. -/
def contendingDevice : NetDevice DropHeadQueue := { omniDevice with m_nbrCount := 3 }

/-- The 1000-byte packet as it sits in the queue: framed from address 1 to the
broadcast address, stamped at time 0 and tagged with the sentinel. -/
def queuedPacket1000 : Packet :=
  ((framed packet1000 1 broadcastAddress 2048).AddPacketTag (Tag.timestamp 0)).AddPacketTag
    (Tag.destinationId NO_DIRECTIONAL_NBR)

/-- The queue branch of `EnqueuePacket` from the call of `Enqueue` on: the
packet `pk` is offered to the queue `q`; when it is accepted and the device is
READY a packet is dequeued and its transmission started. -/
def offerToQueue {Q : Type} (ops : QueueOps Q) (env : Env) (fuel : Nat) (w : World Q) (q : Q)
    (pk : Packet) : Except DevFault (World Q × Bool) :=
  match ops.Enqueue q pk with
  | Except.error f => Except.error (DevFault.queue f)
  | Except.ok (q1, true) =>
    if w.dev.m_txMachineState = TxMachineState.READY then
      match ops.Dequeue q1 with
      | Except.error f => Except.error (DevFault.queue f)
      | Except.ok (_, none) => Except.error DevFault.nullPointer
      | Except.ok (q2, some pk2) =>
        returnTrue (NetDevice.TransmitStart env fuel
          { w with dev := { w.dev with m_queue := some q2 } } pk2)
    else Except.ok ({ w with dev := { w.dev with m_queue := some q1 } }, true)
  | Except.ok (q1, false) =>
    Except.ok ({ w with dev := { w.dev with m_queue := some q1 } }, true)

/-- The packet as `EnqueuePacket`, called from `Send` or `SendFrom` at the
time of `env`, offers it to the queue: framed, stamped with the current time
and tagged with the destination hint. -/
def queuedForm (env : Env) (packet : Packet) (source dest : Mac48Address) (protocolNumber : Nat)
    (destId : Nat) : Packet :=
  ((framed packet source dest protocolNumber).AddPacketTag (Tag.timestamp env.now)).AddPacketTag
    (Tag.destinationId destId)

/-- The calls of `EnqueuePacket` that `SendFrom` makes, in order. -/
def sendCalls {Q : Type} (d : NetDevice Q) (packet : Packet) (source dest : Mac48Address)
    (protocolNumber : Nat) : List EnqueueCall :=
  if d.m_fixedNbrListEnabled = true then
    if IsBroadcast dest = true then
      d.mDirectionalNbrs.map (fun it =>
        { packet := framed packet source dest protocolNumber, fromAddr := source, toAddr := dest,
          protocolNumber := protocolNumber, destId := it.1 })
    else
      match d.mDirectionalNbrs.find? (fun it => decide (it.2 = dest)) with
      | some it =>
        [{ packet := framed packet source dest protocolNumber, fromAddr := source, toAddr := dest,
           protocolNumber := protocolNumber, destId := it.1 }]
      | none => []
  else
    [{ packet := framed packet source dest protocolNumber, fromAddr := source, toAddr := dest,
       protocolNumber := protocolNumber, destId := NO_DIRECTIONAL_NBR }]

/-- The state a call on the device returns, `w` when it does not return. -/
def stateAfter {Q : Type} (r : Except DevFault (World Q × Bool)) (w : World Q) : World Q :=
  match r with
  | Except.ok (w1, _) => w1
  | Except.error _ => w

/-- The line scenario read at 8 ms, when the first transmission completes. -/
def doneEnv : Env := { lineEnv with now := 8000000 }

/-- A packet of two bytes without header and tags. -/
def packetTwo : Packet := { headers := [], payload := [1, 2], tags := [] }

/-- The omnidirectional device of node 0 after it has sent the 1000-byte
packet at time 0: BUSY until 8 ms. -/
def busyWorld : World DropHeadQueue :=
  stateAfter (NetDevice.Send (dropHeadOps 0) lineEnv 0 (worldOf omniDevice) packet1000
    broadcastAddress 2048) (worldOf omniDevice)

/-- The state `busyWorld` after the two-byte packet has been sent to address 2
at time 0: the packet waits in the queue. -/
def waitingWorld : World DropHeadQueue :=
  stateAfter (NetDevice.Send (dropHeadOps 0) lineEnv 0 busyWorld packetTwo 2 2054) busyWorld

/-- The state in which an interface starts: READY, no packet in flight and no
`TransmitComplete` scheduled, as the constructor leaves it; the configuration
is arbitrary. -/
def World.initial {Q : Type} (w : World Q) : Prop :=
  w.dev.m_txMachineState = TxMachineState.READY ∧ w.dev.m_currentPkt = none ∧ w.txComplete = []

/-- The states of an interface reachable from an initial state through `Send`,
`SendFrom` and the `TransmitComplete` events it has scheduled, each at any
time and with any arguments; any of the scheduled events may be the one that
runs, and between the calls the channel may change under the other
devices. -/
inductive Reachable {Q : Type} (ops : QueueOps Q) (fuel : Nat) : World Q → Prop where
  | init (w : World Q) : w.initial → Reachable ops fuel w
  | send (env : Env) (w w1 : World Q) (packet : Packet) (dest : Mac48Address)
      (protocolNumber : Nat) (r : Bool) :
      Reachable ops fuel w →
      NetDevice.Send ops env fuel w packet dest protocolNumber = Except.ok (w1, r) →
      Reachable ops fuel w1
  | sendFrom (env : Env) (w w1 : World Q) (packet : Packet) (source dest : Mac48Address)
      (protocolNumber : Nat) (r : Bool) :
      Reachable ops fuel w →
      NetDevice.SendFrom ops env fuel w packet source dest protocolNumber = Except.ok (w1, r) →
      Reachable ops fuel w1
  | complete (env : Env) (w w1 : World Q) (pre : List Time) (t : Time) (post : List Time) :
      Reachable ops fuel w →
      w.txComplete = pre ++ t :: post →
      NetDevice.TransmitComplete ops env fuel { w with txComplete := pre ++ post }
        = Except.ok w1 →
      Reachable ops fuel w1
  | channel (w : World Q) (ch : Channel) :
      Reachable ops fuel w → Reachable ops fuel { w with ch := ch }

/-- The transmit state agrees with what is scheduled: READY with nothing in
flight and no `TransmitComplete` pending, or BUSY with a packet in flight, a
queue attached and exactly one `TransmitComplete` pending. -/
def TxConsistent {Q : Type} (w : World Q) : Prop :=
  (w.dev.m_txMachineState = TxMachineState.READY ∧ w.txComplete = [] ∧
    w.dev.m_currentPkt = none) ∨
  (w.dev.m_txMachineState = TxMachineState.BUSY ∧ w.txComplete.length = 1 ∧
    w.dev.m_currentPkt.isSome = true ∧ w.dev.m_queue.isSome = true)

/-- The packet type `Receive` assigns to a destination address, for a device
with address `own`. -/
def packetTypeOf (IsGroup : Mac48Address → Bool) (own toAddr : Mac48Address) : PacketType :=
  if toAddr = own then PacketType.PACKET_HOST
  else if IsBroadcast toAddr = true then PacketType.PACKET_BROADCAST
  else if IsGroup toAddr = true then PacketType.PACKET_MULTICAST
  else PacketType.PACKET_OTHERHOST

/-- Whether an observation is an invocation of the receive callback. -/
def RxObservation.isRxCallback : RxObservation → Bool
  | RxObservation.rxCallback _ _ _ => true
  | _ => false

/-- Whether an observation is an invocation of the promiscuous callback. -/
def RxObservation.isPromiscCallback : RxObservation → Bool
  | RxObservation.promiscCallback _ _ _ _ _ => true
  | _ => false

/-- Whether an observation is the reception-dropped trace. -/
def RxObservation.isPhyRxDrop : RxObservation → Bool
  | RxObservation.phyRxDrop _ _ _ _ => true
  | _ => false

/-- `Mac48Address::IsGroup` of the simulator library: the address starts with
the 25 bits of 01:00:5e:00:00:00. -/
def IsGroup (a : Mac48Address) : Bool := decide (a / 8388608 = 131260)

/-- The device of node 1 as the example programs set it up: address
00:00:00:00:00:02, no error model, no promiscuous callback. -/
def rxDevice : NetDevice DropHeadQueue := { omniDevice with self := dev1, m_address := 2 }

/-- The device `rxDevice` with pcap capture enabled (`EnablePcapAll`). -/
def pcapDevice : NetDevice DropHeadQueue := { rxDevice with m_pcapEnabled := true }

/-- The device `rxDevice` with a receive error model and a promiscuous
callback set. -/
def guardedDevice : NetDevice DropHeadQueue :=
  { rxDevice with m_receiveErrorModel := true, m_promiscCallback := true }

/-- A packet of `n` zero bytes without header and tags. -/
def packetOf (n : Nat) : Packet := { headers := [], payload := List.replicate n 0, tags := [] }

/-- Sum of the sizes of the packets of a list. -/
def sumSizes (l : List Packet) : Nat := (l.map Packet.GetSize).sum

/-- `DoEnqueue` of the packets of a list, one after the other, with no dequeue
in between. -/
def DropHeadQueue.enqueueAll (fuel : Nat) :
    List Packet → DropHeadQueue → Except Fault DropHeadQueue
  | [], q => Except.ok q
  | p :: rest, q =>
    match DropHeadQueue.DoEnqueue fuel q p with
    | Except.error f => Except.error f
    | Except.ok (q1, _) => DropHeadQueue.enqueueAll fuel rest q1

/-- A drop-head queue in packet mode with room for 3 packets, empty. -/
def smallQueue : DropHeadQueue := { emptyQueue with m_maxPackets := 3 }

/-- A drop-head queue in byte mode with a limit of 100 bytes that holds three
packets of 30 bytes. -/
def byteQueue : DropHeadQueue :=
  { m_packets := [packetOf 30, packetOf 30, packetOf 30]
    m_bytesInQueue := 90
    m_maxPackets := 100
    m_maxBytes := 100
    m_mode := QueueMode.QUEUE_MODE_BYTES
    dropped := [] }

/-- A classifier for the scenarios: it matches the packets whose first byte
is 255 and returns their size, as `pcap_offline_filter` does. -/
def markFilter (p : Packet) : Int :=
  if p.payload.head? = some 255 then (p.GetSize : Int) else 0

/-- A control packet for `markFilter`. -/
def controlPacket : Packet := { headers := [], payload := [255, 1], tags := [] }

/-- A priority queue over two empty drop-head queues in packet mode. -/
def emptyPriority : PriorityQueue DropHeadQueue DropHeadQueue :=
  { m_controlQueue := emptyQueue, m_dataQueue := emptyQueue }

/-- The priority queue `emptyPriority` after two data packets have been put
into its data queue. -/
def dataPriority : PriorityQueue DropHeadQueue DropHeadQueue :=
  { m_controlQueue := emptyQueue
    m_dataQueue := { emptyQueue with m_packets := [packetOf 1, packetOf 2], m_bytesInQueue := 3 } }

/-- The state in which `EnqueuePacket` without a queue calls the channel for
the packet `packet` whose stripped form is `pk`: the sniffer (with pcap
enabled) and transmit begin observations have been made. -/
def directWorld {Q : Type} (w : World Q) (packet pk : Packet) (toAddr : Mac48Address)
    (protocolNumber : Nat) : World Q :=
  { w with
    trace :=
      (if w.dev.m_pcapEnabled then w.trace ++ [Observation.promiscSniffer packet] else w.trace) ++
        [Observation.txBegin pk w.dev.m_address toAddr protocolNumber] }

/-- The state `TransmitComplete` reaches before it looks at what `Dequeue`
returned: READY, no packet in flight, the queue as `Dequeue` left it. -/
def completedWorld {Q : Type} (w : World Q) (q1 : Q) : World Q :=
  { w with
    dev := { w.dev with
             m_txMachineState := TxMachineState.READY
             m_currentPkt := none
             m_queue := some q1 } }

/-- The device of node 0 without a queue, on the line channel with the range
cut to 10, so that no other device is in range. -/
def isolatedWorld : World DropHeadQueue :=
  { dev := { omniDevice with m_queue := none }
    ch := { lineChannel with m_range := 10 }
    txComplete := []
    arrivals := []
    trace := [] }

/-- The state `waitingWorld` when the scheduler runs the `TransmitComplete`
of the first packet: the event has left the schedule. -/
def pendingWorld : World DropHeadQueue := { waitingWorld with txComplete := [] }

/-- The state `busyWorld` when the scheduler runs the `TransmitComplete` of
its packet: the event has left the schedule and the queue is empty. -/
def drainedWorld : World DropHeadQueue := { busyWorld with txComplete := [] }

/-- The queue of `waitingWorld`: the two-byte packet in queued form, 16 bytes
with its header. -/
def waitingQueue : DropHeadQueue :=
  { emptyQueue with
    m_packets := [queuedForm lineEnv packetTwo 1 2 2054 NO_DIRECTIONAL_NBR]
    m_bytesInQueue := 16 }

/-- A queue at its limit behind the `ns3::Queue` interface, as the drop-tail
queue of the simulator library is when full: `Enqueue` rejects every packet
and `Dequeue` returns no packet. -/
def rejectingOps : QueueOps Unit :=
  { Enqueue := fun q _ => Except.ok (q, false)
    Dequeue := fun q => Except.ok (q, none) }

/-- The device of node 0 with a queue that rejects every packet, on the line
channel. -/
def rejectingWorld : World Unit :=
  { dev :=
      { self := dev0
        m_address := 1
        m_bps := 1000000
        m_txMachineState := TxMachineState.READY
        m_currentPkt := none
        m_queue := some ()
        m_pcapEnabled := false
        m_fixedNbrListEnabled := false
        mDirectionalNbrs := []
        m_nbrCount := 0
        m_pktRcvTotal := 0
        m_pktRcvDrop := 0 }
    ch := lineChannel
    txComplete := []
    arrivals := []
    trace := [] }

/-- As the specification words it: the durations d1..dk of a replay of `k`
transitions that starts in state `s`, each drawn from the up stream when the
state being entered is ON and from the down stream when it is OFF; `up` and
`down` are the positions in the two streams. -/
def replayDurations (env : Env) : Nat → Bool → Nat → Nat → List Time
  | 0, _, _, _ => []
  | k + 1, s, up, down =>
    if (!s) = true then
      MicroSeconds (env.randomUp up) :: replayDurations env k (!s) (up + 1) down
    else
      MicroSeconds (env.randomDown down) :: replayDurations env k (!s) up (down + 1)

/-- The state `s` toggled `k` times. -/
def toggled : Nat → Bool → Bool
  | 0, s => s
  | k + 1, s => toggled k (!s)

/-- Number of ON states entered when the state `s` is toggled `k` times. -/
def upDraws (k : Nat) (s : Bool) : Nat := if s = true then k / 2 else (k + 1) / 2

/-- Number of OFF states entered when the state `s` is toggled `k` times. -/
def downDraws (k : Nat) (s : Bool) : Nat := if s = true then (k + 1) / 2 else k / 2

/-- As the specification words it: `k` is the least number of durations such
that the expiry `e` plus d1..dk reaches the time `t`. -/
def LeastReplay (env : Env) (t e : Time) (s : Bool) (up down : Nat) (k : Nat) : Prop :=
  t ≤ e + (replayDurations env k s up down).sum ∧
  ∀ j, j < k → e + (replayDurations env j s up down).sum < t

/-- The states of a drop-head queue reachable from an empty queue, of either
mode and with any limits, through calls of `DoEnqueue` that return and calls
of `DoDequeue`. -/
inductive DropHeadReachable : DropHeadQueue → Prop where
  | empty (q : DropHeadQueue) :
      q.m_packets = [] → q.m_bytesInQueue = 0 → DropHeadReachable q
  | enqueue (fuel : Nat) (q q1 : DropHeadQueue) (p : Packet) (r : Bool) :
      DropHeadReachable q → DropHeadQueue.DoEnqueue fuel q p = Except.ok (q1, r) →
      DropHeadReachable q1
  | dequeue (q : DropHeadQueue) : DropHeadReachable q → DropHeadReachable q.DoDequeue.1

/-- The byte count is the sum of the sizes of the packets held, as a
`uint32_t`. -/
def BytesConsistent (q : DropHeadQueue) : Prop :=
  q.m_bytesInQueue = sumSizes q.m_packets % 4294967296

/-- A drop-head queue in packet mode with capacity 0, empty. -/
def zeroQueue : DropHeadQueue := { emptyQueue with m_maxPackets := 0 }

/-- The queue `byteQueue` after a packet of 40 bytes has been enqueued and one
packet dequeued. -/
def servedQueue : DropHeadQueue :=
  (DropHeadQueue.DoDequeue
    { byteQueue with
      m_packets := [packetOf 30, packetOf 40]
      m_bytesInQueue := 70
      dropped := [packetOf 30, packetOf 30] }).1

/-- The time from the expiry `e` to the time `t` in whole microseconds, rounded
up; 0 when `t` is not after `e`. -/
def replayBound (t e : Int) : Nat := ((t - e + 999) / 1000).toNat

/-- The calls `addToPERmodel (d_i, e_i)` for the points of a list, in order. -/
def addPoints (c : Channel) (pts : List (ℚ × ℚ)) : Channel :=
  pts.foldl (fun c1 pt => addToPERmodel c1 pt.1 pt.2) c

/-- The largest of the distances of a list of points and of `r`. -/
def largestDistance (r : ℚ) (pts : List (ℚ × ℚ)) : ℚ := pts.foldl (fun a pt => max a pt.1) r

/-- A channel configured with range 500 and then set up with the PER curve
(20, 1/10), (80, 1/2), (50, 3/10), with the devices of nodes 0, 1 and 2. -/
def shortCurveChannel : Channel :=
  Add (Add (Add
    (addPoints (setErrorModelType { Channel.new with m_range := 500 } ErrorModelType.PER_CURVE)
      [(20, 1 / 10), (80, 1 / 2), (50, 3 / 10)]) dev0) dev1) dev2

/-- A channel under the PER curve model whose curve starts at distance 10:
points (10, 1/10) and (20, 1/2). -/
def lateCurveChannel : Channel :=
  addPoints (setErrorModelType Channel.new ErrorModelType.PER_CURVE) [(10, 1 / 10), (20, 1 / 2)]

/-- What the invariant of a device with a queue needs of the queue, for a
notion `isEmpty` of emptiness: a packet accepted by an empty queue and then
dequeued leaves the queue empty, a rejected packet leaves an empty queue
empty, and `Dequeue` returns no packet only when it leaves the queue empty. -/
structure QueueLaws {Q : Type} (ops : QueueOps Q) (isEmpty : Q → Prop) : Prop where
  accept_empty : ∀ (q q1 q2 : Q) (p : Packet) (r : Option Packet), isEmpty q →
    ops.Enqueue q p = Except.ok (q1, true) → ops.Dequeue q1 = Except.ok (q2, r) → isEmpty q2
  reject_empty : ∀ (q q1 : Q) (p : Packet), isEmpty q →
    ops.Enqueue q p = Except.ok (q1, false) → isEmpty q1
  dequeue_none : ∀ q q1 : Q, ops.Dequeue q = Except.ok (q1, none) → isEmpty q1

/-- The state of a device with a queue attached agrees with what is scheduled:
READY with an empty queue, nothing in flight and no `TransmitComplete`
pending, or BUSY with a packet in flight and exactly one `TransmitComplete`
pending. -/
def QueuedConsistent {Q : Type} (isEmpty : Q → Prop) (w : World Q) : Prop :=
  ∃ q, w.dev.m_queue = some q ∧
    ((w.dev.m_txMachineState = TxMachineState.READY ∧ w.txComplete = [] ∧
        w.dev.m_currentPkt = none ∧ isEmpty q) ∨
     (w.dev.m_txMachineState = TxMachineState.BUSY ∧ w.txComplete.length = 1 ∧
        w.dev.m_currentPkt.isSome = true))

/-- The states of a device with a queue attached that are reachable between
events: from a state in which the device is READY with nothing in flight,
nothing scheduled and an empty queue attached, through calls of `Send` and
`SendFrom` that return and scheduled `TransmitComplete` events that return,
each at any time and with any arguments; between the calls the channel may
change under the other devices. -/
inductive ReachableQueued {Q : Type} (ops : QueueOps Q) (fuel : Nat) (isEmpty : Q → Prop) :
    World Q → Prop where
  | init (w : World Q) (q : Q) : w.initial → w.dev.m_queue = some q → isEmpty q →
      ReachableQueued ops fuel isEmpty w
  | send (env : Env) (w w1 : World Q) (packet : Packet) (dest : Mac48Address)
      (protocolNumber : Nat) (r : Bool) :
      ReachableQueued ops fuel isEmpty w →
      NetDevice.Send ops env fuel w packet dest protocolNumber = Except.ok (w1, r) →
      ReachableQueued ops fuel isEmpty w1
  | sendFrom (env : Env) (w w1 : World Q) (packet : Packet) (source dest : Mac48Address)
      (protocolNumber : Nat) (r : Bool) :
      ReachableQueued ops fuel isEmpty w →
      NetDevice.SendFrom ops env fuel w packet source dest protocolNumber = Except.ok (w1, r) →
      ReachableQueued ops fuel isEmpty w1
  | complete (env : Env) (w w1 : World Q) (pre : List Time) (t : Time) (post : List Time) :
      ReachableQueued ops fuel isEmpty w →
      w.txComplete = pre ++ t :: post →
      NetDevice.TransmitComplete ops env fuel { w with txComplete := pre ++ post }
        = Except.ok w1 →
      ReachableQueued ops fuel isEmpty w1
  | channel (w : World Q) (ch : Channel) :
      ReachableQueued ops fuel isEmpty w → ReachableQueued ops fuel isEmpty { w with ch := ch }

/-- Emptiness of a drop-head queue. -/
def DropHeadQueue.IsEmpty (q : DropHeadQueue) : Prop := q.m_packets = []

/-- The state `busyWorld` after its `TransmitComplete` has run at 8 ms with an
empty queue. -/
def idleWorld : World DropHeadQueue :=
  match NetDevice.TransmitComplete (dropHeadOps 0) doneEnv 0 drainedWorld with
  | Except.ok w => w
  | Except.error _ => drainedWorld

/-- The channel of the line scenario when `EnableFixedContention` is called
before any device is attached: contention range 200, max range 100, then the
devices of nodes 0, 1 and 2 attached. -/
def lateJoinChannel : Channel :=
  Add (Add (Add
    (SetFixedContentionRange
      (EnableFixedContention
        (setErrorModelType (setErrorRate { Channel.new with m_range := 100 } 0)
          ErrorModelType.CONSTANT) (fun _ => 0)).1 200) dev0) dev1) dev2

/-- The device of node 0, freshly constructed with neighbor count 0, on
`lateJoinChannel`. -/
def lateJoinWorld : World DropHeadQueue := { worldOf omniDevice with ch := lateJoinChannel }

/-- As the specification words it: the candidates that pass the directional and
stochastic filters and lie within the contention range (distance not greater
than the contention range). -/
def withinContentionRange (env : Env) (c : Channel) (sender : Device) (destId : Nat)
    (d : Device) : Bool :=
  decide (reaches sender destId d) && linkAllows c sender.nodeId d.nodeId &&
    decide (¬ env.distance sender.nodeId d.nodeId > c.m_fixedContentionRange)

/-- The channel of the line scenario with fixed contention enabled and a
contention range of 50, the distance between node 0 and node 1; the max range
is 100. -/
def edgeContentionChannel : Channel :=
  SetFixedContentionRange (EnableFixedContention lineChannel (fun _ => 0)).1 50

/-- The state `Send` from node 0 leaves on `edgeContentionChannel`: one uniform
draw consumed and a neighbor count of 1. -/
def edgeContentionAfter : SendState :=
  { ch := { edgeContentionChannel with randomPos := 1 }, nbrCount := 1 }

theorem SameConfig.refl (c : Channel) : SameConfig c c :=
  ⟨Eq.refl _, Eq.refl _, Eq.refl _, Eq.refl _, Eq.refl _, Eq.refl _, Eq.refl _⟩

theorem SameConfig.trans {a b c : Channel} (h1 : SameConfig a b) (h2 : SameConfig b c) :
    SameConfig a c := by
  obtain ⟨a1, a2, a3, a4, a5, a6, a7⟩ := h1
  obtain ⟨b1, b2, b3, b4, b5, b6, b7⟩ := h2
  exact ⟨b1.trans a1, b2.trans a2, b3.trans a3, b4.trans a4, b5.trans a5, b6.trans a6,
    b7.trans a7⟩

theorem CheckStochasticError_other {env : Env} {fuel : Nat} {c : Channel} {srcId dstId : Nat}
    (hm : c.m_ErrorModel ≠ ErrorModelType.STOCHASTIC) :
    CheckStochasticError env fuel c srcId dstId = Except.ok (c, false) := by
  simp [CheckStochasticError, hm]

/-- Inversion of a successful `CheckStochasticError` under the stochastic model. -/
theorem CheckStochasticError_inv {env : Env} {fuel : Nat} {c c1 : Channel} {srcId dstId : Nat}
    {v : Bool} (hm : c.m_ErrorModel = ErrorModelType.STOCHASTIC)
    (h : CheckStochasticError env fuel c srcId dstId = Except.ok (c1, v)) :
    ∃ link, omFind StochasticKey.lt (linkKey srcId dstId) c.m_StochasticLinks = some link ∧
      ((env.now < link.stateExpireTime ∧ c1 = c ∧ v = !link.linkState) ∨
       (link.stateExpireTime ≤ env.now ∧ ∃ endTime tempState up down,
          replayLoop env env.now fuel link.stateExpireTime link.linkState c.upPos c.downPos
            = Except.ok (endTime, tempState, up, down) ∧
          c1 = { c with
                 m_StochasticLinks :=
                   omAssign StochasticKey.lt (linkKey srcId dstId)
                     { linkState := tempState, stateExpireTime := endTime } c.m_StochasticLinks
                 upPos := up
                 downPos := down } ∧
          v = !tempState)) := by
  unfold CheckStochasticError at h
  rw [if_pos hm] at h
  dsimp only at h
  cases hf : omFind StochasticKey.lt (linkKey srcId dstId) c.m_StochasticLinks with
  | none =>
    simp [hf] at h
  | some link =>
    refine ⟨link, Eq.refl _, ?_⟩
    simp only [hf] at h
    by_cases hexp : env.now ≥ link.stateExpireTime
    · right
      refine ⟨hexp, ?_⟩
      rw [if_pos hexp] at h
      cases hr : replayLoop env env.now fuel link.stateExpireTime link.linkState c.upPos c.downPos with
      | error f => simp [hr] at h
      | ok r =>
        obtain ⟨endTime, tempState, up, down⟩ := r
        simp only [hr] at h
        injection h with h
        injection h with h1 h2
        exact ⟨endTime, tempState, up, down, Eq.refl _, h1.symm, h2.symm⟩
    · left
      rw [if_neg hexp] at h
      injection h with h
      injection h with h1 h2
      exact ⟨lt_of_not_ge hexp, h1.symm, h2.symm⟩

theorem CheckStochasticError_config {env : Env} {fuel : Nat} {c c1 : Channel} {srcId dstId : Nat}
    {v : Bool} (h : CheckStochasticError env fuel c srcId dstId = Except.ok (c1, v)) :
    SameConfig c c1 := by
  by_cases hm : c.m_ErrorModel = ErrorModelType.STOCHASTIC
  · obtain ⟨link, _, h1 | h2⟩ := CheckStochasticError_inv hm h
    · rw [h1.2.1]
      exact SameConfig.refl _
    · obtain ⟨_, endTime, tempState, up, down, _, hc, _⟩ := h2
      rw [hc]
      exact ⟨Eq.refl _, Eq.refl _, Eq.refl _, Eq.refl _, Eq.refl _, Eq.refl _, Eq.refl _⟩
  · rw [CheckStochasticError_other hm] at h
    injection h with h
    injection h with h1 h2
    rw [← h1]
    exact SameConfig.refl _

/-- `packetInError` changes nothing but the position in the uniform stream. -/
theorem packetInError_state {env : Env} {c c1 : Channel} {distance : ℚ} {v : Bool}
    (h : packetInError env c distance = Except.ok (c1, v)) :
    c1 = c ∨ c1 = { c with randomPos := c.randomPos + 1 } := by
  unfold packetInError at h
  split at h
  · injection h with h
    injection h with h1 h2
    exact Or.inr h1.symm
  · split at h
    · split at h
      · injection h with h
        injection h with h1 h2
        exact Or.inr h1.symm
      · dsimp only at h
        split at h
        · injection h with h
          injection h with h1 h2
          exact Or.inl h1.symm
        · split at h
          · cases h
          · split at h
            · injection h with h
              injection h with h1 h2
              exact Or.inr h1.symm
            · cases h
    · injection h with h
      injection h with h1 h2
      exact Or.inl h1.symm

theorem packetInError_config {env : Env} {c c1 : Channel} {distance : ℚ} {v : Bool}
    (h : packetInError env c distance = Except.ok (c1, v)) : SameConfig c c1 := by
  rcases packetInError_state h with h1 | h1
  · rw [h1]
    exact SameConfig.refl _
  · rw [h1]
    exact ⟨Eq.refl _, Eq.refl _, Eq.refl _, Eq.refl _, Eq.refl _, Eq.refl _, Eq.refl _⟩

/-! ## The loop body of `Send` -/

theorem sendBody_skip {P : Type} {env : Env} {fuel : Nat} {p : P} {protocol : Nat}
    {toAddr fromAddr : Mac48Address} {sender : Device} {txTime : Time} {destId : Nat}
    {s : SendState} {tmp : Device} (hr : ¬ reaches sender destId tmp) :
    sendBody env fuel p protocol toAddr fromAddr sender txTime destId s tmp = Except.ok (s, []) := by
  unfold sendBody
  dsimp only
  by_cases h1 : tmp.ptr = sender.ptr
  · rw [if_pos h1]
  · rw [if_neg h1]
    have h2 : destId ≠ NO_DIRECTIONAL_NBR ∧ tmp.nodeId ≠ destId := by
      by_contra hc
      exact hr ⟨h1, hc⟩
    rw [if_pos h2]

/-- Inversion of one successful iteration for a candidate that reaches the
stochastic test. -/
theorem sendBody_inv {P : Type} {env : Env} {fuel : Nat} {p : P} {protocol : Nat}
    {toAddr fromAddr : Mac48Address} {sender : Device} {txTime : Time} {destId : Nat}
    {s s1 : SendState} {tmp : Device} {evs : List (Event P)}
    (hr : reaches sender destId tmp)
    (h : sendBody env fuel p protocol toAddr fromAddr sender txTime destId s tmp
      = Except.ok (s1, evs)) :
    ∃ c1 v, CheckStochasticError env fuel s.ch sender.nodeId tmp.nodeId = Except.ok (c1, v) ∧
      ((v = true ∧ s1 = { s with ch := c1 } ∧ evs = []) ∨
       (v = false ∧ env.hasMobility sender.nodeId = true ∧ env.hasMobility tmp.nodeId = true ∧
        ((env.distance sender.nodeId tmp.nodeId > c1.m_range ∧
            s1 = { ch := c1, nbrCount := pegged env c1 sender tmp s.nbrCount } ∧ evs = []) ∨
         (env.distance sender.nodeId tmp.nodeId ≤ c1.m_range ∧
            ∃ c2 w, packetInError env c1 (env.distance sender.nodeId tmp.nodeId)
                = Except.ok (c2, w) ∧
              s1 = { ch := c2, nbrCount := pegged env c1 sender tmp s.nbrCount } ∧
              evs = if w = true then []
                else [arrival env p protocol toAddr fromAddr sender txTime tmp])))) := by
  unfold sendBody at h
  dsimp only at h
  rw [if_neg hr.1, if_neg hr.2] at h
  cases hc : CheckStochasticError env fuel s.ch sender.nodeId tmp.nodeId with
  | error f => simp [hc] at h
  | ok r =>
    obtain ⟨c1, v⟩ := r
    refine ⟨c1, v, Eq.refl _, ?_⟩
    cases v with
    | true =>
      simp only [hc] at h
      injection h with h
      injection h with h1 h2
      exact Or.inl ⟨Eq.refl _, h1.symm, h2.symm⟩
    | false =>
      simp only [hc] at h
      right
      by_cases hmob : (env.hasMobility sender.nodeId && env.hasMobility tmp.nodeId) = true
      · have hm2 := hmob
        rw [Bool.and_eq_true] at hm2
        refine ⟨Eq.refl _, hm2.1, hm2.2, ?_⟩
        rw [hmob] at h
        simp only [Bool.not_true, Bool.false_eq_true, if_false] at h
        by_cases hd : env.distance sender.nodeId tmp.nodeId > c1.m_range
        · left
          rw [if_pos hd] at h
          injection h with h
          injection h with h1 h2
          exact ⟨hd, h1.symm, h2.symm⟩
        · right
          rw [if_neg hd] at h
          refine ⟨le_of_not_gt hd, ?_⟩
          cases hp : packetInError env c1 (env.distance sender.nodeId tmp.nodeId) with
          | error f => simp [hp] at h
          | ok r2 =>
            obtain ⟨c2, w⟩ := r2
            refine ⟨c2, w, Eq.refl _, ?_⟩
            cases w with
            | true =>
              simp only [hp] at h
              injection h with h
              injection h with h1 h2
              exact ⟨h1.symm, by simpa using h2.symm⟩
            | false =>
              simp only [hp] at h
              injection h with h
              injection h with h1 h2
              exact ⟨h1.symm, by simpa [arrival] using h2.symm⟩
      · exfalso
        have hmf : (env.hasMobility sender.nodeId && env.hasMobility tmp.nodeId) = false := by
          simpa using hmob
        rw [hmf] at h
        simp at h

theorem sendBody_config {P : Type} {env : Env} {fuel : Nat} {p : P} {protocol : Nat}
    {toAddr fromAddr : Mac48Address} {sender : Device} {txTime : Time} {destId : Nat}
    {s s1 : SendState} {tmp : Device} {evs : List (Event P)}
    (h : sendBody env fuel p protocol toAddr fromAddr sender txTime destId s tmp
      = Except.ok (s1, evs)) : SameConfig s.ch s1.ch := by
  by_cases hr : reaches sender destId tmp
  · obtain ⟨c1, v, hc, hcase⟩ := sendBody_inv hr h
    have hc1 := CheckStochasticError_config hc
    rcases hcase with ⟨_, hs, _⟩ | ⟨_, _, _, ⟨_, hs, _⟩ | ⟨_, c2, w, hp, hs, _⟩⟩
    · rw [hs]
      exact hc1
    · rw [hs]
      exact hc1
    · rw [hs]
      exact hc1.trans (packetInError_config hp)
  · rw [sendBody_skip hr] at h
    injection h with h
    injection h with h1 h2
    rw [← h1]
    exact SameConfig.refl _

/-- Every event of one iteration is the arrival for the candidate, which
reached the stochastic test and is within range. -/
theorem sendBody_events {P : Type} {env : Env} {fuel : Nat} {p : P} {protocol : Nat}
    {toAddr fromAddr : Mac48Address} {sender : Device} {txTime : Time} {destId : Nat}
    {s s1 : SendState} {tmp : Device} {evs : List (Event P)}
    (h : sendBody env fuel p protocol toAddr fromAddr sender txTime destId s tmp
      = Except.ok (s1, evs)) :
    ∀ e ∈ evs, reaches sender destId tmp ∧
      e = arrival env p protocol toAddr fromAddr sender txTime tmp ∧
      env.distance sender.nodeId tmp.nodeId ≤ s.ch.m_range := by
  intro e he
  by_cases hr : reaches sender destId tmp
  · obtain ⟨c1, v, hc, hcase⟩ := sendBody_inv hr h
    have hc1 := CheckStochasticError_config hc
    rcases hcase with ⟨_, _, hev⟩ | ⟨_, _, _, ⟨_, _, hev⟩ | ⟨hd, c2, w, hp, _, hev⟩⟩
    · rw [hev] at he
      cases he
    · rw [hev] at he
      cases he
    · cases w with
      | true =>
        rw [hev] at he
        simp at he
      | false =>
        rw [hev] at he
        simp at he
        rw [hc1.2.1] at hd
        exact ⟨hr, he, hd⟩
  · rw [sendBody_skip hr] at h
    injection h with h
    injection h with h1 h2
    rw [← h2] at he
    cases he

theorem sendLoop_cons_inv {P : Type} {env : Env} {fuel : Nat} {p : P} {protocol : Nat}
    {toAddr fromAddr : Mac48Address} {sender : Device} {txTime : Time} {destId : Nat}
    {s s2 : SendState} {tmp : Device} {rest : List Device} {evs : List (Event P)}
    (h : sendLoop env fuel p protocol toAddr fromAddr sender txTime destId (tmp :: rest) s
      = Except.ok (s2, evs)) :
    ∃ s1 e1 e2,
      sendBody env fuel p protocol toAddr fromAddr sender txTime destId s tmp
        = Except.ok (s1, e1) ∧
      sendLoop env fuel p protocol toAddr fromAddr sender txTime destId rest s1
        = Except.ok (s2, e2) ∧
      evs = e1 ++ e2 := by
  unfold sendLoop at h
  cases hb : sendBody env fuel p protocol toAddr fromAddr sender txTime destId s tmp with
  | error f => simp [hb] at h
  | ok r =>
    obtain ⟨s1, e1⟩ := r
    simp only [hb] at h
    cases hl : sendLoop env fuel p protocol toAddr fromAddr sender txTime destId rest s1 with
    | error f => simp [hl] at h
    | ok r2 =>
      obtain ⟨s3, e2⟩ := r2
      simp only [hl] at h
      injection h with h
      injection h with h1 h2
      subst h1
      exact ⟨s1, e1, e2, Eq.refl _, hl, h2.symm⟩

theorem sendLoop_config {P : Type} {env : Env} {fuel : Nat} {p : P} {protocol : Nat}
    {toAddr fromAddr : Mac48Address} {sender : Device} {txTime : Time} {destId : Nat}
    (devs : List Device) :
    ∀ {s s2 : SendState} {evs : List (Event P)},
      sendLoop env fuel p protocol toAddr fromAddr sender txTime destId devs s
        = Except.ok (s2, evs) → SameConfig s.ch s2.ch := by
  induction devs with
  | nil =>
    intro s s2 evs h
    unfold sendLoop at h
    injection h with h
    injection h with h1 h2
    rw [← h1]
    exact SameConfig.refl _
  | cons tmp rest ih =>
    intro s s2 evs h
    obtain ⟨s1, e1, e2, hb, hl, _⟩ := sendLoop_cons_inv h
    exact (sendBody_config hb).trans (ih hl)

theorem sendLoop_events {P : Type} {env : Env} {fuel : Nat} {p : P} {protocol : Nat}
    {toAddr fromAddr : Mac48Address} {sender : Device} {txTime : Time} {destId : Nat}
    (devs : List Device) :
    ∀ {s s2 : SendState} {evs : List (Event P)},
      sendLoop env fuel p protocol toAddr fromAddr sender txTime destId devs s
        = Except.ok (s2, evs) →
      ∀ e ∈ evs, ∃ tmp ∈ devs, reaches sender destId tmp ∧
        e = arrival env p protocol toAddr fromAddr sender txTime tmp ∧
        env.distance sender.nodeId tmp.nodeId ≤ s.ch.m_range := by
  induction devs with
  | nil =>
    intro s s2 evs h e he
    unfold sendLoop at h
    injection h with h
    injection h with h1 h2
    rw [← h2] at he
    cases he
  | cons tmp rest ih =>
    intro s s2 evs h e he
    obtain ⟨s1, e1, e2, hb, hl, hev⟩ := sendLoop_cons_inv h
    rw [hev, List.mem_append] at he
    rcases he with he | he
    · exact ⟨tmp, List.mem_cons_self _ _, sendBody_events hb e he⟩
    · obtain ⟨t, ht, h1, h2, h3⟩ := ih hl e he
      rw [(sendBody_config hb).2.1] at h3
      exact ⟨t, List.mem_cons_of_mem _ ht, h1, h2, h3⟩

theorem Send_eq {P : Type} (env : Env) (fuel : Nat) (c : Channel) (p : P) (protocol : Nat)
    (toAddr fromAddr : Mac48Address) (sender : Device) (nbrCount : Int) (txTime : Time)
    (destId : Nat) :
    Send env fuel c p protocol toAddr fromAddr sender nbrCount txTime destId =
      sendLoop env fuel p protocol toAddr fromAddr sender txTime destId c.m_devices
        (sendInit c nbrCount) := Eq.refl _

theorem sendInit_range (c : Channel) (nbrCount : Int) :
    (sendInit c nbrCount).ch.m_range = c.m_range := by
  unfold sendInit
  split
  · split <;> exact Eq.refl _
  · exact Eq.refl _

theorem sendInit_rate (c : Channel) (nbrCount : Int) :
    (sendInit c nbrCount).ch.m_errorRate = c.m_errorRate := by
  unfold sendInit
  split
  · split <;> exact Eq.refl _
  · exact Eq.refl _

theorem sendInit_model (c : Channel) (nbrCount : Int) :
    (sendInit c nbrCount).ch.m_ErrorModel = c.m_ErrorModel := by
  unfold sendInit
  split
  · split <;> exact Eq.refl _
  · exact Eq.refl _

/-- Every arrival scheduled by `Send` is the arrival for an attached device
that is not the sender, is admitted by the destination hint and is within
range. -/
theorem Send_events {P : Type} {env : Env} {fuel : Nat} {c : Channel} {p : P} {protocol : Nat}
    {toAddr fromAddr : Mac48Address} {sender : Device} {nbrCount : Int} {txTime : Time}
    {destId : Nat} {st : SendState} {evs : List (Event P)}
    (h : Send env fuel c p protocol toAddr fromAddr sender nbrCount txTime destId
      = Except.ok (st, evs)) :
    ∀ e ∈ evs, ∃ tmp ∈ c.m_devices, reaches sender destId tmp ∧
      e = arrival env p protocol toAddr fromAddr sender txTime tmp ∧
      env.distance sender.nodeId tmp.nodeId ≤ c.m_range := by
  intro e he
  rw [Send_eq] at h
  obtain ⟨t, ht, h1, h2, h3⟩ := sendLoop_events c.m_devices h e he
  rw [sendInit_range] at h3
  exact ⟨t, ht, h1, h2, h3⟩

/-! ## Range cutoff -/

/-- C1: whatever the error model, the random draws and the contention setting,
a `Send` that returns schedules no arrival for a device whose distance from
the sender is strictly greater than the channel's max range. -/
theorem Send_beyond_range_not_scheduled {P : Type} (env : Env) (fuel : Nat) (c : Channel) (p : P)
    (protocol : Nat) (toAddr fromAddr : Mac48Address) (sender : Device) (nbrCount : Int)
    (txTime : Time) (destId : Nat) (cand : Device) (st : SendState) (evs : List (Event P))
    (hd : env.distance sender.nodeId cand.nodeId > c.m_range)
    (h : Send env fuel c p protocol toAddr fromAddr sender nbrCount txTime destId
      = Except.ok (st, evs)) :
    ∀ e ∈ evs, e.device ≠ cand := by
  intro e he hcand
  obtain ⟨t, _, _, h2, h3⟩ := Send_events h e he
  have hdev : e.device = t := by rw [h2]; rfl
  rw [← hdev, hcand] at h3
  exact absurd hd (not_lt.mpr h3)

/-- C1 on the line scenario: node 2 is 150 away from node 0, range is 100, and
the only arrival of the `Send` of node 0 is the one for node 1. -/
theorem Send_beyond_range_not_scheduled_witness :
    lineEnv.distance dev0.nodeId dev2.nodeId > lineChannel.m_range ∧
    Send lineEnv 0 lineChannel () 2048 1 2 dev0 0 8000000 NO_DIRECTIONAL_NBR
      = Except.ok ({ ch := { lineChannel with randomPos := 1 }, nbrCount := 0 },
          [arrival lineEnv () 2048 1 2 dev0 8000000 dev1]) ∧
    (arrival lineEnv () 2048 1 2 dev0 8000000 dev1).device ≠ dev2 :=
  ⟨of_decide_eq_true (by with_unfolding_all rfl), by with_unfolding_all rfl,
    Send_beyond_range_not_scheduled lineEnv 0 lineChannel () 2048 1 2 dev0 0 8000000
      NO_DIRECTIONAL_NBR dev2 { ch := { lineChannel with randomPos := 1 }, nbrCount := 0 }
      [arrival lineEnv () 2048 1 2 dev0 8000000 dev1]
      (of_decide_eq_true (by with_unfolding_all rfl))
      (by with_unfolding_all rfl)
      (arrival lineEnv () 2048 1 2 dev0 8000000 dev1) (List.mem_singleton_self _)⟩

/-! ## Constant error model with rate 0 -/

theorem packetInError_constant_zero {env : Env} {c : Channel} {distance : ℚ}
    (hm : c.m_ErrorModel = ErrorModelType.CONSTANT) (hr : c.m_errorRate = 0)
    (hu : 0 ≤ env.uniform c.randomPos) :
    packetInError env c distance
      = Except.ok ({ c with randomPos := c.randomPos + 1 }, false) := by
  unfold packetInError
  rw [if_pos hm, hr]
  have : decide (env.uniform c.randomPos < 0) = false := by
    rw [decide_eq_false_iff_not]
    exact not_lt.mpr hu
  rw [this]

theorem sendBody_constant_zero {P : Type} (env : Env) (fuel : Nat) (p : P) (protocol : Nat)
    (toAddr fromAddr : Mac48Address) (sender : Device) (txTime : Time)
    {s : SendState} {tmp : Device}
    (hm : s.ch.m_ErrorModel = ErrorModelType.CONSTANT) (hr : s.ch.m_errorRate = 0)
    (hu : ∀ i, 0 ≤ env.uniform i)
    (hmob : ∀ d ∈ sender :: [tmp], env.hasMobility d.nodeId = true) :
    ∃ s1, sendBody env fuel p protocol toAddr fromAddr sender txTime NO_DIRECTIONAL_NBR s tmp
      = Except.ok (s1,
          if inRangeOther env s.ch.m_range sender tmp = true
          then [arrival env p protocol toAddr fromAddr sender txTime tmp] else []) := by
  by_cases hp : tmp.ptr = sender.ptr
  · have hnr : ¬ reaches sender NO_DIRECTIONAL_NBR tmp := fun h => h.1 hp
    refine ⟨s, ?_⟩
    rw [sendBody_skip hnr]
    simp [inRangeOther, hp]
  · have hns : s.ch.m_ErrorModel ≠ ErrorModelType.STOCHASTIC := by
      rw [hm]
      decide
    have hm1 : env.hasMobility sender.nodeId = true := hmob sender (List.mem_cons_self _ _)
    have hm2 : env.hasMobility tmp.nodeId = true :=
      hmob tmp (List.mem_cons_of_mem _ (List.mem_cons_self _ _))
    unfold sendBody
    dsimp only
    rw [if_neg hp, if_neg (fun h => h.1 (Eq.refl _)), CheckStochasticError_other hns]
    dsimp only
    rw [hm1, hm2]
    simp only [Bool.and_self, Bool.not_true, Bool.false_eq_true, if_false]
    by_cases hd : env.distance sender.nodeId tmp.nodeId > s.ch.m_range
    · rw [if_pos hd]
      have : inRangeOther env s.ch.m_range sender tmp = false := by
        simp [inRangeOther, hd]
      rw [this]
      exact ⟨_, Eq.refl _⟩
    · rw [if_neg hd, packetInError_constant_zero hm hr (hu _)]
      dsimp only
      have : inRangeOther env s.ch.m_range sender tmp = true := by
        simp [inRangeOther, hp, le_of_not_gt hd]
      rw [this]
      exact ⟨_, Eq.refl _⟩

theorem sendLoop_constant_zero {P : Type} (env : Env) (fuel : Nat) (p : P) (protocol : Nat)
    (toAddr fromAddr : Mac48Address) (sender : Device) (txTime : Time)
    (hu : ∀ i, 0 ≤ env.uniform i) (devs : List Device) :
    ∀ s : SendState, s.ch.m_ErrorModel = ErrorModelType.CONSTANT → s.ch.m_errorRate = 0 →
      (∀ d ∈ sender :: devs, env.hasMobility d.nodeId = true) →
      ∃ s2, sendLoop env fuel p protocol toAddr fromAddr sender txTime NO_DIRECTIONAL_NBR devs s
        = Except.ok (s2,
            (devs.filter (inRangeOther env s.ch.m_range sender)).map
              (arrival env p protocol toAddr fromAddr sender txTime)) := by
  induction devs with
  | nil =>
    intro s _ _ _
    exact ⟨s, Eq.refl _⟩
  | cons tmp rest ih =>
    intro s hm hr hmob
    have hmob1 : ∀ d ∈ sender :: [tmp], env.hasMobility d.nodeId = true := by
      intro d hd
      apply hmob
      simp only [List.mem_cons, List.mem_singleton, List.not_mem_nil, or_false] at hd ⊢
      rcases hd with hd | hd
      · exact Or.inl hd
      · exact Or.inr (Or.inl hd)
    have hmob2 : ∀ d ∈ sender :: rest, env.hasMobility d.nodeId = true := by
      intro d hd
      apply hmob
      simp only [List.mem_cons] at hd ⊢
      rcases hd with hd | hd
      · exact Or.inl hd
      · exact Or.inr (Or.inr hd)
    obtain ⟨s1, hb⟩ :=
      sendBody_constant_zero env fuel p protocol toAddr fromAddr sender txTime hm hr hu hmob1
    have hcfg := sendBody_config hb
    obtain ⟨s2, hl⟩ := ih s1 (hcfg.2.2.2.1.trans hm) (hcfg.2.2.1.trans hr) hmob2
    refine ⟨s2, ?_⟩
    unfold sendLoop
    rw [hb]
    dsimp only
    rw [hl]
    dsimp only
    rw [hcfg.2.1]
    by_cases hin : inRangeOther env s.ch.m_range sender tmp = true
    · simp [List.filter_cons, hin]
    · simp [List.filter_cons, hin]

/-- C2: under the constant error model with rate 0 and no destination hint,
for every list of attached devices and every sender, whatever the uniform
draws in [0,1) and the contention setting, `Send` returns and the arrivals it
schedules are, in order, one for each attached device other than the sender
whose distance is at most the range; hence, each device being attached once,
exactly one arrival for each such device and none for any other, the sender
included. -/
theorem Send_constant_zero_delivers {P : Type} (env : Env) (fuel : Nat) (c : Channel) (p : P)
    (protocol : Nat) (toAddr fromAddr : Mac48Address) (sender : Device) (nbrCount : Int)
    (txTime : Time)
    (hm : c.m_ErrorModel = ErrorModelType.CONSTANT) (hr : c.m_errorRate = 0)
    (hu : ∀ i, 0 ≤ env.uniform i ∧ env.uniform i < 1)
    (hmob : ∀ d ∈ sender :: c.m_devices, env.hasMobility d.nodeId = true) :
    ∃ st evs,
      Send env fuel c p protocol toAddr fromAddr sender nbrCount txTime NO_DIRECTIONAL_NBR
        = Except.ok (st, evs) ∧
      evs = (c.m_devices.filter (inRangeOther env c.m_range sender)).map
              (arrival env p protocol toAddr fromAddr sender txTime) ∧
      (c.m_devices.Nodup → ∀ d : Device,
        (evs.filter (fun e => decide (e.device = d))).length =
          if d ∈ c.m_devices ∧ d.ptr ≠ sender.ptr ∧
              env.distance sender.nodeId d.nodeId ≤ c.m_range then 1 else 0) := by
  have hm0 : (sendInit c nbrCount).ch.m_ErrorModel = ErrorModelType.CONSTANT := by
    rw [sendInit_model]
    exact hm
  have hr0 : (sendInit c nbrCount).ch.m_errorRate = 0 := by
    rw [sendInit_rate]
    exact hr
  obtain ⟨s2, hl⟩ :=
    sendLoop_constant_zero env fuel p protocol toAddr fromAddr sender txTime (fun i => (hu i).1)
      c.m_devices (sendInit c nbrCount) hm0 hr0 hmob
  rw [sendInit_range] at hl
  refine ⟨s2, _, hl, Eq.refl _, ?_⟩
  intro hnd d
  have hlen : ((List.map (arrival env p protocol toAddr fromAddr sender txTime)
      (List.filter (inRangeOther env c.m_range sender) c.m_devices)).filter
        (fun e => decide (e.device = d))).length
      = (List.filter (inRangeOther env c.m_range sender) c.m_devices).count d := by
    rw [List.filter_map, List.length_map, List.count_eq_countP, List.countP_eq_length_filter]
    congr 1
  rw [hlen]
  by_cases hmem : d ∈ c.m_devices ∧ d.ptr ≠ sender.ptr ∧
      env.distance sender.nodeId d.nodeId ≤ c.m_range
  · rw [if_pos hmem]
    apply List.count_eq_one_of_mem (hnd.filter _)
    rw [List.mem_filter]
    refine ⟨hmem.1, ?_⟩
    simp [inRangeOther, hmem.2.1, hmem.2.2]
  · rw [if_neg hmem]
    apply List.count_eq_zero_of_not_mem
    intro hin
    rw [List.mem_filter] at hin
    apply hmem
    have h2 := hin.2
    simp only [inRangeOther, Bool.and_eq_true, decide_eq_true_eq] at h2
    exact ⟨hin.1, h2.1, h2.2⟩

/-- C2 on the line scenario: from node 0 the only arrival is the one for
node 1; node 2 is out of range and the sender gets none. -/
theorem Send_constant_zero_delivers_witness :
    ∃ st evs,
      Send lineEnv 0 lineChannel () 2048 1 2 dev0 0 8000000 NO_DIRECTIONAL_NBR
        = Except.ok (st, evs) ∧
      evs = (lineChannel.m_devices.filter (inRangeOther lineEnv lineChannel.m_range dev0)).map
              (arrival lineEnv () 2048 1 2 dev0 8000000) ∧
      (lineChannel.m_devices.Nodup → ∀ d : Device,
        (evs.filter (fun e => decide (e.device = d))).length =
          if d ∈ lineChannel.m_devices ∧ d.ptr ≠ dev0.ptr ∧
              lineEnv.distance dev0.nodeId d.nodeId ≤ lineChannel.m_range then 1 else 0) :=
  Send_constant_zero_delivers lineEnv 0 lineChannel () 2048 1 2 dev0 0 8000000
    (Eq.refl _) (Eq.refl _)
    (fun _ => ⟨by norm_num [lineEnv], by norm_num [lineEnv]⟩)
    (fun _ _ => Eq.refl _)

/-! ## Delay and payload of the arrivals -/

/-- A candidate that passes every test of the loop body gets its arrival. -/
theorem sendBody_pass {P : Type} (env : Env) (fuel : Nat) (p : P) (protocol : Nat)
    (toAddr fromAddr : Mac48Address) (sender : Device) (txTime : Time) (destId : Nat)
    (s : SendState) (tmp : Device) (c1 c2 : Channel)
    (hr : reaches sender destId tmp)
    (hc : CheckStochasticError env fuel s.ch sender.nodeId tmp.nodeId = Except.ok (c1, false))
    (hm1 : env.hasMobility sender.nodeId = true) (hm2 : env.hasMobility tmp.nodeId = true)
    (hd : env.distance sender.nodeId tmp.nodeId ≤ c1.m_range)
    (hp : packetInError env c1 (env.distance sender.nodeId tmp.nodeId) = Except.ok (c2, false)) :
    sendBody env fuel p protocol toAddr fromAddr sender txTime destId s tmp =
      Except.ok ({ ch := c2, nbrCount := pegged env c1 sender tmp s.nbrCount },
        [arrival env p protocol toAddr fromAddr sender txTime tmp]) := by
  unfold sendBody
  dsimp only
  rw [if_neg hr.1, if_neg hr.2, hc]
  dsimp only
  rw [hm1, hm2]
  simp only [Bool.and_self, Bool.not_true, Bool.false_eq_true, if_false]
  rw [if_neg (not_lt.mpr hd), hp]
  rfl

/-- C3: a candidate that passes all the tests of the loop body of `Send` gets
an arrival; every arrival `Send` schedules has delay (announced transmit
duration) + 3.3 x distance nanoseconds, the node id of its device as context,
and carries the packet, protocol, to and from values given to `Send`.  For two
devices 50 apart, range 100, constant error rate 0, data rate 1,000,000 bit/s
and a 1000-byte packet, exactly one arrival is scheduled, 8,000,000 + 165 ns
after the send, for the other device, with the original payload. -/
theorem Send_arrival_delay_payload :
    (∀ {P : Type} (env : Env) (fuel : Nat) (p : P) (protocol : Nat)
        (toAddr fromAddr : Mac48Address) (sender : Device) (txTime : Time) (destId : Nat)
        (s : SendState) (tmp : Device) (c1 c2 : Channel),
      reaches sender destId tmp →
      CheckStochasticError env fuel s.ch sender.nodeId tmp.nodeId = Except.ok (c1, false) →
      env.hasMobility sender.nodeId = true → env.hasMobility tmp.nodeId = true →
      env.distance sender.nodeId tmp.nodeId ≤ c1.m_range →
      packetInError env c1 (env.distance sender.nodeId tmp.nodeId) = Except.ok (c2, false) →
      ∃ s1 e, sendBody env fuel p protocol toAddr fromAddr sender txTime destId s tmp
          = Except.ok (s1, [e]) ∧
        e.device = tmp ∧
        e.delayNs = (txTime : ℚ) + (33 / 10) * env.distance sender.nodeId tmp.nodeId) ∧
    (∀ {P : Type} (env : Env) (fuel : Nat) (c : Channel) (p : P) (protocol : Nat)
        (toAddr fromAddr : Mac48Address) (sender : Device) (nbrCount : Int) (txTime : Time)
        (destId : Nat) (st : SendState) (evs : List (Event P)),
      Send env fuel c p protocol toAddr fromAddr sender nbrCount txTime destId
        = Except.ok (st, evs) →
      ∀ e ∈ evs,
        e.delayNs = (txTime : ℚ) + (33 / 10) * env.distance sender.nodeId e.device.nodeId ∧
        e.context = e.device.nodeId ∧ e.packet = p ∧ e.protocol = protocol ∧
        e.toAddr = toAddr ∧ e.fromAddr = fromAddr) ∧
    (Seconds (CalculateTxTime 1000000 1000) = 8000000 ∧
     ∃ st e,
      Send lineEnv 0 pairChannel payload1000 2048 1 2 dev0 0
          (Seconds (CalculateTxTime 1000000 1000)) NO_DIRECTIONAL_NBR
        = Except.ok (st, [e]) ∧
      e.device = dev1 ∧ e.delayNs = 8000000 + 165 ∧ e.packet = payload1000 ∧
      e.packet.length = 1000) := by
  refine ⟨?_, ?_, ?_⟩
  · intro P env fuel p protocol toAddr fromAddr sender txTime destId s tmp c1 c2 hr hc hm1 hm2
      hd hp
    exact ⟨_, _, sendBody_pass env fuel p protocol toAddr fromAddr sender txTime destId s tmp
      c1 c2 hr hc hm1 hm2 hd hp, Eq.refl _, Eq.refl _⟩
  · intro P env fuel c p protocol toAddr fromAddr sender nbrCount txTime destId st evs h e he
    obtain ⟨t, _, _, h2, _⟩ := Send_events h e he
    rw [h2]
    exact ⟨Eq.refl _, Eq.refl _, Eq.refl _, Eq.refl _, Eq.refl _, Eq.refl _⟩
  · have htx : Seconds (CalculateTxTime 1000000 1000) = 8000000 := by
      unfold Seconds CalculateTxTime
      norm_num
    refine ⟨htx, ?_⟩
    rw [htx]
    refine ⟨{ ch := { pairChannel with randomPos := 1 }, nbrCount := 0 },
      arrival lineEnv payload1000 2048 1 2 dev0 8000000 dev1, ?_, Eq.refl _, ?_, Eq.refl _, ?_⟩
    · with_unfolding_all rfl
    · simp only [arrival, lineEnv, linePos, dev0, dev1]
      norm_num
    · simp only [arrival, payload1000, List.length_replicate]

/-- C3 exercised on the line scenario with three devices: the arrival for
node 1 has delay 8,000,000 + 3.3 x 50 ns. -/
theorem Send_arrival_delay_payload_witness :
    (arrival lineEnv () 2048 1 2 dev0 8000000 dev1).delayNs =
        ((8000000 : Time) : ℚ) + (33 / 10) * lineEnv.distance dev0.nodeId
          (arrival lineEnv () 2048 1 2 dev0 8000000 dev1).device.nodeId ∧
      (arrival lineEnv () 2048 1 2 dev0 8000000 dev1).context =
        (arrival lineEnv () 2048 1 2 dev0 8000000 dev1).device.nodeId ∧
      (arrival lineEnv () 2048 1 2 dev0 8000000 dev1).packet = () ∧
      (arrival lineEnv () 2048 1 2 dev0 8000000 dev1).protocol = 2048 ∧
      (arrival lineEnv () 2048 1 2 dev0 8000000 dev1).toAddr = 1 ∧
      (arrival lineEnv () 2048 1 2 dev0 8000000 dev1).fromAddr = 2 :=
  Send_arrival_delay_payload.2.1 lineEnv 0 lineChannel () 2048 1 2 dev0 0 8000000
    NO_DIRECTIONAL_NBR { ch := { lineChannel with randomPos := 1 }, nbrCount := 0 }
    [arrival lineEnv () 2048 1 2 dev0 8000000 dev1] (by with_unfolding_all rfl)
    (arrival lineEnv () 2048 1 2 dev0 8000000 dev1) (List.mem_singleton_self _)

/-! ## Destination hint -/

theorem sendBody_hint_eq {P : Type} (env : Env) (fuel : Nat) (p : P) (protocol : Nat)
    (toAddr fromAddr : Mac48Address) (sender : Device) (txTime : Time) (destId : Nat)
    (s : SendState) (tmp : Device) (hn : tmp.nodeId = destId) :
    sendBody env fuel p protocol toAddr fromAddr sender txTime destId s tmp =
      sendBody env fuel p protocol toAddr fromAddr sender txTime NO_DIRECTIONAL_NBR s tmp := by
  unfold sendBody
  dsimp only
  by_cases hp : tmp.ptr = sender.ptr
  · rw [if_pos hp, if_pos hp]
  · rw [if_neg hp, if_neg hp, if_neg (fun h => h.2 hn), if_neg (fun h => h.1 (Eq.refl _))]

theorem sendLoop_hint_eq {P : Type} (env : Env) (fuel : Nat) (p : P) (protocol : Nat)
    (toAddr fromAddr : Mac48Address) (sender : Device) (txTime : Time) (destId : Nat)
    (hh : destId ≠ NO_DIRECTIONAL_NBR) (devs : List Device) :
    ∀ s : SendState,
      sendLoop env fuel p protocol toAddr fromAddr sender txTime destId devs s =
        sendLoop env fuel p protocol toAddr fromAddr sender txTime NO_DIRECTIONAL_NBR
          (devs.filter (fun d => decide (d.nodeId = destId))) s := by
  induction devs with
  | nil =>
    intro s
    rfl
  | cons tmp rest ih =>
    intro s
    by_cases hn : tmp.nodeId = destId
    · have hf : (tmp :: rest).filter (fun d => decide (d.nodeId = destId))
          = tmp :: rest.filter (fun d => decide (d.nodeId = destId)) := by
        simp [List.filter_cons, hn]
      rw [hf]
      unfold sendLoop
      rw [sendBody_hint_eq env fuel p protocol toAddr fromAddr sender txTime destId s tmp hn]
      cases hb : sendBody env fuel p protocol toAddr fromAddr sender txTime
          NO_DIRECTIONAL_NBR s tmp with
      | error f => rfl
      | ok r =>
        obtain ⟨s1, e1⟩ := r
        dsimp only
        rw [ih s1]
    · have hf : (tmp :: rest).filter (fun d => decide (d.nodeId = destId))
          = rest.filter (fun d => decide (d.nodeId = destId)) := by
        simp [List.filter_cons, hn]
      rw [hf, ← ih s]
      have hnr : ¬ reaches sender destId tmp := fun h => h.2 ⟨hh, hn⟩
      conv_lhs => unfold sendLoop
      rw [sendBody_skip hnr]
      dsimp only
      cases hl : sendLoop env fuel p protocol toAddr fromAddr sender txTime destId rest s with
      | error f => rfl
      | ok r =>
        obtain ⟨s2, e2⟩ := r
        rfl

/-- C4: with a destination hint different from the no-hint sentinel, a `Send`
that returns schedules no arrival for a device whose node id is not the hint,
whatever its distance and the error model; and the devices of the hinted node
are treated exactly as without a hint: `Send` is the loop of `Send` without
hint run over the attached devices whose node id is the hint, so they remain
subject to the stochastic, range and error tests. -/
theorem Send_directional_hint {P : Type} (env : Env) (fuel : Nat) (c : Channel) (p : P)
    (protocol : Nat) (toAddr fromAddr : Mac48Address) (sender : Device) (nbrCount : Int)
    (txTime : Time) (destId : Nat) (hh : destId ≠ NO_DIRECTIONAL_NBR) :
    (∀ (st : SendState) (evs : List (Event P)),
      Send env fuel c p protocol toAddr fromAddr sender nbrCount txTime destId
        = Except.ok (st, evs) →
      ∀ e ∈ evs, e.device.nodeId = destId) ∧
    Send env fuel c p protocol toAddr fromAddr sender nbrCount txTime destId =
      sendLoop env fuel p protocol toAddr fromAddr sender txTime NO_DIRECTIONAL_NBR
        (c.m_devices.filter (fun d => decide (d.nodeId = destId))) (sendInit c nbrCount) := by
  refine ⟨?_, ?_⟩
  · intro st evs h e he
    obtain ⟨t, _, h1, h2, _⟩ := Send_events h e he
    rw [h2]
    by_contra hne
    exact h1.2 ⟨hh, hne⟩
  · rw [Send_eq]
    exact sendLoop_hint_eq env fuel p protocol toAddr fromAddr sender txTime destId hh
      c.m_devices (sendInit c nbrCount)

/-- C4 on the line scenario with hint 2: node 1 is in range and error-free but
gets no arrival, and node 2, the hinted node, is still cut off by the range
test, so nothing is scheduled. -/
theorem Send_directional_hint_witness :
    (∀ (st : SendState) (evs : List (Event Unit)),
      Send lineEnv 0 lineChannel () 2048 1 2 dev0 0 8000000 2 = Except.ok (st, evs) →
      ∀ e ∈ evs, e.device.nodeId = 2) ∧
    Send lineEnv 0 lineChannel () 2048 1 2 dev0 0 8000000 2 =
      sendLoop lineEnv 0 () 2048 1 2 dev0 8000000 NO_DIRECTIONAL_NBR
        (lineChannel.m_devices.filter (fun d => decide (d.nodeId = 2)))
        (sendInit lineChannel 0) :=
  Send_directional_hint lineEnv 0 lineChannel () 2048 1 2 dev0 0 8000000 2 (by decide)

/-! ## PER curve -/

theorem dlt_equiv (a b : ℚ) : (!(dlt a b) && !(dlt b a)) = true ↔ a = b := by
  simp only [dlt, Bool.and_eq_true, Bool.not_eq_true', decide_eq_false_iff_not, not_lt]
  constructor
  · intro h
    exact le_antisymm h.2 h.1
  · intro h
    rw [h]
    exact ⟨le_refl _, le_refl _⟩

theorem omFind_dlt_of_mem (d p : ℚ) (m : List (ℚ × ℚ)) (hs : SortedKeys m)
    (hmem : (d, p) ∈ m) : omFind dlt d m = some p := by
  induction m with
  | nil => cases hmem
  | cons x rest ih =>
    obtain ⟨k1, v⟩ := x
    unfold SortedKeys at hs
    rw [List.pairwise_cons] at hs
    unfold omFind
    by_cases hk : d = k1
    · rw [if_pos ((dlt_equiv d k1).mpr hk)]
      rcases List.mem_cons.mp hmem with h | h
      · injection h with h1 h2
        rw [h2]
      · have := hs.1 (d, p) h
        simp only at this
        rw [hk] at this
        exact absurd this (lt_irrefl _)
    · rw [if_neg (fun h => hk ((dlt_equiv d k1).mp h))]
      rcases List.mem_cons.mp hmem with h | h
      · injection h with h1 h2
        exact absurd h1 hk
      · exact ih hs.2 h

theorem omFind_dlt_none (d : ℚ) (m : List (ℚ × ℚ)) (h : ∀ e ∈ m, e.1 ≠ d) :
    omFind dlt d m = none := by
  induction m with
  | nil => rfl
  | cons x rest ih =>
    obtain ⟨k1, v⟩ := x
    unfold omFind
    have hk : ¬ d = k1 := fun hc => h (k1, v) (List.mem_cons_self _ _) hc.symm
    rw [if_neg (fun hc => hk ((dlt_equiv d k1).mp hc))]
    exact ih (fun e he => h e (List.mem_cons_of_mem _ he))

theorem omUpperBound_dlt_append (d : ℚ) (pre rest : List (ℚ × ℚ))
    (h : ∀ e ∈ pre, ¬ d < e.1) :
    omUpperBound dlt d (pre ++ rest) = pre.length + omUpperBound dlt d rest := by
  induction pre with
  | nil => simp
  | cons x pre ih =>
    obtain ⟨k1, v⟩ := x
    have hx : dlt d k1 = false := by
      simp only [dlt, decide_eq_false_iff_not]
      exact h (k1, v) (List.mem_cons_self _ _)
    have ih1 := ih (fun e he => h e (List.mem_cons_of_mem _ he))
    simp only [List.cons_append, omUpperBound, hx, Bool.false_eq_true, if_false,
      List.length_cons]
    change omUpperBound dlt d (pre ++ rest) + 1 = _
    rw [ih1]
    omega

theorem get_append_mid {α : Type} (pre : List α) (a b : α) (post : List α) :
    (pre ++ a :: b :: post).get? pre.length = some a ∧
    (pre ++ a :: b :: post).get? (pre.length + 1) = some b := by
  induction pre with
  | nil => exact ⟨Eq.refl _, Eq.refl _⟩
  | cons x pre ih =>
    simp only [List.cons_append, List.length_cons, List.get?]
    exact ih

/-- C5: under the PER curve model, for every curve (keys increasing, as in a
`std::map`) and distance d: if d is the distance of a control point, the
packet is in error iff the uniform draw is less than that point's probability;
if d lies strictly between two adjacent control points (dl, pl) and (du, pu),
the packet is in error iff the draw is less than
pl + ((d - dl) / (du - dl)) * (pu - pl).  One draw is consumed in both cases. -/
theorem packetInError_per_curve (env : Env) (c : Channel) (d : ℚ)
    (hm : c.m_ErrorModel = ErrorModelType.PER_CURVE) (hs : SortedKeys c.mPERmap) :
    (∀ p : ℚ, (d, p) ∈ c.mPERmap →
      packetInError env c d =
        Except.ok ({ c with randomPos := c.randomPos + 1 },
          decide (env.uniform c.randomPos < p))) ∧
    (∀ (pre post : List (ℚ × ℚ)) (dl pl du pu : ℚ),
      c.mPERmap = pre ++ (dl, pl) :: (du, pu) :: post → dl < d → d < du →
      packetInError env c d =
        Except.ok ({ c with randomPos := c.randomPos + 1 },
          decide (env.uniform c.randomPos < pl + ((d - dl) / (du - dl)) * (pu - pl)))) := by
  have hne : ¬ c.m_ErrorModel = ErrorModelType.CONSTANT := by
    rw [hm]
    decide
  refine ⟨?_, ?_⟩
  · intro p hmem
    unfold packetInError
    rw [if_neg hne, if_pos hm, omFind_dlt_of_mem d p c.mPERmap hs hmem]
  · intro pre post dl pl du pu hcurve hl hu
    have hs2 := hs
    unfold SortedKeys at hs2
    rw [hcurve, List.pairwise_append] at hs2
    obtain ⟨_, hrest, hcross⟩ := hs2
    rw [List.pairwise_cons] at hrest
    have hpre : ∀ e ∈ pre, e.1 < dl := fun e he =>
      hcross e he (dl, pl) (List.mem_cons_self _ _)
    have hpost : ∀ e ∈ post, du < e.1 := by
      intro e he
      have h2 := hrest.2
      rw [List.pairwise_cons] at h2
      exact h2.1 e he
    have hnone : omFind dlt d c.mPERmap = none := by
      apply omFind_dlt_none
      intro e he
      rw [hcurve] at he
      simp only [List.mem_append, List.mem_cons] at he
      rcases he with he | he | he | he
      · exact ne_of_lt (lt_trans (hpre e he) hl)
      · rw [he]
        exact ne_of_lt hl
      · rw [he]
        exact ne_of_gt hu
      · exact ne_of_gt (lt_trans hu (hpost e he))
    have hub : omUpperBound dlt d c.mPERmap = pre.length + 1 := by
      rw [hcurve, omUpperBound_dlt_append d pre _
        (fun e he => not_lt.mpr (le_of_lt (lt_trans (hpre e he) hl)))]
      have h1 : dlt d dl = false := by
        simp only [dlt, decide_eq_false_iff_not]
        exact not_lt.mpr (le_of_lt hl)
      have h2 : dlt d du = true := by
        simp only [dlt, decide_eq_true_eq]
        exact hu
      simp only [omUpperBound, h1, h2, Bool.false_eq_true, if_false, if_true]
    have hlen : ¬ pre.length + 1 = c.mPERmap.length := by
      rw [hcurve]
      simp only [List.length_append, List.length_cons]
      omega
    have hlow : c.mPERmap.get? pre.length = some (dl, pl) := by
      rw [hcurve]
      exact (get_append_mid pre _ _ post).1
    have hup : c.mPERmap.get? (pre.length + 1) = some (du, pu) := by
      rw [hcurve]
      exact (get_append_mid pre _ _ post).2
    unfold packetInError
    rw [if_neg hne, if_pos hm, hnone]
    dsimp only
    rw [hub, if_neg hlen]
    dsimp only
    rw [hlow, hup]

theorem omFind_dlt_none_inv (d : ℚ) (m : List (ℚ × ℚ)) (h : omFind dlt d m = none) :
    ∀ e ∈ m, e.1 ≠ d := by
  induction m with
  | nil =>
    intro e he
    cases he
  | cons x rest ih =>
    obtain ⟨k1, v⟩ := x
    unfold omFind at h
    by_cases hk : (!(dlt d k1) && !(dlt k1 d)) = true
    · rw [if_pos hk] at h
      cases h
    · rw [if_neg hk] at h
      intro e he
      rcases List.mem_cons.mp he with h1 | h1
      · rw [h1]
        intro hc
        exact hk ((dlt_equiv d k1).mpr hc.symm)
      · exact ih h e h1

theorem mem_omPlace_dlt (k v : ℚ) (m : List (ℚ × ℚ)) (e : ℚ × ℚ) :
    e ∈ omPlace dlt k v m → e = (k, v) ∨ e ∈ m := by
  induction m with
  | nil =>
    intro h
    simp only [omPlace, List.mem_singleton] at h
    exact Or.inl h
  | cons x rest ih =>
    obtain ⟨k1, v1⟩ := x
    intro h
    unfold omPlace at h
    by_cases hk : dlt k k1 = true
    · rw [if_pos hk] at h
      rcases List.mem_cons.mp h with h1 | h1
      · exact Or.inl h1
      · exact Or.inr h1
    · rw [if_neg hk] at h
      rcases List.mem_cons.mp h with h1 | h1
      · exact Or.inr (h1 ▸ List.mem_cons_self _ _)
      · rcases ih h1 with h2 | h2
        · exact Or.inl h2
        · exact Or.inr (List.mem_cons_of_mem _ h2)

theorem omPlace_dlt_sorted (k v : ℚ) (m : List (ℚ × ℚ)) (hs : SortedKeys m)
    (hk : ∀ e ∈ m, e.1 ≠ k) : SortedKeys (omPlace dlt k v m) := by
  induction m with
  | nil =>
    unfold omPlace SortedKeys
    exact List.pairwise_singleton _ _
  | cons x rest ih =>
    obtain ⟨k1, v1⟩ := x
    unfold SortedKeys at hs
    have hs1 := List.pairwise_cons.mp hs
    unfold omPlace
    by_cases hlt : dlt k k1 = true
    · rw [if_pos hlt]
      have hlt1 : k < k1 := by simpa [dlt] using hlt
      unfold SortedKeys
      refine List.pairwise_cons.mpr ⟨?_, hs⟩
      intro e he
      rcases List.mem_cons.mp he with h1 | h1
      · rw [h1]
        exact hlt1
      · exact lt_trans hlt1 (hs1.1 e h1)
    · rw [if_neg hlt]
      have hge : ¬ k < k1 := by simpa [dlt] using hlt
      have hne : k1 ≠ k := hk (k1, v1) (List.mem_cons_self _ _)
      have hgt : k1 < k := lt_of_le_of_ne (not_lt.mp hge) hne
      unfold SortedKeys
      refine List.pairwise_cons.mpr ⟨?_, ih hs1.2 (fun e he => hk e (List.mem_cons_of_mem _ he))⟩
      intro e he
      rcases mem_omPlace_dlt k v rest e he with h1 | h1
      · rw [h1]
        exact hgt
      · exact hs1.1 e h1

/-- `addToPERmodel` keeps the keys of the curve increasing. -/
theorem addToPERmodel_sorted (c : Channel) (distance error : ℚ) (hs : SortedKeys c.mPERmap) :
    SortedKeys (addToPERmodel c distance error).mPERmap := by
  have h1 : (addToPERmodel c distance error).mPERmap = omInsert dlt distance error c.mPERmap := by
    unfold addToPERmodel
    dsimp only
    split <;> rfl
  rw [h1]
  unfold omInsert
  cases hf : omFind dlt distance c.mPERmap with
  | some x => exact hs
  | none => exact omPlace_dlt_sorted distance error c.mPERmap hs (omFind_dlt_none_inv _ _ hf)

theorem curveChannel_points : curveChannel.mPERmap = curvePoints := by
  with_unfolding_all rfl

theorem curveChannel_model : curveChannel.m_ErrorModel = ErrorModelType.PER_CURVE := by
  with_unfolding_all rfl

theorem curveChannel_sorted : SortedKeys curveChannel.mPERmap := by
  rw [curveChannel_points]
  unfold SortedKeys curvePoints
  simp only [List.pairwise_cons, List.mem_cons, List.mem_singleton, forall_eq_or_imp, forall_eq,
    List.not_mem_nil, IsEmpty.forall_iff, implies_true, List.Pairwise.nil, and_true]
  norm_num

/-- C5 on the curve of `error_model_test.cc`: at distance 20, a control point,
the draw 1/2 is compared with 5/100; at distance 25 it is compared with the
value interpolated between (20, 5/100) and (30, 7/100). -/
theorem packetInError_per_curve_witness :
    packetInError lineEnv curveChannel 20 =
        Except.ok ({ curveChannel with randomPos := curveChannel.randomPos + 1 },
          decide (lineEnv.uniform curveChannel.randomPos < 5 / 100)) ∧
    packetInError lineEnv curveChannel 25 =
        Except.ok ({ curveChannel with randomPos := curveChannel.randomPos + 1 },
          decide (lineEnv.uniform curveChannel.randomPos
            < 5 / 100 + ((25 - 20) / (30 - 20)) * (7 / 100 - 5 / 100))) :=
  ⟨(packetInError_per_curve lineEnv curveChannel 20 curveChannel_model curveChannel_sorted).1 (5 / 100)
      (by rw [curveChannel_points]; simp [curvePoints]),
   (packetInError_per_curve lineEnv curveChannel 25 curveChannel_model curveChannel_sorted).2
      [(0, 0), (10, 0)]
      [(40, 12 / 100), (50, 15 / 100), (60, 5 / 10), (70, 6 / 10), (80, 7 / 10), (90, 8 / 10),
        (100, 1)]
      20 (5 / 100) 30 (7 / 100) curveChannel_points (by norm_num) (by norm_num)⟩

/-- C6: under the PER curve model, for every distance greater than every
control-point distance of the curve (hence not a control point; the empty
curve included), the packet is judged in error whatever the draws: no draw is
made and the channel is unchanged. -/
theorem packetInError_beyond_curve (env : Env) (c : Channel) (d : ℚ)
    (hm : c.m_ErrorModel = ErrorModelType.PER_CURVE) (h : ∀ e ∈ c.mPERmap, e.1 < d) :
    packetInError env c d = Except.ok (c, true) := by
  have hne : ¬ c.m_ErrorModel = ErrorModelType.CONSTANT := by
    rw [hm]
    decide
  have hnone : omFind dlt d c.mPERmap = none :=
    omFind_dlt_none d c.mPERmap (fun e he => ne_of_lt (h e he))
  have hub : omUpperBound dlt d c.mPERmap = c.mPERmap.length := by
    have := omUpperBound_dlt_append d c.mPERmap []
      (fun e he => not_lt.mpr (le_of_lt (h e he)))
    simpa [omUpperBound] using this
  unfold packetInError
  rw [if_neg hne, if_pos hm, hnone]
  dsimp only
  rw [if_pos hub]

/-- C6 on the curve of `error_model_test.cc`, whose last point is at 100:
distance 150 is in error without a draw. -/
theorem packetInError_beyond_curve_witness :
    packetInError lineEnv curveChannel 150 = Except.ok (curveChannel, true) :=
  packetInError_beyond_curve lineEnv curveChannel 150 curveChannel_model
    (by
      rw [curveChannel_points]
      unfold curvePoints
      simp only [List.mem_cons, List.mem_singleton, forall_eq_or_imp, forall_eq,
        List.not_mem_nil, IsEmpty.forall_iff, implies_true, and_true]
      norm_num)

/-! ## Stochastic link state -/

theorem key_equiv (a b : StochasticKey) :
    (!(StochasticKey.lt a b) && !(StochasticKey.lt b a)) = true ↔ a = b := by
  obtain ⟨a1, a2⟩ := a
  obtain ⟨b1, b2⟩ := b
  simp only [StochasticKey.lt, Bool.and_eq_true, Bool.not_eq_true', StochasticKey.mk.injEq]
  constructor
  · rintro ⟨h1, h2⟩
    by_cases h : a1 = b1
    · rw [if_pos h] at h1
      rw [if_pos h.symm] at h2
      simp only [decide_eq_false_iff_not, not_lt] at h1 h2
      exact ⟨h, le_antisymm h2 h1⟩
    · rw [if_neg h] at h1
      rw [if_neg (fun hc => h hc.symm)] at h2
      simp only [decide_eq_false_iff_not, not_lt] at h1 h2
      exact absurd (le_antisymm h2 h1) h
  · rintro ⟨h1, h2⟩
    subst h1
    subst h2
    simp

theorem omFind_omAssign_same {κ β : Type} (lt : κ → κ → Bool) (k : κ) (v : β)
    (m : List (κ × β)) (h : (omFind lt k m).isSome = true) :
    omFind lt k (omAssign lt k v m) = some v := by
  induction m with
  | nil => simp [omFind] at h
  | cons x rest ih =>
    obtain ⟨k1, v1⟩ := x
    unfold omFind at h
    unfold omAssign
    by_cases hk : (!(lt k k1) && !(lt k1 k)) = true
    · rw [if_pos hk]
      unfold omFind
      rw [if_pos hk]
    · rw [if_neg hk] at h
      rw [if_neg hk]
      unfold omFind
      rw [if_neg hk]
      exact ih h

theorem omAssign_idem {κ β : Type} (lt : κ → κ → Bool) (k : κ) (v : β) (m : List (κ × β)) :
    omAssign lt k v (omAssign lt k v m) = omAssign lt k v m := by
  induction m with
  | nil => rfl
  | cons x rest ih =>
    obtain ⟨k1, v1⟩ := x
    by_cases hk : (!(lt k k1) && !(lt k1 k)) = true
    · simp only [omAssign, hk, if_true]
    · simp only [omAssign, hk, if_false, Bool.false_eq_true]
      rw [ih]

theorem omFind_omAssign_ne (k k2 : StochasticKey) (v : StochasticLink)
    (m : List (StochasticKey × StochasticLink)) (hne : k2 ≠ k) :
    omFind StochasticKey.lt k2 (omAssign StochasticKey.lt k v m)
      = omFind StochasticKey.lt k2 m := by
  induction m with
  | nil => rfl
  | cons x rest ih =>
    obtain ⟨k1, v1⟩ := x
    by_cases hk : (!(StochasticKey.lt k k1) && !(StochasticKey.lt k1 k)) = true
    · have hkk : k = k1 := (key_equiv k k1).mp hk
      have hk2 : ¬ (!(StochasticKey.lt k2 k1) && !(StochasticKey.lt k1 k2)) = true := by
        intro hc
        exact hne (((key_equiv k2 k1).mp hc).trans hkk.symm)
      simp only [omAssign, hk, if_true, omFind, hk2, if_false, Bool.false_eq_true]
    · by_cases hk2 : (!(StochasticKey.lt k2 k1) && !(StochasticKey.lt k1 k2)) = true
      · simp only [omAssign, hk, if_false, Bool.false_eq_true, omFind, hk2, if_true]
      · simp only [omAssign, hk, if_false, Bool.false_eq_true, omFind, hk2]
        exact ih

/-- The replay loop does nothing when the end time is not before now. -/
theorem replayLoop_done (env : Env) (currTime : Time) (fuel : Nat) (endTime : Time)
    (tempState : Bool) (up down : Nat) (h : ¬ endTime < currTime) :
    replayLoop env currTime fuel endTime tempState up down
      = Except.ok (endTime, tempState, up, down) := by
  cases fuel with
  | zero =>
    unfold replayLoop
    rw [if_neg h]
  | succ n =>
    unfold replayLoop
    rw [if_neg h]

/-- On exit of the replay loop the end time is not before now. -/
theorem replayLoop_post (env : Env) (currTime : Time) (fuel : Nat) :
    ∀ (endTime : Time) (tempState : Bool) (up down : Nat) (e : Time) (s : Bool) (u d : Nat),
      replayLoop env currTime fuel endTime tempState up down = Except.ok (e, s, u, d) →
      currTime ≤ e := by
  induction fuel with
  | zero =>
    intro endTime tempState up down e s u d h
    unfold replayLoop at h
    by_cases hlt : endTime < currTime
    · rw [if_pos hlt] at h
      cases h
    · rw [if_neg hlt] at h
      injection h with h
      injection h with h1 h2
      rw [← h1]
      exact not_lt.mp hlt
  | succ n ih =>
    intro endTime tempState up down e s u d h
    unfold replayLoop at h
    by_cases hlt : endTime < currTime
    · rw [if_pos hlt] at h
      by_cases hs : (!tempState) = true
      · rw [if_pos hs] at h
        exact ih _ _ _ _ e s u d h
      · rw [if_neg hs] at h
        exact ih _ _ _ _ e s u d h
    · rw [if_neg hlt] at h
      injection h with h
      injection h with h1 h2
      rw [← h1]
      exact not_lt.mp hlt

/-- The replay loop has no assertion: its only fault is the iteration bound. -/
theorem replayLoop_not_assert (env : Env) (currTime : Time) (fuel : Nat) :
    ∀ (endTime : Time) (tempState : Bool) (up down : Nat),
      replayLoop env currTime fuel endTime tempState up down
        = Except.error Fault.assertFailed → False := by
  induction fuel with
  | zero =>
    intro endTime tempState up down h
    unfold replayLoop at h
    split at h
    · injection h with h
      cases h
    · cases h
  | succ n ih =>
    intro endTime tempState up down h
    unfold replayLoop at h
    split at h
    · split at h
      · exact ih _ _ _ _ h
      · exact ih _ _ _ _ h
    · cases h

/-- `CheckStochasticError` on a link that has not expired. -/
theorem CheckStochasticError_fresh (env : Env) (fuel : Nat) (c : Channel) (srcId dstId : Nat)
    (link : StochasticLink) (hm : c.m_ErrorModel = ErrorModelType.STOCHASTIC)
    (hf : omFind StochasticKey.lt (linkKey srcId dstId) c.m_StochasticLinks = some link)
    (hexp : env.now < link.stateExpireTime) :
    CheckStochasticError env fuel c srcId dstId = Except.ok (c, !link.linkState) := by
  unfold CheckStochasticError
  rw [if_pos hm]
  dsimp only
  rw [hf]
  dsimp only
  rw [if_neg (not_le.mpr hexp)]

/-- `CheckStochasticError` on a link whose state ends exactly now. -/
theorem CheckStochasticError_at_expiry (env : Env) (fuel : Nat) (c : Channel) (srcId dstId : Nat)
    (link : StochasticLink) (hm : c.m_ErrorModel = ErrorModelType.STOCHASTIC)
    (hf : omFind StochasticKey.lt (linkKey srcId dstId) c.m_StochasticLinks = some link)
    (hexp : env.now = link.stateExpireTime) :
    CheckStochasticError env fuel c srcId dstId =
      Except.ok ({ c with
          m_StochasticLinks :=
            omAssign StochasticKey.lt (linkKey srcId dstId) link c.m_StochasticLinks },
        !link.linkState) := by
  unfold CheckStochasticError
  rw [if_pos hm]
  dsimp only
  rw [hf]
  dsimp only
  rw [if_pos (ge_of_eq hexp),
    replayLoop_done env env.now fuel link.stateExpireTime link.linkState c.upPos c.downPos
      (not_lt.mpr (le_of_eq hexp))]

/-- C7: `CheckStochasticError` is idempotent at a fixed simulated time.  For
every channel state (any link state and expiry), time and pair: when a call
returns, a second call for the same pair at the same time returns the same
verdict and leaves the whole channel, the link table and the positions in the
duration streams included, as the first call left it; the second call needs
no iteration of the replay loop (any fuel, even 0, suffices). -/
theorem CheckStochasticError_idempotent (env : Env) (fuel fuel2 : Nat) (c c1 : Channel)
    (srcId dstId : Nat) (v : Bool)
    (h : CheckStochasticError env fuel c srcId dstId = Except.ok (c1, v)) :
    CheckStochasticError env fuel2 c1 srcId dstId = Except.ok (c1, v) := by
  by_cases hm : c.m_ErrorModel = ErrorModelType.STOCHASTIC
  · obtain ⟨link, hf, hcase⟩ := CheckStochasticError_inv hm h
    rcases hcase with ⟨hexp, hc, hv⟩ | ⟨_, endTime, tempState, up, down, hr, hc, hv⟩
    · rw [hc, hv]
      exact CheckStochasticError_fresh env fuel2 c srcId dstId link hm hf hexp
    · have hpost := replayLoop_post env env.now fuel _ _ _ _ endTime tempState up down hr
      have hm1 : c1.m_ErrorModel = ErrorModelType.STOCHASTIC := by
        rw [hc]
        exact hm
      have hf1 : omFind StochasticKey.lt (linkKey srcId dstId) c1.m_StochasticLinks
          = some { linkState := tempState, stateExpireTime := endTime } := by
        rw [hc]
        apply omFind_omAssign_same
        rw [hf]
        rfl
      rw [hv]
      rcases lt_or_eq_of_le hpost with hlt | heq
      · exact CheckStochasticError_fresh env fuel2 c1 srcId dstId _ hm1 hf1 hlt
      · rw [CheckStochasticError_at_expiry env fuel2 c1 srcId dstId _ hm1 hf1 heq]
        have hl : omAssign StochasticKey.lt (linkKey srcId dstId)
            { linkState := tempState, stateExpireTime := endTime } c1.m_StochasticLinks
            = c1.m_StochasticLinks := by
          rw [hc]
          exact omAssign_idem _ _ _ _
        rw [hl]
  · rw [CheckStochasticError_other hm] at h
    injection h with h
    injection h with h1 h2
    rw [← h1, ← h2]
    exact CheckStochasticError_other hm

/-- C7 on a link that is ON until 1000 ns and read at 3500 ns: the first call
replays three durations and returns "do not send"; the second call returns
the same verdict and the same channel. -/
theorem CheckStochasticError_idempotent_witness :
    CheckStochasticError lateEnv 10 stochChannel 0 1 = Except.ok (stochChannelRead, true) ∧
    CheckStochasticError lateEnv 0 stochChannelRead 0 1 = Except.ok (stochChannelRead, true) :=
  ⟨by with_unfolding_all rfl,
   CheckStochasticError_idempotent lateEnv 10 0 stochChannel stochChannelRead 0 1 true
     (by with_unfolding_all rfl)⟩

/-! ## Non-stochastic models -/

/-- C9: under CONSTANT and PER_CURVE, `InitStochasticModel` returns the
channel unchanged (no link entry, no draw), and `CheckStochasticError` returns
"allow" (false) for every pair and leaves the channel unchanged, whatever the
link table holds. -/
theorem stochastic_functions_noop (env : Env) (fuel : Nat) (c : Channel) (srcId dstId : Nat)
    (hm : c.m_ErrorModel = ErrorModelType.CONSTANT ∨ c.m_ErrorModel = ErrorModelType.PER_CURVE) :
    InitStochasticModel env c = c ∧
    CheckStochasticError env fuel c srcId dstId = Except.ok (c, false) := by
  have hns : c.m_ErrorModel ≠ ErrorModelType.STOCHASTIC := by
    rcases hm with h | h <;>
    · rw [h]
      decide
  refine ⟨?_, CheckStochasticError_other hns⟩
  unfold InitStochasticModel
  rw [if_neg hns]

/-- C9 on the constant-rate channel of the line scenario and on the PER curve
channel. -/
theorem stochastic_functions_noop_witness :
    (InitStochasticModel lineEnv lineChannel = lineChannel ∧
      CheckStochasticError lineEnv 0 lineChannel 0 1 = Except.ok (lineChannel, false)) ∧
    (InitStochasticModel lineEnv curveChannel = curveChannel ∧
      CheckStochasticError lineEnv 0 curveChannel 0 1 = Except.ok (curveChannel, false)) :=
  ⟨stochastic_functions_noop lineEnv 0 lineChannel 0 1 (Or.inl (by with_unfolding_all rfl)),
   stochastic_functions_noop lineEnv 0 curveChannel 0 1 (Or.inr curveChannel_model)⟩

/-! ## Neighbor count under fixed contention -/

theorem packetInError_links {env : Env} {c c2 : Channel} {distance : ℚ} {w : Bool}
    (h : packetInError env c distance = Except.ok (c2, w)) :
    c2.m_StochasticLinks = c.m_StochasticLinks := by
  rcases packetInError_state h with h1 | h1 <;> rw [h1]

/-- After a lookup the link is stored with an expiry not before now, and the
verdict is the negation of the stored state. -/
theorem CheckStochasticError_settles {env : Env} {fuel : Nat} {c c1 : Channel}
    {srcId dstId : Nat} {v : Bool} (hm : c.m_ErrorModel = ErrorModelType.STOCHASTIC)
    (h : CheckStochasticError env fuel c srcId dstId = Except.ok (c1, v)) :
    ∃ l, omFind StochasticKey.lt (linkKey srcId dstId) c1.m_StochasticLinks = some l ∧
      env.now ≤ l.stateExpireTime ∧ v = !l.linkState := by
  obtain ⟨link, hf, hcase⟩ := CheckStochasticError_inv hm h
  rcases hcase with ⟨hexp, hc, hv⟩ | ⟨_, endTime, tempState, up, down, hr, hc, hv⟩
  · rw [hc]
    exact ⟨link, hf, le_of_lt hexp, hv⟩
  · refine ⟨{ linkState := tempState, stateExpireTime := endTime }, ?_, ?_, hv⟩
    · rw [hc]
      apply omFind_omAssign_same
      rw [hf]
      rfl
    · exact replayLoop_post env env.now fuel _ _ _ _ endTime tempState up down hr

/-- A lookup leaves every stored link whose expiry is not before now as it is. -/
theorem CheckStochasticError_keeps {env : Env} {fuel : Nat} {c c1 : Channel}
    {srcId dstId : Nat} {v : Bool} (k : StochasticKey) (l : StochasticLink)
    (hk : omFind StochasticKey.lt k c.m_StochasticLinks = some l)
    (hl : env.now ≤ l.stateExpireTime)
    (h : CheckStochasticError env fuel c srcId dstId = Except.ok (c1, v)) :
    omFind StochasticKey.lt k c1.m_StochasticLinks = some l := by
  by_cases hm : c.m_ErrorModel = ErrorModelType.STOCHASTIC
  · obtain ⟨link, hf, hcase⟩ := CheckStochasticError_inv hm h
    rcases hcase with ⟨_, hc, _⟩ | ⟨hexp, endTime, tempState, up, down, hr, hc, _⟩
    · rw [hc]
      exact hk
    · rw [hc]
      by_cases hkey : k = linkKey srcId dstId
      · rw [hkey] at hk
        rw [hk] at hf
        injection hf with hf
        rw [← hf] at hexp hr
        rw [replayLoop_done env env.now fuel l.stateExpireTime l.linkState c.upPos c.downPos
          (not_lt.mpr hl)] at hr
        injection hr with hr
        injection hr with h1 h2
        injection h2 with h2 h3
        rw [hkey, ← h1, ← h2]
        apply omFind_omAssign_same
        rw [hk]
        rfl
      · show omFind StochasticKey.lt k (omAssign StochasticKey.lt (linkKey srcId dstId) _
          c.m_StochasticLinks) = some l
        rw [omFind_omAssign_ne _ _ _ _ hkey]
        exact hk
  · rw [CheckStochasticError_other hm] at h
    injection h with h
    injection h with h1 h2
    rw [← h1]
    exact hk

theorem sendBody_keeps {P : Type} {env : Env} {fuel : Nat} {p : P} {protocol : Nat}
    {toAddr fromAddr : Mac48Address} {sender : Device} {txTime : Time} {destId : Nat}
    {s s1 : SendState} {tmp : Device} {evs : List (Event P)}
    (k : StochasticKey) (l : StochasticLink)
    (hk : omFind StochasticKey.lt k s.ch.m_StochasticLinks = some l)
    (hl : env.now ≤ l.stateExpireTime)
    (h : sendBody env fuel p protocol toAddr fromAddr sender txTime destId s tmp
      = Except.ok (s1, evs)) :
    omFind StochasticKey.lt k s1.ch.m_StochasticLinks = some l := by
  by_cases hr : reaches sender destId tmp
  · obtain ⟨c1, v, hc, hcase⟩ := sendBody_inv hr h
    have hk1 := CheckStochasticError_keeps k l hk hl hc
    rcases hcase with ⟨_, hs, _⟩ | ⟨_, _, _, ⟨_, hs, _⟩ | ⟨_, c2, w, hp, hs, _⟩⟩
    · rw [hs]
      exact hk1
    · rw [hs]
      exact hk1
    · rw [hs]
      show omFind StochasticKey.lt k c2.m_StochasticLinks = some l
      rw [packetInError_links hp]
      exact hk1
  · rw [sendBody_skip hr] at h
    injection h with h
    injection h with h1 h2
    rw [← h1]
    exact hk

theorem sendLoop_keeps {P : Type} {env : Env} {fuel : Nat} {p : P} {protocol : Nat}
    {toAddr fromAddr : Mac48Address} {sender : Device} {txTime : Time} {destId : Nat}
    (k : StochasticKey) (l : StochasticLink) (hl : env.now ≤ l.stateExpireTime)
    (devs : List Device) :
    ∀ {s s2 : SendState} {evs : List (Event P)},
      omFind StochasticKey.lt k s.ch.m_StochasticLinks = some l →
      sendLoop env fuel p protocol toAddr fromAddr sender txTime destId devs s
        = Except.ok (s2, evs) →
      omFind StochasticKey.lt k s2.ch.m_StochasticLinks = some l := by
  induction devs with
  | nil =>
    intro s s2 evs hk h
    unfold sendLoop at h
    injection h with h
    injection h with h1 h2
    rw [← h1]
    exact hk
  | cons tmp rest ih =>
    intro s s2 evs hk h
    obtain ⟨s1, e1, e2, hb, hloop, _⟩ := sendLoop_cons_inv h
    exact ih (sendBody_keeps k l hk hl hb) hloop

theorem linkAllows_congr {c c1 : Channel} (hm : c1.m_ErrorModel = c.m_ErrorModel)
    (hl : c1.m_StochasticLinks = c.m_StochasticLinks) (srcId dstId : Nat) :
    linkAllows c1 srcId dstId = linkAllows c srcId dstId := by
  unfold linkAllows
  rw [hm, hl]

/-- The verdict of a lookup is what `linkAllows` reads in the state the lookup
leaves. -/
theorem CheckStochasticError_linkAllows {env : Env} {fuel : Nat} {c c1 : Channel}
    {srcId dstId : Nat} {v : Bool}
    (h : CheckStochasticError env fuel c srcId dstId = Except.ok (c1, v)) :
    linkAllows c1 srcId dstId = !v := by
  have hcfg := CheckStochasticError_config h
  by_cases hm : c.m_ErrorModel = ErrorModelType.STOCHASTIC
  · obtain ⟨l, hf, _, hv⟩ := CheckStochasticError_settles hm h
    unfold linkAllows
    rw [if_pos (hcfg.2.2.2.1.trans hm), hf, hv]
    simp
  · have hm1 : ¬ c1.m_ErrorModel = ErrorModelType.STOCHASTIC := by
      rw [hcfg.2.2.2.1]
      exact hm
    rw [CheckStochasticError_other hm] at h
    injection h with h
    injection h with h1 h2
    unfold linkAllows
    rw [if_neg hm1, ← h2]
    rfl

/-- One iteration of the loop of `Send` with contention enabled: the count is
incremented exactly when the candidate contends, and the link that was looked
up is stored with an expiry not before now. -/
theorem sendBody_count {P : Type} {env : Env} {fuel : Nat} {p : P} {protocol : Nat}
    {toAddr fromAddr : Mac48Address} {sender : Device} {txTime : Time} {destId : Nat}
    {s s1 : SendState} {tmp : Device} {evs : List (Event P)}
    (hen : s.ch.m_fixedContentionEnabled = true)
    (h : sendBody env fuel p protocol toAddr fromAddr sender txTime destId s tmp
      = Except.ok (s1, evs)) :
    s1.nbrCount =
        (if contends env s1.ch sender destId tmp = true then IncrementNbrCount s.nbrCount
         else s.nbrCount) ∧
    (reaches sender destId tmp → s1.ch.m_ErrorModel = ErrorModelType.STOCHASTIC →
      ∃ l, omFind StochasticKey.lt (linkKey sender.nodeId tmp.nodeId) s1.ch.m_StochasticLinks
          = some l ∧ env.now ≤ l.stateExpireTime) := by
  by_cases hr : reaches sender destId tmp
  · obtain ⟨c1, v, hc, hcase⟩ := sendBody_inv hr h
    have hcfg := CheckStochasticError_config hc
    have hallow := CheckStochasticError_linkAllows hc
    have hset : c1.m_ErrorModel = ErrorModelType.STOCHASTIC →
        ∃ l, omFind StochasticKey.lt (linkKey sender.nodeId tmp.nodeId) c1.m_StochasticLinks
          = some l ∧ env.now ≤ l.stateExpireTime := by
      intro hm1
      obtain ⟨l, hf, hle, _⟩ := CheckStochasticError_settles (hcfg.2.2.2.1.symm.trans hm1) hc
      exact ⟨l, hf, hle⟩
    have hen1 : c1.m_fixedContentionEnabled = true := hcfg.2.2.2.2.2.1.trans hen
    rcases hcase with ⟨hv, hs, _⟩ | ⟨hv, _, _, ⟨_, hs, _⟩ | ⟨_, c2, w, hp, hs, _⟩⟩
    · rw [hs]
      refine ⟨?_, fun _ hm1 => hset hm1⟩
      have : contends env c1 sender destId tmp = false := by
        unfold contends
        rw [hallow, hv]
        simp
      show s.nbrCount = if contends env c1 sender destId tmp = true then _ else _
      rw [this]
      simp
    · rw [hs]
      refine ⟨?_, fun _ hm1 => hset hm1⟩
      show pegged env c1 sender tmp s.nbrCount
        = if contends env c1 sender destId tmp = true then _ else _
      unfold pegged contends
      rw [hallow, hv]
      simp [hr, hen1]
    · rw [hs]
      have hcfg2 := packetInError_config hp
      have hl2 := packetInError_links hp
      refine ⟨?_, ?_⟩
      · show pegged env c1 sender tmp s.nbrCount
          = if contends env c2 sender destId tmp = true then _ else _
        unfold pegged contends
        rw [linkAllows_congr hcfg2.2.2.2.1 hl2, hallow, hv, hcfg2.2.2.2.2.2.2]
        simp [hr, hen1]
      · intro _ hm2
        show ∃ l, omFind StochasticKey.lt (linkKey sender.nodeId tmp.nodeId)
          c2.m_StochasticLinks = some l ∧ env.now ≤ l.stateExpireTime
        rw [hl2]
        exact hset (hcfg2.2.2.2.1.symm.trans hm2)
  · rw [sendBody_skip hr] at h
    injection h with h
    injection h with h1 h2
    rw [← h1]
    refine ⟨?_, fun hc => absurd hc hr⟩
    have : contends env s.ch sender destId tmp = false := by
      unfold contends
      simp [hr]
    rw [this]
    simp

theorem sendLoop_count {P : Type} {env : Env} {fuel : Nat} {p : P} {protocol : Nat}
    {toAddr fromAddr : Mac48Address} {sender : Device} {txTime : Time} {destId : Nat}
    (devs : List Device) :
    ∀ {s s2 : SendState} {evs : List (Event P)},
      s.ch.m_fixedContentionEnabled = true →
      sendLoop env fuel p protocol toAddr fromAddr sender txTime destId devs s
        = Except.ok (s2, evs) →
      s2.nbrCount =
        IncrementNbrCount^[(devs.filter (contends env s2.ch sender destId)).length]
          s.nbrCount := by
  induction devs with
  | nil =>
    intro s s2 evs _ h
    unfold sendLoop at h
    injection h with h
    injection h with h1 h2
    rw [← h1]
    rfl
  | cons tmp rest ih =>
    intro s s2 evs hen h
    obtain ⟨s1, e1, e2, hb, hloop, _⟩ := sendLoop_cons_inv h
    have hcfg1 := sendBody_config hb
    have hcfg2 := sendLoop_config rest hloop
    have hen1 : s1.ch.m_fixedContentionEnabled = true := hcfg1.2.2.2.2.2.1.trans hen
    obtain ⟨hcnt, hset⟩ := sendBody_count hen hb
    have hrest := ih hen1 hloop
    have hsame : contends env s2.ch sender destId tmp = contends env s1.ch sender destId tmp := by
      unfold contends
      rw [hcfg2.2.2.2.2.2.2]
      by_cases hr : reaches sender destId tmp
      · have hla : linkAllows s2.ch sender.nodeId tmp.nodeId
            = linkAllows s1.ch sender.nodeId tmp.nodeId := by
          unfold linkAllows
          rw [hcfg2.2.2.2.1]
          by_cases hm : s1.ch.m_ErrorModel = ErrorModelType.STOCHASTIC
          · obtain ⟨l, hf, hle⟩ := hset hr hm
            rw [if_pos hm, if_pos hm, hf, sendLoop_keeps _ l hle rest hf hloop]
          · rw [if_neg hm, if_neg hm]
        rw [hla]
      · simp [hr]
    rw [hrest, hcnt, List.filter_cons, hsame]
    by_cases hct : contends env s1.ch sender destId tmp = true
    · rw [if_pos hct, if_pos hct, List.length_cons, Function.iterate_succ_apply]
    · rw [if_neg hct, if_neg hct]

theorem iterate_IncrementNbrCount (k : Nat) (hk : k < 2147483647) :
    IncrementNbrCount^[k] 1 = 1 + (k : Int) := by
  induction k with
  | zero => rfl
  | succ n ih =>
    rw [Function.iterate_succ_apply', ih (by omega)]
    unfold IncrementNbrCount wrapInt32
    push_cast
    omega

/-- C10, amended: with fixed contention enabled (and fewer than 2^31 - 1
attached devices, so that the `int` counter does not overflow), when `Send`
returns the sender's neighbor count is 1 plus the number of attached devices
that are not the sender, are admitted by the destination hint, whose link is
not down, and whose distance is strictly less than the contention range, which
is the configured one, or the max range when none (0) was configured: a
candidate at distance exactly the contention range is not counted.  Neither
the range test nor the error model enters the count: a candidate is counted
whether or not it is then skipped for being beyond max range or in error. -/
theorem Send_neighbor_count {P : Type} (env : Env) (fuel : Nat) (c : Channel) (p : P)
    (protocol : Nat) (toAddr fromAddr : Mac48Address) (sender : Device) (nbrCount : Int)
    (txTime : Time) (destId : Nat) (st : SendState) (evs : List (Event P))
    (hen : c.m_fixedContentionEnabled = true)
    (hlen : c.m_devices.length < 2147483647)
    (h : Send env fuel c p protocol toAddr fromAddr sender nbrCount txTime destId
      = Except.ok (st, evs)) :
    st.nbrCount = 1 + ((c.m_devices.filter (contends env st.ch sender destId)).length : Int) ∧
    st.ch.m_fixedContentionRange =
      (if c.m_fixedContentionRange = 0 then c.m_range else c.m_fixedContentionRange) := by
  rw [Send_eq] at h
  have hinit : sendInit c nbrCount =
      { ch := if c.m_fixedContentionRange = 0 then { c with m_fixedContentionRange := c.m_range }
              else c
        nbrCount := 1 } := by
    unfold sendInit ClearNbrCount
    rw [if_pos hen]
  have hen0 : (sendInit c nbrCount).ch.m_fixedContentionEnabled = true := by
    rw [hinit]
    dsimp only
    split <;> exact hen
  have hcr0 : (sendInit c nbrCount).ch.m_fixedContentionRange =
      (if c.m_fixedContentionRange = 0 then c.m_range else c.m_fixedContentionRange) := by
    rw [hinit]
    dsimp only
    split <;> rfl
  have hcnt := sendLoop_count c.m_devices hen0 h
  have hcfg := sendLoop_config c.m_devices h
  refine ⟨?_, hcfg.2.2.2.2.2.2.trans hcr0⟩
  rw [hcnt, hinit]
  apply iterate_IncrementNbrCount
  exact lt_of_le_of_lt (List.length_filter_le _ _) hlen

/-- C10, amended, on the line scenario with contention range 200 and max range 100:
node 1 (at 50) and node 2 (at 150) are both counted, so the count is 3, while
only node 1 gets an arrival, node 2 being beyond the max range. -/
theorem Send_neighbor_count_witness :
    Send lineEnv 0 contentionChannel () 2048 1 2 dev0 0 8000000 NO_DIRECTIONAL_NBR
      = Except.ok (contentionAfter, [arrival lineEnv () 2048 1 2 dev0 8000000 dev1]) ∧
    contentionAfter.nbrCount = 3 ∧
    (contentionAfter.nbrCount =
      1 + ((contentionChannel.m_devices.filter
        (contends lineEnv contentionAfter.ch dev0 NO_DIRECTIONAL_NBR)).length : Int) ∧
     contentionAfter.ch.m_fixedContentionRange =
      (if contentionChannel.m_fixedContentionRange = 0 then contentionChannel.m_range
       else contentionChannel.m_fixedContentionRange)) :=
  ⟨by with_unfolding_all rfl, Eq.refl _,
   Send_neighbor_count lineEnv 0 contentionChannel () 2048 1 2 dev0 0 8000000
     NO_DIRECTIONAL_NBR contentionAfter [arrival lineEnv () 2048 1 2 dev0 8000000 dev1]
     (by with_unfolding_all rfl)
     (of_decide_eq_true (by with_unfolding_all rfl))
     (by with_unfolding_all rfl)⟩

/-! ## The link table built by `InitStochasticModel` -/

/-- C8 at two devices of one node: `dev0` and `dev0b` are distinct attached
interfaces of node 0 on a stochastic channel; after `InitStochasticModel` the
link table has no entry for the pair (0, 0), the lookup of
`CheckStochasticError` fails its assertion, and so does `Send` from `dev0`. -/
theorem InitStochasticModel_same_node_pair :
    dev0 ≠ dev0b ∧ dev0 ∈ sameNodeChannel.m_devices ∧ dev0b ∈ sameNodeChannel.m_devices ∧
    sameNodeChannel.m_ErrorModel = ErrorModelType.STOCHASTIC ∧
    omFind StochasticKey.lt (linkKey dev0.nodeId dev0b.nodeId) sameNodeChannel.m_StochasticLinks
      = none ∧
    CheckStochasticError lineEnv 10 sameNodeChannel dev0.nodeId dev0b.nodeId
      = Except.error Fault.assertFailed ∧
    Send lineEnv 10 sameNodeChannel () 2048 1 2 dev0 0 8000000 NO_DIRECTIONAL_NBR
      = Except.error Fault.assertFailed := by
  refine ⟨by decide, ?_, ?_, ?_, ?_, ?_, ?_⟩
  · exact of_decide_eq_true (by with_unfolding_all rfl)
  · exact of_decide_eq_true (by with_unfolding_all rfl)
  · with_unfolding_all rfl
  · with_unfolding_all rfl
  · with_unfolding_all rfl
  · with_unfolding_all rfl

theorem toInt32_inj (a b : Nat) (ha : a < 4294967296) (hb : b < 4294967296)
    (h : toInt32 a = toInt32 b) : a = b := by
  unfold toInt32 at h
  rw [Nat.mod_eq_of_lt ha, Nat.mod_eq_of_lt hb] at h
  split at h <;> split at h <;> omega

theorem omFind_omPlace_key (k k2 : StochasticKey) (v : StochasticLink)
    (m : List (StochasticKey × StochasticLink))
    (hk : omFind StochasticKey.lt k m = none) :
    omFind StochasticKey.lt k2 (omPlace StochasticKey.lt k v m)
      = if k2 = k then some v else omFind StochasticKey.lt k2 m := by
  induction m with
  | nil =>
    by_cases h : k2 = k
    · rw [if_pos h]
      simp only [omPlace, omFind]
      rw [if_pos ((key_equiv k2 k).mpr h)]
    · rw [if_neg h]
      simp only [omPlace, omFind]
      rw [if_neg (fun hc => h ((key_equiv k2 k).mp hc))]
  | cons x rest ih =>
    obtain ⟨k1, v1⟩ := x
    unfold omFind at hk
    by_cases hkk : (!(StochasticKey.lt k k1) && !(StochasticKey.lt k1 k)) = true
    · rw [if_pos hkk] at hk
      cases hk
    · rw [if_neg hkk] at hk
      have hne : k ≠ k1 := fun hc => hkk ((key_equiv k k1).mpr hc)
      unfold omPlace
      by_cases hlt : StochasticKey.lt k k1 = true
      · rw [if_pos hlt]
        by_cases h : k2 = k
        · rw [if_pos h]
          unfold omFind
          rw [if_pos ((key_equiv k2 k).mpr h)]
        · rw [if_neg h]
          conv_lhs => unfold omFind
          rw [if_neg (fun hc => h ((key_equiv k2 k).mp hc))]
      · rw [if_neg hlt]
        by_cases h1 : (!(StochasticKey.lt k2 k1) && !(StochasticKey.lt k1 k2)) = true
        · have h2 : k2 ≠ k := fun hc => hne (hc.symm.trans ((key_equiv k2 k1).mp h1))
          rw [if_neg h2]
          unfold omFind
          rw [if_pos h1, if_pos h1]
        · unfold omFind
          rw [if_neg h1, if_neg h1]
          exact ih hk

/-- What `find` returns after `insert`. -/
theorem omFind_omInsert_key (k k2 : StochasticKey) (v : StochasticLink)
    (m : List (StochasticKey × StochasticLink)) :
    omFind StochasticKey.lt k2 (omInsert StochasticKey.lt k v m)
      = match omFind StochasticKey.lt k2 m with
        | some l => some l
        | none => if k2 = k then some v else none := by
  unfold omInsert
  cases hk : omFind StochasticKey.lt k m with
  | some x =>
    dsimp only
    cases hk2 : omFind StochasticKey.lt k2 m with
    | some l => rfl
    | none =>
      dsimp only
      have : k2 ≠ k := by
        intro hc
        rw [hc, hk] at hk2
        cases hk2
      rw [if_neg this]
  | none =>
    dsimp only
    rw [omFind_omPlace_key k k2 v m hk]
    by_cases h : k2 = k
    · rw [if_pos h, h, hk]
      dsimp only
      rw [if_pos (Eq.refl _)]
    · rw [if_neg h]
      cases hk2 : omFind StochasticKey.lt k2 m with
      | some l => rfl
      | none =>
        dsimp only
        rw [if_neg h]

/-- The inner loop keeps the stored links, adds only links that are ON, and
leaves an entry for every destination whose node id differs from the source. -/
theorem initInner_links (env : Env) (src : Int) (js : List Device) :
    ∀ c : Channel,
      (∀ k l, omFind StochasticKey.lt k c.m_StochasticLinks = some l →
        omFind StochasticKey.lt k (initInner env src js c).m_StochasticLinks = some l) ∧
      (∀ k l, omFind StochasticKey.lt k (initInner env src js c).m_StochasticLinks = some l →
        omFind StochasticKey.lt k c.m_StochasticLinks = some l ∨ l.linkState = true) ∧
      (∀ j ∈ js, src ≠ toInt32 j.nodeId →
        ∃ l, omFind StochasticKey.lt (StochasticKey.mk src (toInt32 j.nodeId))
          (initInner env src js c).m_StochasticLinks = some l) := by
  induction js with
  | nil =>
    intro c
    refine ⟨fun k l h => h, fun k l h => Or.inl h, ?_⟩
    intro j hj
    cases hj
  | cons j0 js ih =>
    intro c
    by_cases hsd : src = toInt32 j0.nodeId
    · have hstep : initInner env src (j0 :: js) c = initInner env src js c := by
        conv_lhs => unfold initInner
        dsimp only
        rw [if_pos hsd]
      rw [hstep]
      obtain ⟨h1, h2, h3⟩ := ih c
      refine ⟨h1, h2, ?_⟩
      intro j hj hne
      rcases List.mem_cons.mp hj with hj | hj
      · rw [hj] at hne
        exact absurd hsd hne
      · exact h3 j hj hne
    · have hstep : initInner env src (j0 :: js) c = initInner env src js
          { c with
            m_StochasticLinks :=
              omInsert StochasticKey.lt (StochasticKey.mk src (toInt32 j0.nodeId))
                { linkState := true
                  stateExpireTime := env.now + MicroSeconds (env.randomUp c.upPos) }
                c.m_StochasticLinks
            upPos := c.upPos + 1 } := by
        conv_lhs => unfold initInner
        dsimp only
        rw [if_neg hsd]
      rw [hstep]
      obtain ⟨h1, h2, h3⟩ := ih
        { c with
          m_StochasticLinks :=
            omInsert StochasticKey.lt (StochasticKey.mk src (toInt32 j0.nodeId))
              { linkState := true
                stateExpireTime := env.now + MicroSeconds (env.randomUp c.upPos) }
              c.m_StochasticLinks
          upPos := c.upPos + 1 }
      refine ⟨?_, ?_, ?_⟩
      · intro k l hk
        apply h1
        show omFind StochasticKey.lt k (omInsert StochasticKey.lt _ _ c.m_StochasticLinks) = _
        rw [omFind_omInsert_key, hk]
      · intro k l hk
        rcases h2 k l hk with h | h
        · have h' : omFind StochasticKey.lt k
              (omInsert StochasticKey.lt (StochasticKey.mk src (toInt32 j0.nodeId))
                { linkState := true
                  stateExpireTime := env.now + MicroSeconds (env.randomUp c.upPos) }
                c.m_StochasticLinks) = some l := h
          rw [omFind_omInsert_key] at h'
          cases hk0 : omFind StochasticKey.lt k c.m_StochasticLinks with
          | some l0 =>
            rw [hk0] at h'
            exact Or.inl h'
          | none =>
            rw [hk0] at h'
            dsimp only at h'
            split at h'
            · injection h' with h'
              rw [← h']
              exact Or.inr (Eq.refl _)
            · cases h'
        · exact Or.inr h
      · intro j hj hne
        rcases List.mem_cons.mp hj with hj | hj
        · rw [hj]
          have hins : ∃ l, omFind StochasticKey.lt (StochasticKey.mk src (toInt32 j0.nodeId))
              (omInsert StochasticKey.lt (StochasticKey.mk src (toInt32 j0.nodeId))
                { linkState := true
                  stateExpireTime := env.now + MicroSeconds (env.randomUp c.upPos) }
                c.m_StochasticLinks) = some l := by
            rw [omFind_omInsert_key]
            cases omFind StochasticKey.lt (StochasticKey.mk src (toInt32 j0.nodeId))
              c.m_StochasticLinks with
            | some l0 => exact ⟨l0, Eq.refl _⟩
            | none =>
              dsimp only
              rw [if_pos (Eq.refl _)]
              exact ⟨_, Eq.refl _⟩
          obtain ⟨l, hl⟩ := hins
          exact ⟨l, h1 _ l hl⟩
        · exact h3 j hj hne

theorem initOuter_links (env : Env) (all : List Device) (is : List Device) :
    ∀ c : Channel,
      (∀ k l, omFind StochasticKey.lt k c.m_StochasticLinks = some l →
        omFind StochasticKey.lt k (initOuter env all is c).m_StochasticLinks = some l) ∧
      (∀ k l, omFind StochasticKey.lt k (initOuter env all is c).m_StochasticLinks = some l →
        omFind StochasticKey.lt k c.m_StochasticLinks = some l ∨ l.linkState = true) ∧
      (∀ i ∈ is, ∀ j ∈ all, toInt32 i.nodeId ≠ toInt32 j.nodeId →
        ∃ l, omFind StochasticKey.lt (linkKey i.nodeId j.nodeId)
          (initOuter env all is c).m_StochasticLinks = some l) := by
  induction is with
  | nil =>
    intro c
    refine ⟨fun k l h => h, fun k l h => Or.inl h, ?_⟩
    intro i hi
    cases hi
  | cons i0 is ih =>
    intro c
    obtain ⟨a1, a2, a3⟩ := initInner_links env (toInt32 i0.nodeId) all c
    obtain ⟨b1, b2, b3⟩ := ih (initInner env (toInt32 i0.nodeId) all c)
    have hstep : initOuter env all (i0 :: is) c
        = initOuter env all is (initInner env (toInt32 i0.nodeId) all c) := by
      conv_lhs => unfold initOuter
    rw [hstep]
    refine ⟨fun k l h => b1 k l (a1 k l h), ?_, ?_⟩
    · intro k l h
      rcases b2 k l h with h1 | h1
      · exact a2 k l h1
      · exact Or.inr h1
    · intro i hi j hj hne
      rcases List.mem_cons.mp hi with hi | hi
      · rw [hi]
        obtain ⟨l, hl⟩ := a3 j hj (by rw [hi] at hne; exact hne)
        exact ⟨l, b1 _ l hl⟩
      · exact b3 i hi j hj hne

/-- Link table for interfaces of different nodes: after `InitStochasticModel`
on a stochastic channel, every ordered pair of attached interfaces with different node ids
(32-bit values) has an entry under (node id of a, node id of b); the entry is
ON unless the pair had an entry before the call, which `insert` keeps; and the
lookup of `CheckStochasticError` for the pair does not fail its assertion. -/
theorem InitStochasticModel_links (env env2 : Env) (fuel : Nat) (c : Channel) (a b : Device)
    (hm : c.m_ErrorModel = ErrorModelType.STOCHASTIC)
    (ha : a ∈ c.m_devices) (hb : b ∈ c.m_devices)
    (ha32 : a.nodeId < 4294967296) (hb32 : b.nodeId < 4294967296)
    (hne : a.nodeId ≠ b.nodeId) :
    ∃ l, omFind StochasticKey.lt (linkKey a.nodeId b.nodeId)
        (InitStochasticModel env c).m_StochasticLinks = some l ∧
      (omFind StochasticKey.lt (linkKey a.nodeId b.nodeId) c.m_StochasticLinks = none →
        l.linkState = true) ∧
      CheckStochasticError env2 fuel (InitStochasticModel env c) a.nodeId b.nodeId
        ≠ Except.error Fault.assertFailed := by
  have hinit : InitStochasticModel env c = initOuter env c.m_devices c.m_devices c := by
    unfold InitStochasticModel
    rw [if_pos hm]
  obtain ⟨_, h2, h3⟩ := initOuter_links env c.m_devices c.m_devices c
  have hne32 : toInt32 a.nodeId ≠ toInt32 b.nodeId :=
    fun hc => hne (toInt32_inj _ _ ha32 hb32 hc)
  obtain ⟨l, hl⟩ := h3 a ha b hb hne32
  rw [hinit]
  refine ⟨l, hl, ?_, ?_⟩
  · intro hnone
    rcases h2 _ l hl with h | h
    · rw [hnone] at h
      cases h
    · exact h
  · unfold CheckStochasticError
    split
    · dsimp only
      rw [hl]
      dsimp only
      split
      · split
        · rename_i f hf
          intro hc
          injection hc with hc
          rw [hc] at hf
          exact replayLoop_not_assert _ _ _ _ _ _ _ hf
        · intro hc
          cases hc
      · intro hc
        cases hc
    · intro hc
      cases hc

/-! ## Default contention range -/

/-- With fixed contention enabled the count `Send` leaves is 1 plus the number
of contending candidates, and the contention range is the configured one or
the max range. -/
theorem Send_count_contends {P : Type} {env : Env} {fuel : Nat} {c : Channel} {p : P}
    {protocol : Nat} {toAddr fromAddr : Mac48Address} {sender : Device} {nbrCount : Int}
    {txTime : Time} {destId : Nat} {st : SendState} {evs : List (Event P)}
    (hen : c.m_fixedContentionEnabled = true)
    (hlen : c.m_devices.length < 2147483647)
    (h : Send env fuel c p protocol toAddr fromAddr sender nbrCount txTime destId
      = Except.ok (st, evs)) :
    st.nbrCount = 1 + ((c.m_devices.filter (contends env st.ch sender destId)).length : Int) ∧
    st.ch.m_fixedContentionRange =
      (if c.m_fixedContentionRange = 0 then c.m_range else c.m_fixedContentionRange) ∧
    st.ch.m_range = c.m_range := by
  rw [Send_eq] at h
  have hinit : sendInit c nbrCount =
      { ch := if c.m_fixedContentionRange = 0 then { c with m_fixedContentionRange := c.m_range }
              else c
        nbrCount := 1 } := by
    unfold sendInit ClearNbrCount
    rw [if_pos hen]
  have hen0 : (sendInit c nbrCount).ch.m_fixedContentionEnabled = true := by
    rw [hinit]
    dsimp only
    split <;> exact hen
  have hcr0 : (sendInit c nbrCount).ch.m_fixedContentionRange =
      (if c.m_fixedContentionRange = 0 then c.m_range else c.m_fixedContentionRange) := by
    rw [hinit]
    dsimp only
    split <;> rfl
  have hr0 : (sendInit c nbrCount).ch.m_range = c.m_range := sendInit_range c nbrCount
  have hcnt := sendLoop_count c.m_devices hen0 h
  have hcfg := sendLoop_config c.m_devices h
  refine ⟨?_, hcfg.2.2.2.2.2.2.trans hcr0, hcfg.2.1.trans hr0⟩
  rw [hcnt, hinit]
  apply iterate_IncrementNbrCount
  exact lt_of_le_of_lt (List.length_filter_le _ _) hlen

/-- C11 as stated fails at a candidate standing exactly at the range: on the
line scenario with max range 100 and no contention range configured, node 1
sends; node 0 (at distance 50) and node 2 (at distance exactly 100) both pass
the range check and get an arrival, but only node 0 is counted, so the count
is 2 and not 1 plus the two candidates that pass the range check. -/
theorem Send_default_contention_boundary :
    Send lineEnv 0 defaultContentionChannel () 2048 1 2 dev1 0 8000000 NO_DIRECTIONAL_NBR
      = Except.ok (defaultContentionAfter,
          [arrival lineEnv () 2048 1 2 dev1 8000000 dev0,
           arrival lineEnv () 2048 1 2 dev1 8000000 dev2]) ∧
    defaultContentionChannel.m_fixedContentionRange = 0 ∧
    defaultContentionAfter.ch.m_fixedContentionRange = defaultContentionChannel.m_range ∧
    lineEnv.distance dev1.nodeId dev2.nodeId = defaultContentionChannel.m_range ∧
    passesRangeCheck lineEnv defaultContentionAfter.ch dev1 NO_DIRECTIONAL_NBR dev2 = true ∧
    (defaultContentionChannel.m_devices.filter
      (passesRangeCheck lineEnv defaultContentionAfter.ch dev1 NO_DIRECTIONAL_NBR)).length = 2 ∧
    defaultContentionAfter.nbrCount = 2 ∧
    ¬ (defaultContentionAfter.nbrCount =
        1 + ((defaultContentionChannel.m_devices.filter
          (passesRangeCheck lineEnv defaultContentionAfter.ch dev1 NO_DIRECTIONAL_NBR)).length
            : Int)) := by
  refine ⟨by with_unfolding_all rfl, by with_unfolding_all rfl, by with_unfolding_all rfl,
    by with_unfolding_all rfl, by with_unfolding_all rfl, by with_unfolding_all rfl,
    Eq.refl _, ?_⟩
  have hlen : (defaultContentionChannel.m_devices.filter
      (passesRangeCheck lineEnv defaultContentionAfter.ch dev1 NO_DIRECTIONAL_NBR)).length = 2 := by
    with_unfolding_all rfl
  rw [hlen]
  show ¬ ((2 : Int) = 1 + ((2 : Nat) : Int))
  omega

/-- C11, amended: with fixed contention enabled and no contention range
configured (0), when `Send` returns the contention range is the max range and
the sender's neighbor count is 1 plus the number of candidates that pass the
directional and stochastic filters and stand at a distance strictly less than
the max range.  A candidate is counted exactly when it passes the range check
and is not at distance exactly equal to the range: every counted candidate
passes the range check, and a candidate exactly at the range passes the range
check without being counted. -/
theorem Send_default_contention_range {P : Type} (env : Env) (fuel : Nat) (c : Channel) (p : P)
    (protocol : Nat) (toAddr fromAddr : Mac48Address) (sender : Device) (nbrCount : Int)
    (txTime : Time) (destId : Nat) (st : SendState) (evs : List (Event P))
    (hen : c.m_fixedContentionEnabled = true)
    (hz : c.m_fixedContentionRange = 0)
    (hlen : c.m_devices.length < 2147483647)
    (h : Send env fuel c p protocol toAddr fromAddr sender nbrCount txTime destId
      = Except.ok (st, evs)) :
    st.ch.m_fixedContentionRange = c.m_range ∧
    st.nbrCount = 1 + ((c.m_devices.filter (contends env st.ch sender destId)).length : Int) ∧
    (∀ d : Device, contends env st.ch sender destId d = true ↔
      (decide (reaches sender destId d) && linkAllows st.ch sender.nodeId d.nodeId) = true ∧
        env.distance sender.nodeId d.nodeId < c.m_range) ∧
    (∀ d : Device, contends env st.ch sender destId d = true ↔
      passesRangeCheck env st.ch sender destId d = true ∧
        env.distance sender.nodeId d.nodeId ≠ c.m_range) := by
  obtain ⟨hcnt, hcr, hrange⟩ := Send_count_contends hen hlen h
  rw [if_pos hz] at hcr
  refine ⟨hcr, hcnt, ?_, ?_⟩
  · intro d
    unfold contends
    rw [hcr, Bool.and_eq_true, decide_eq_true_eq]
  · intro d
    unfold contends passesRangeCheck
    rw [hcr, hrange]
    simp only [Bool.and_eq_true, decide_eq_true_eq]
    constructor
    · rintro ⟨h1, h2⟩
      exact ⟨⟨h1, not_lt.mpr (le_of_lt h2)⟩, ne_of_lt h2⟩
    · rintro ⟨⟨h1, h2⟩, h3⟩
      exact ⟨h1, lt_of_le_of_ne (not_lt.mp h2) h3⟩

/-- C11 amended, on the line scenario: node 1 sends with max range 100 and no
contention range; the contention range becomes 100 and the count is 2, node 0
at distance 50 being the only candidate strictly inside the range. -/
theorem Send_default_contention_range_witness :
    defaultContentionAfter.ch.m_fixedContentionRange = defaultContentionChannel.m_range ∧
    defaultContentionAfter.nbrCount =
      1 + ((defaultContentionChannel.m_devices.filter
        (contends lineEnv defaultContentionAfter.ch dev1 NO_DIRECTIONAL_NBR)).length : Int) ∧
    (∀ d : Device, contends lineEnv defaultContentionAfter.ch dev1 NO_DIRECTIONAL_NBR d = true ↔
      (decide (reaches dev1 NO_DIRECTIONAL_NBR d) &&
          linkAllows defaultContentionAfter.ch dev1.nodeId d.nodeId) = true ∧
        lineEnv.distance dev1.nodeId d.nodeId < defaultContentionChannel.m_range) ∧
    (∀ d : Device, contends lineEnv defaultContentionAfter.ch dev1 NO_DIRECTIONAL_NBR d = true ↔
      passesRangeCheck lineEnv defaultContentionAfter.ch dev1 NO_DIRECTIONAL_NBR d = true ∧
        lineEnv.distance dev1.nodeId d.nodeId ≠ defaultContentionChannel.m_range) :=
  Send_default_contention_range lineEnv 0 defaultContentionChannel () 2048 1 2 dev1 0 8000000
    NO_DIRECTIONAL_NBR defaultContentionAfter
    [arrival lineEnv () 2048 1 2 dev1 8000000 dev0, arrival lineEnv () 2048 1 2 dev1 8000000 dev2]
    (by with_unfolding_all rfl) (by with_unfolding_all rfl)
    (of_decide_eq_true (by with_unfolding_all rfl)) (by with_unfolding_all rfl)

/-! ## Neighbor count operations -/

theorem IncrementNbrCount_exact (n : Int) (hlo : -2147483648 ≤ n) (hhi : n < 2147483647) :
    IncrementNbrCount n = n + 1 := by
  unfold IncrementNbrCount wrapInt32
  omega

theorem applyNbrOps_ge_one (ops : List NbrOp) :
    ∀ n : Int, 1 ≤ n → noOverflow ops n = true → 1 ≤ applyNbrOps ops n := by
  induction ops with
  | nil =>
    intro n hn _
    exact hn
  | cons op rest ih =>
    intro n hn hov
    cases op with
    | clear =>
      exact ih (ClearNbrCount n) (le_refl 1) hov
    | increment =>
      unfold noOverflow at hov
      rw [Bool.and_eq_true, decide_eq_true_eq] at hov
      have hinc := IncrementNbrCount_exact n (by omega) hov.1
      apply ih (IncrementNbrCount n) _ hov.2
      rw [hinc]
      omega

theorem foldl_clear_keeps (devs : List Device) :
    ∀ (f : Nat → Int) (x : Nat), f x = 1 →
      devs.foldl (fun f tmp => Function.update f tmp.ptr (ClearNbrCount (f tmp.ptr))) f x = 1 := by
  induction devs with
  | nil =>
    intro f x hx
    exact hx
  | cons d rest ih =>
    intro f x hx
    rw [List.foldl_cons]
    apply ih
    by_cases hxd : x = d.ptr
    · rw [hxd, Function.update_same]
      rfl
    · rw [Function.update_noteq hxd]
      exact hx

theorem foldl_clear_mem (devs : List Device) :
    ∀ (f : Nat → Int) (d : Device), d ∈ devs →
      devs.foldl (fun f tmp => Function.update f tmp.ptr (ClearNbrCount (f tmp.ptr))) f d.ptr
        = 1 := by
  induction devs with
  | nil =>
    intro f d hd
    cases hd
  | cons e rest ih =>
    intro f d hd
    rw [List.foldl_cons]
    rcases List.mem_cons.mp hd with hde | hde
    · apply foldl_clear_keeps
      rw [hde, Function.update_same]
      rfl
    · exact ih _ d hde

/-- C12: `ClearNbrCount` sets the neighbor count to exactly 1, whatever it was;
`IncrementNbrCount` adds exactly 1 to a count below `INT_MAX`;
`EnableFixedContention` leaves the count of every attached device at 1; and
from a count just cleared, after every sequence of `ClearNbrCount` and
`IncrementNbrCount` operations none of which overflows, the count is at
least 1. -/
theorem NbrCount_at_least_one (n0 : Int) (ops : List NbrOp)
    (hov : noOverflow ops (ClearNbrCount n0) = true) :
    ClearNbrCount n0 = 1 ∧
    (∀ n : Int, -2147483648 ≤ n → n < 2147483647 → IncrementNbrCount n = n + 1) ∧
    (∀ (c : Channel) (nbr : Nat → Int) (d : Device), d ∈ c.m_devices →
      (EnableFixedContention c nbr).2 d.ptr = 1) ∧
    1 ≤ applyNbrOps ops (ClearNbrCount n0) :=
  ⟨Eq.refl _, IncrementNbrCount_exact,
   fun c nbr d hd => foldl_clear_mem c.m_devices nbr d hd,
   applyNbrOps_ge_one ops (ClearNbrCount n0) (le_refl 1) hov⟩

/-- C12 on a count of -7 that is cleared, then incremented twice, cleared and
incremented once more: the count ends at 2. -/
theorem NbrCount_at_least_one_witness :
    applyNbrOps [NbrOp.increment, NbrOp.increment, NbrOp.clear, NbrOp.increment]
      (ClearNbrCount (-7)) = 2 ∧
    (ClearNbrCount (-7) = 1 ∧
     (∀ n : Int, -2147483648 ≤ n → n < 2147483647 → IncrementNbrCount n = n + 1) ∧
     (∀ (c : Channel) (nbr : Nat → Int) (d : Device), d ∈ c.m_devices →
       (EnableFixedContention c nbr).2 d.ptr = 1) ∧
     1 ≤ applyNbrOps [NbrOp.increment, NbrOp.increment, NbrOp.clear, NbrOp.increment]
       (ClearNbrCount (-7))) :=
  ⟨by decide,
   NbrCount_at_least_one (-7)
     [NbrOp.increment, NbrOp.increment, NbrOp.clear, NbrOp.increment] (by decide)⟩

/-! ## The directional neighbor table -/

theorem nlt_equiv (a b : Nat) : (!(nlt a b) && !(nlt b a)) = true ↔ a = b := by
  simp only [nlt, Bool.and_eq_true, Bool.not_eq_true', decide_eq_false_iff_not, not_lt]
  omega

theorem omFind_nlt_cons {ν : Type} (k k1 : Nat) (v : ν) (rest : List (Nat × ν)) :
    omFind nlt k ((k1, v) :: rest) = if k = k1 then some v else omFind nlt k rest := by
  rw [omFind]
  by_cases h : k = k1
  · rw [if_pos h, if_pos ((nlt_equiv k k1).mpr h)]
  · rw [if_neg h, if_neg (fun hc => h ((nlt_equiv k k1).mp hc))]

theorem omErase_nlt_cons {ν : Type} (k k1 : Nat) (v : ν) (rest : List (Nat × ν)) :
    omErase nlt k ((k1, v) :: rest) = if k = k1 then rest else (k1, v) :: omErase nlt k rest := by
  rw [omErase]
  by_cases h : k = k1
  · rw [if_pos h, if_pos ((nlt_equiv k k1).mpr h)]
  · rw [if_neg h, if_neg (fun hc => h ((nlt_equiv k k1).mp hc))]

theorem omFind_omPlace_nlt {ν : Type} (k k2 : Nat) (v : ν) (m : List (Nat × ν))
    (hk : omFind nlt k m = none) :
    omFind nlt k2 (omPlace nlt k v m) = if k2 = k then some v else omFind nlt k2 m := by
  induction m with
  | nil =>
    unfold omPlace
    rw [omFind_nlt_cons]
  | cons e rest ih =>
    obtain ⟨k1, v1⟩ := e
    rw [omFind_nlt_cons] at hk
    by_cases hkk : k = k1
    · rw [if_pos hkk] at hk
      cases hk
    · rw [if_neg hkk] at hk
      unfold omPlace
      by_cases hlt : nlt k k1 = true
      · rw [if_pos hlt, omFind_nlt_cons]
      · rw [if_neg hlt, omFind_nlt_cons, ih hk, omFind_nlt_cons]
        by_cases h2 : k2 = k1
        · have h3 : ¬ k2 = k := fun hc => hkk (hc.symm.trans h2)
          rw [if_pos h2, if_pos h2, if_neg h3]
        · rw [if_neg h2, if_neg h2]

theorem omFind_omInsert_nlt {ν : Type} (k k2 : Nat) (v : ν) (m : List (Nat × ν)) :
    omFind nlt k2 (omInsert nlt k v m)
      = match omFind nlt k2 m with
        | some l => some l
        | none => if k2 = k then some v else none := by
  unfold omInsert
  cases hk : omFind nlt k m with
  | some x =>
    dsimp only
    cases h2 : omFind nlt k2 m with
    | some y => rfl
    | none =>
      dsimp only
      by_cases h : k2 = k
      · rw [h, hk] at h2
        cases h2
      · rw [if_neg h]
  | none =>
    dsimp only
    rw [omFind_omPlace_nlt k k2 v m hk]
    by_cases h : k2 = k
    · rw [if_pos h, h, hk]
      dsimp only
      rw [if_pos (Eq.refl k)]
    · rw [if_neg h]
      cases h2 : omFind nlt k2 m with
      | some y => rfl
      | none =>
        dsimp only
        rw [if_neg h]

theorem omFind_omInsert_isSome {ν : Type} (k : Nat) (v : ν) (m : List (Nat × ν)) :
    (omFind nlt k (omInsert nlt k v m)).isSome = true := by
  rw [omFind_omInsert_nlt]
  cases omFind nlt k m with
  | some y => rfl
  | none =>
    dsimp only
    rw [if_pos (Eq.refl k)]
    rfl

theorem omFind_omInsert_keeps {ν : Type} (k k2 : Nat) (v : ν) (m : List (Nat × ν))
    (h : (omFind nlt k2 m).isSome = true) :
    (omFind nlt k2 (omInsert nlt k v m)).isSome = true := by
  rw [omFind_omInsert_nlt]
  cases h2 : omFind nlt k2 m with
  | some y => rfl
  | none =>
    rw [h2] at h
    cases h

theorem foldl_omInsert_keeps {ν : Type} (l : List (Nat × ν)) :
    ∀ (m : List (Nat × ν)) (k : Nat), (omFind nlt k m).isSome = true →
      (omFind nlt k (l.foldl (fun m it => omInsert nlt it.1 it.2 m) m)).isSome = true := by
  induction l with
  | nil =>
    intro m k h
    exact h
  | cons it rest ih =>
    intro m k h
    rw [List.foldl_cons]
    exact ih _ k (omFind_omInsert_keeps it.1 k it.2 m h)

theorem foldl_omInsert_mem {ν : Type} (l : List (Nat × ν)) :
    ∀ (m : List (Nat × ν)) (it : Nat × ν), it ∈ l →
      (omFind nlt it.1 (l.foldl (fun m it => omInsert nlt it.1 it.2 m) m)).isSome = true := by
  induction l with
  | nil =>
    intro m it h
    cases h
  | cons e rest ih =>
    intro m it h
    rw [List.foldl_cons]
    rcases List.mem_cons.mp h with he | he
    · rw [he]
      exact foldl_omInsert_keeps rest _ e.1 (omFind_omInsert_isSome e.1 e.2 m)
    · exact ih _ it he

/-- C19: with directional mode disabled `AddDirectionalNeighbor` and
`AddDirectionalNeighbors` return false and leave the device, hence the
neighbor table, as it is; with directional mode enabled they return true,
change nothing but the table, and afterwards the table has an entry for every
node id passed. -/
theorem AddDirectionalNeighbor_guard {Q : Type} (d : NetDevice Q) (nodeid : Nat)
    (macAddr : Mac48Address) (nodesToAdd : List (Nat × Mac48Address)) :
    (d.m_fixedNbrListEnabled = false →
      d.AddDirectionalNeighbor nodeid macAddr = (d, false) ∧
      d.AddDirectionalNeighbors nodesToAdd = (d, false)) ∧
    (d.m_fixedNbrListEnabled = true →
      (d.AddDirectionalNeighbor nodeid macAddr).2 = true ∧
      (d.AddDirectionalNeighbor nodeid macAddr).1 =
        { d with mDirectionalNbrs := (d.AddDirectionalNeighbor nodeid macAddr).1.mDirectionalNbrs } ∧
      (omFind nlt nodeid (d.AddDirectionalNeighbor nodeid macAddr).1.mDirectionalNbrs).isSome
        = true ∧
      (d.AddDirectionalNeighbors nodesToAdd).2 = true ∧
      (d.AddDirectionalNeighbors nodesToAdd).1 =
        { d with mDirectionalNbrs := (d.AddDirectionalNeighbors nodesToAdd).1.mDirectionalNbrs } ∧
      (∀ it ∈ nodesToAdd,
        (omFind nlt it.1 (d.AddDirectionalNeighbors nodesToAdd).1.mDirectionalNbrs).isSome
          = true)) := by
  constructor
  · intro h
    unfold NetDevice.AddDirectionalNeighbor NetDevice.AddDirectionalNeighbors
    rw [h]
    exact ⟨rfl, rfl⟩
  · intro h
    unfold NetDevice.AddDirectionalNeighbor NetDevice.AddDirectionalNeighbors
    rw [h]
    refine ⟨rfl, rfl, ?_, rfl, rfl, ?_⟩
    · exact omFind_omInsert_isSome nodeid macAddr d.mDirectionalNbrs
    · intro it hit
      exact foldl_omInsert_mem nodesToAdd d.mDirectionalNbrs it hit

theorem omFind_none_of_gt {ν : Type} (k : Nat) (m : List (Nat × ν))
    (h : ∀ e ∈ m, k < e.1) : omFind nlt k m = none := by
  induction m with
  | nil => rfl
  | cons e rest ih =>
    obtain ⟨k1, v1⟩ := e
    have h1 : k < k1 := h (k1, v1) (List.mem_cons_self _ _)
    rw [omFind_nlt_cons, if_neg (by omega)]
    exact ih (fun e he => h e (List.mem_cons_of_mem _ he))

theorem filter_ne_of_gt {ν : Type} (k : Nat) (m : List (Nat × ν))
    (h : ∀ e ∈ m, k < e.1) : m.filter (fun e => decide (e.1 ≠ k)) = m := by
  rw [List.filter_eq_self]
  intro e he
  have := h e he
  exact decide_eq_true (by omega)

/-- On a table with increasing keys `erase` removes the entry of the key and
keeps every other entry, in order. -/
theorem omErase_eq_filter (k : Nat) (m : List (Nat × Mac48Address)) (hs : NbrsSorted m) :
    omErase nlt k m = m.filter (fun e => decide (e.1 ≠ k)) := by
  induction m with
  | nil => rfl
  | cons e rest ih =>
    obtain ⟨k1, v1⟩ := e
    have hs2 := List.pairwise_cons.mp hs
    rw [omErase_nlt_cons, List.filter_cons]
    by_cases h : k = k1
    · have hd : decide ((k1, v1).1 ≠ k) = false := decide_eq_false (fun hc => hc h.symm)
      rw [if_pos h, hd]
      have hgt : ∀ e ∈ rest, k < e.1 := by
        intro e he
        rw [h]
        exact hs2.1 e he
      rw [filter_ne_of_gt k rest hgt]
      rfl
    · have hd : decide ((k1, v1).1 ≠ k) = true := decide_eq_true (fun hc => h hc.symm)
      rw [if_neg h, hd, ih hs2.2]
      rfl

theorem omFind_filter_ne (k : Nat) (m : List (Nat × Mac48Address)) :
    omFind nlt k (m.filter (fun e => decide (e.1 ≠ k))) = none := by
  induction m with
  | nil => rfl
  | cons e rest ih =>
    obtain ⟨k1, v1⟩ := e
    rw [List.filter_cons]
    by_cases h : k1 = k
    · have hd : decide ((k1, v1).1 ≠ k) = false := decide_eq_false (fun hc => hc h)
      rw [hd]
      exact ih
    · have hd : decide ((k1, v1).1 ≠ k) = true := decide_eq_true h
      rw [hd]
      show omFind nlt k ((k1, v1) :: _) = none
      rw [omFind_nlt_cons, if_neg (fun hc => h hc.symm)]
      exact ih

theorem omFind_filter_other (k k2 : Nat) (hne : k2 ≠ k) (m : List (Nat × Mac48Address)) :
    omFind nlt k2 (m.filter (fun e => decide (e.1 ≠ k))) = omFind nlt k2 m := by
  induction m with
  | nil => rfl
  | cons e rest ih =>
    obtain ⟨k1, v1⟩ := e
    rw [List.filter_cons]
    by_cases h : k1 = k
    · have hd : decide ((k1, v1).1 ≠ k) = false := decide_eq_false (fun hc => hc h)
      rw [hd]
      show omFind nlt k2 (List.filter _ rest) = _
      rw [omFind_nlt_cons, if_neg (fun hc => hne (hc.trans h))]
      exact ih
    · have hd : decide ((k1, v1).1 ≠ k) = true := decide_eq_true h
      rw [hd]
      show omFind nlt k2 ((k1, v1) :: _) = _
      rw [omFind_nlt_cons, omFind_nlt_cons, ih]

theorem filter_eq_self_of_absent (k : Nat) (m : List (Nat × Mac48Address))
    (h : omFind nlt k m = none) : m.filter (fun e => decide (e.1 ≠ k)) = m := by
  induction m with
  | nil => rfl
  | cons e rest ih =>
    obtain ⟨k1, v1⟩ := e
    rw [omFind_nlt_cons] at h
    by_cases hk : k = k1
    · rw [if_pos hk] at h
      cases h
    · rw [if_neg hk] at h
      have hd : decide ((k1, v1).1 ≠ k) = true := decide_eq_true (fun hc => hk hc.symm)
      rw [List.filter_cons, hd, ih h]
      rfl

theorem omErase_omPlace {ν : Type} (k : Nat) (v : ν) (m : List (Nat × ν))
    (hk : omFind nlt k m = none) : omErase nlt k (omPlace nlt k v m) = m := by
  induction m with
  | nil =>
    unfold omPlace
    rw [omErase_nlt_cons, if_pos (Eq.refl k)]
  | cons e rest ih =>
    obtain ⟨k1, v1⟩ := e
    rw [omFind_nlt_cons] at hk
    by_cases hkk : k = k1
    · rw [if_pos hkk] at hk
      cases hk
    · rw [if_neg hkk] at hk
      unfold omPlace
      by_cases hlt : nlt k k1 = true
      · rw [if_pos hlt, omErase_nlt_cons, if_pos (Eq.refl k)]
      · rw [if_neg hlt, omErase_nlt_cons, if_neg hkk, ih hk]

theorem NbrsSorted_filter (m : List (Nat × Mac48Address)) (p : Nat × Mac48Address → Bool)
    (hs : NbrsSorted m) : NbrsSorted (m.filter p) :=
  List.Pairwise.sublist (List.filter_sublist m) hs

theorem omPlace_nlt_sorted (k : Nat) (v : Mac48Address) (m : List (Nat × Mac48Address))
    (hs : NbrsSorted m) (hk : omFind nlt k m = none) : NbrsSorted (omPlace nlt k v m) := by
  induction m with
  | nil =>
    unfold omPlace NbrsSorted
    exact List.pairwise_singleton _ _
  | cons e rest ih =>
    obtain ⟨k1, v1⟩ := e
    have hs2 := List.pairwise_cons.mp hs
    rw [omFind_nlt_cons] at hk
    by_cases hkk : k = k1
    · rw [if_pos hkk] at hk
      cases hk
    · rw [if_neg hkk] at hk
      unfold omPlace
      by_cases hlt : nlt k k1 = true
      · rw [if_pos hlt]
        have hlt1 : k < k1 := of_decide_eq_true hlt
        apply List.pairwise_cons.mpr
        refine ⟨?_, hs⟩
        intro e he
        rcases List.mem_cons.mp he with h1 | h1
        · rw [h1]
          exact hlt1
        · exact lt_trans hlt1 (hs2.1 e h1)
      · rw [if_neg hlt]
        have hge : k1 < k := by
          have : ¬ k < k1 := fun hc => hlt (decide_eq_true hc)
          omega
        apply List.pairwise_cons.mpr
        refine ⟨?_, ih hs2.2 hk⟩
        intro e he
        have hmem : e = (k, v) ∨ e ∈ rest := by
          clear ih hs hs2 hk
          induction rest with
          | nil =>
            unfold omPlace at he
            exact Or.inl (List.mem_singleton.mp he)
          | cons f fs ih2 =>
            obtain ⟨k3, v3⟩ := f
            unfold omPlace at he
            by_cases hl3 : nlt k k3 = true
            · rw [if_pos hl3] at he
              rcases List.mem_cons.mp he with h1 | h1
              · exact Or.inl h1
              · exact Or.inr h1
            · rw [if_neg hl3] at he
              rcases List.mem_cons.mp he with h1 | h1
              · exact Or.inr (h1 ▸ List.mem_cons_self _ _)
              · rcases ih2 h1 with h2 | h2
                · exact Or.inl h2
                · exact Or.inr (List.mem_cons_of_mem _ h2)
        rcases hmem with h1 | h1
        · rw [h1]
          exact hge
        · exact hs2.1 e h1

/-- The operations on the neighbor table keep its keys increasing. -/
theorem NbrsSorted_kept {Q : Type} (d : NetDevice Q) (hs : NbrsSorted d.mDirectionalNbrs)
    (nodeid : Nat) (macAddr : Mac48Address) :
    NbrsSorted (d.AddDirectionalNeighbor nodeid macAddr).1.mDirectionalNbrs ∧
    NbrsSorted (d.DeleteDirectionalNeighbor nodeid).mDirectionalNbrs := by
  constructor
  · unfold NetDevice.AddDirectionalNeighbor
    cases d.m_fixedNbrListEnabled with
    | false => exact hs
    | true =>
      show NbrsSorted (omInsert nlt nodeid macAddr d.mDirectionalNbrs)
      unfold omInsert
      cases hk : omFind nlt nodeid d.mDirectionalNbrs with
      | some x => exact hs
      | none => exact omPlace_nlt_sorted nodeid macAddr _ hs hk
  · unfold NetDevice.DeleteDirectionalNeighbor
    cases hk : omFind nlt nodeid d.mDirectionalNbrs with
    | some x =>
      show NbrsSorted (omErase nlt nodeid d.mDirectionalNbrs)
      rw [omErase_eq_filter nodeid _ hs]
      exact NbrsSorted_filter _ _ hs
    | none => exact hs

/-- `DeleteDirectionalNeighbor` on a table with increasing keys: the table
keeps exactly the entries of the other keys. -/
theorem DeleteDirectionalNeighbor_eq {Q : Type} (d : NetDevice Q)
    (hs : NbrsSorted d.mDirectionalNbrs) (nodeid : Nat) :
    d.DeleteDirectionalNeighbor nodeid =
      { d with mDirectionalNbrs := d.mDirectionalNbrs.filter (fun e => decide (e.1 ≠ nodeid)) } := by
  unfold NetDevice.DeleteDirectionalNeighbor
  cases hk : omFind nlt nodeid d.mDirectionalNbrs with
  | some x =>
    dsimp only
    rw [omErase_eq_filter nodeid _ hs]
  | none =>
    dsimp only
    rw [filter_eq_self_of_absent nodeid _ hk]

theorem DeleteDirectionalNeighbors_eq {Q : Type} (nodeids : List Nat) :
    ∀ (d : NetDevice Q), NbrsSorted d.mDirectionalNbrs →
      d.DeleteDirectionalNeighbors nodeids =
        { d with
          mDirectionalNbrs := d.mDirectionalNbrs.filter (fun e => decide (e.1 ∉ nodeids)) } := by
  induction nodeids with
  | nil =>
    intro d _
    unfold NetDevice.DeleteDirectionalNeighbors
    simp
  | cons id rest ih =>
    intro d hs
    unfold NetDevice.DeleteDirectionalNeighbors
    rw [List.foldl_cons]
    have h1 := ih (d.DeleteDirectionalNeighbor id) (NbrsSorted_kept d hs id 0).2
    unfold NetDevice.DeleteDirectionalNeighbors at h1
    rw [h1, DeleteDirectionalNeighbor_eq d hs id]
    simp only [List.filter_filter, List.mem_cons, not_or]
    congr 2
    funext e
    by_cases h2 : e.1 = id <;> by_cases h3 : e.1 ∈ rest <;> simp [h2, h3]

theorem omFind_filter_keys (p : Nat → Bool) (k : Nat) (m : List (Nat × Mac48Address)) :
    omFind nlt k (m.filter (fun e => p e.1)) = if p k = true then omFind nlt k m else none := by
  induction m with
  | nil =>
    by_cases h : p k = true
    · rw [if_pos h]
      rfl
    · rw [if_neg h]
      rfl
  | cons e rest ih =>
    obtain ⟨k1, v1⟩ := e
    rw [List.filter_cons, omFind_nlt_cons]
    by_cases h1 : p k1 = true
    · rw [if_pos h1, omFind_nlt_cons, ih]
      by_cases h2 : k = k1
      · rw [if_pos h2, if_pos h2, h2, if_pos h1]
      · rw [if_neg h2, if_neg h2]
    · rw [if_neg h1, ih]
      by_cases h2 : k = k1
      · rw [h2, if_neg h1, if_neg h1]
      · rw [if_neg h2]

/-- C20: on a neighbor table with increasing keys (the invariant of the map,
kept by every operation), after `DeleteDirectionalNeighbor (id)` and after
`DeleteDirectionalNeighbors (ids)` the table has no entry for a deleted id,
holds every other entry unchanged and in the same order, and nothing else of
the device has changed; deleting an id that has no entry leaves the device as
it is; and for an id without entry, with directional mode enabled,
`AddDirectionalNeighbor (id, addr)` followed by `DeleteDirectionalNeighbor
(id)` gives back the original device. -/
theorem DeleteDirectionalNeighbor_frame {Q : Type} (d : NetDevice Q) (nodeid : Nat)
    (nodeids : List Nat) (macAddr : Mac48Address) (hs : NbrsSorted d.mDirectionalNbrs) :
    omFind nlt nodeid (d.DeleteDirectionalNeighbor nodeid).mDirectionalNbrs = none ∧
    (∀ k : Nat, k ≠ nodeid →
      omFind nlt k (d.DeleteDirectionalNeighbor nodeid).mDirectionalNbrs
        = omFind nlt k d.mDirectionalNbrs) ∧
    d.DeleteDirectionalNeighbor nodeid =
      { d with mDirectionalNbrs := d.mDirectionalNbrs.filter (fun e => decide (e.1 ≠ nodeid)) } ∧
    (omFind nlt nodeid d.mDirectionalNbrs = none → d.DeleteDirectionalNeighbor nodeid = d) ∧
    (∀ id ∈ nodeids,
      omFind nlt id (d.DeleteDirectionalNeighbors nodeids).mDirectionalNbrs = none) ∧
    (∀ k : Nat, k ∉ nodeids →
      omFind nlt k (d.DeleteDirectionalNeighbors nodeids).mDirectionalNbrs
        = omFind nlt k d.mDirectionalNbrs) ∧
    d.DeleteDirectionalNeighbors nodeids =
      { d with
        mDirectionalNbrs := d.mDirectionalNbrs.filter (fun e => decide (e.1 ∉ nodeids)) } ∧
    (d.m_fixedNbrListEnabled = true → omFind nlt nodeid d.mDirectionalNbrs = none →
      (d.AddDirectionalNeighbor nodeid macAddr).1.DeleteDirectionalNeighbor nodeid = d) := by
  refine ⟨?_, ?_, DeleteDirectionalNeighbor_eq d hs nodeid, ?_, ?_, ?_,
    DeleteDirectionalNeighbors_eq nodeids d hs, ?_⟩
  · rw [DeleteDirectionalNeighbor_eq d hs nodeid]
    exact omFind_filter_ne nodeid _
  · intro k hk
    rw [DeleteDirectionalNeighbor_eq d hs nodeid]
    exact omFind_filter_other nodeid k hk _
  · intro h
    unfold NetDevice.DeleteDirectionalNeighbor
    rw [h]
  · intro id hid
    rw [DeleteDirectionalNeighbors_eq nodeids d hs]
    have h := omFind_filter_keys (fun k => decide (k ∉ nodeids)) id d.mDirectionalNbrs
    show omFind nlt id (d.mDirectionalNbrs.filter (fun e => decide (e.1 ∉ nodeids))) = none
    rw [h, if_neg]
    intro hc
    exact (of_decide_eq_true hc) hid
  · intro k hk
    rw [DeleteDirectionalNeighbors_eq nodeids d hs]
    have h := omFind_filter_keys (fun k => decide (k ∉ nodeids)) k d.mDirectionalNbrs
    show omFind nlt k (d.mDirectionalNbrs.filter (fun e => decide (e.1 ∉ nodeids))) = _
    rw [h, if_pos (decide_eq_true hk)]
  · intro hen hk
    obtain ⟨self, addr, bps, st, cur, q, pcap, en, nbrs, cnt, tot, drop⟩ := d
    dsimp only at hen hk
    subst hen
    have hfind : omFind nlt nodeid (omPlace nlt nodeid macAddr nbrs) = some macAddr := by
      rw [omFind_omPlace_nlt nodeid nodeid macAddr _ hk, if_pos (Eq.refl nodeid)]
    unfold NetDevice.AddDirectionalNeighbor NetDevice.DeleteDirectionalNeighbor omInsert
    simp only [Bool.not_true, Bool.false_eq_true, if_false, hk, hfind,
      omErase_omPlace nodeid macAddr _ hk]

/-- C20 on the device with neighbors 1, 2 and 3: deleting node 2 leaves the
entries of 1 and 3; deleting the set of 1 and 3 leaves the entry of 2; adding
node 5 and deleting it again gives back the table. -/
theorem DeleteDirectionalNeighbor_frame_witness :
    (directionalDevice.DeleteDirectionalNeighbor 2).mDirectionalNbrs = [(1, 2), (3, 4)] ∧
    (directionalDevice.DeleteDirectionalNeighbors [1, 3]).mDirectionalNbrs = [(2, 3)] ∧
    ((directionalDevice.AddDirectionalNeighbor 5 6).1.DeleteDirectionalNeighbor 5).mDirectionalNbrs
      = directionalDevice.mDirectionalNbrs ∧
    (omFind nlt 2 (directionalDevice.DeleteDirectionalNeighbor 2).mDirectionalNbrs = none ∧
     (∀ k : Nat, k ≠ 2 →
       omFind nlt k (directionalDevice.DeleteDirectionalNeighbor 2).mDirectionalNbrs
         = omFind nlt k directionalDevice.mDirectionalNbrs) ∧
     directionalDevice.DeleteDirectionalNeighbor 2 =
       { directionalDevice with
         mDirectionalNbrs :=
           directionalDevice.mDirectionalNbrs.filter (fun e => decide (e.1 ≠ 2)) } ∧
     (omFind nlt 2 directionalDevice.mDirectionalNbrs = none →
       directionalDevice.DeleteDirectionalNeighbor 2 = directionalDevice) ∧
     (∀ id ∈ [1, 3],
       omFind nlt id (directionalDevice.DeleteDirectionalNeighbors [1, 3]).mDirectionalNbrs
         = none) ∧
     (∀ k : Nat, k ∉ [1, 3] →
       omFind nlt k (directionalDevice.DeleteDirectionalNeighbors [1, 3]).mDirectionalNbrs
         = omFind nlt k directionalDevice.mDirectionalNbrs) ∧
     directionalDevice.DeleteDirectionalNeighbors [1, 3] =
       { directionalDevice with
         mDirectionalNbrs :=
           directionalDevice.mDirectionalNbrs.filter (fun e => decide (e.1 ∉ [1, 3])) } ∧
     (directionalDevice.m_fixedNbrListEnabled = true →
       omFind nlt 2 directionalDevice.mDirectionalNbrs = none →
       (directionalDevice.AddDirectionalNeighbor 2 6).1.DeleteDirectionalNeighbor 2
         = directionalDevice)) :=
  ⟨by decide, by decide, by decide,
   DeleteDirectionalNeighbor_frame directionalDevice 2 [1, 3] 6 (by unfold NbrsSorted; decide)⟩

/-! ## The calls of `EnqueuePacket` made by `Send` and `SendFrom` -/

theorem broadcastLoop_eq {Q : Type} (ops : QueueOps Q) (env : Env) (fuel : Nat)
    (packet : Packet) (fromAddr toAddr : Mac48Address) (protocolNumber : Nat)
    (table : List (Nat × Mac48Address)) :
    ∀ w : World Q,
      NetDevice.broadcastLoop ops env fuel packet fromAddr toAddr protocolNumber table w =
        enqueueEach ops env fuel
          (table.map (fun it =>
            { packet := packet, fromAddr := fromAddr, toAddr := toAddr,
              protocolNumber := protocolNumber, destId := it.1 })) w := by
  induction table with
  | nil =>
    intro w
    rfl
  | cons it rest ih =>
    intro w
    rw [NetDevice.broadcastLoop, List.map_cons, enqueueEach]
    dsimp only [Packet.Copy]
    cases NetDevice.EnqueuePacket ops env fuel w packet fromAddr toAddr protocolNumber it.1 with
    | error f => rfl
    | ok r =>
      obtain ⟨w1, b⟩ := r
      exact ih w1

theorem unicastLoop_eq {Q : Type} (ops : QueueOps Q) (env : Env) (fuel : Nat)
    (packet : Packet) (fromAddr toAddr : Mac48Address) (protocolNumber : Nat)
    (table : List (Nat × Mac48Address)) (w : World Q) :
    NetDevice.unicastLoop ops env fuel packet fromAddr toAddr protocolNumber table w =
      match table.find? (fun it => decide (it.2 = toAddr)) with
      | some it =>
        enqueueEach ops env fuel
          [{ packet := packet, fromAddr := fromAddr, toAddr := toAddr,
             protocolNumber := protocolNumber, destId := it.1 }] w
      | none => Except.ok w := by
  induction table with
  | nil => rfl
  | cons it rest ih =>
    rw [NetDevice.unicastLoop, List.find?_cons]
    by_cases h : it.2 = toAddr
    · rw [if_pos h, decide_eq_true h]
      dsimp only [Packet.Copy]
      rw [enqueueEach]
      dsimp only
      cases NetDevice.EnqueuePacket ops env fuel w packet fromAddr toAddr protocolNumber it.1 with
      | error f => rfl
      | ok r =>
        obtain ⟨w1, b⟩ := r
        rfl
    · rw [if_neg h, decide_eq_false h]
      exact ih

/-- `SendFrom` with directional mode disabled is one call of `EnqueuePacket`
with the sentinel. -/
theorem SendFrom_omni {Q : Type} (ops : QueueOps Q) (env : Env) (fuel : Nat) (w : World Q)
    (packet : Packet) (source dest : Mac48Address) (protocolNumber : Nat)
    (hen : w.dev.m_fixedNbrListEnabled = false) :
    NetDevice.SendFrom ops env fuel w packet source dest protocolNumber =
      returnTrue (enqueueEach ops env fuel
        [{ packet := framed packet source dest protocolNumber, fromAddr := source, toAddr := dest,
           protocolNumber := protocolNumber, destId := NO_DIRECTIONAL_NBR }]
        (w.observe (Observation.macTx (framed packet source dest protocolNumber)))) := by
  unfold NetDevice.SendFrom
  dsimp only
  have h1 : (w.observe (Observation.macTx (packet.AddHeader
      { m_source := source, m_destination := dest, m_lengthType := protocolNumber }))).dev.m_fixedNbrListEnabled
      = false := hen
  rw [h1]
  simp only [Bool.false_eq_true, if_false]
  rw [enqueueEach]
  dsimp only [framed]
  cases NetDevice.EnqueuePacket ops env fuel
      (w.observe (Observation.macTx (packet.AddHeader
        { m_source := source, m_destination := dest, m_lengthType := protocolNumber })))
      (packet.AddHeader { m_source := source, m_destination := dest, m_lengthType := protocolNumber })
      source dest protocolNumber NO_DIRECTIONAL_NBR with
  | error f => rfl
  | ok r =>
    obtain ⟨w1, b⟩ := r
    rfl

/-- `SendFrom` with directional mode enabled and a broadcast destination is
one call of `EnqueuePacket` per table entry, in key order. -/
theorem SendFrom_broadcast {Q : Type} (ops : QueueOps Q) (env : Env) (fuel : Nat) (w : World Q)
    (packet : Packet) (source dest : Mac48Address) (protocolNumber : Nat)
    (hen : w.dev.m_fixedNbrListEnabled = true) (hb : IsBroadcast dest = true) :
    NetDevice.SendFrom ops env fuel w packet source dest protocolNumber =
      returnTrue (enqueueEach ops env fuel
        (w.dev.mDirectionalNbrs.map (fun it =>
          { packet := framed packet source dest protocolNumber, fromAddr := source, toAddr := dest,
            protocolNumber := protocolNumber, destId := it.1 }))
        (w.observe (Observation.macTx (framed packet source dest protocolNumber)))) := by
  unfold NetDevice.SendFrom
  dsimp only
  have h1 : (w.observe (Observation.macTx (packet.AddHeader
      { m_source := source, m_destination := dest, m_lengthType := protocolNumber }))).dev.m_fixedNbrListEnabled
      = true := hen
  rw [h1]
  simp only [if_true]
  have h2 : (packet.AddHeader
      { m_source := source, m_destination := dest, m_lengthType := protocolNumber }).PeekHeader
      = some { m_source := source, m_destination := dest, m_lengthType := protocolNumber } := rfl
  rw [h2]
  dsimp only
  rw [hb]
  simp only [if_true]
  rw [broadcastLoop_eq]
  rfl

/-- `SendFrom` with directional mode enabled and a unicast destination is one
call of `EnqueuePacket` for the first table entry with that address, none when
there is no such entry. -/
theorem SendFrom_unicast {Q : Type} (ops : QueueOps Q) (env : Env) (fuel : Nat) (w : World Q)
    (packet : Packet) (source dest : Mac48Address) (protocolNumber : Nat)
    (hen : w.dev.m_fixedNbrListEnabled = true) (hb : IsBroadcast dest = false) :
    NetDevice.SendFrom ops env fuel w packet source dest protocolNumber =
      returnTrue (enqueueEach ops env fuel
        (match w.dev.mDirectionalNbrs.find? (fun it => decide (it.2 = dest)) with
         | some it =>
           [{ packet := framed packet source dest protocolNumber, fromAddr := source, toAddr := dest,
              protocolNumber := protocolNumber, destId := it.1 }]
         | none => [])
        (w.observe (Observation.macTx (framed packet source dest protocolNumber)))) := by
  unfold NetDevice.SendFrom
  dsimp only
  have h1 : (w.observe (Observation.macTx (packet.AddHeader
      { m_source := source, m_destination := dest, m_lengthType := protocolNumber }))).dev.m_fixedNbrListEnabled
      = true := hen
  rw [h1]
  simp only [if_true]
  have h2 : (packet.AddHeader
      { m_source := source, m_destination := dest, m_lengthType := protocolNumber }).PeekHeader
      = some { m_source := source, m_destination := dest, m_lengthType := protocolNumber } := rfl
  rw [h2]
  dsimp only
  rw [hb]
  simp only [Bool.false_eq_true, if_false]
  rw [unicastLoop_eq]
  show returnTrue _ = _
  congr 1
  show (match w.dev.mDirectionalNbrs.find? (fun it => decide (it.2 = dest)) with
    | some it => _
    | none => _) = _
  cases w.dev.mDirectionalNbrs.find? (fun it => decide (it.2 = dest)) with
  | some it => rfl
  | none => rfl

/-- `Send` is `SendFrom` with the device's own address as source. -/
theorem Send_eq_SendFrom {Q : Type} (ops : QueueOps Q) (env : Env) (fuel : Nat) (w : World Q)
    (packet : Packet) (dest : Mac48Address) (protocolNumber : Nat) :
    NetDevice.Send ops env fuel w packet dest protocolNumber =
      NetDevice.SendFrom ops env fuel w packet w.dev.m_address dest protocolNumber := rfl

/-- C16: with directional mode disabled, for every packet, destination address
and neighbor table, `SendFrom` and `Send` observe the framed packet and then
call `EnqueuePacket` exactly once, with that packet, the source (the device's
own address for `Send`), the destination, the protocol and the sentinel
`NO_DIRECTIONAL_NBR` as destination hint; they return true when that call
returns. -/
theorem Send_omni_enqueues_once {Q : Type} (ops : QueueOps Q) (env : Env) (fuel : Nat)
    (w : World Q) (packet : Packet) (source dest : Mac48Address) (protocolNumber : Nat)
    (hen : w.dev.m_fixedNbrListEnabled = false) :
    NetDevice.SendFrom ops env fuel w packet source dest protocolNumber =
      returnTrue (enqueueEach ops env fuel
        [{ packet := framed packet source dest protocolNumber, fromAddr := source, toAddr := dest,
           protocolNumber := protocolNumber, destId := NO_DIRECTIONAL_NBR }]
        (w.observe (Observation.macTx (framed packet source dest protocolNumber)))) ∧
    NetDevice.Send ops env fuel w packet dest protocolNumber =
      returnTrue (enqueueEach ops env fuel
        [{ packet := framed packet w.dev.m_address dest protocolNumber,
           fromAddr := w.dev.m_address, toAddr := dest,
           protocolNumber := protocolNumber, destId := NO_DIRECTIONAL_NBR }]
        (w.observe (Observation.macTx (framed packet w.dev.m_address dest protocolNumber)))) :=
  ⟨SendFrom_omni ops env fuel w packet source dest protocolNumber hen,
   SendFrom_omni ops env fuel w packet w.dev.m_address dest protocolNumber hen⟩

/-- C16 on the device of node 0 with directional mode off and three entries in
its table: a broadcast packet of 1000 bytes is handed to the channel once,
with the sentinel as hint, and nothing stays queued. -/
theorem Send_omni_enqueues_once_witness :
    resultTrace (NetDevice.Send (dropHeadOps 0) lineEnv 0 (worldOf omniWithTable) packet1000
      broadcastAddress 2048) =
      [Observation.macTx (framed packet1000 1 broadcastAddress 2048),
       Observation.queueLatency
         ((framed packet1000 1 broadcastAddress 2048).AddPacketTag
           (Tag.destinationId NO_DIRECTIONAL_NBR)) 0,
       Observation.txBegin packet1000 1 broadcastAddress 2048,
       Observation.channelSend packet1000 2048 broadcastAddress 1 8000000 NO_DIRECTIONAL_NBR] ∧
    resultQueue (NetDevice.Send (dropHeadOps 0) lineEnv 0 (worldOf omniWithTable) packet1000
      broadcastAddress 2048) = [] ∧
    (NetDevice.SendFrom (dropHeadOps 0) lineEnv 0 (worldOf omniWithTable) packet1000 7
        broadcastAddress 2048 =
      returnTrue (enqueueEach (dropHeadOps 0) lineEnv 0
        [{ packet := framed packet1000 7 broadcastAddress 2048, fromAddr := 7,
           toAddr := broadcastAddress, protocolNumber := 2048, destId := NO_DIRECTIONAL_NBR }]
        ((worldOf omniWithTable).observe
          (Observation.macTx (framed packet1000 7 broadcastAddress 2048)))) ∧
     NetDevice.Send (dropHeadOps 0) lineEnv 0 (worldOf omniWithTable) packet1000
        broadcastAddress 2048 =
      returnTrue (enqueueEach (dropHeadOps 0) lineEnv 0
        [{ packet := framed packet1000 (worldOf omniWithTable).dev.m_address broadcastAddress 2048,
           fromAddr := (worldOf omniWithTable).dev.m_address,
           toAddr := broadcastAddress, protocolNumber := 2048, destId := NO_DIRECTIONAL_NBR }]
        ((worldOf omniWithTable).observe
          (Observation.macTx
            (framed packet1000 (worldOf omniWithTable).dev.m_address broadcastAddress 2048))))) :=
  ⟨by with_unfolding_all rfl, by with_unfolding_all rfl,
   Send_omni_enqueues_once (dropHeadOps 0) lineEnv 0 (worldOf omniWithTable) packet1000 7
     broadcastAddress 2048 (Eq.refl _)⟩

theorem NbrsSorted_nodup (table : List (Nat × Mac48Address)) (hs : NbrsSorted table) :
    (table.map (fun it => it.1)).Nodup := by
  unfold List.Nodup
  rw [List.pairwise_map]
  exact List.Pairwise.imp (fun h => ne_of_lt h) hs

/-- C17: with directional mode enabled and a broadcast destination, `SendFrom`
and `Send` observe the framed packet and then call `EnqueuePacket` once per
entry of the neighbor table, in key order, each time with a copy of the framed
packet, the broadcast address as destination and the node id of the entry as
destination hint.  There are as many calls as entries, the hints are the node
ids of the table, pairwise distinct (the keys of the map are increasing), and
the header of every copy still names the broadcast address.  With an empty
table no call is made. -/
theorem Send_directional_broadcast {Q : Type} (ops : QueueOps Q) (env : Env) (fuel : Nat)
    (w : World Q) (packet : Packet) (source : Mac48Address) (protocolNumber : Nat)
    (hen : w.dev.m_fixedNbrListEnabled = true) (hs : NbrsSorted w.dev.mDirectionalNbrs) :
    NetDevice.SendFrom ops env fuel w packet source broadcastAddress protocolNumber =
      returnTrue (enqueueEach ops env fuel
        (w.dev.mDirectionalNbrs.map (fun it =>
          { packet := framed packet source broadcastAddress protocolNumber, fromAddr := source,
            toAddr := broadcastAddress, protocolNumber := protocolNumber, destId := it.1 }))
        (w.observe (Observation.macTx (framed packet source broadcastAddress protocolNumber)))) ∧
    NetDevice.Send ops env fuel w packet broadcastAddress protocolNumber =
      returnTrue (enqueueEach ops env fuel
        (w.dev.mDirectionalNbrs.map (fun it =>
          { packet := framed packet w.dev.m_address broadcastAddress protocolNumber,
            fromAddr := w.dev.m_address,
            toAddr := broadcastAddress, protocolNumber := protocolNumber, destId := it.1 }))
        (w.observe
          (Observation.macTx (framed packet w.dev.m_address broadcastAddress protocolNumber)))) ∧
    (w.dev.mDirectionalNbrs.map (fun it =>
      ({ packet := framed packet source broadcastAddress protocolNumber, fromAddr := source,
         toAddr := broadcastAddress, protocolNumber := protocolNumber, destId := it.1 }
        : EnqueueCall))).length = w.dev.mDirectionalNbrs.length ∧
    (w.dev.mDirectionalNbrs.map (fun it =>
      ({ packet := framed packet source broadcastAddress protocolNumber, fromAddr := source,
         toAddr := broadcastAddress, protocolNumber := protocolNumber, destId := it.1 }
        : EnqueueCall))).map (fun c => c.destId) = w.dev.mDirectionalNbrs.map (fun it => it.1) ∧
    (w.dev.mDirectionalNbrs.map (fun it => it.1)).Nodup ∧
    (framed packet source broadcastAddress protocolNumber).PeekHeader =
      some { m_source := source, m_destination := broadcastAddress,
             m_lengthType := protocolNumber } ∧
    (w.dev.mDirectionalNbrs = [] →
      NetDevice.SendFrom ops env fuel w packet source broadcastAddress protocolNumber =
        Except.ok (w.observe
          (Observation.macTx (framed packet source broadcastAddress protocolNumber)), true) ∧
      NetDevice.Send ops env fuel w packet broadcastAddress protocolNumber =
        Except.ok (w.observe
          (Observation.macTx (framed packet w.dev.m_address broadcastAddress protocolNumber)),
          true)) := by
  have h1 := SendFrom_broadcast ops env fuel w packet source broadcastAddress protocolNumber hen
    (Eq.refl _)
  have h2 := SendFrom_broadcast ops env fuel w packet w.dev.m_address broadcastAddress
    protocolNumber hen (Eq.refl _)
  refine ⟨h1, h2, List.length_map _ _, ?_, NbrsSorted_nodup _ hs, rfl, ?_⟩
  · rw [List.map_map]
    rfl
  · intro hempty
    rw [hempty] at h1 h2
    exact ⟨h1, h2⟩

/-- C17 on the device of node 0 with the neighbors 1, 2 and 3: one broadcast
packet gives three calls hinted 1, 2 and 3; the first copy is handed to the
channel at once with hint 1, the copies hinted 2 and 3 wait in the queue. -/
theorem Send_directional_broadcast_witness :
    resultTrace (NetDevice.Send (dropHeadOps 0) lineEnv 0 (worldOf directionalDevice) packet1000
      broadcastAddress 2048) =
      [Observation.macTx (framed packet1000 1 broadcastAddress 2048),
       Observation.queueLatency
         ((framed packet1000 1 broadcastAddress 2048).AddPacketTag (Tag.destinationId 1)) 0,
       Observation.txBegin packet1000 1 broadcastAddress 2048,
       Observation.channelSend packet1000 2048 broadcastAddress 1 8000000 1] ∧
    (resultQueue (NetDevice.Send (dropHeadOps 0) lineEnv 0 (worldOf directionalDevice) packet1000
      broadcastAddress 2048)).map (fun p => (p.tags, p.PeekHeader)) =
      [([Tag.destinationId 2, Tag.timestamp 0],
        some { m_source := 1, m_destination := broadcastAddress, m_lengthType := 2048 }),
       ([Tag.destinationId 3, Tag.timestamp 0],
        some { m_source := 1, m_destination := broadcastAddress, m_lengthType := 2048 })] ∧
    (NetDevice.SendFrom (dropHeadOps 0) lineEnv 0 (worldOf directionalDevice) packet1000 7
        broadcastAddress 2048 =
      returnTrue (enqueueEach (dropHeadOps 0) lineEnv 0
        ((worldOf directionalDevice).dev.mDirectionalNbrs.map (fun it =>
          { packet := framed packet1000 7 broadcastAddress 2048, fromAddr := 7,
            toAddr := broadcastAddress, protocolNumber := 2048, destId := it.1 }))
        ((worldOf directionalDevice).observe
          (Observation.macTx (framed packet1000 7 broadcastAddress 2048)))) ∧
     NetDevice.Send (dropHeadOps 0) lineEnv 0 (worldOf directionalDevice) packet1000
        broadcastAddress 2048 =
      returnTrue (enqueueEach (dropHeadOps 0) lineEnv 0
        ((worldOf directionalDevice).dev.mDirectionalNbrs.map (fun it =>
          { packet := framed packet1000 (worldOf directionalDevice).dev.m_address
              broadcastAddress 2048,
            fromAddr := (worldOf directionalDevice).dev.m_address,
            toAddr := broadcastAddress, protocolNumber := 2048, destId := it.1 }))
        ((worldOf directionalDevice).observe
          (Observation.macTx
            (framed packet1000 (worldOf directionalDevice).dev.m_address
              broadcastAddress 2048)))) ∧
     ((worldOf directionalDevice).dev.mDirectionalNbrs.map (fun it =>
       ({ packet := framed packet1000 7 broadcastAddress 2048, fromAddr := 7,
          toAddr := broadcastAddress, protocolNumber := 2048, destId := it.1 }
         : EnqueueCall))).length = (worldOf directionalDevice).dev.mDirectionalNbrs.length ∧
     ((worldOf directionalDevice).dev.mDirectionalNbrs.map (fun it =>
       ({ packet := framed packet1000 7 broadcastAddress 2048, fromAddr := 7,
          toAddr := broadcastAddress, protocolNumber := 2048, destId := it.1 }
         : EnqueueCall))).map (fun c => c.destId)
       = (worldOf directionalDevice).dev.mDirectionalNbrs.map (fun it => it.1) ∧
     ((worldOf directionalDevice).dev.mDirectionalNbrs.map (fun it => it.1)).Nodup ∧
     (framed packet1000 7 broadcastAddress 2048).PeekHeader =
       some { m_source := 7, m_destination := broadcastAddress, m_lengthType := 2048 } ∧
     ((worldOf directionalDevice).dev.mDirectionalNbrs = [] →
       NetDevice.SendFrom (dropHeadOps 0) lineEnv 0 (worldOf directionalDevice) packet1000 7
           broadcastAddress 2048 =
         Except.ok ((worldOf directionalDevice).observe
           (Observation.macTx (framed packet1000 7 broadcastAddress 2048)), true) ∧
       NetDevice.Send (dropHeadOps 0) lineEnv 0 (worldOf directionalDevice) packet1000
           broadcastAddress 2048 =
         Except.ok ((worldOf directionalDevice).observe
           (Observation.macTx
             (framed packet1000 (worldOf directionalDevice).dev.m_address
               broadcastAddress 2048)), true))) :=
  ⟨by with_unfolding_all rfl, by with_unfolding_all rfl,
   Send_directional_broadcast (dropHeadOps 0) lineEnv 0 (worldOf directionalDevice) packet1000 7
     2048 (Eq.refl _) (by unfold NbrsSorted; decide)⟩

theorem find_some_of_exists (table : List (Nat × Mac48Address)) (dest : Mac48Address)
    (h : ∃ e ∈ table, e.2 = dest) :
    ∃ it, table.find? (fun it => decide (it.2 = dest)) = some it ∧ it ∈ table ∧ it.2 = dest := by
  cases hf : table.find? (fun it => decide (it.2 = dest)) with
  | none =>
    obtain ⟨e, he, hd⟩ := h
    have := List.find?_eq_none.mp hf e he
    exact absurd (decide_eq_true hd) this
  | some it =>
    refine ⟨it, rfl, List.mem_of_find?_eq_some hf, ?_⟩
    have h2 := List.find?_some hf
    exact of_decide_eq_true h2

/-- C18: with directional mode enabled and a destination that is not the
broadcast address: when the neighbor table has an entry with that address,
`SendFrom` and `Send` call `EnqueuePacket` exactly once, with a copy of the
framed packet and, as destination hint, the node id of an entry with that
address (the first one in key order, also when several entries share the
address); when no entry has that address they make no call and return true. -/
theorem Send_directional_unicast {Q : Type} (ops : QueueOps Q) (env : Env) (fuel : Nat)
    (w : World Q) (packet : Packet) (source dest : Mac48Address) (protocolNumber : Nat)
    (hen : w.dev.m_fixedNbrListEnabled = true) (hb : IsBroadcast dest = false) :
    ((∃ e ∈ w.dev.mDirectionalNbrs, e.2 = dest) →
      ∃ it, w.dev.mDirectionalNbrs.find? (fun it => decide (it.2 = dest)) = some it ∧
        it ∈ w.dev.mDirectionalNbrs ∧ it.2 = dest ∧
        NetDevice.SendFrom ops env fuel w packet source dest protocolNumber =
          returnTrue (enqueueEach ops env fuel
            [{ packet := framed packet source dest protocolNumber, fromAddr := source,
               toAddr := dest, protocolNumber := protocolNumber, destId := it.1 }]
            (w.observe (Observation.macTx (framed packet source dest protocolNumber)))) ∧
        NetDevice.Send ops env fuel w packet dest protocolNumber =
          returnTrue (enqueueEach ops env fuel
            [{ packet := framed packet w.dev.m_address dest protocolNumber,
               fromAddr := w.dev.m_address,
               toAddr := dest, protocolNumber := protocolNumber, destId := it.1 }]
            (w.observe
              (Observation.macTx (framed packet w.dev.m_address dest protocolNumber))))) ∧
    ((∀ e ∈ w.dev.mDirectionalNbrs, e.2 ≠ dest) →
      NetDevice.SendFrom ops env fuel w packet source dest protocolNumber =
        Except.ok (w.observe (Observation.macTx (framed packet source dest protocolNumber)),
          true) ∧
      NetDevice.Send ops env fuel w packet dest protocolNumber =
        Except.ok (w.observe
          (Observation.macTx (framed packet w.dev.m_address dest protocolNumber)), true)) := by
  have h1 := SendFrom_unicast ops env fuel w packet source dest protocolNumber hen hb
  have h2 := SendFrom_unicast ops env fuel w packet w.dev.m_address dest protocolNumber hen hb
  constructor
  · intro hex
    obtain ⟨it, hf, hmem, hd⟩ := find_some_of_exists _ dest hex
    rw [hf] at h1 h2
    exact ⟨it, hf, hmem, hd, h1, h2⟩
  · intro hall
    have hf : w.dev.mDirectionalNbrs.find? (fun it => decide (it.2 = dest)) = none := by
      rw [List.find?_eq_none]
      intro e he
      have := hall e he
      simpa using this
    rw [hf] at h1 h2
    exact ⟨h1, h2⟩

/-- C18 on the device of node 0 whose table gives the address 2 to the nodes 1
and 2: a packet for address 2 is handed over once, hinted 1, and nothing is
queued; a packet for address 9, which no entry has, produces no call. -/
theorem Send_directional_unicast_witness :
    resultTrace (NetDevice.Send (dropHeadOps 0) lineEnv 0 (worldOf sharedAddrDevice) packet1000
      2 2048) =
      [Observation.macTx (framed packet1000 1 2 2048),
       Observation.queueLatency ((framed packet1000 1 2 2048).AddPacketTag (Tag.destinationId 1)) 0,
       Observation.txBegin packet1000 1 2 2048,
       Observation.channelSend packet1000 2048 2 1 8000000 1] ∧
    resultQueue (NetDevice.Send (dropHeadOps 0) lineEnv 0 (worldOf sharedAddrDevice) packet1000
      2 2048) = [] ∧
    NetDevice.Send (dropHeadOps 0) lineEnv 0 (worldOf sharedAddrDevice) packet1000 9 2048 =
      Except.ok ((worldOf sharedAddrDevice).observe
        (Observation.macTx (framed packet1000 1 9 2048)), true) ∧
    (((∃ e ∈ (worldOf sharedAddrDevice).dev.mDirectionalNbrs, e.2 = 2) →
      ∃ it, (worldOf sharedAddrDevice).dev.mDirectionalNbrs.find?
          (fun it => decide (it.2 = 2)) = some it ∧
        it ∈ (worldOf sharedAddrDevice).dev.mDirectionalNbrs ∧ it.2 = 2 ∧
        NetDevice.SendFrom (dropHeadOps 0) lineEnv 0 (worldOf sharedAddrDevice) packet1000 7 2
            2048 =
          returnTrue (enqueueEach (dropHeadOps 0) lineEnv 0
            [{ packet := framed packet1000 7 2 2048, fromAddr := 7,
               toAddr := 2, protocolNumber := 2048, destId := it.1 }]
            ((worldOf sharedAddrDevice).observe
              (Observation.macTx (framed packet1000 7 2 2048)))) ∧
        NetDevice.Send (dropHeadOps 0) lineEnv 0 (worldOf sharedAddrDevice) packet1000 2 2048 =
          returnTrue (enqueueEach (dropHeadOps 0) lineEnv 0
            [{ packet := framed packet1000 (worldOf sharedAddrDevice).dev.m_address 2 2048,
               fromAddr := (worldOf sharedAddrDevice).dev.m_address,
               toAddr := 2, protocolNumber := 2048, destId := it.1 }]
            ((worldOf sharedAddrDevice).observe
              (Observation.macTx
                (framed packet1000 (worldOf sharedAddrDevice).dev.m_address 2 2048))))) ∧
     ((∀ e ∈ (worldOf sharedAddrDevice).dev.mDirectionalNbrs, e.2 ≠ 2) →
       NetDevice.SendFrom (dropHeadOps 0) lineEnv 0 (worldOf sharedAddrDevice) packet1000 7 2
           2048 =
         Except.ok ((worldOf sharedAddrDevice).observe
           (Observation.macTx (framed packet1000 7 2 2048)), true) ∧
       NetDevice.Send (dropHeadOps 0) lineEnv 0 (worldOf sharedAddrDevice) packet1000 2 2048 =
         Except.ok ((worldOf sharedAddrDevice).observe
           (Observation.macTx
             (framed packet1000 (worldOf sharedAddrDevice).dev.m_address 2 2048)), true))) :=
  ⟨by with_unfolding_all rfl, by with_unfolding_all rfl, by with_unfolding_all rfl,
   Send_directional_unicast (dropHeadOps 0) lineEnv 0 (worldOf sharedAddrDevice) packet1000 7 2
     2048 (Eq.refl _) (by decide)⟩

/-! ## TransmitStart -/

/-- The scaling written in `TransmitStart` and `EnqueuePacket` is
`scaledDuration`. -/
theorem scaling_eq (base : Time) (nbrCount : Int) (directional : Bool) :
    (if nbrCount ≠ 0 then (if directional = true then base * 2 else base * nbrCount) else base)
      = scaledDuration base nbrCount directional := by
  unfold scaledDuration
  by_cases h : nbrCount = 0
  · rw [if_neg (not_not.mpr h), if_pos h]
  · rw [if_pos h, if_neg h]
    by_cases hd : directional = true
    · rw [if_pos hd, if_pos hd, mul_comm]
    · rw [if_neg hd, if_neg hd, mul_comm]

/-- From a READY device, for a packet that carries a link-layer header and a
destination tag, `TransmitStart` is the call of the channel in the state
`startedWorld`, with the stripped packet, the addresses and protocol of the
header, the scaled duration and the hint of the tag. -/
theorem TransmitStart_eq {Q : Type} (env : Env) (fuel : Nat) (w : World Q) (p : Packet)
    (ethHeader : EthernetHeader) (p2 : Packet) (destId : Nat) (p3 : Packet)
    (hready : w.dev.m_txMachineState = TxMachineState.READY)
    (hh : p.RemoveTimestampTag.2.RemoveHeader = some (ethHeader, p2))
    (hd : p2.RemoveDestinationIdTag = some (destId, p3)) :
    NetDevice.TransmitStart env fuel w p =
      callChannelSend env fuel
        (startedWorld env w p p3 ethHeader
          (scaledDuration (baseDuration w.dev.m_bps p3) w.dev.m_nbrCount
            w.dev.m_fixedNbrListEnabled))
        p3 ethHeader.m_lengthType ethHeader.m_destination ethHeader.m_source
        (scaledDuration (baseDuration w.dev.m_bps p3) w.dev.m_nbrCount w.dev.m_fixedNbrListEnabled)
        destId := by
  obtain ⟨⟨self, addr, bps, st, cur, q, pcap, dir, nbrs, cnt, tot, drop⟩, ch, txc, arr, tr⟩ := w
  dsimp only at hready
  subst hready
  cases pcap
  all_goals
    unfold NetDevice.TransmitStart
    rw [if_neg (not_not.mpr (Eq.refl _))]
    dsimp only
    rw [hh]
    dsimp only
    rw [hd]
    dsimp only [World.observe]
    simp only [Bool.false_eq_true, if_false, if_true]
    rw [scaling_eq]
    unfold baseDuration startedWorld
    simp only [Bool.false_eq_true, if_false, if_true, List.append_assoc, List.singleton_append,
      List.cons_append, List.nil_append]

theorem TransmitStart_inv {Q : Type} {env : Env} {fuel : Nat} {w w1 : World Q} {p : Packet}
    (h : NetDevice.TransmitStart env fuel w p = Except.ok w1) :
    w.dev.m_txMachineState = TxMachineState.READY ∧
    ∃ ethHeader p2 destId p3,
      p.RemoveTimestampTag.2.RemoveHeader = some (ethHeader, p2) ∧
      p2.RemoveDestinationIdTag = some (destId, p3) := by
  unfold NetDevice.TransmitStart at h
  by_cases hready : w.dev.m_txMachineState = TxMachineState.READY
  · refine ⟨hready, ?_⟩
    rw [if_neg (not_not.mpr hready)] at h
    dsimp only at h
    cases hh : p.RemoveTimestampTag.2.RemoveHeader with
    | none =>
      rw [hh] at h
      cases h
    | some r =>
      obtain ⟨ethHeader, p2⟩ := r
      rw [hh] at h
      dsimp only at h
      cases hd : p2.RemoveDestinationIdTag with
      | none =>
        rw [hd] at h
        cases h
      | some r2 =>
        obtain ⟨destId, p3⟩ := r2
        exact ⟨ethHeader, p2, destId, p3, rfl, hd⟩
  · rw [if_pos hready] at h
    cases h

theorem callChannelSend_inv {Q : Type} {env : Env} {fuel : Nat} {w w1 : World Q} {p : Packet}
    {protocol : Nat} {toAddr fromAddr : Mac48Address} {txTime : Time} {destId : Nat}
    (h : callChannelSend env fuel w p protocol toAddr fromAddr txTime destId = Except.ok w1) :
    ∃ st evs,
      Send env fuel w.ch p protocol toAddr fromAddr w.dev.self w.dev.m_nbrCount txTime destId
        = Except.ok (st, evs) ∧
      w1 = { w with
             ch := st.ch
             dev := { w.dev with m_nbrCount := st.nbrCount }
             arrivals := w.arrivals ++ evs
             trace := w.trace ++
               [Observation.channelSend p protocol toAddr fromAddr txTime destId] } := by
  unfold callChannelSend at h
  cases hs : Send env fuel w.ch p protocol toAddr fromAddr w.dev.self w.dev.m_nbrCount txTime
      destId with
  | error f =>
    rw [hs] at h
    cases h
  | ok r =>
    obtain ⟨st, evs⟩ := r
    rw [hs] at h
    injection h with h
    exact ⟨st, evs, rfl, h.symm⟩

theorem RemoveTimestampTag_frame (p : Packet) :
    p.RemoveTimestampTag.2.headers = p.headers ∧ p.RemoveTimestampTag.2.payload = p.payload := by
  unfold Packet.RemoveTimestampTag
  cases removeTimestamp p.tags with
  | none => exact ⟨rfl, rfl⟩
  | some r => exact ⟨rfl, rfl⟩

theorem RemoveHeader_some {p p2 : Packet} {h : EthernetHeader}
    (hh : p.RemoveHeader = some (h, p2)) :
    p.headers = h :: p2.headers ∧ p2.payload = p.payload ∧ p2.tags = p.tags := by
  unfold Packet.RemoveHeader at hh
  cases hp : p.headers with
  | nil =>
    rw [hp] at hh
    cases hh
  | cons h1 rest =>
    rw [hp] at hh
    injection hh with hh
    injection hh with h1 h2
    rw [← h1, ← h2]
    exact ⟨rfl, rfl, rfl⟩

theorem RemoveDestinationIdTag_some {p p3 : Packet} {d : Nat}
    (hd : p.RemoveDestinationIdTag = some (d, p3)) :
    p3.headers = p.headers ∧ p3.payload = p.payload ∧
      removeDestinationId p.tags = some (d, p3.tags) := by
  unfold Packet.RemoveDestinationIdTag at hd
  cases ht : removeDestinationId p.tags with
  | none =>
    rw [ht] at hd
    cases hd
  | some r =>
    obtain ⟨d1, rest⟩ := r
    rw [ht] at hd
    injection hd with hd
    injection hd with h1 h2
    rw [← h1, ← h2]
    exact ⟨rfl, rfl, rfl⟩

/-- C13: `TransmitStart` from a READY device, for a packet that carries a
link-layer header and a destination tag.  Let `p3` be the packet with the
header (and the tags) removed and base the duration of its size in bits at the
data rate, `Seconds (size * 8 / rate)` in nanosecond ticks.  `TransmitStart`
is the call of the channel with `p3` and a duration that is also the delay of
the `TransmitComplete` it schedules; that duration is base when the neighbor
count is 0, 2 x base when the count is not 0 and directional mode is enabled,
whatever the count, and count x base when the count is not 0 and directional
mode is disabled, so 3 x base for a count of 3.  The count is the one the
device holds on entry. -/
theorem TransmitStart_contention_scaling {Q : Type} (env : Env) (fuel : Nat) (w : World Q)
    (p : Packet) (ethHeader : EthernetHeader) (p2 : Packet) (destId : Nat) (p3 : Packet)
    (hready : w.dev.m_txMachineState = TxMachineState.READY)
    (hh : p.RemoveTimestampTag.2.RemoveHeader = some (ethHeader, p2))
    (hd : p2.RemoveDestinationIdTag = some (destId, p3)) :
    (p.headers = ethHeader :: p3.headers ∧ p3.payload = p.payload) ∧
    baseDuration w.dev.m_bps p3 = Seconds (((p3.GetSize : ℚ) * 8) / (w.dev.m_bps : ℚ)) ∧
    NetDevice.TransmitStart env fuel w p =
      callChannelSend env fuel
        (startedWorld env w p p3 ethHeader
          (scaledDuration (baseDuration w.dev.m_bps p3) w.dev.m_nbrCount
            w.dev.m_fixedNbrListEnabled))
        p3 ethHeader.m_lengthType ethHeader.m_destination ethHeader.m_source
        (scaledDuration (baseDuration w.dev.m_bps p3) w.dev.m_nbrCount w.dev.m_fixedNbrListEnabled)
        destId ∧
    (∀ w1 : World Q, NetDevice.TransmitStart env fuel w p = Except.ok w1 →
      w1.txComplete = w.txComplete ++
        [scaledDuration (baseDuration w.dev.m_bps p3) w.dev.m_nbrCount
          w.dev.m_fixedNbrListEnabled] ∧
      w1.trace.getLast? = some (Observation.channelSend p3 ethHeader.m_lengthType
        ethHeader.m_destination ethHeader.m_source
        (scaledDuration (baseDuration w.dev.m_bps p3) w.dev.m_nbrCount w.dev.m_fixedNbrListEnabled)
        destId)) ∧
    (w.dev.m_nbrCount = 0 →
      scaledDuration (baseDuration w.dev.m_bps p3) w.dev.m_nbrCount w.dev.m_fixedNbrListEnabled
        = baseDuration w.dev.m_bps p3) ∧
    (w.dev.m_nbrCount ≠ 0 → w.dev.m_fixedNbrListEnabled = true →
      scaledDuration (baseDuration w.dev.m_bps p3) w.dev.m_nbrCount w.dev.m_fixedNbrListEnabled
        = 2 * baseDuration w.dev.m_bps p3) ∧
    (w.dev.m_nbrCount ≠ 0 → w.dev.m_fixedNbrListEnabled = false →
      scaledDuration (baseDuration w.dev.m_bps p3) w.dev.m_nbrCount w.dev.m_fixedNbrListEnabled
        = w.dev.m_nbrCount * baseDuration w.dev.m_bps p3) ∧
    (w.dev.m_nbrCount = 3 → w.dev.m_fixedNbrListEnabled = false →
      scaledDuration (baseDuration w.dev.m_bps p3) w.dev.m_nbrCount w.dev.m_fixedNbrListEnabled
        = 3 * baseDuration w.dev.m_bps p3) := by
  have heq := TransmitStart_eq env fuel w p ethHeader p2 destId p3 hready hh hd
  have h1 := RemoveTimestampTag_frame p
  have h2 := RemoveHeader_some hh
  have h3 := RemoveDestinationIdTag_some hd
  refine ⟨⟨?_, ?_⟩, rfl, heq, ?_, ?_, ?_, ?_, ?_⟩
  · rw [← h1.1, h2.1, h3.1]
  · rw [h3.2.1, h2.2.1, h1.2]
  · intro w1 hw1
    rw [heq] at hw1
    obtain ⟨st, evs, _, hw⟩ := callChannelSend_inv hw1
    rw [hw]
    constructor
    · rfl
    · show (_ ++ [_]).getLast? = _
      rw [List.getLast?_append]
      rfl
  · intro h0
    unfold scaledDuration
    rw [if_pos h0]
  · intro h0 hdir
    unfold scaledDuration
    rw [if_neg h0, if_pos hdir]
  · intro h0 hdir
    unfold scaledDuration
    rw [if_neg h0, hdir]
    rfl
  · intro h0 hdir
    unfold scaledDuration
    rw [h0, hdir]
    rfl

/-- C13 on the device of node 0 at 1 Mbit/s with a neighbor count of 3 and
directional mode off: for the queued 1000-byte packet the base duration is
8 ms and the duration passed to the channel and scheduled is 24 ms. -/
theorem TransmitStart_contention_scaling_witness :
    baseDuration 1000000 packet1000 = 8000000 ∧
    (∃ w1, NetDevice.TransmitStart lineEnv 0 (worldOf contendingDevice) queuedPacket1000
        = Except.ok w1 ∧
      w1.txComplete = [24000000] ∧
      w1.trace.getLast? = some (Observation.channelSend packet1000 2048 broadcastAddress 1
        24000000 NO_DIRECTIONAL_NBR)) ∧
    ((queuedPacket1000.headers =
        { m_source := 1, m_destination := broadcastAddress, m_lengthType := 2048 }
          :: packet1000.headers ∧ packet1000.payload = queuedPacket1000.payload) ∧
     baseDuration (worldOf contendingDevice).dev.m_bps packet1000 =
       Seconds (((packet1000.GetSize : ℚ) * 8) / ((worldOf contendingDevice).dev.m_bps : ℚ)) ∧
     NetDevice.TransmitStart lineEnv 0 (worldOf contendingDevice) queuedPacket1000 =
       callChannelSend lineEnv 0
         (startedWorld lineEnv (worldOf contendingDevice) queuedPacket1000 packet1000
           { m_source := 1, m_destination := broadcastAddress, m_lengthType := 2048 }
           (scaledDuration (baseDuration (worldOf contendingDevice).dev.m_bps packet1000)
             (worldOf contendingDevice).dev.m_nbrCount
             (worldOf contendingDevice).dev.m_fixedNbrListEnabled))
         packet1000
         ({ m_source := 1, m_destination := broadcastAddress, m_lengthType := 2048 }
           : EthernetHeader).m_lengthType
         ({ m_source := 1, m_destination := broadcastAddress, m_lengthType := 2048 }
           : EthernetHeader).m_destination
         ({ m_source := 1, m_destination := broadcastAddress, m_lengthType := 2048 }
           : EthernetHeader).m_source
         (scaledDuration (baseDuration (worldOf contendingDevice).dev.m_bps packet1000)
           (worldOf contendingDevice).dev.m_nbrCount
           (worldOf contendingDevice).dev.m_fixedNbrListEnabled)
         NO_DIRECTIONAL_NBR ∧
     (∀ w1 : World DropHeadQueue,
       NetDevice.TransmitStart lineEnv 0 (worldOf contendingDevice) queuedPacket1000
         = Except.ok w1 →
       w1.txComplete = (worldOf contendingDevice).txComplete ++
         [scaledDuration (baseDuration (worldOf contendingDevice).dev.m_bps packet1000)
           (worldOf contendingDevice).dev.m_nbrCount
           (worldOf contendingDevice).dev.m_fixedNbrListEnabled] ∧
       w1.trace.getLast? = some (Observation.channelSend packet1000
         ({ m_source := 1, m_destination := broadcastAddress, m_lengthType := 2048 }
           : EthernetHeader).m_lengthType
         ({ m_source := 1, m_destination := broadcastAddress, m_lengthType := 2048 }
           : EthernetHeader).m_destination
         ({ m_source := 1, m_destination := broadcastAddress, m_lengthType := 2048 }
           : EthernetHeader).m_source
         (scaledDuration (baseDuration (worldOf contendingDevice).dev.m_bps packet1000)
           (worldOf contendingDevice).dev.m_nbrCount
           (worldOf contendingDevice).dev.m_fixedNbrListEnabled)
         NO_DIRECTIONAL_NBR)) ∧
     ((worldOf contendingDevice).dev.m_nbrCount = 0 →
       scaledDuration (baseDuration (worldOf contendingDevice).dev.m_bps packet1000)
         (worldOf contendingDevice).dev.m_nbrCount
         (worldOf contendingDevice).dev.m_fixedNbrListEnabled
         = baseDuration (worldOf contendingDevice).dev.m_bps packet1000) ∧
     ((worldOf contendingDevice).dev.m_nbrCount ≠ 0 →
       (worldOf contendingDevice).dev.m_fixedNbrListEnabled = true →
       scaledDuration (baseDuration (worldOf contendingDevice).dev.m_bps packet1000)
         (worldOf contendingDevice).dev.m_nbrCount
         (worldOf contendingDevice).dev.m_fixedNbrListEnabled
         = 2 * baseDuration (worldOf contendingDevice).dev.m_bps packet1000) ∧
     ((worldOf contendingDevice).dev.m_nbrCount ≠ 0 →
       (worldOf contendingDevice).dev.m_fixedNbrListEnabled = false →
       scaledDuration (baseDuration (worldOf contendingDevice).dev.m_bps packet1000)
         (worldOf contendingDevice).dev.m_nbrCount
         (worldOf contendingDevice).dev.m_fixedNbrListEnabled
         = (worldOf contendingDevice).dev.m_nbrCount
             * baseDuration (worldOf contendingDevice).dev.m_bps packet1000) ∧
     ((worldOf contendingDevice).dev.m_nbrCount = 3 →
       (worldOf contendingDevice).dev.m_fixedNbrListEnabled = false →
       scaledDuration (baseDuration (worldOf contendingDevice).dev.m_bps packet1000)
         (worldOf contendingDevice).dev.m_nbrCount
         (worldOf contendingDevice).dev.m_fixedNbrListEnabled
         = 3 * baseDuration (worldOf contendingDevice).dev.m_bps packet1000)) :=
  ⟨by with_unfolding_all rfl,
   ⟨_, by with_unfolding_all rfl, by with_unfolding_all rfl, by with_unfolding_all rfl⟩,
   TransmitStart_contention_scaling lineEnv 0 (worldOf contendingDevice) queuedPacket1000
     { m_source := 1, m_destination := broadcastAddress, m_lengthType := 2048 }
     { headers := [], payload := payload1000, tags := [Tag.destinationId NO_DIRECTIONAL_NBR] }
     NO_DIRECTIONAL_NBR packet1000 (Eq.refl _) (Eq.refl _) (Eq.refl _)⟩

/-! ## Round trip through the queue -/

/-- `SendFrom` is the sequence of calls `sendCalls`, made after the framed
packet has been observed. -/
theorem SendFrom_calls {Q : Type} (ops : QueueOps Q) (env : Env) (fuel : Nat) (w : World Q)
    (packet : Packet) (source dest : Mac48Address) (protocolNumber : Nat) :
    NetDevice.SendFrom ops env fuel w packet source dest protocolNumber =
      returnTrue (enqueueEach ops env fuel (sendCalls w.dev packet source dest protocolNumber)
        (w.observe (Observation.macTx (framed packet source dest protocolNumber)))) := by
  unfold sendCalls
  by_cases hen : w.dev.m_fixedNbrListEnabled = true
  · rw [if_pos hen]
    by_cases hb : IsBroadcast dest = true
    · rw [if_pos hb]
      exact SendFrom_broadcast ops env fuel w packet source dest protocolNumber hen hb
    · rw [if_neg hb]
      exact SendFrom_unicast ops env fuel w packet source dest protocolNumber hen
        (Bool.eq_false_iff.mpr hb)
  · rw [if_neg hen]
    exact SendFrom_omni ops env fuel w packet source dest protocolNumber
      (Bool.eq_false_iff.mpr hen)

theorem sendCalls_shape {Q : Type} (d : NetDevice Q) (packet : Packet)
    (source dest : Mac48Address) (protocolNumber : Nat) :
    ∀ c ∈ sendCalls d packet source dest protocolNumber,
      c.packet = framed packet source dest protocolNumber ∧ c.fromAddr = source ∧
        c.toAddr = dest ∧ c.protocolNumber = protocolNumber := by
  intro c hc
  unfold sendCalls at hc
  by_cases hen : d.m_fixedNbrListEnabled = true
  · rw [if_pos hen] at hc
    by_cases hb : IsBroadcast dest = true
    · rw [if_pos hb] at hc
      obtain ⟨it, _, hit⟩ := List.mem_map.mp hc
      rw [← hit]
      exact ⟨rfl, rfl, rfl, rfl⟩
    · rw [if_neg hb] at hc
      cases hf : d.mDirectionalNbrs.find? (fun it => decide (it.2 = dest)) with
      | none =>
        rw [hf] at hc
        cases hc
      | some it =>
        rw [hf] at hc
        rw [List.mem_singleton.mp hc]
        exact ⟨rfl, rfl, rfl, rfl⟩
  · rw [if_neg hen] at hc
    rw [List.mem_singleton.mp hc]
    exact ⟨rfl, rfl, rfl, rfl⟩

/-- With a queue attached `EnqueuePacket` offers the stamped and tagged packet
to the queue; what follows depends on the answer of the queue and on the
transmit state. -/
theorem EnqueuePacket_queue {Q : Type} (ops : QueueOps Q) (env : Env) (fuel : Nat) (w : World Q)
    (q : Q) (packet : Packet) (fromAddr toAddr : Mac48Address) (protocolNumber destId : Nat)
    (hq : w.dev.m_queue = some q) :
    NetDevice.EnqueuePacket ops env fuel w packet fromAddr toAddr protocolNumber destId =
      offerToQueue ops env fuel w q
        ((packet.AddPacketTag (Tag.timestamp env.now)).AddPacketTag (Tag.destinationId destId)) := by
  unfold offerToQueue
  unfold NetDevice.EnqueuePacket
  rw [hq]
  dsimp only
  cases ops.Enqueue q
      ((packet.AddPacketTag (Tag.timestamp env.now)).AddPacketTag (Tag.destinationId destId)) with
  | error f => rfl
  | ok r =>
    obtain ⟨q1, acc⟩ := r
    cases acc with
    | false => rfl
    | true =>
      dsimp only
      by_cases hst : w.dev.m_txMachineState = TxMachineState.READY
      · rw [if_pos hst, if_pos hst]
        cases ops.Dequeue q1 with
        | error f => rfl
        | ok r2 =>
          obtain ⟨q2, op⟩ := r2
          cases op with
          | none => rfl
          | some pk =>
            dsimp only
            unfold returnTrue
            cases NetDevice.TransmitStart env fuel
              { w with dev := { w.dev with m_queue := some q2 } } pk with
            | error f => rfl
            | ok w2 => rfl
      · rw [if_neg hst, if_neg hst]

/-- `TransmitStart` of a packet in the form in which `EnqueuePacket` queued it
for `Send` or `SendFrom`: the channel is called with the packet as it was
submitted and the addresses, protocol and hint of the enqueue, and the queue
latency observed is the current time minus the time of the enqueue. -/
theorem TransmitStart_queuedForm {Q : Type} (env0 env : Env) (fuel : Nat) (w : World Q)
    (packet : Packet) (source dest : Mac48Address) (protocolNumber destId : Nat)
    (hready : w.dev.m_txMachineState = TxMachineState.READY) :
    (queuedForm env0 packet source dest protocolNumber destId).RemoveTimestampTag =
      (env0.now, (framed packet source dest protocolNumber).AddPacketTag
        (Tag.destinationId destId)) ∧
    NetDevice.TransmitStart env fuel w (queuedForm env0 packet source dest protocolNumber destId) =
      callChannelSend env fuel
        (startedWorld env w (queuedForm env0 packet source dest protocolNumber destId) packet
          { m_source := source, m_destination := dest, m_lengthType := protocolNumber }
          (scaledDuration (baseDuration w.dev.m_bps packet) w.dev.m_nbrCount
            w.dev.m_fixedNbrListEnabled))
        packet protocolNumber dest source
        (scaledDuration (baseDuration w.dev.m_bps packet) w.dev.m_nbrCount
          w.dev.m_fixedNbrListEnabled)
        destId := by
  have hts : (queuedForm env0 packet source dest protocolNumber destId).RemoveTimestampTag =
      (env0.now, (framed packet source dest protocolNumber).AddPacketTag
        (Tag.destinationId destId)) := rfl
  refine ⟨hts, ?_⟩
  exact TransmitStart_eq env fuel w _
    { m_source := source, m_destination := dest, m_lengthType := protocolNumber }
    (packet.AddPacketTag (Tag.destinationId destId)) destId packet hready
    (by rw [hts]; rfl) rfl

/-- C15: a packet submitted through `SendFrom` (`Send` is `SendFrom` with the
device's own address as source) reaches `EnqueuePacket` framed with a header
that holds the source, destination and protocol of the call.  On a device with
a queue attached `EnqueuePacket` offers it to the queue stamped with the
current time and tagged with the destination hint, so both tags are on the
packet while it is queued.  When `TransmitStart` later runs on that queued
packet, at any time and from any READY state, it hands to the channel the
packet exactly as it was submitted (header and both tags removed, payload
equal), with the to, from, protocol and destination hint of the enqueue, and
the queue latency it observes is the time of `TransmitStart` minus the time of
the enqueue. -/
theorem queue_round_trip {Q : Type} (ops : QueueOps Q) (env0 : Env) (fuel : Nat) (w : World Q)
    (packet : Packet) (source dest : Mac48Address) (protocolNumber : Nat) :
    NetDevice.SendFrom ops env0 fuel w packet source dest protocolNumber =
      returnTrue (enqueueEach ops env0 fuel (sendCalls w.dev packet source dest protocolNumber)
        (w.observe (Observation.macTx (framed packet source dest protocolNumber)))) ∧
    NetDevice.Send ops env0 fuel w packet dest protocolNumber =
      NetDevice.SendFrom ops env0 fuel w packet w.dev.m_address dest protocolNumber ∧
    (∀ c ∈ sendCalls w.dev packet source dest protocolNumber,
      c.packet = framed packet source dest protocolNumber ∧ c.fromAddr = source ∧
        c.toAddr = dest ∧ c.protocolNumber = protocolNumber) ∧
    (∀ (w0 : World Q) (q0 : Q) (destId : Nat), w0.dev.m_queue = some q0 →
      (queuedForm env0 packet source dest protocolNumber destId).tags =
        Tag.destinationId destId :: Tag.timestamp env0.now :: packet.tags ∧
      NetDevice.EnqueuePacket ops env0 fuel w0 (framed packet source dest protocolNumber)
          source dest protocolNumber destId =
        offerToQueue ops env0 fuel w0 q0
          (queuedForm env0 packet source dest protocolNumber destId)) ∧
    (∀ (env : Env) (w2 : World Q) (destId : Nat),
      w2.dev.m_txMachineState = TxMachineState.READY →
      NetDevice.TransmitStart env fuel w2
          (queuedForm env0 packet source dest protocolNumber destId) =
        callChannelSend env fuel
          (startedWorld env w2 (queuedForm env0 packet source dest protocolNumber destId) packet
            { m_source := source, m_destination := dest, m_lengthType := protocolNumber }
            (scaledDuration (baseDuration w2.dev.m_bps packet) w2.dev.m_nbrCount
              w2.dev.m_fixedNbrListEnabled))
          packet protocolNumber dest source
          (scaledDuration (baseDuration w2.dev.m_bps packet) w2.dev.m_nbrCount
            w2.dev.m_fixedNbrListEnabled)
          destId ∧
      (∀ w3 : World Q,
        NetDevice.TransmitStart env fuel w2
            (queuedForm env0 packet source dest protocolNumber destId) = Except.ok w3 →
        Observation.queueLatency
            ((framed packet source dest protocolNumber).AddPacketTag (Tag.destinationId destId))
            (env.now - env0.now) ∈ w3.trace ∧
        w3.trace.getLast? = some (Observation.channelSend packet protocolNumber dest source
          (scaledDuration (baseDuration w2.dev.m_bps packet) w2.dev.m_nbrCount
            w2.dev.m_fixedNbrListEnabled) destId))) := by
  refine ⟨SendFrom_calls ops env0 fuel w packet source dest protocolNumber, rfl,
    sendCalls_shape w.dev packet source dest protocolNumber, ?_, ?_⟩
  · intro w0 q0 destId hq0
    exact ⟨rfl, EnqueuePacket_queue ops env0 fuel w0 q0 (framed packet source dest protocolNumber)
      source dest protocolNumber destId hq0⟩
  · intro env w2 destId hready
    have h := (TransmitStart_queuedForm env0 env fuel w2 packet source dest protocolNumber destId
      hready).2
    refine ⟨h, ?_⟩
    intro w3 hw3
    rw [h] at hw3
    obtain ⟨st, evs, _, hw⟩ := callChannelSend_inv hw3
    rw [hw]
    constructor
    · show _ ∈ (startedWorld env w2 _ packet _ _).trace ++ [_]
      apply List.mem_append_left
      unfold startedWorld
      show _ ∈ _ ++ [_, _]
      apply List.mem_append_right
      exact List.mem_cons_self _ _
    · show (_ ++ [_]).getLast? = _
      rw [List.getLast?_append]
      rfl

/-- C15 on the device of node 0: it is BUSY with a first packet when the
two-byte packet for address 2 is sent at time 0, so that packet waits in the
queue, framed and carrying both tags; when the transmission completes at 8 ms
the packet is handed to the channel as it was submitted, with to 2, from 1,
protocol 2054 and the sentinel, after a queue latency of 8 ms. -/
theorem queue_round_trip_witness :
    resultQueue (NetDevice.Send (dropHeadOps 0) lineEnv 0 busyWorld packetTwo 2 2054) =
      [queuedForm lineEnv packetTwo 1 2 2054 NO_DIRECTIONAL_NBR] ∧
    (∃ w3, NetDevice.TransmitComplete (dropHeadOps 0) doneEnv 0
        { waitingWorld with txComplete := [] } = Except.ok w3 ∧
      w3.trace.drop 5 =
        [Observation.queueLatency
           ((framed packetTwo 1 2 2054).AddPacketTag (Tag.destinationId NO_DIRECTIONAL_NBR))
           8000000,
         Observation.txBegin packetTwo 1 2 2054,
         Observation.channelSend packetTwo 2054 2 1 16000 NO_DIRECTIONAL_NBR]) ∧
    (NetDevice.SendFrom (dropHeadOps 0) lineEnv 0 busyWorld packetTwo 1 2 2054 =
       returnTrue (enqueueEach (dropHeadOps 0) lineEnv 0 (sendCalls busyWorld.dev packetTwo 1 2 2054)
         (busyWorld.observe (Observation.macTx (framed packetTwo 1 2 2054)))) ∧
     NetDevice.Send (dropHeadOps 0) lineEnv 0 busyWorld packetTwo 2 2054 =
       NetDevice.SendFrom (dropHeadOps 0) lineEnv 0 busyWorld packetTwo busyWorld.dev.m_address 2
         2054 ∧
     (∀ c ∈ sendCalls busyWorld.dev packetTwo 1 2 2054,
       c.packet = framed packetTwo 1 2 2054 ∧ c.fromAddr = 1 ∧ c.toAddr = 2 ∧
         c.protocolNumber = 2054) ∧
     (∀ (w0 : World DropHeadQueue) (q0 : DropHeadQueue) (destId : Nat), w0.dev.m_queue = some q0 →
       (queuedForm lineEnv packetTwo 1 2 2054 destId).tags =
         Tag.destinationId destId :: Tag.timestamp lineEnv.now :: packetTwo.tags ∧
       NetDevice.EnqueuePacket (dropHeadOps 0) lineEnv 0 w0 (framed packetTwo 1 2 2054)
           1 2 2054 destId =
         offerToQueue (dropHeadOps 0) lineEnv 0 w0 q0
           (queuedForm lineEnv packetTwo 1 2 2054 destId)) ∧
     (∀ (env : Env) (w2 : World DropHeadQueue) (destId : Nat),
       w2.dev.m_txMachineState = TxMachineState.READY →
       NetDevice.TransmitStart env 0 w2 (queuedForm lineEnv packetTwo 1 2 2054 destId) =
         callChannelSend env 0
           (startedWorld env w2 (queuedForm lineEnv packetTwo 1 2 2054 destId) packetTwo
             { m_source := 1, m_destination := 2, m_lengthType := 2054 }
             (scaledDuration (baseDuration w2.dev.m_bps packetTwo) w2.dev.m_nbrCount
               w2.dev.m_fixedNbrListEnabled))
           packetTwo 2054 2 1
           (scaledDuration (baseDuration w2.dev.m_bps packetTwo) w2.dev.m_nbrCount
             w2.dev.m_fixedNbrListEnabled)
           destId ∧
       (∀ w3 : World DropHeadQueue,
         NetDevice.TransmitStart env 0 w2 (queuedForm lineEnv packetTwo 1 2 2054 destId)
           = Except.ok w3 →
         Observation.queueLatency
             ((framed packetTwo 1 2 2054).AddPacketTag (Tag.destinationId destId))
             (env.now - lineEnv.now) ∈ w3.trace ∧
         w3.trace.getLast? = some (Observation.channelSend packetTwo 2054 2 1
           (scaledDuration (baseDuration w2.dev.m_bps packetTwo) w2.dev.m_nbrCount
             w2.dev.m_fixedNbrListEnabled) destId)))) :=
  ⟨by with_unfolding_all rfl,
   ⟨_, by with_unfolding_all rfl, by with_unfolding_all rfl⟩,
   queue_round_trip (dropHeadOps 0) lineEnv 0 busyWorld packetTwo 1 2 2054⟩

/-! ## One transmission in flight -/

theorem callChannelSend_frame {Q : Type} {env : Env} {fuel : Nat} {w w1 : World Q} {p : Packet}
    {protocol : Nat} {toAddr fromAddr : Mac48Address} {txTime : Time} {destId : Nat}
    (h : callChannelSend env fuel w p protocol toAddr fromAddr txTime destId = Except.ok w1) :
    w1.dev.m_txMachineState = w.dev.m_txMachineState ∧ w1.txComplete = w.txComplete ∧
    w1.dev.m_currentPkt = w.dev.m_currentPkt ∧ w1.dev.m_queue = w.dev.m_queue := by
  obtain ⟨st, evs, _, hw⟩ := callChannelSend_inv h
  rw [hw]
  exact ⟨rfl, rfl, rfl, rfl⟩

theorem callChannelSend_error {Q : Type} {env : Env} {fuel : Nat} {w : World Q} {p : Packet}
    {protocol : Nat} {toAddr fromAddr : Mac48Address} {txTime : Time} {destId : Nat}
    {f : DevFault}
    (h : callChannelSend env fuel w p protocol toAddr fromAddr txTime destId = Except.error f) :
    ∃ g, f = DevFault.channel g := by
  unfold callChannelSend at h
  cases hs : Send env fuel w.ch p protocol toAddr fromAddr w.dev.self w.dev.m_nbrCount txTime
      destId with
  | error g =>
    rw [hs] at h
    injection h with h
    exact ⟨g, h.symm⟩
  | ok r =>
    obtain ⟨st, evs⟩ := r
    rw [hs] at h
    cases h

theorem TransmitStart_effect {Q : Type} {env : Env} {fuel : Nat} {w w1 : World Q} {p : Packet}
    (h : NetDevice.TransmitStart env fuel w p = Except.ok w1) :
    w.dev.m_txMachineState = TxMachineState.READY ∧
    w1.dev.m_txMachineState = TxMachineState.BUSY ∧
    (∃ t, w1.txComplete = w.txComplete ++ [t]) ∧
    w1.dev.m_currentPkt.isSome = true ∧ w1.dev.m_queue = w.dev.m_queue := by
  obtain ⟨hready, ethHeader, p2, destId, p3, hh, hd⟩ := TransmitStart_inv h
  rw [TransmitStart_eq env fuel w p ethHeader p2 destId p3 hready hh hd] at h
  obtain ⟨h1, h2, h3, h4⟩ := callChannelSend_frame h
  refine ⟨hready, h1, ⟨_, h2⟩, ?_, h4⟩
  rw [h3]
  rfl

theorem TransmitStart_error {Q : Type} {env : Env} {fuel : Nat} {w : World Q} {p : Packet}
    {f : DevFault} (hready : w.dev.m_txMachineState = TxMachineState.READY)
    (h : NetDevice.TransmitStart env fuel w p = Except.error f) :
    f = DevFault.malformedPacket ∨ ∃ g, f = DevFault.channel g := by
  cases hh : p.RemoveTimestampTag.2.RemoveHeader with
  | none =>
    unfold NetDevice.TransmitStart at h
    rw [if_neg (not_not.mpr hready)] at h
    dsimp only at h
    rw [hh] at h
    injection h with h
    exact Or.inl h.symm
  | some r =>
    obtain ⟨ethHeader, p2⟩ := r
    cases hd : p2.RemoveDestinationIdTag with
    | none =>
      unfold NetDevice.TransmitStart at h
      rw [if_neg (not_not.mpr hready)] at h
      dsimp only at h
      rw [hh] at h
      dsimp only at h
      rw [hd] at h
      injection h with h
      exact Or.inl h.symm
    | some r2 =>
      obtain ⟨destId, p3⟩ := r2
      rw [TransmitStart_eq env fuel w p ethHeader p2 destId p3 hready hh hd] at h
      exact Or.inr (callChannelSend_error h)

/-- A fault of the device that is neither of the two state assertions. -/
theorem not_state_fault_of {f : DevFault}
    (h : f = DevFault.malformedPacket ∨ ∃ g, f = DevFault.channel g) :
    f ≠ DevFault.notReady ∧ f ≠ DevFault.notBusy ∧ f ≠ DevFault.noCurrentPkt := by
  rcases h with h | ⟨g, h⟩ <;> rw [h] <;> refine ⟨?_, ?_, ?_⟩ <;> intro hc <;> cases hc

theorem returnTrue_ok {Q : Type} {r : Except DevFault (World Q)} {w1 : World Q} {b : Bool}
    (h : returnTrue r = Except.ok (w1, b)) : r = Except.ok w1 := by
  unfold returnTrue at h
  cases r with
  | error f => cases h
  | ok w =>
    injection h with h
    injection h with h1 h2
    rw [h1]

theorem returnTrue_error {Q : Type} {r : Except DevFault (World Q)} {f : DevFault}
    (h : returnTrue r = Except.error f) : r = Except.error f := by
  unfold returnTrue at h
  cases r with
  | error g =>
    injection h with h
    rw [h]
  | ok w => cases h

theorem ite_observe_frame {Q : Type} (b : Bool) (w : World Q) (o : Observation) :
    (if b = true then w.observe o else w).dev = w.dev ∧
    (if b = true then w.observe o else w).txComplete = w.txComplete := by
  cases b <;> exact ⟨rfl, rfl⟩

theorem TxConsistent_of_frame {Q : Type} {w w1 : World Q} (hc : TxConsistent w)
    (h1 : w1.dev.m_txMachineState = w.dev.m_txMachineState) (h2 : w1.txComplete = w.txComplete)
    (h3 : w1.dev.m_currentPkt = w.dev.m_currentPkt)
    (h4 : w.dev.m_queue.isSome = true → w1.dev.m_queue.isSome = true) : TxConsistent w1 := by
  unfold TxConsistent
  rw [h1, h2, h3]
  rcases hc with hc | hc
  · exact Or.inl hc
  · exact Or.inr ⟨hc.1, hc.2.1, hc.2.2.1, h4 hc.2.2.2⟩

theorem TransmitStart_consistent {Q : Type} {env : Env} {fuel : Nat} {w w1 : World Q}
    {p : Packet} (htx : w.txComplete = []) (hq : w.dev.m_queue.isSome = true)
    (h : NetDevice.TransmitStart env fuel w p = Except.ok w1) : TxConsistent w1 := by
  obtain ⟨_, hbusy, ⟨t, ht⟩, hcur, hqueue⟩ := TransmitStart_effect h
  refine Or.inr ⟨hbusy, ?_, hcur, ?_⟩
  · rw [ht, htx]
    rfl
  · rw [hqueue]
    exact hq

theorem EnqueuePacket_consistent {Q : Type} {ops : QueueOps Q} {env : Env} {fuel : Nat}
    {w w1 : World Q} {packet : Packet} {fromAddr toAddr : Mac48Address}
    {protocolNumber destId : Nat} {r : Bool} (hc : TxConsistent w)
    (h : NetDevice.EnqueuePacket ops env fuel w packet fromAddr toAddr protocolNumber destId
      = Except.ok (w1, r)) : TxConsistent w1 := by
  cases hq : w.dev.m_queue with
  | some q =>
    rw [EnqueuePacket_queue ops env fuel w q packet fromAddr toAddr protocolNumber destId hq] at h
    unfold offerToQueue at h
    cases henq : ops.Enqueue q
        ((packet.AddPacketTag (Tag.timestamp env.now)).AddPacketTag (Tag.destinationId destId)) with
    | error f =>
      rw [henq] at h
      cases h
    | ok res =>
      obtain ⟨q1, acc⟩ := res
      rw [henq] at h
      cases acc with
      | false =>
        dsimp only at h
        injection h with h
        injection h with h1 h2
        rw [← h1]
        exact TxConsistent_of_frame hc rfl rfl rfl (fun _ => rfl)
      | true =>
        dsimp only at h
        by_cases hst : w.dev.m_txMachineState = TxMachineState.READY
        · rw [if_pos hst] at h
          cases hdq : ops.Dequeue q1 with
          | error f =>
            rw [hdq] at h
            cases h
          | ok res2 =>
            obtain ⟨q2, op⟩ := res2
            rw [hdq] at h
            cases op with
            | none => cases h
            | some pk =>
              dsimp only at h
              have hts := returnTrue_ok h
              have htx : w.txComplete = [] := by
                rcases hc with hc | hc
                · exact hc.2.1
                · rw [hst] at hc
                  cases hc.1
              exact TransmitStart_consistent
                (show ({ w with dev := { w.dev with m_queue := some q2 } } : World Q).txComplete
                  = [] from htx) (Eq.refl _) hts
        · rw [if_neg hst] at h
          injection h with h
          injection h with h1 h2
          rw [← h1]
          exact TxConsistent_of_frame hc rfl rfl rfl (fun _ => rfl)
  | none =>
    unfold NetDevice.EnqueuePacket at h
    rw [hq] at h
    dsimp only at h
    cases hh : packet.RemoveHeader with
    | none =>
      rw [hh] at h
      cases h
    | some res =>
      obtain ⟨hd, pk⟩ := res
      rw [hh] at h
      dsimp only at h
      generalize hdur : (if (World.observe
          (if w.dev.m_pcapEnabled = true then w.observe (Observation.promiscSniffer packet) else w)
          (Observation.txBegin pk
            (if w.dev.m_pcapEnabled = true then w.observe (Observation.promiscSniffer packet)
              else w).dev.m_address toAddr protocolNumber)).dev.m_nbrCount ≠ 0 then _ else _) = dur
        at h
      cases hcs : callChannelSend env fuel
          (World.observe
            (if w.dev.m_pcapEnabled = true then w.observe (Observation.promiscSniffer packet)
              else w)
            (Observation.txBegin pk
              (if w.dev.m_pcapEnabled = true then w.observe (Observation.promiscSniffer packet)
                else w).dev.m_address toAddr protocolNumber))
          pk protocolNumber toAddr fromAddr dur destId with
      | error f =>
        rw [hcs] at h
        cases h
      | ok w3 =>
        rw [hcs] at h
        injection h with h
        injection h with h1 h2
        rw [← h1]
        obtain ⟨f1, f2, f3, f4⟩ := callChannelSend_frame hcs
        have hf := ite_observe_frame w.dev.m_pcapEnabled w (Observation.promiscSniffer packet)
        refine TxConsistent_of_frame hc ?_ ?_ ?_ ?_
        · rw [f1]
          show (if w.dev.m_pcapEnabled = true then w.observe (Observation.promiscSniffer packet)
            else w).dev.m_txMachineState = _
          rw [hf.1]
        · rw [f2]
          show (if w.dev.m_pcapEnabled = true then w.observe (Observation.promiscSniffer packet)
            else w).txComplete = _
          rw [hf.2]
        · rw [f3]
          show (if w.dev.m_pcapEnabled = true then w.observe (Observation.promiscSniffer packet)
            else w).dev.m_currentPkt = _
          rw [hf.1]
        · intro hsome
          rw [hq] at hsome
          cases hsome

theorem EnqueuePacket_error {Q : Type} {ops : QueueOps Q} {env : Env} {fuel : Nat}
    {w : World Q} {packet : Packet} {fromAddr toAddr : Mac48Address}
    {protocolNumber destId : Nat} {f : DevFault}
    (h : NetDevice.EnqueuePacket ops env fuel w packet fromAddr toAddr protocolNumber destId
      = Except.error f) :
    f ≠ DevFault.notReady ∧ f ≠ DevFault.notBusy ∧ f ≠ DevFault.noCurrentPkt := by
  cases hq : w.dev.m_queue with
  | some q =>
    rw [EnqueuePacket_queue ops env fuel w q packet fromAddr toAddr protocolNumber destId hq] at h
    unfold offerToQueue at h
    cases henq : ops.Enqueue q
        ((packet.AddPacketTag (Tag.timestamp env.now)).AddPacketTag (Tag.destinationId destId)) with
    | error g =>
      rw [henq] at h
      injection h with h
      rw [← h]
      refine ⟨?_, ?_, ?_⟩ <;> intro hc <;> cases hc
    | ok res =>
      obtain ⟨q1, acc⟩ := res
      rw [henq] at h
      cases acc with
      | false => cases h
      | true =>
        dsimp only at h
        by_cases hst : w.dev.m_txMachineState = TxMachineState.READY
        · rw [if_pos hst] at h
          cases hdq : ops.Dequeue q1 with
          | error g =>
            rw [hdq] at h
            injection h with h
            rw [← h]
            refine ⟨?_, ?_, ?_⟩ <;> intro hc <;> cases hc
          | ok res2 =>
            obtain ⟨q2, op⟩ := res2
            rw [hdq] at h
            cases op with
            | none =>
              injection h with h
              rw [← h]
              refine ⟨?_, ?_, ?_⟩ <;> intro hc <;> cases hc
            | some pk =>
              dsimp only at h
              have hts := returnTrue_error h
              exact not_state_fault_of
                (TransmitStart_error
                  (show ({ w with dev := { w.dev with m_queue := some q2 } }
                    : World Q).dev.m_txMachineState = TxMachineState.READY from hst) hts)
        · rw [if_neg hst] at h
          cases h
  | none =>
    unfold NetDevice.EnqueuePacket at h
    rw [hq] at h
    dsimp only at h
    cases hh : packet.RemoveHeader with
    | none =>
      rw [hh] at h
      injection h with h
      rw [← h]
      refine ⟨?_, ?_, ?_⟩ <;> intro hc <;> cases hc
    | some res =>
      obtain ⟨hd, pk⟩ := res
      rw [hh] at h
      dsimp only at h
      generalize hdur : (if (World.observe
          (if w.dev.m_pcapEnabled = true then w.observe (Observation.promiscSniffer packet) else w)
          (Observation.txBegin pk
            (if w.dev.m_pcapEnabled = true then w.observe (Observation.promiscSniffer packet)
              else w).dev.m_address toAddr protocolNumber)).dev.m_nbrCount ≠ 0 then _ else _) = dur
        at h
      cases hcs : callChannelSend env fuel
          (World.observe
            (if w.dev.m_pcapEnabled = true then w.observe (Observation.promiscSniffer packet)
              else w)
            (Observation.txBegin pk
              (if w.dev.m_pcapEnabled = true then w.observe (Observation.promiscSniffer packet)
                else w).dev.m_address toAddr protocolNumber))
          pk protocolNumber toAddr fromAddr dur destId with
      | error g =>
        rw [hcs] at h
        injection h with h
        rw [← h]
        exact not_state_fault_of (Or.inr (callChannelSend_error hcs))
      | ok w3 =>
        rw [hcs] at h
        cases h

theorem enqueueEach_consistent {Q : Type} {ops : QueueOps Q} {env : Env} {fuel : Nat}
    (calls : List EnqueueCall) :
    ∀ {w w1 : World Q}, TxConsistent w → enqueueEach ops env fuel calls w = Except.ok w1 →
      TxConsistent w1 := by
  induction calls with
  | nil =>
    intro w w1 hc h
    unfold enqueueEach at h
    injection h with h
    rw [← h]
    exact hc
  | cons c rest ih =>
    intro w w1 hc h
    rw [enqueueEach] at h
    cases he : NetDevice.EnqueuePacket ops env fuel w c.packet c.fromAddr c.toAddr
        c.protocolNumber c.destId with
    | error f =>
      rw [he] at h
      cases h
    | ok res =>
      obtain ⟨w2, b⟩ := res
      rw [he] at h
      exact ih (EnqueuePacket_consistent hc he) h

theorem enqueueEach_error {Q : Type} {ops : QueueOps Q} {env : Env} {fuel : Nat}
    (calls : List EnqueueCall) :
    ∀ {w : World Q} {f : DevFault}, enqueueEach ops env fuel calls w = Except.error f →
      f ≠ DevFault.notReady ∧ f ≠ DevFault.notBusy ∧ f ≠ DevFault.noCurrentPkt := by
  induction calls with
  | nil =>
    intro w f h
    unfold enqueueEach at h
    cases h
  | cons c rest ih =>
    intro w f h
    rw [enqueueEach] at h
    cases he : NetDevice.EnqueuePacket ops env fuel w c.packet c.fromAddr c.toAddr
        c.protocolNumber c.destId with
    | error g =>
      rw [he] at h
      injection h with h
      rw [← h]
      exact EnqueuePacket_error he
    | ok res =>
      obtain ⟨w2, b⟩ := res
      rw [he] at h
      exact ih h

theorem SendFrom_consistent {Q : Type} {ops : QueueOps Q} {env : Env} {fuel : Nat}
    {w w1 : World Q} {packet : Packet} {source dest : Mac48Address} {protocolNumber : Nat}
    {r : Bool} (hc : TxConsistent w)
    (h : NetDevice.SendFrom ops env fuel w packet source dest protocolNumber
      = Except.ok (w1, r)) : TxConsistent w1 := by
  rw [SendFrom_calls] at h
  have hc1 : TxConsistent (w.observe (Observation.macTx (framed packet source dest protocolNumber))) :=
    TxConsistent_of_frame hc rfl rfl rfl (fun hq => hq)
  exact enqueueEach_consistent _ hc1 (returnTrue_ok h)

theorem SendFrom_error {Q : Type} {ops : QueueOps Q} {env : Env} {fuel : Nat}
    {w : World Q} {packet : Packet} {source dest : Mac48Address} {protocolNumber : Nat}
    {f : DevFault}
    (h : NetDevice.SendFrom ops env fuel w packet source dest protocolNumber = Except.error f) :
    f ≠ DevFault.notReady ∧ f ≠ DevFault.notBusy ∧ f ≠ DevFault.noCurrentPkt := by
  rw [SendFrom_calls] at h
  exact enqueueEach_error _ (returnTrue_error h)

/-- `TransmitComplete` run from a BUSY state with a packet in flight, a queue
attached and no other completion pending: it returns only in a consistent
state and fails none of its assertions. -/
theorem TransmitComplete_from_busy {Q : Type} (ops : QueueOps Q) (env : Env) (fuel : Nat)
    (w : World Q) (q : Q) (hb : w.dev.m_txMachineState = TxMachineState.BUSY)
    (hcur : w.dev.m_currentPkt.isSome = true) (hq : w.dev.m_queue = some q)
    (htx : w.txComplete = []) :
    (∀ w1, NetDevice.TransmitComplete ops env fuel w = Except.ok w1 → TxConsistent w1) ∧
    (∀ f, NetDevice.TransmitComplete ops env fuel w = Except.error f →
      f ≠ DevFault.notReady ∧ f ≠ DevFault.notBusy ∧ f ≠ DevFault.noCurrentPkt) := by
  have hnone : w.dev.m_currentPkt.isNone = false := by
    cases hcp : w.dev.m_currentPkt with
    | none =>
      rw [hcp] at hcur
      cases hcur
    | some x => rfl
  have hunfold : NetDevice.TransmitComplete ops env fuel w =
      match ops.Dequeue q with
      | Except.error f => Except.error (DevFault.queue f)
      | Except.ok (q1, none) =>
        Except.ok
          { w with
            dev := { w.dev with
                     m_txMachineState := TxMachineState.READY
                     m_currentPkt := none
                     m_queue := some q1 } }
      | Except.ok (q1, some p) =>
        NetDevice.TransmitStart env fuel
          { w with
            dev := { w.dev with
                     m_txMachineState := TxMachineState.READY
                     m_currentPkt := none
                     m_queue := some q1 } } p := by
    unfold NetDevice.TransmitComplete
    rw [if_neg (not_not.mpr hb)]
    dsimp only
    rw [hnone]
    simp only [Bool.false_eq_true, if_false]
    rw [hq]
  rw [hunfold]
  cases hdq : ops.Dequeue q with
  | error g =>
    constructor
    · intro w1 h
      cases h
    · intro f h
      injection h with h
      rw [← h]
      refine ⟨?_, ?_, ?_⟩ <;> intro hc <;> cases hc
  | ok res =>
    obtain ⟨q1, op⟩ := res
    cases op with
    | none =>
      constructor
      · intro w1 h
        injection h with h
        rw [← h]
        exact Or.inl ⟨rfl, htx, rfl⟩
      · intro f h
        cases h
    | some p =>
      constructor
      · intro w1 h
        exact TransmitStart_consistent
          (show ({ w with
                   dev := { w.dev with
                            m_txMachineState := TxMachineState.READY
                            m_currentPkt := none
                            m_queue := some q1 } } : World Q).txComplete = [] from htx)
          (Eq.refl _) h
      · intro f h
        exact not_state_fault_of
          (TransmitStart_error
            (show ({ w with
                     dev := { w.dev with
                              m_txMachineState := TxMachineState.READY
                              m_currentPkt := none
                              m_queue := some q1 } } : World Q).dev.m_txMachineState
                = TxMachineState.READY from rfl) h)

/-- When a scheduled `TransmitComplete` runs in a consistent state, the device
is BUSY with a packet in flight and a queue attached, and no other completion
is pending. -/
theorem pending_gives_busy {Q : Type} {w : World Q} {pre post : List Time} {t : Time}
    (hc : TxConsistent w) (htx : w.txComplete = pre ++ t :: post) :
    w.dev.m_txMachineState = TxMachineState.BUSY ∧ w.dev.m_currentPkt.isSome = true ∧
    (∃ q, w.dev.m_queue = some q) ∧ pre ++ post = [] := by
  rcases hc with hc | hc
  · rw [hc.2.1] at htx
    cases pre <;> cases htx
  · refine ⟨hc.1, hc.2.2.1, ?_, ?_⟩
    · cases hq : w.dev.m_queue with
      | none =>
        have := hc.2.2.2
        rw [hq] at this
        cases this
      | some q => exact ⟨q, rfl⟩
    · have hlen := hc.2.1
      rw [htx, List.length_append, List.length_cons] at hlen
      have h1 : pre.length = 0 := by omega
      have h2 : post.length = 0 := by omega
      rw [List.length_eq_zero.mp h1, List.length_eq_zero.mp h2]
      rfl

theorem Reachable_consistent {Q : Type} {ops : QueueOps Q} {fuel : Nat} {w : World Q}
    (hr : Reachable ops fuel w) : TxConsistent w := by
  induction hr with
  | init w hi => exact Or.inl ⟨hi.1, hi.2.2, hi.2.1⟩
  | send env w w1 packet dest protocolNumber r _ h ih =>
    rw [Send_eq_SendFrom] at h
    exact SendFrom_consistent ih h
  | sendFrom env w w1 packet source dest protocolNumber r _ h ih =>
    exact SendFrom_consistent ih h
  | complete env w w1 pre t post _ htx h ih =>
    obtain ⟨hb, hcur, ⟨q, hq⟩, hnil⟩ := pending_gives_busy ih htx
    exact (TransmitComplete_from_busy ops env fuel { w with txComplete := pre ++ post } q hb hcur
      hq hnil).1 w1 h
  | channel w ch _ ih =>
    exact TxConsistent_of_frame ih rfl rfl rfl (fun hq => hq)

/-- C14: in every state of an interface reachable from its initial state
through `Send`, `SendFrom` and the `TransmitComplete` events it has scheduled,
at most one `TransmitComplete` is pending, that is at most one packet is in
flight: the device is BUSY exactly when one is pending and a packet is
recorded as in flight, and READY exactly when none is.  Hence from such a
state neither `Send` nor `SendFrom` nor a scheduled `TransmitComplete` fails
the READY assertion of `TransmitStart` or the BUSY assertion of
`TransmitComplete` (nor the assertion on the packet in flight). -/
theorem single_transmission_in_flight {Q : Type} (ops : QueueOps Q) (fuel : Nat) (w : World Q)
    (hr : Reachable ops fuel w) :
    w.txComplete.length ≤ 1 ∧
    (w.dev.m_txMachineState = TxMachineState.BUSY ↔ w.txComplete.length = 1) ∧
    (w.dev.m_txMachineState = TxMachineState.READY ↔ w.txComplete = []) ∧
    (w.dev.m_currentPkt.isSome = true ↔ w.dev.m_txMachineState = TxMachineState.BUSY) ∧
    (∀ (env : Env) (packet : Packet) (dest : Mac48Address) (protocolNumber : Nat),
      NetDevice.Send ops env fuel w packet dest protocolNumber ≠ Except.error DevFault.notReady ∧
      NetDevice.Send ops env fuel w packet dest protocolNumber ≠ Except.error DevFault.notBusy) ∧
    (∀ (env : Env) (packet : Packet) (source dest : Mac48Address) (protocolNumber : Nat),
      NetDevice.SendFrom ops env fuel w packet source dest protocolNumber
        ≠ Except.error DevFault.notReady ∧
      NetDevice.SendFrom ops env fuel w packet source dest protocolNumber
        ≠ Except.error DevFault.notBusy) ∧
    (∀ (env : Env) (pre : List Time) (t : Time) (post : List Time),
      w.txComplete = pre ++ t :: post →
      NetDevice.TransmitComplete ops env fuel { w with txComplete := pre ++ post }
        ≠ Except.error DevFault.notBusy ∧
      NetDevice.TransmitComplete ops env fuel { w with txComplete := pre ++ post }
        ≠ Except.error DevFault.notReady ∧
      NetDevice.TransmitComplete ops env fuel { w with txComplete := pre ++ post }
        ≠ Except.error DevFault.noCurrentPkt) := by
  have hc := Reachable_consistent hr
  have hsf : ∀ (env : Env) (packet : Packet) (source dest : Mac48Address) (protocolNumber : Nat),
      NetDevice.SendFrom ops env fuel w packet source dest protocolNumber
        ≠ Except.error DevFault.notReady ∧
      NetDevice.SendFrom ops env fuel w packet source dest protocolNumber
        ≠ Except.error DevFault.notBusy := by
    intro env packet source dest protocolNumber
    constructor
    · intro h
      exact (SendFrom_error h).1 rfl
    · intro h
      exact (SendFrom_error h).2.1 rfl
  refine ⟨?_, ?_, ?_, ?_, ?_, hsf, ?_⟩
  · rcases hc with hc | hc
    · rw [hc.2.1]
      exact Nat.zero_le 1
    · exact le_of_eq hc.2.1
  · rcases hc with hc | hc
    · rw [hc.1, hc.2.1]
      constructor
      · intro h
        cases h
      · intro h
        cases h
    · exact ⟨fun _ => hc.2.1, fun _ => hc.1⟩
  · rcases hc with hc | hc
    · exact ⟨fun _ => hc.2.1, fun _ => hc.1⟩
    · constructor
      · intro h
        rw [hc.1] at h
        cases h
      · intro h
        have := hc.2.1
        rw [h] at this
        cases this
  · rcases hc with hc | hc
    · rw [hc.1, hc.2.2]
      constructor
      · intro h
        cases h
      · intro h
        cases h
    · exact ⟨fun _ => hc.1, fun _ => hc.2.2.1⟩
  · intro env packet dest protocolNumber
    rw [Send_eq_SendFrom]
    exact hsf env packet w.dev.m_address dest protocolNumber
  · intro env pre t post htx
    obtain ⟨hb, hcur, ⟨q, hq⟩, hnil⟩ := pending_gives_busy hc htx
    have h := (TransmitComplete_from_busy ops env fuel { w with txComplete := pre ++ post } q hb
      hcur hq hnil).2
    refine ⟨?_, ?_, ?_⟩
    · intro he
      exact (h _ he).2.1 rfl
    · intro he
      exact (h _ he).1 rfl
    · intro he
      exact (h _ he).2.2 rfl

/-- C14 on the device of node 0 after two calls of `Send` at time 0: it is
BUSY with the first packet, one `TransmitComplete` is pending after 8 ms and
the second packet waits in the queue. -/
theorem single_transmission_in_flight_witness :
    waitingWorld.dev.m_txMachineState = TxMachineState.BUSY ∧
    waitingWorld.txComplete = [8000000] ∧
    waitingWorld.dev.m_currentPkt = some packet1000 ∧
    (waitingWorld.txComplete.length ≤ 1 ∧
     (waitingWorld.dev.m_txMachineState = TxMachineState.BUSY ↔
       waitingWorld.txComplete.length = 1) ∧
     (waitingWorld.dev.m_txMachineState = TxMachineState.READY ↔ waitingWorld.txComplete = []) ∧
     (waitingWorld.dev.m_currentPkt.isSome = true ↔
       waitingWorld.dev.m_txMachineState = TxMachineState.BUSY) ∧
     (∀ (env : Env) (packet : Packet) (dest : Mac48Address) (protocolNumber : Nat),
       NetDevice.Send (dropHeadOps 0) env 0 waitingWorld packet dest protocolNumber
         ≠ Except.error DevFault.notReady ∧
       NetDevice.Send (dropHeadOps 0) env 0 waitingWorld packet dest protocolNumber
         ≠ Except.error DevFault.notBusy) ∧
     (∀ (env : Env) (packet : Packet) (source dest : Mac48Address) (protocolNumber : Nat),
       NetDevice.SendFrom (dropHeadOps 0) env 0 waitingWorld packet source dest protocolNumber
         ≠ Except.error DevFault.notReady ∧
       NetDevice.SendFrom (dropHeadOps 0) env 0 waitingWorld packet source dest protocolNumber
         ≠ Except.error DevFault.notBusy) ∧
     (∀ (env : Env) (pre : List Time) (t : Time) (post : List Time),
       waitingWorld.txComplete = pre ++ t :: post →
       NetDevice.TransmitComplete (dropHeadOps 0) env 0
           { waitingWorld with txComplete := pre ++ post }
         ≠ Except.error DevFault.notBusy ∧
       NetDevice.TransmitComplete (dropHeadOps 0) env 0
           { waitingWorld with txComplete := pre ++ post }
         ≠ Except.error DevFault.notReady ∧
       NetDevice.TransmitComplete (dropHeadOps 0) env 0
           { waitingWorld with txComplete := pre ++ post }
         ≠ Except.error DevFault.noCurrentPkt)) :=
  ⟨by with_unfolding_all rfl, by with_unfolding_all rfl, by with_unfolding_all rfl,
   single_transmission_in_flight (dropHeadOps 0) 0 waitingWorld
     (Reachable.send lineEnv busyWorld waitingWorld packetTwo 2 2054 true
       (Reachable.send lineEnv (worldOf omniDevice) busyWorld packet1000 broadcastAddress 2048 true
         (Reachable.init (worldOf omniDevice) ⟨Eq.refl _, Eq.refl _, Eq.refl _⟩)
         (by with_unfolding_all rfl))
       (by with_unfolding_all rfl))⟩

/-! ## Receive -/

/-- `Receive` of a packet that is not judged corrupt and, with pcap enabled,
fits the sniffer buffer: the observations are the reception begin, the sniffer
copy (with pcap), the reception end, then the mac-rx trace and the receive
callback unless the type is OTHERHOST, then the promiscuous callback when one
is set. -/
theorem Receive_delivers {Q : Type} (IsGroup : Mac48Address → Bool) (isCorrupt : Packet → Bool)
    (d : NetDevice Q) (packet : Packet) (protocol : Nat) (toAddr fromAddr : Mac48Address)
    (hnc : (d.m_receiveErrorModel && isCorrupt packet) = false)
    (hsz : d.m_pcapEnabled = false ∨ 14 + packet.GetSize ≤ 8192) :
    NetDevice.Receive IsGroup isCorrupt d packet protocol toAddr fromAddr =
      Except.ok
        ({ d with m_pktRcvTotal := (d.m_pktRcvTotal + 1) % 4294967296 },
         [RxObservation.phyRxBegin packet fromAddr toAddr protocol] ++
         (if d.m_pcapEnabled = true then
            [RxObservation.promiscSniffer (snifferPacket packet protocol toAddr fromAddr)]
          else []) ++
         [RxObservation.phyRxEnd packet fromAddr toAddr protocol] ++
         (if packetTypeOf IsGroup d.m_address toAddr ≠ PacketType.PACKET_OTHERHOST then
            [RxObservation.macRx packet, RxObservation.rxCallback packet protocol fromAddr]
          else []) ++
         (if d.m_promiscCallback = true then
            [RxObservation.promiscCallback packet protocol fromAddr toAddr
              (packetTypeOf IsGroup d.m_address toAddr)]
          else [])) := by
  unfold NetDevice.Receive
  dsimp only
  rw [if_neg (by rw [hnc]; exact Bool.false_ne_true)]
  change (match (if d.m_pcapEnabled = true then _ else _ : Except Fault (List RxObservation)) with
    | Except.error f => _
    | Except.ok obs2 => _) = _
  by_cases hp : d.m_pcapEnabled = true
  · have hfit : ¬ 14 + packet.GetSize > 8192 := by
      rcases hsz with h | h
      · rw [hp] at h
        cases h
      · omega
    rw [if_pos hp, if_neg hfit, if_pos hp]
    dsimp only
    by_cases ht : packetTypeOf IsGroup d.m_address toAddr ≠ PacketType.PACKET_OTHERHOST
    · rw [if_pos ht]
      unfold packetTypeOf at ht
      rw [if_pos ht]
      by_cases hpr : d.m_promiscCallback = true
      · rw [if_pos hpr, if_pos hpr]
        simp [packetTypeOf]
      · rw [if_neg hpr, if_neg hpr]
        simp
    · rw [if_neg ht]
      unfold packetTypeOf at ht
      rw [if_neg ht]
      by_cases hpr : d.m_promiscCallback = true
      · rw [if_pos hpr, if_pos hpr]
        simp [packetTypeOf]
      · rw [if_neg hpr, if_neg hpr]
        simp
  · rw [if_neg hp, if_neg hp]
    dsimp only
    by_cases ht : packetTypeOf IsGroup d.m_address toAddr ≠ PacketType.PACKET_OTHERHOST
    · rw [if_pos ht]
      unfold packetTypeOf at ht
      rw [if_pos ht]
      by_cases hpr : d.m_promiscCallback = true
      · rw [if_pos hpr, if_pos hpr]
        simp [packetTypeOf]
      · rw [if_neg hpr, if_neg hpr]
        simp
    · rw [if_neg ht]
      unfold packetTypeOf at ht
      rw [if_neg ht]
      by_cases hpr : d.m_promiscCallback = true
      · rw [if_pos hpr, if_pos hpr]
        simp [packetTypeOf]
      · rw [if_neg hpr, if_neg hpr]
        simp

theorem packetOf_GetSize (n : Nat) : (packetOf n).GetSize = n := by
  simp [Packet.GetSize, packetOf]

/-- With pcap enabled `Receive` of a packet that is not judged corrupt and
does not fit behind the 14 header bytes of the sniffer buffer writes past the
end of the buffer. -/
theorem Receive_overflow {Q : Type} (IsGroup : Mac48Address → Bool) (isCorrupt : Packet → Bool)
    (d : NetDevice Q) (packet : Packet) (protocol : Nat) (toAddr fromAddr : Mac48Address)
    (hnc : (d.m_receiveErrorModel && isCorrupt packet) = false)
    (hp : d.m_pcapEnabled = true) (hsz : 14 + packet.GetSize > 8192) :
    NetDevice.Receive IsGroup isCorrupt d packet protocol toAddr fromAddr =
      Except.error Fault.undefinedBehaviour := by
  unfold NetDevice.Receive
  dsimp only
  rw [if_neg (by rw [hnc]; exact Bool.false_ne_true), if_pos hp, if_pos hsz]

/-- On the device of node 1 with pcap enabled, a packet for the device that
fits the sniffer buffer is classified HOST and delivered once. -/
theorem Receive_host_pcap (packet : Packet) (hsz : 14 + packet.GetSize ≤ 8192) :
    NetDevice.Receive IsGroup (fun _ => false) pcapDevice packet 2048 2 1
      = Except.ok
          ({ pcapDevice with m_pktRcvTotal := 1 },
           [RxObservation.phyRxBegin packet 1 2 2048,
            RxObservation.promiscSniffer (snifferPacket packet 2048 2 1),
            RxObservation.phyRxEnd packet 1 2 2048,
            RxObservation.macRx packet,
            RxObservation.rxCallback packet 2048 1]) := by
  rw [Receive_delivers IsGroup (fun _ => false) pcapDevice packet 2048 2 1 (Eq.refl _)
    (Or.inr hsz)]
  rfl

/-- C21 at a packet that does not fit the sniffer buffer: on the device of
node 1 with pcap capture enabled and no error model, a packet of 8178 bytes
addressed to the device is classified HOST and handed to the receive callback
once, but for a packet of 8179 bytes `Receive` copies 8179 bytes behind the 14
header bytes of its 8192-byte buffer, which is undefined behaviour, so neither
classification nor callback is guaranteed. -/
theorem Receive_oversized_sniffer_copy :
    pcapDevice.m_pcapEnabled = true ∧ pcapDevice.m_receiveErrorModel = false ∧
    (packetOf 8179).GetSize = 8179 ∧
    NetDevice.Receive IsGroup (fun _ => false) pcapDevice (packetOf 8179) 2048 2 1
      = Except.error Fault.undefinedBehaviour ∧
    NetDevice.Receive IsGroup (fun _ => false) pcapDevice (packetOf 8178) 2048 2 1
      = Except.ok
          ({ pcapDevice with m_pktRcvTotal := 1 },
           [RxObservation.phyRxBegin (packetOf 8178) 1 2 2048,
            RxObservation.promiscSniffer (snifferPacket (packetOf 8178) 2048 2 1),
            RxObservation.phyRxEnd (packetOf 8178) 1 2 2048,
            RxObservation.macRx (packetOf 8178),
            RxObservation.rxCallback (packetOf 8178) 2048 1]) :=
  ⟨Eq.refl _, Eq.refl _, packetOf_GetSize 8179,
   Receive_overflow IsGroup (fun _ => false) pcapDevice (packetOf 8179) 2048 2 1 (Eq.refl _)
     (Eq.refl _) (by rw [packetOf_GetSize]; decide),
   Receive_host_pcap (packetOf 8178) (by rw [packetOf_GetSize])⟩

/-- C22: `Receive` on a device with a receive error model attached that judges
the packet corrupt returns after the reception-begin and the reception-dropped
observations, each emitted once; the total counter and the drop counter have
each grown by one (they are `uint32_t` and wrap at 2^32), nothing else of the
device has changed, and neither the receive callback, nor the promiscuous
callback, nor the reception-ended, mac-rx or sniffer observation occurs. -/
theorem Receive_corrupt_dropped {Q : Type} (IsGroup : Mac48Address → Bool)
    (isCorrupt : Packet → Bool) (d : NetDevice Q) (packet : Packet) (protocol : Nat)
    (toAddr fromAddr : Mac48Address)
    (hem : d.m_receiveErrorModel = true) (hc : isCorrupt packet = true) :
    NetDevice.Receive IsGroup isCorrupt d packet protocol toAddr fromAddr =
      Except.ok
        ({ d with
           m_pktRcvTotal := (d.m_pktRcvTotal + 1) % 4294967296
           m_pktRcvDrop := (d.m_pktRcvDrop + 1) % 4294967296 },
         [RxObservation.phyRxBegin packet fromAddr toAddr protocol,
          RxObservation.phyRxDrop packet fromAddr toAddr protocol]) ∧
    (d.m_pktRcvTotal + 1 < 4294967296 →
      (d.m_pktRcvTotal + 1) % 4294967296 = d.m_pktRcvTotal + 1) ∧
    (d.m_pktRcvDrop + 1 < 4294967296 →
      (d.m_pktRcvDrop + 1) % 4294967296 = d.m_pktRcvDrop + 1) ∧
    ([RxObservation.phyRxBegin packet fromAddr toAddr protocol,
      RxObservation.phyRxDrop packet fromAddr toAddr protocol].filter
        RxObservation.isPhyRxDrop).length = 1 ∧
    (∀ o ∈ [RxObservation.phyRxBegin packet fromAddr toAddr protocol,
        RxObservation.phyRxDrop packet fromAddr toAddr protocol],
      o.isRxCallback = false ∧ o.isPromiscCallback = false ∧
      o ≠ RxObservation.phyRxEnd packet fromAddr toAddr protocol ∧
      o ≠ RxObservation.macRx packet) := by
  refine ⟨?_, fun h => Nat.mod_eq_of_lt h, fun h => Nat.mod_eq_of_lt h, rfl, ?_⟩
  · unfold NetDevice.Receive
    dsimp only
    rw [if_pos (by rw [hem, hc]; rfl)]
    rfl
  · intro o ho
    rcases List.mem_cons.mp ho with h | h
    · rw [h]
      exact ⟨rfl, rfl, fun hc => (by cases hc), fun hc => (by cases hc)⟩
    · rw [List.mem_singleton.mp h]
      exact ⟨rfl, rfl, fun hc => (by cases hc), fun hc => (by cases hc)⟩

/-- C22 on the device of node 1 with an error model that judges every packet
corrupt and a promiscuous callback set: a packet addressed to the device is
counted and dropped. -/
theorem Receive_corrupt_dropped_witness :
    NetDevice.Receive IsGroup (fun _ => true) guardedDevice packetTwo 2048 2 1 =
      Except.ok
        ({ guardedDevice with
           m_pktRcvTotal := (guardedDevice.m_pktRcvTotal + 1) % 4294967296
           m_pktRcvDrop := (guardedDevice.m_pktRcvDrop + 1) % 4294967296 },
         [RxObservation.phyRxBegin packetTwo 1 2 2048,
          RxObservation.phyRxDrop packetTwo 1 2 2048]) ∧
    (guardedDevice.m_pktRcvTotal + 1 < 4294967296 →
      (guardedDevice.m_pktRcvTotal + 1) % 4294967296 = guardedDevice.m_pktRcvTotal + 1) ∧
    (guardedDevice.m_pktRcvDrop + 1 < 4294967296 →
      (guardedDevice.m_pktRcvDrop + 1) % 4294967296 = guardedDevice.m_pktRcvDrop + 1) ∧
    ([RxObservation.phyRxBegin packetTwo 1 2 2048,
      RxObservation.phyRxDrop packetTwo 1 2 2048].filter
        RxObservation.isPhyRxDrop).length = 1 ∧
    (∀ o ∈ [RxObservation.phyRxBegin packetTwo 1 2 2048,
        RxObservation.phyRxDrop packetTwo 1 2 2048],
      o.isRxCallback = false ∧ o.isPromiscCallback = false ∧
      o ≠ RxObservation.phyRxEnd packetTwo 1 2 2048 ∧
      o ≠ RxObservation.macRx packetTwo) :=
  Receive_corrupt_dropped IsGroup (fun _ => true) guardedDevice packetTwo 2048 2 1
    (Eq.refl _) (Eq.refl _)

/-! ## The drop-head queue -/

theorem evict_cons (q : DropHeadQueue) (h : Packet) (t : List Packet)
    (hp : q.m_packets = h :: t) :
    q.evict = Except.ok
      { q with
        m_packets := t
        m_bytesInQueue := (q.m_bytesInQueue + 4294967296 - h.GetSize % 4294967296) % 4294967296
        dropped := q.dropped ++ [h] } := by
  unfold DropHeadQueue.evict DropHeadQueue.DoDequeue
  rw [hp]

theorem evict_nil (q : DropHeadQueue) (hp : q.m_packets = []) :
    q.evict = Except.error Fault.undefinedBehaviour := by
  unfold DropHeadQueue.evict DropHeadQueue.DoDequeue
  rw [hp]

/-- `DoEnqueue` in packet mode with a capacity of at least 1: the packet is
accepted; when the queue holds at least `m_maxPackets` packets its head is
dropped first. -/
theorem DoEnqueue_packets (fuel : Nat) (q : DropHeadQueue) (p : Packet)
    (hmode : q.m_mode = QueueMode.QUEUE_MODE_PACKETS) (hcap : 1 ≤ q.m_maxPackets) :
    ∃ q1, DropHeadQueue.DoEnqueue fuel q p = Except.ok (q1, true) ∧
      q1.m_packets =
        (if q.m_maxPackets ≤ q.m_packets.length then q.m_packets.tail else q.m_packets) ++ [p] ∧
      q1.dropped =
        q.dropped ++ (if q.m_maxPackets ≤ q.m_packets.length then q.m_packets.take 1 else []) ∧
      q1.m_mode = q.m_mode ∧ q1.m_maxPackets = q.m_maxPackets ∧ q1.m_maxBytes = q.m_maxBytes := by
  by_cases hfull : q.m_maxPackets ≤ q.m_packets.length
  · obtain ⟨h, t, hp⟩ : ∃ h t, q.m_packets = h :: t := by
      cases hq : q.m_packets with
      | nil =>
        rw [hq] at hfull
        simp at hfull
        omega
      | cons h t => exact ⟨h, t, rfl⟩
    refine ⟨{ q with
              m_packets := t ++ [p]
              m_bytesInQueue :=
                ((q.m_bytesInQueue + 4294967296 - h.GetSize % 4294967296) % 4294967296
                  + p.GetSize) % 4294967296
              dropped := q.dropped ++ [h] }, ?_, ?_⟩
    · unfold DropHeadQueue.DoEnqueue
      dsimp only
      rw [if_pos ⟨hmode, hfull⟩, evict_cons q h t hp]
      dsimp only
      rw [if_neg (by rw [hmode]; intro hc; cases hc)]
    · rw [if_pos hfull, if_pos hfull, hp]
      exact ⟨rfl, rfl, rfl, rfl, rfl⟩
  · refine ⟨{ q with
              m_bytesInQueue := (q.m_bytesInQueue + p.GetSize) % 4294967296
              m_packets := q.m_packets ++ [p] }, ?_, ?_⟩
    · unfold DropHeadQueue.DoEnqueue
      dsimp only
      rw [if_neg (fun hc => hfull hc.2)]
      dsimp only
      rw [if_neg (by rw [hmode]; intro hc; cases hc)]
    · rw [if_neg hfull, if_neg hfull]
      exact ⟨rfl, by simp, rfl, rfl, rfl⟩

theorem drop_last_append (a b : List Packet) (n : Nat) :
    ((a.drop (a.length - n)) ++ b).drop (((a.drop (a.length - n)) ++ b).length - n)
      = (a ++ b).drop ((a ++ b).length - n) := by
  by_cases h : a.length ≤ n
  · have h0 : a.length - n = 0 := by omega
    rw [h0, List.drop_zero]
  · have h1 : n < a.length := by omega
    have hlen : (a.drop (a.length - n)).length = n := by
      rw [List.length_drop]
      omega
    have e1 : ((a.drop (a.length - n)) ++ b).length - n = b.length := by
      rw [List.length_append, hlen]
      omega
    have e2 : (a ++ b).length - n = (a.length - n) + b.length := by
      rw [List.length_append]
      omega
    rw [e1, e2, ← List.drop_drop, List.drop_append_of_le_length (Nat.sub_le _ _)]

/-- Enqueuing a list of packets into a drop-head queue in packet mode that
holds no more than its capacity: the queue ends with the last `m_maxPackets`
packets of what it held followed by the list. -/
theorem enqueueAll_packets (fuel : Nat) (ps : List Packet) :
    ∀ q : DropHeadQueue, q.m_mode = QueueMode.QUEUE_MODE_PACKETS → 1 ≤ q.m_maxPackets →
      q.m_packets.length ≤ q.m_maxPackets →
      ∃ q1, DropHeadQueue.enqueueAll fuel ps q = Except.ok q1 ∧
        q1.m_packets =
          (q.m_packets ++ ps).drop ((q.m_packets ++ ps).length - q.m_maxPackets) ∧
        q1.m_maxPackets = q.m_maxPackets := by
  induction ps with
  | nil =>
    intro q _ _ hlen
    refine ⟨q, rfl, ?_, rfl⟩
    rw [List.append_nil]
    have h0 : q.m_packets.length - q.m_maxPackets = 0 := by omega
    rw [h0, List.drop_zero]
  | cons p rest ih =>
    intro q hmode hcap hlen
    obtain ⟨q1, h1, hpk, _, hm, hmax, _⟩ := DoEnqueue_packets fuel q p hmode hcap
    have hpk1 : q1.m_packets =
        (q.m_packets ++ [p]).drop ((q.m_packets ++ [p]).length - q.m_maxPackets) := by
      rw [hpk]
      by_cases hfull : q.m_maxPackets ≤ q.m_packets.length
      · rw [if_pos hfull]
        have he : (q.m_packets ++ [p]).length - q.m_maxPackets = 1 := by
          rw [List.length_append, List.length_singleton]
          omega
        rw [he]
        cases hq : q.m_packets with
        | nil =>
          rw [hq] at hfull
          simp at hfull
          omega
        | cons h t => rfl
      · rw [if_neg hfull]
        have he : (q.m_packets ++ [p]).length - q.m_maxPackets = 0 := by
          rw [List.length_append, List.length_singleton]
          omega
        rw [he, List.drop_zero]
    have hlen1 : q1.m_packets.length ≤ q1.m_maxPackets := by
      rw [hpk1, hmax, List.length_drop]
      omega
    obtain ⟨q2, h2, hpk2, hmax2⟩ := ih q1 (hm.trans hmode) (by rw [hmax]; exact hcap) hlen1
    refine ⟨q2, ?_, ?_, hmax2.trans hmax⟩
    · rw [DropHeadQueue.enqueueAll, h1]
      exact h2
    · rw [hpk2, hmax, hpk1, drop_last_append]
      rw [List.append_assoc]
      rfl

/-- C23: a drop-head queue in packet mode with capacity N >= 1 that is empty
accepts the packets p1..pk enqueued one after the other and then holds
exactly the last min (k, N) of them, in their original order; for k = N + 1
it holds the N packets p2..pN+1, p1 having been dropped from the head. -/
theorem DropHead_packet_mode_keeps_last (fuel : Nat) (q : DropHeadQueue) (ps : List Packet)
    (hmode : q.m_mode = QueueMode.QUEUE_MODE_PACKETS) (hcap : 1 ≤ q.m_maxPackets)
    (hempty : q.m_packets = []) :
    ∃ q1, DropHeadQueue.enqueueAll fuel ps q = Except.ok q1 ∧
      q1.m_packets = ps.drop (ps.length - q.m_maxPackets) ∧
      q1.m_packets.length = min ps.length q.m_maxPackets ∧
      (ps.length = q.m_maxPackets + 1 →
        q1.m_packets = ps.tail ∧ q1.m_packets.length = q.m_maxPackets) := by
  obtain ⟨q1, h1, hpk, _⟩ := enqueueAll_packets fuel ps q hmode hcap
    (by rw [hempty]; exact Nat.zero_le _)
  rw [hempty, List.nil_append] at hpk
  refine ⟨q1, h1, hpk, ?_, ?_⟩
  · rw [hpk, List.length_drop]
    omega
  · intro hk
    have h1 : ps.length - q.m_maxPackets = 1 := by omega
    constructor
    · rw [hpk, h1]
      cases ps with
      | nil => rfl
      | cons a t => rfl
    · rw [hpk, List.length_drop]
      omega

/-- C23 on a queue with room for 3 packets and four packets of 1, 2, 3 and 4
bytes: the queue ends with the packets of 2, 3 and 4 bytes. -/
theorem DropHead_packet_mode_keeps_last_witness :
    DropHeadQueue.enqueueAll 0 [packetOf 1, packetOf 2, packetOf 3, packetOf 4] smallQueue =
      Except.ok
        { smallQueue with
          m_packets := [packetOf 2, packetOf 3, packetOf 4]
          m_bytesInQueue := 9
          dropped := [packetOf 1] } ∧
    (∃ q1, DropHeadQueue.enqueueAll 0 [packetOf 1, packetOf 2, packetOf 3, packetOf 4] smallQueue
        = Except.ok q1 ∧
      q1.m_packets = [packetOf 1, packetOf 2, packetOf 3, packetOf 4].drop
        ([packetOf 1, packetOf 2, packetOf 3, packetOf 4].length - smallQueue.m_maxPackets) ∧
      q1.m_packets.length =
        min [packetOf 1, packetOf 2, packetOf 3, packetOf 4].length smallQueue.m_maxPackets ∧
      ([packetOf 1, packetOf 2, packetOf 3, packetOf 4].length = smallQueue.m_maxPackets + 1 →
        q1.m_packets = [packetOf 1, packetOf 2, packetOf 3, packetOf 4].tail ∧
        q1.m_packets.length = smallQueue.m_maxPackets)) :=
  ⟨by with_unfolding_all rfl,
   DropHead_packet_mode_keeps_last 0 smallQueue [packetOf 1, packetOf 2, packetOf 3, packetOf 4]
     (Eq.refl _) (by decide) (Eq.refl _)⟩

theorem sumSizes_cons (h : Packet) (t : List Packet) :
    sumSizes (h :: t) = h.GetSize + sumSizes t := by
  unfold sumSizes
  rw [List.map_cons, List.sum_cons]

theorem sumSizes_append (a b : List Packet) : sumSizes (a ++ b) = sumSizes a + sumSizes b := by
  unfold sumSizes
  rw [List.map_append, List.sum_append]

/-- C25: `PriorityQueue::DoEnqueue` hands the packet to the control sub-queue
exactly when the classifier filter matches it (the value of the filter is not
0) and to the data sub-queue otherwise.  Only that sub-queue changes, the
other one is left as it is, and the value returned is the one the `Enqueue` of
that sub-queue returns, so a sub-queue that rejects the packet makes
`DoEnqueue` return false; a fault of the sub-queue is passed on. -/
theorem PriorityQueue_enqueue_routes {C D : Type} (cq : QueueIface C) (dq : QueueIface D)
    (filter : Packet → Int) (q : PriorityQueue C D) (p : Packet) :
    (filter p ≠ 0 →
      PriorityQueue.Classify filter p = PacketClass.PACKET_CLASS_CONTROL ∧
      (∀ c1 r, cq.Enqueue q.m_controlQueue p = Except.ok (c1, r) →
        PriorityQueue.DoEnqueue cq dq filter q p =
          Except.ok ({ m_controlQueue := c1, m_dataQueue := q.m_dataQueue }, r)) ∧
      (∀ f, cq.Enqueue q.m_controlQueue p = Except.error f →
        PriorityQueue.DoEnqueue cq dq filter q p = Except.error f)) ∧
    (filter p = 0 →
      PriorityQueue.Classify filter p = PacketClass.PACKET_CLASS_DATA ∧
      (∀ d1 r, dq.Enqueue q.m_dataQueue p = Except.ok (d1, r) →
        PriorityQueue.DoEnqueue cq dq filter q p =
          Except.ok ({ m_controlQueue := q.m_controlQueue, m_dataQueue := d1 }, r)) ∧
      (∀ f, dq.Enqueue q.m_dataQueue p = Except.error f →
        PriorityQueue.DoEnqueue cq dq filter q p = Except.error f)) := by
  constructor
  · intro hf
    have hc : PriorityQueue.Classify filter p = PacketClass.PACKET_CLASS_CONTROL := by
      unfold PriorityQueue.Classify
      dsimp only
      rw [if_neg hf]
    refine ⟨hc, ?_, ?_⟩
    · intro c1 r he
      unfold PriorityQueue.DoEnqueue
      dsimp only
      rw [if_pos hc, he]
    · intro f he
      unfold PriorityQueue.DoEnqueue
      dsimp only
      rw [if_pos hc, he]
  · intro hf
    have hc : PriorityQueue.Classify filter p = PacketClass.PACKET_CLASS_DATA := by
      unfold PriorityQueue.Classify
      dsimp only
      rw [if_pos hf]
    have hne : ¬ PriorityQueue.Classify filter p = PacketClass.PACKET_CLASS_CONTROL := by
      rw [hc]
      intro h
      cases h
    refine ⟨hc, ?_, ?_⟩
    · intro d1 r he
      unfold PriorityQueue.DoEnqueue
      dsimp only
      rw [if_neg hne, he]
    · intro f he
      unfold PriorityQueue.DoEnqueue
      dsimp only
      rw [if_neg hne, he]

/-- `DoDequeue` of a priority queue over two drop-head queues. -/
theorem PriorityQueue_dequeue_dropHead (f1 f2 : Nat)
    (q : PriorityQueue DropHeadQueue DropHeadQueue) :
    PriorityQueue.DoDequeue (dropHeadIface f1) (dropHeadIface f2) q =
      Except.ok
        (if q.m_controlQueue.m_packets ≠ [] then
          ({ q with m_controlQueue := q.m_controlQueue.DoDequeue.1 },
            q.m_controlQueue.m_packets.head?)
         else
          ({ q with m_dataQueue := q.m_dataQueue.DoDequeue.1 }, q.m_dataQueue.m_packets.head?)) := by
  unfold PriorityQueue.DoDequeue dropHeadIface
  dsimp only
  cases hc : q.m_controlQueue.m_packets with
  | nil =>
    rw [if_neg (by simp), if_neg (by simp)]
    unfold DropHeadQueue.DoDequeue
    cases hd : q.m_dataQueue.m_packets with
    | nil => rfl
    | cons h t => rfl
  | cons h t =>
    rw [if_pos (by simp), if_pos (by simp)]
    unfold DropHeadQueue.DoDequeue
    rw [hc]
    rfl

theorem DoDequeue_packets (q : DropHeadQueue) :
    q.DoDequeue.1.m_packets = q.m_packets.tail ∧ q.DoDequeue.2 = q.m_packets.head? := by
  unfold DropHeadQueue.DoDequeue
  cases hq : q.m_packets with
  | nil => exact ⟨hq, rfl⟩
  | cons h t => exact ⟨rfl, rfl⟩

/-- Draining a priority queue over two drop-head queues returns the packets of
the control queue, in order, and then those of the data queue. -/
theorem PriorityQueue_drain (f1 f2 : Nat) (n : Nat) :
    ∀ q : PriorityQueue DropHeadQueue DropHeadQueue,
      ∃ q1, PriorityQueue.dequeueN (dropHeadIface f1) (dropHeadIface f2) n q =
        Except.ok (q1,
          (q.m_controlQueue.m_packets ++ q.m_dataQueue.m_packets).take n) := by
  induction n with
  | zero =>
    intro q
    exact ⟨q, rfl⟩
  | succ n ih =>
    intro q
    rw [PriorityQueue.dequeueN, PriorityQueue_dequeue_dropHead]
    dsimp only
    cases hc : q.m_controlQueue.m_packets with
    | nil =>
      rw [if_neg (by simp)]
      dsimp only
      obtain ⟨q1, h1⟩ := ih { q with m_dataQueue := q.m_dataQueue.DoDequeue.1 }
      rw [h1]
      refine ⟨q1, ?_⟩
      dsimp only
      rw [hc, (DoDequeue_packets q.m_dataQueue).1]
      cases hd : q.m_dataQueue.m_packets with
      | nil => simp
      | cons h t => simp
    | cons h t =>
      rw [if_pos (by simp)]
      dsimp only
      obtain ⟨q1, h1⟩ := ih { q with m_controlQueue := q.m_controlQueue.DoDequeue.1 }
      rw [h1]
      refine ⟨q1, ?_⟩
      dsimp only
      rw [(DoDequeue_packets q.m_controlQueue).1, hc]
      simp

theorem PriorityQueue_dequeue_generic {C D : Type} (cq : QueueIface C) (dq : QueueIface D)
    (q : PriorityQueue C D) :
    (cq.IsEmpty q.m_controlQueue = false →
      (∀ c1 r, cq.Dequeue q.m_controlQueue = Except.ok (c1, r) →
        PriorityQueue.DoDequeue cq dq q =
          Except.ok ({ m_controlQueue := c1, m_dataQueue := q.m_dataQueue }, r)) ∧
      (∀ f, cq.Dequeue q.m_controlQueue = Except.error f →
        PriorityQueue.DoDequeue cq dq q = Except.error f)) ∧
    (cq.IsEmpty q.m_controlQueue = true →
      (∀ d1 r, dq.Dequeue q.m_dataQueue = Except.ok (d1, r) →
        PriorityQueue.DoDequeue cq dq q =
          Except.ok ({ m_controlQueue := q.m_controlQueue, m_dataQueue := d1 }, r)) ∧
      (∀ f, dq.Dequeue q.m_dataQueue = Except.error f →
        PriorityQueue.DoDequeue cq dq q = Except.error f)) := by
  constructor
  · intro he
    constructor
    · intro c1 r hq
      unfold PriorityQueue.DoDequeue
      rw [he, if_pos (by decide), hq]
    · intro f hq
      unfold PriorityQueue.DoDequeue
      rw [he, if_pos (by decide), hq]
  · intro he
    constructor
    · intro d1 r hq
      unfold PriorityQueue.DoDequeue
      rw [he, if_neg (by decide), hq]
    · intro f hq
      unfold PriorityQueue.DoDequeue
      rw [he, if_neg (by decide), hq]

/-- A packet matched by the classifier is handed to the control sub-queue. -/
theorem PriorityQueue_enqueue_control {C D : Type} (cq : QueueIface C) (dq : QueueIface D)
    (filter : Packet → Int) (q : PriorityQueue C D) (p : Packet) (hf : filter p ≠ 0)
    (c1 : C) (r : Bool) (he : cq.Enqueue q.m_controlQueue p = Except.ok (c1, r)) :
    PriorityQueue.DoEnqueue cq dq filter q p =
      Except.ok ({ m_controlQueue := c1, m_dataQueue := q.m_dataQueue }, r) := by
  have hc : PriorityQueue.Classify filter p = PacketClass.PACKET_CLASS_CONTROL := by
    unfold PriorityQueue.Classify
    dsimp only
    rw [if_neg hf]
  unfold PriorityQueue.DoEnqueue
  dsimp only
  rw [if_pos hc, he]

/-- C26: `PriorityQueue::DoDequeue` serves the control sub-queue whenever its
`IsEmpty` is false and the data sub-queue otherwise, returns what the
`Dequeue` of that sub-queue returns and leaves the other sub-queue as it is.
Over two drop-head sub-queues it returns the head of the control queue when
that queue holds a packet, else the head of the data queue, and the null
result exactly when both are empty.  Hence a packet matched by the classifier
that is enqueued (control queue in packet mode with capacity at least 1)
after any data packets is returned by the following calls of `DoDequeue`
before every data packet still queued: the calls return the packets of the
control queue, the new one last, and then those of the data queue. -/
theorem PriorityQueue_strict_priority {C D : Type} (cq : QueueIface C) (dq : QueueIface D)
    (q : PriorityQueue C D) (f1 f2 : Nat) (filter : Packet → Int)
    (qh : PriorityQueue DropHeadQueue DropHeadQueue) (c : Packet) :
    ((cq.IsEmpty q.m_controlQueue = false →
      (∀ c1 r, cq.Dequeue q.m_controlQueue = Except.ok (c1, r) →
        PriorityQueue.DoDequeue cq dq q =
          Except.ok ({ m_controlQueue := c1, m_dataQueue := q.m_dataQueue }, r)) ∧
      (∀ f, cq.Dequeue q.m_controlQueue = Except.error f →
        PriorityQueue.DoDequeue cq dq q = Except.error f)) ∧
     (cq.IsEmpty q.m_controlQueue = true →
      (∀ d1 r, dq.Dequeue q.m_dataQueue = Except.ok (d1, r) →
        PriorityQueue.DoDequeue cq dq q =
          Except.ok ({ m_controlQueue := q.m_controlQueue, m_dataQueue := d1 }, r)) ∧
      (∀ f, dq.Dequeue q.m_dataQueue = Except.error f →
        PriorityQueue.DoDequeue cq dq q = Except.error f))) ∧
    (∃ q1, PriorityQueue.DoDequeue (dropHeadIface f1) (dropHeadIface f2) qh =
      Except.ok (q1,
        if qh.m_controlQueue.m_packets ≠ [] then qh.m_controlQueue.m_packets.head?
        else qh.m_dataQueue.m_packets.head?)) ∧
    ((if qh.m_controlQueue.m_packets ≠ [] then qh.m_controlQueue.m_packets.head?
        else qh.m_dataQueue.m_packets.head?) = none ↔
      qh.m_controlQueue.m_packets = [] ∧ qh.m_dataQueue.m_packets = []) ∧
    (filter c ≠ 0 → qh.m_controlQueue.m_mode = QueueMode.QUEUE_MODE_PACKETS →
      1 ≤ qh.m_controlQueue.m_maxPackets →
      ∃ q1, PriorityQueue.DoEnqueue (dropHeadIface f1) (dropHeadIface f2) filter qh c
          = Except.ok (q1, true) ∧
        q1.m_dataQueue = qh.m_dataQueue ∧
        c ∈ q1.m_controlQueue.m_packets ∧
        (∀ n, ∃ q2, PriorityQueue.dequeueN (dropHeadIface f1) (dropHeadIface f2) n q1 =
          Except.ok (q2,
            (q1.m_controlQueue.m_packets ++ qh.m_dataQueue.m_packets).take n))) := by
  refine ⟨PriorityQueue_dequeue_generic cq dq q, ?_, ?_, ?_⟩
  · rw [PriorityQueue_dequeue_dropHead]
    by_cases hc : qh.m_controlQueue.m_packets ≠ []
    · rw [if_pos hc, if_pos hc]
      exact ⟨_, rfl⟩
    · rw [if_neg hc, if_neg hc]
      exact ⟨_, rfl⟩
  · by_cases hc : qh.m_controlQueue.m_packets ≠ []
    · rw [if_pos hc]
      constructor
      · intro h
        cases hp : qh.m_controlQueue.m_packets with
        | nil => exact absurd hp hc
        | cons a t =>
          rw [hp] at h
          cases h
      · intro h
        exact absurd h.1 hc
    · rw [if_neg hc]
      have hc1 : qh.m_controlQueue.m_packets = [] := not_not.mp hc
      constructor
      · intro h
        cases hp : qh.m_dataQueue.m_packets with
        | nil => exact ⟨hc1, rfl⟩
        | cons a t =>
          rw [hp] at h
          cases h
      · intro h
        rw [h.2]
        rfl
  · intro hf hmode hcap
    obtain ⟨c1, h1, hpk, _⟩ := DoEnqueue_packets f1 qh.m_controlQueue c hmode hcap
    have hroute := PriorityQueue_enqueue_control (dropHeadIface f1) (dropHeadIface f2) filter qh
      c hf c1 true h1
    refine ⟨{ m_controlQueue := c1, m_dataQueue := qh.m_dataQueue }, hroute, rfl, ?_, ?_⟩
    · show c ∈ c1.m_packets
      rw [hpk]
      exact List.mem_append_right _ (List.mem_singleton_self c)
    · intro n
      exact PriorityQueue_drain f1 f2 n { m_controlQueue := c1, m_dataQueue := qh.m_dataQueue }

/-- C26 on a priority queue whose data queue holds packets of 1 and 2 bytes:
the control packet enqueued afterwards is returned first, then the two data
packets. -/
theorem PriorityQueue_strict_priority_witness :
    (∃ q1, PriorityQueue.DoEnqueue (dropHeadIface 0) (dropHeadIface 0) markFilter dataPriority
        controlPacket = Except.ok (q1, true) ∧
      ∃ q2, PriorityQueue.dequeueN (dropHeadIface 0) (dropHeadIface 0) 3 q1 =
        Except.ok (q2, [controlPacket, packetOf 1, packetOf 2])) ∧
    (((dropHeadIface 0).IsEmpty dataPriority.m_controlQueue = false →
      (∀ c1 r, (dropHeadIface 0).Dequeue dataPriority.m_controlQueue = Except.ok (c1, r) →
        PriorityQueue.DoDequeue (dropHeadIface 0) (dropHeadIface 0) dataPriority =
          Except.ok ({ m_controlQueue := c1, m_dataQueue := dataPriority.m_dataQueue }, r)) ∧
      (∀ f, (dropHeadIface 0).Dequeue dataPriority.m_controlQueue = Except.error f →
        PriorityQueue.DoDequeue (dropHeadIface 0) (dropHeadIface 0) dataPriority
          = Except.error f)) ∧
     ((dropHeadIface 0).IsEmpty dataPriority.m_controlQueue = true →
      (∀ d1 r, (dropHeadIface 0).Dequeue dataPriority.m_dataQueue = Except.ok (d1, r) →
        PriorityQueue.DoDequeue (dropHeadIface 0) (dropHeadIface 0) dataPriority =
          Except.ok ({ m_controlQueue := dataPriority.m_controlQueue, m_dataQueue := d1 }, r)) ∧
      (∀ f, (dropHeadIface 0).Dequeue dataPriority.m_dataQueue = Except.error f →
        PriorityQueue.DoDequeue (dropHeadIface 0) (dropHeadIface 0) dataPriority
          = Except.error f))) ∧
    (∃ q1, PriorityQueue.DoDequeue (dropHeadIface 0) (dropHeadIface 0) dataPriority =
      Except.ok (q1,
        if dataPriority.m_controlQueue.m_packets ≠ [] then
          dataPriority.m_controlQueue.m_packets.head?
        else dataPriority.m_dataQueue.m_packets.head?)) ∧
    ((if dataPriority.m_controlQueue.m_packets ≠ [] then
        dataPriority.m_controlQueue.m_packets.head?
        else dataPriority.m_dataQueue.m_packets.head?) = none ↔
      dataPriority.m_controlQueue.m_packets = [] ∧ dataPriority.m_dataQueue.m_packets = []) ∧
    (markFilter controlPacket ≠ 0 →
      dataPriority.m_controlQueue.m_mode = QueueMode.QUEUE_MODE_PACKETS →
      1 ≤ dataPriority.m_controlQueue.m_maxPackets →
      ∃ q1, PriorityQueue.DoEnqueue (dropHeadIface 0) (dropHeadIface 0) markFilter dataPriority
          controlPacket = Except.ok (q1, true) ∧
        q1.m_dataQueue = dataPriority.m_dataQueue ∧
        controlPacket ∈ q1.m_controlQueue.m_packets ∧
        (∀ n, ∃ q2, PriorityQueue.dequeueN (dropHeadIface 0) (dropHeadIface 0) n q1 =
          Except.ok (q2,
            (q1.m_controlQueue.m_packets ++ dataPriority.m_dataQueue.m_packets).take n))) :=
  ⟨⟨_, by with_unfolding_all rfl, _, by with_unfolding_all rfl⟩,
   PriorityQueue_strict_priority (dropHeadIface 0) (dropHeadIface 0) dataPriority 0 0 markFilter
     dataPriority controlPacket⟩

theorem dropHeadIface_peek_law (fuel : Nat) (c c1 : DropHeadQueue) (r : Option Packet)
    (h : (dropHeadIface fuel).Dequeue c = Except.ok (c1, r)) : (dropHeadIface fuel).Peek c = r := by
  unfold dropHeadIface at h
  dsimp only at h
  injection h with h
  have h2 : c.DoDequeue.2 = r := by rw [h]
  rw [← h2, (DoDequeue_packets c).2]
  rfl

/-- C27: `DoPeek` returns the packet the next `DoDequeue` would return.  For
the drop-head queue `DoPeek` is the packet component of `DoDequeue`, null
exactly when the queue holds no packet.  For the priority queue, over
sub-queues whose `Peek` agrees with their `Dequeue`, whenever `DoDequeue`
returns a result `DoPeek` is that result; over two drop-head queues
`DoDequeue` always returns, with the result of `DoPeek`, which is null exactly
when both sub-queues are empty.  `DoPeek` is a `const` member function, here a
function of the state alone: the packets and the byte count after it are
those before it. -/
theorem Peek_agrees_with_Dequeue {C D : Type} (cq : QueueIface C) (dq : QueueIface D)
    (q : PriorityQueue C D) (qd : DropHeadQueue) (f1 f2 : Nat)
    (qh : PriorityQueue DropHeadQueue DropHeadQueue)
    (hc : ∀ c c1 r, cq.Dequeue c = Except.ok (c1, r) → cq.Peek c = r)
    (hd : ∀ d d1 r, dq.Dequeue d = Except.ok (d1, r) → dq.Peek d = r) :
    qd.DoPeek = qd.DoDequeue.2 ∧
    (qd.DoPeek = none ↔ qd.m_packets = []) ∧
    (∀ q1 r, PriorityQueue.DoDequeue cq dq q = Except.ok (q1, r) →
      PriorityQueue.DoPeek cq dq q = r) ∧
    (∃ q1, PriorityQueue.DoDequeue (dropHeadIface f1) (dropHeadIface f2) qh =
      Except.ok (q1, PriorityQueue.DoPeek (dropHeadIface f1) (dropHeadIface f2) qh)) ∧
    (PriorityQueue.DoPeek (dropHeadIface f1) (dropHeadIface f2) qh = none ↔
      qh.m_controlQueue.m_packets = [] ∧ qh.m_dataQueue.m_packets = []) := by
  have hgen : ∀ {C D : Type} (cq : QueueIface C) (dq : QueueIface D) (q : PriorityQueue C D),
      (∀ c c1 r, cq.Dequeue c = Except.ok (c1, r) → cq.Peek c = r) →
      (∀ d d1 r, dq.Dequeue d = Except.ok (d1, r) → dq.Peek d = r) →
      ∀ q1 r, PriorityQueue.DoDequeue cq dq q = Except.ok (q1, r) →
        PriorityQueue.DoPeek cq dq q = r := by
    intro C D cq dq q hc hd q1 r h
    unfold PriorityQueue.DoDequeue at h
    unfold PriorityQueue.DoPeek
    by_cases he : (!cq.IsEmpty q.m_controlQueue) = true
    · rw [if_pos he] at h
      rw [if_pos he]
      cases hq : cq.Dequeue q.m_controlQueue with
      | error f =>
        rw [hq] at h
        cases h
      | ok res =>
        obtain ⟨c1, r1⟩ := res
        rw [hq] at h
        injection h with h
        injection h with h1 h2
        rw [← h2]
        exact hc _ _ _ hq
    · rw [if_neg he] at h
      rw [if_neg he]
      cases hq : dq.Dequeue q.m_dataQueue with
      | error f =>
        rw [hq] at h
        cases h
      | ok res =>
        obtain ⟨d1, r1⟩ := res
        rw [hq] at h
        injection h with h
        injection h with h1 h2
        rw [← h2]
        exact hd _ _ _ hq
  have hpk : PriorityQueue.DoPeek (dropHeadIface f1) (dropHeadIface f2) qh =
      if qh.m_controlQueue.m_packets ≠ [] then qh.m_controlQueue.m_packets.head?
      else qh.m_dataQueue.m_packets.head? := by
    unfold PriorityQueue.DoPeek dropHeadIface DropHeadQueue.DoPeek
    dsimp only
    cases hcp : qh.m_controlQueue.m_packets with
    | nil => rw [if_neg (by simp), if_neg (by simp)]
    | cons a t => rw [if_pos (by simp), if_pos (by simp)]
  refine ⟨?_, ?_, hgen cq dq q hc hd, ?_, ?_⟩
  · rw [(DoDequeue_packets qd).2]
    rfl
  · unfold DropHeadQueue.DoPeek
    cases qd.m_packets with
    | nil => simp
    | cons a t => simp
  · rw [PriorityQueue_dequeue_dropHead, hpk]
    by_cases hcp : qh.m_controlQueue.m_packets ≠ []
    · rw [if_pos hcp, if_pos hcp]
      exact ⟨_, rfl⟩
    · rw [if_neg hcp, if_neg hcp]
      exact ⟨_, rfl⟩
  · rw [hpk]
    by_cases hcp : qh.m_controlQueue.m_packets ≠ []
    · rw [if_pos hcp]
      constructor
      · intro h
        cases hp : qh.m_controlQueue.m_packets with
        | nil => exact absurd hp hcp
        | cons a t =>
          rw [hp] at h
          cases h
      · intro h
        exact absurd h.1 hcp
    · rw [if_neg hcp]
      have hc1 : qh.m_controlQueue.m_packets = [] := not_not.mp hcp
      constructor
      · intro h
        cases hp : qh.m_dataQueue.m_packets with
        | nil => exact ⟨hc1, rfl⟩
        | cons a t =>
          rw [hp] at h
          cases h
      · intro h
        rw [h.2]
        rfl

/-- C27 on the priority queue whose data queue holds packets of 1 and 2
bytes and on that data queue itself: `DoPeek` shows the packet of 1 byte,
which is what `DoDequeue` returns. -/
theorem Peek_agrees_with_Dequeue_witness :
    PriorityQueue.DoPeek (dropHeadIface 0) (dropHeadIface 0) dataPriority = some (packetOf 1) ∧
    dataPriority.m_dataQueue.DoPeek = some (packetOf 1) ∧
    (dataPriority.m_dataQueue.DoPeek = dataPriority.m_dataQueue.DoDequeue.2 ∧
     (dataPriority.m_dataQueue.DoPeek = none ↔ dataPriority.m_dataQueue.m_packets = []) ∧
     (∀ q1 r, PriorityQueue.DoDequeue (dropHeadIface 0) (dropHeadIface 0) dataPriority
         = Except.ok (q1, r) →
       PriorityQueue.DoPeek (dropHeadIface 0) (dropHeadIface 0) dataPriority = r) ∧
     (∃ q1, PriorityQueue.DoDequeue (dropHeadIface 0) (dropHeadIface 0) dataPriority =
       Except.ok (q1, PriorityQueue.DoPeek (dropHeadIface 0) (dropHeadIface 0) dataPriority)) ∧
     (PriorityQueue.DoPeek (dropHeadIface 0) (dropHeadIface 0) dataPriority = none ↔
       dataPriority.m_controlQueue.m_packets = [] ∧ dataPriority.m_dataQueue.m_packets = [])) :=
  ⟨by with_unfolding_all rfl, by with_unfolding_all rfl,
   Peek_agrees_with_Dequeue (dropHeadIface 0) (dropHeadIface 0) dataPriority
     dataPriority.m_dataQueue 0 0 dataPriority (dropHeadIface_peek_law 0)
     (dropHeadIface_peek_law 0)⟩

/-! ## Values returned by the device -/

/-- Without a queue `EnqueuePacket` strips the header and calls the channel
with the scaled duration. -/
theorem EnqueuePacket_noqueue {Q : Type} (ops : QueueOps Q) (env : Env) (fuel : Nat) (w : World Q)
    (packet : Packet) (fromAddr toAddr : Mac48Address) (protocolNumber destId : Nat)
    (hdr : EthernetHeader) (pk : Packet)
    (hq : w.dev.m_queue = none) (hh : packet.RemoveHeader = some (hdr, pk)) :
    NetDevice.EnqueuePacket ops env fuel w packet fromAddr toAddr protocolNumber destId =
      returnTrue (callChannelSend env fuel (directWorld w packet pk toAddr protocolNumber) pk
        protocolNumber toAddr fromAddr
        (scaledDuration (baseDuration w.dev.m_bps pk) w.dev.m_nbrCount
          w.dev.m_fixedNbrListEnabled) destId) := by
  obtain ⟨⟨self, addr, bps, st, cur, q, pcap, dir, nbrs, cnt, tot, drop, em, pc⟩, ch, txc, arr,
    tr⟩ := w
  dsimp only at hq
  subst hq
  cases pcap
  all_goals
    unfold NetDevice.EnqueuePacket
    dsimp only
    rw [hh]
    dsimp only [World.observe]
    simp only [Bool.false_eq_true, if_false, if_true]
    rw [scaling_eq]
    unfold baseDuration directWorld returnTrue
    simp only [Bool.false_eq_true, if_false, if_true, List.append_assoc, List.singleton_append,
      List.cons_append, List.nil_append]

theorem EnqueuePacket_returns_true {Q : Type} {ops : QueueOps Q} {env : Env} {fuel : Nat}
    {w w1 : World Q} {packet : Packet} {fromAddr toAddr : Mac48Address}
    {protocolNumber destId : Nat} {r : Bool}
    (h : NetDevice.EnqueuePacket ops env fuel w packet fromAddr toAddr protocolNumber destId
      = Except.ok (w1, r)) : r = true := by
  cases hq : w.dev.m_queue with
  | some q =>
    rw [EnqueuePacket_queue ops env fuel w q packet fromAddr toAddr protocolNumber destId hq] at h
    unfold offerToQueue at h
    cases henq : ops.Enqueue q
        ((packet.AddPacketTag (Tag.timestamp env.now)).AddPacketTag (Tag.destinationId destId)) with
    | error f =>
      rw [henq] at h
      cases h
    | ok res =>
      obtain ⟨q1, acc⟩ := res
      rw [henq] at h
      cases acc with
      | false =>
        dsimp only at h
        injection h with h
        injection h with h1 h2
        exact h2.symm
      | true =>
        dsimp only at h
        by_cases hst : w.dev.m_txMachineState = TxMachineState.READY
        · rw [if_pos hst] at h
          cases hdq : ops.Dequeue q1 with
          | error f =>
            rw [hdq] at h
            cases h
          | ok res2 =>
            obtain ⟨q2, op⟩ := res2
            rw [hdq] at h
            cases op with
            | none => cases h
            | some pk =>
              dsimp only at h
              unfold returnTrue at h
              cases hts : NetDevice.TransmitStart env fuel
                  { w with dev := { w.dev with m_queue := some q2 } } pk with
              | error f =>
                rw [hts] at h
                cases h
              | ok w2 =>
                rw [hts] at h
                injection h with h
                injection h with h1 h2
                exact h2.symm
        · rw [if_neg hst] at h
          injection h with h
          injection h with h1 h2
          exact h2.symm
  | none =>
    cases hh : packet.RemoveHeader with
    | none =>
      unfold NetDevice.EnqueuePacket at h
      rw [hq] at h
      dsimp only at h
      rw [hh] at h
      cases h
    | some res =>
      obtain ⟨hdr, pk⟩ := res
      rw [EnqueuePacket_noqueue ops env fuel w packet fromAddr toAddr protocolNumber destId hdr pk
        hq hh] at h
      unfold returnTrue at h
      cases hcs : callChannelSend env fuel (directWorld w packet pk toAddr protocolNumber) pk
          protocolNumber toAddr fromAddr
          (scaledDuration (baseDuration w.dev.m_bps pk) w.dev.m_nbrCount
            w.dev.m_fixedNbrListEnabled) destId with
      | error f =>
        rw [hcs] at h
        cases h
      | ok w3 =>
        rw [hcs] at h
        injection h with h
        injection h with h1 h2
        exact h2.symm

theorem returnTrue_value {Q : Type} {r : Except DevFault (World Q)} {w1 : World Q} {b : Bool}
    (h : returnTrue r = Except.ok (w1, b)) : b = true := by
  unfold returnTrue at h
  cases r with
  | error f => cases h
  | ok w =>
    injection h with h
    injection h with h1 h2
    exact h2.symm

theorem callChannelSend_ok {Q : Type} {env : Env} {fuel : Nat} {w : World Q} {p : Packet}
    {protocol : Nat} {toAddr fromAddr : Mac48Address} {txTime : Time} {destId : Nat}
    {st : SendState} {evs : List (Event Packet)}
    (h : Send env fuel w.ch p protocol toAddr fromAddr w.dev.self w.dev.m_nbrCount txTime destId
      = Except.ok (st, evs)) :
    callChannelSend env fuel w p protocol toAddr fromAddr txTime destId =
      Except.ok
        { w with
          ch := st.ch
          dev := { w.dev with m_nbrCount := st.nbrCount }
          arrivals := w.arrivals ++ evs
          trace := w.trace ++
            [Observation.channelSend p protocol toAddr fromAddr txTime destId] } := by
  unfold callChannelSend
  rw [h]

/-- `TransmitComplete` from a BUSY device with a packet in flight and a queue
attached, by what `Dequeue` returns. -/
theorem TransmitComplete_eq {Q : Type} (ops : QueueOps Q) (env : Env) (fuel : Nat)
    (w : World Q) (q : Q) (hb : w.dev.m_txMachineState = TxMachineState.BUSY)
    (hcur : w.dev.m_currentPkt.isSome = true) (hq : w.dev.m_queue = some q) :
    (∀ f, ops.Dequeue q = Except.error f →
      NetDevice.TransmitComplete ops env fuel w = Except.error (DevFault.queue f)) ∧
    (∀ q1, ops.Dequeue q = Except.ok (q1, none) →
      NetDevice.TransmitComplete ops env fuel w = Except.ok (completedWorld w q1)) ∧
    (∀ q1 p, ops.Dequeue q = Except.ok (q1, some p) →
      NetDevice.TransmitComplete ops env fuel w =
        NetDevice.TransmitStart env fuel (completedWorld w q1) p) := by
  have hnone : w.dev.m_currentPkt.isNone = false := by
    cases hcp : w.dev.m_currentPkt with
    | none =>
      rw [hcp] at hcur
      cases hcur
    | some x => rfl
  refine ⟨?_, ?_, ?_⟩
  · intro f hd
    unfold NetDevice.TransmitComplete
    rw [if_neg (not_not.mpr hb)]
    dsimp only
    rw [hnone]
    simp only [Bool.false_eq_true, if_false]
    rw [hq]
    dsimp only
    rw [hd]
  · intro q1 hd
    unfold NetDevice.TransmitComplete
    rw [if_neg (not_not.mpr hb)]
    dsimp only
    rw [hnone]
    simp only [Bool.false_eq_true, if_false]
    rw [hq]
    dsimp only
    rw [hd]
    rfl
  · intro q1 p hd
    unfold NetDevice.TransmitComplete
    rw [if_neg (not_not.mpr hb)]
    dsimp only
    rw [hnone]
    simp only [Bool.false_eq_true, if_false]
    rw [hq]
    dsimp only
    rw [hd]
    rfl

/-- C30: `TransmitComplete` on a BUSY device with a packet in flight and a
queue attached, run as the only pending completion.  It calls `Dequeue` once.
When `Dequeue` returns no packet (the queue is empty) it returns with the
device READY, no packet in flight, no completion pending and nothing else
changed.  When `Dequeue` returns a packet it is `TransmitStart` of exactly that
packet from the READY state with no packet in flight and the queue as
`Dequeue` left it; whenever that returns the device is BUSY with a packet in
flight, exactly one `TransmitComplete` pending and the queue as `Dequeue` left
it, and it does return, with the dequeued packet in flight, when the packet has
the form `EnqueuePacket` queues and the channel's `Send` returns.  For the
drop-head queue `Dequeue` returns no packet exactly on the empty queue and
otherwise the front packet, leaving the rest of the packets. -/
theorem TransmitComplete_dequeues_next {Q : Type} (ops : QueueOps Q) (env : Env) (fuel : Nat)
    (w : World Q) (q : Q) (hb : w.dev.m_txMachineState = TxMachineState.BUSY)
    (hcur : w.dev.m_currentPkt.isSome = true) (hq : w.dev.m_queue = some q)
    (htx : w.txComplete = []) :
    (∀ q1, ops.Dequeue q = Except.ok (q1, none) →
      ∃ w1, NetDevice.TransmitComplete ops env fuel w = Except.ok w1 ∧
        w1.dev.m_txMachineState = TxMachineState.READY ∧ w1.dev.m_currentPkt = none ∧
        w1.txComplete = [] ∧ w1.dev.m_queue = some q1 ∧ w1.trace = w.trace ∧
        w1.arrivals = w.arrivals ∧ w1.ch = w.ch) ∧
    (∀ q1 p, ops.Dequeue q = Except.ok (q1, some p) →
      NetDevice.TransmitComplete ops env fuel w =
        NetDevice.TransmitStart env fuel (completedWorld w q1) p ∧
      (completedWorld w q1).dev.m_txMachineState = TxMachineState.READY ∧
      (completedWorld w q1).dev.m_currentPkt = none ∧
      (completedWorld w q1).dev.m_queue = some q1 ∧
      (∀ w1, NetDevice.TransmitComplete ops env fuel w = Except.ok w1 →
        w1.dev.m_txMachineState = TxMachineState.BUSY ∧ w1.txComplete.length = 1 ∧
        w1.dev.m_currentPkt.isSome = true ∧ w1.dev.m_queue = some q1)) ∧
    (∀ (q1 : Q) (env0 : Env) (packet : Packet) (source dest : Mac48Address)
        (protocolNumber destId : Nat) (st : SendState) (evs : List (Event Packet)),
      ops.Dequeue q =
        Except.ok (q1, some (queuedForm env0 packet source dest protocolNumber destId)) →
      Send env fuel w.ch packet protocolNumber dest source w.dev.self w.dev.m_nbrCount
        (scaledDuration (baseDuration w.dev.m_bps packet) w.dev.m_nbrCount
          w.dev.m_fixedNbrListEnabled) destId = Except.ok (st, evs) →
      ∃ w1, NetDevice.TransmitComplete ops env fuel w = Except.ok w1 ∧
        w1.dev.m_txMachineState = TxMachineState.BUSY ∧ w1.dev.m_currentPkt = some packet ∧
        w1.txComplete =
          [scaledDuration (baseDuration w.dev.m_bps packet) w.dev.m_nbrCount
            w.dev.m_fixedNbrListEnabled] ∧
        w1.dev.m_queue = some q1) ∧
    (∀ (n : Nat) (d : DropHeadQueue),
      (d.m_packets = [] → (dropHeadOps n).Dequeue d = Except.ok (d, none)) ∧
      (∀ p t, d.m_packets = p :: t →
        ∃ d1, (dropHeadOps n).Dequeue d = Except.ok (d1, some p) ∧ d1.m_packets = t)) := by
  obtain ⟨_, hnone, hsome⟩ := TransmitComplete_eq ops env fuel w q hb hcur hq
  refine ⟨?_, ?_, ?_, ?_⟩
  · intro q1 hd
    exact ⟨completedWorld w q1, hnone q1 hd, rfl, rfl, htx, rfl, rfl, rfl, rfl⟩
  · intro q1 p hd
    refine ⟨hsome q1 p hd, rfl, rfl, rfl, ?_⟩
    intro w1 h
    rw [hsome q1 p hd] at h
    obtain ⟨_, hbusy, ⟨t, ht⟩, hcp, hqueue⟩ := TransmitStart_effect h
    refine ⟨hbusy, ?_, hcp, hqueue⟩
    rw [ht]
    show (w.txComplete ++ [t]).length = 1
    rw [htx]
    rfl
  · intro q1 env0 packet source dest protocolNumber destId st evs hd hs
    rw [hsome q1 _ hd]
    rw [(TransmitStart_queuedForm env0 env fuel (completedWorld w q1) packet source dest
      protocolNumber destId rfl).2]
    refine ⟨_, callChannelSend_ok hs, rfl, rfl, ?_, rfl⟩
    show w.txComplete ++ [_] = _
    rw [htx]
    rfl
  · intro n d
    constructor
    · intro hd
      show Except.ok d.DoDequeue = _
      unfold DropHeadQueue.DoDequeue
      rw [hd]
    · intro p t hd
      refine ⟨d.DoDequeue.1, ?_, ?_⟩
      · show Except.ok d.DoDequeue = _
        unfold DropHeadQueue.DoDequeue
        rw [hd]
      · unfold DropHeadQueue.DoDequeue
        rw [hd]

/-- C30 on the device of node 0 at 8 ms, when the transmission of the
1000-byte packet completes while the two-byte packet waits in the queue: the
device ends BUSY with the two-byte packet in flight, one `TransmitComplete`
pending after 16 microseconds and the queue empty; with nothing waiting it
ends READY with nothing pending. -/
theorem TransmitComplete_dequeues_next_witness :
    pendingWorld.dev.m_txMachineState = TxMachineState.BUSY ∧
    pendingWorld.dev.m_currentPkt = some packet1000 ∧
    pendingWorld.dev.m_queue = some waitingQueue ∧
    pendingWorld.txComplete = [] ∧
    (∃ w1, NetDevice.TransmitComplete (dropHeadOps 0) doneEnv 0 pendingWorld = Except.ok w1 ∧
      w1.dev.m_txMachineState = TxMachineState.BUSY ∧ w1.dev.m_currentPkt = some packetTwo ∧
      w1.txComplete =
        [scaledDuration (baseDuration pendingWorld.dev.m_bps packetTwo)
          pendingWorld.dev.m_nbrCount pendingWorld.dev.m_fixedNbrListEnabled] ∧
      w1.dev.m_queue = some emptyQueue) ∧
    scaledDuration (baseDuration pendingWorld.dev.m_bps packetTwo) pendingWorld.dev.m_nbrCount
      pendingWorld.dev.m_fixedNbrListEnabled = 16000 ∧
    (∃ w1, NetDevice.TransmitComplete (dropHeadOps 0) doneEnv 0 drainedWorld = Except.ok w1 ∧
      w1.dev.m_txMachineState = TxMachineState.READY ∧ w1.dev.m_currentPkt = none ∧
      w1.txComplete = [] ∧ w1.dev.m_queue = some emptyQueue ∧ w1.trace = drainedWorld.trace ∧
      w1.arrivals = drainedWorld.arrivals ∧ w1.ch = drainedWorld.ch) :=
  ⟨by with_unfolding_all rfl, by with_unfolding_all rfl, by with_unfolding_all rfl,
    by with_unfolding_all rfl,
    (TransmitComplete_dequeues_next (dropHeadOps 0) doneEnv 0 pendingWorld waitingQueue
      (by with_unfolding_all rfl) (by with_unfolding_all rfl) (by with_unfolding_all rfl)
      (by with_unfolding_all rfl)).2.2.1 emptyQueue lineEnv packetTwo 1 2 2054 NO_DIRECTIONAL_NBR
      _ _ (by with_unfolding_all rfl) (by with_unfolding_all rfl),
    by with_unfolding_all rfl,
    (TransmitComplete_dequeues_next (dropHeadOps 0) doneEnv 0 drainedWorld emptyQueue
      (by with_unfolding_all rfl) (by with_unfolding_all rfl) (by with_unfolding_all rfl)
      (by with_unfolding_all rfl)).1 emptyQueue (by with_unfolding_all rfl)⟩

theorem find_none_of_no_match (table : List (Nat × Mac48Address)) (dest : Mac48Address)
    (h : ∀ it ∈ table, it.2 ≠ dest) :
    table.find? (fun it => decide (it.2 = dest)) = none := by
  rw [List.find?_eq_none]
  intro it hit
  rw [decide_eq_true_eq]
  exact h it hit

/-- C28: the value `EnqueuePacket`, `Send` and `SendFrom` return is true
whenever they return, for every input.  `EnqueuePacket` returns, with true:
when the queue rejects the packet (nothing but the queue changes); when the
queue accepts it and the device is not READY; when the queue accepts it, the
device is READY and the `TransmitStart` of the dequeued packet returns; and,
with no queue attached, when the channel's `Send` returns, whatever arrivals
it scheduled, none included.  `Send` and `SendFrom` return, with true, as soon
as each of their calls of `EnqueuePacket` returns; for a directional unicast
with no neighbor entry for the destination they make no call and return true
with only the transmit observation made. -/
theorem fire_and_forget {Q : Type} (ops : QueueOps Q) (env : Env) (fuel : Nat) (w : World Q)
    (packet : Packet) (fromAddr toAddr source dest : Mac48Address)
    (protocolNumber destId : Nat) :
    (∀ w1 r,
      NetDevice.EnqueuePacket ops env fuel w packet fromAddr toAddr protocolNumber destId
        = Except.ok (w1, r) → r = true) ∧
    (∀ w1 r, NetDevice.Send ops env fuel w packet dest protocolNumber = Except.ok (w1, r) →
      r = true) ∧
    (∀ w1 r,
      NetDevice.SendFrom ops env fuel w packet source dest protocolNumber = Except.ok (w1, r) →
      r = true) ∧
    (∀ q q1, w.dev.m_queue = some q →
      ops.Enqueue q
        ((packet.AddPacketTag (Tag.timestamp env.now)).AddPacketTag (Tag.destinationId destId))
        = Except.ok (q1, false) →
      NetDevice.EnqueuePacket ops env fuel w packet fromAddr toAddr protocolNumber destId =
        Except.ok ({ w with dev := { w.dev with m_queue := some q1 } }, true)) ∧
    (∀ q q1, w.dev.m_queue = some q →
      ops.Enqueue q
        ((packet.AddPacketTag (Tag.timestamp env.now)).AddPacketTag (Tag.destinationId destId))
        = Except.ok (q1, true) →
      w.dev.m_txMachineState ≠ TxMachineState.READY →
      NetDevice.EnqueuePacket ops env fuel w packet fromAddr toAddr protocolNumber destId =
        Except.ok ({ w with dev := { w.dev with m_queue := some q1 } }, true)) ∧
    (∀ q q1 q2 pk w2, w.dev.m_queue = some q →
      ops.Enqueue q
        ((packet.AddPacketTag (Tag.timestamp env.now)).AddPacketTag (Tag.destinationId destId))
        = Except.ok (q1, true) →
      w.dev.m_txMachineState = TxMachineState.READY →
      ops.Dequeue q1 = Except.ok (q2, some pk) →
      NetDevice.TransmitStart env fuel { w with dev := { w.dev with m_queue := some q2 } } pk
        = Except.ok w2 →
      NetDevice.EnqueuePacket ops env fuel w packet fromAddr toAddr protocolNumber destId =
        Except.ok (w2, true)) ∧
    (∀ hdr pk st evs, w.dev.m_queue = none → packet.RemoveHeader = some (hdr, pk) →
      Send env fuel w.ch pk protocolNumber toAddr fromAddr w.dev.self w.dev.m_nbrCount
        (scaledDuration (baseDuration w.dev.m_bps pk) w.dev.m_nbrCount
          w.dev.m_fixedNbrListEnabled) destId = Except.ok (st, evs) →
      ∃ w1,
        NetDevice.EnqueuePacket ops env fuel w packet fromAddr toAddr protocolNumber destId =
          Except.ok (w1, true) ∧
        w1.arrivals = w.arrivals ++ evs) ∧
    (∀ w1,
      enqueueEach ops env fuel (sendCalls w.dev packet source dest protocolNumber)
        (w.observe (Observation.macTx (framed packet source dest protocolNumber)))
        = Except.ok w1 →
      NetDevice.SendFrom ops env fuel w packet source dest protocolNumber = Except.ok (w1, true)) ∧
    (∀ w1,
      enqueueEach ops env fuel (sendCalls w.dev packet w.dev.m_address dest protocolNumber)
        (w.observe (Observation.macTx (framed packet w.dev.m_address dest protocolNumber)))
        = Except.ok w1 →
      NetDevice.Send ops env fuel w packet dest protocolNumber = Except.ok (w1, true)) ∧
    (w.dev.m_fixedNbrListEnabled = true → IsBroadcast dest = false →
      (∀ it ∈ w.dev.mDirectionalNbrs, it.2 ≠ dest) →
      NetDevice.SendFrom ops env fuel w packet source dest protocolNumber =
        Except.ok (w.observe (Observation.macTx (framed packet source dest protocolNumber)),
          true) ∧
      NetDevice.Send ops env fuel w packet dest protocolNumber =
        Except.ok
          (w.observe (Observation.macTx (framed packet w.dev.m_address dest protocolNumber)),
            true)) := by
  refine ⟨fun w1 r h => EnqueuePacket_returns_true h, ?_, ?_, ?_, ?_, ?_, ?_, ?_, ?_, ?_⟩
  · intro w1 r h
    rw [Send_eq_SendFrom, SendFrom_calls] at h
    exact returnTrue_value h
  · intro w1 r h
    rw [SendFrom_calls] at h
    exact returnTrue_value h
  · intro q q1 hq henq
    rw [EnqueuePacket_queue ops env fuel w q packet fromAddr toAddr protocolNumber destId hq]
    unfold offerToQueue
    rw [henq]
  · intro q q1 hq henq hst
    rw [EnqueuePacket_queue ops env fuel w q packet fromAddr toAddr protocolNumber destId hq]
    unfold offerToQueue
    rw [henq]
    dsimp only
    rw [if_neg hst]
  · intro q q1 q2 pk w2 hq henq hst hdq hts
    rw [EnqueuePacket_queue ops env fuel w q packet fromAddr toAddr protocolNumber destId hq]
    unfold offerToQueue
    rw [henq]
    dsimp only
    rw [if_pos hst, hdq]
    dsimp only
    rw [hts]
    rfl
  · intro hdr pk st evs hq hh hs
    rw [EnqueuePacket_noqueue ops env fuel w packet fromAddr toAddr protocolNumber destId hdr pk
      hq hh]
    have hcs := callChannelSend_ok (w := directWorld w packet pk toAddr protocolNumber) hs
    rw [hcs]
    exact ⟨_, rfl, rfl⟩
  · intro w1 h
    rw [SendFrom_calls, h]
    rfl
  · intro w1 h
    rw [Send_eq_SendFrom, SendFrom_calls, h]
    rfl
  · intro hen hb hno
    have hfind := find_none_of_no_match w.dev.mDirectionalNbrs dest hno
    constructor
    · rw [SendFrom_unicast ops env fuel w packet source dest protocolNumber hen hb, hfind]
      rfl
    · rw [Send_eq_SendFrom,
        SendFrom_unicast ops env fuel w packet w.dev.m_address dest protocolNumber hen hb, hfind]
      rfl

/-- C28 on three scenarios at time 0.  The device of node 0 with a queue that
rejects every packet: `EnqueuePacket` returns true and nothing is transmitted.
The device of node 0 without a queue and with no other device in range:
`EnqueuePacket` returns true and no arrival is scheduled.  The directional
device with neighbors at the addresses 2, 3 and 4: `Send` to the address 9
returns true, with only the transmit observation made. -/
theorem fire_and_forget_witness :
    NetDevice.EnqueuePacket rejectingOps lineEnv 0 rejectingWorld (framed packet1000 1 2 2048)
        1 2 2048 NO_DIRECTIONAL_NBR =
      Except.ok (rejectingWorld, true) ∧
    (∃ w1,
      NetDevice.EnqueuePacket (dropHeadOps 0) lineEnv 0 isolatedWorld (framed packet1000 1 2 2048)
          1 2 2048 NO_DIRECTIONAL_NBR =
        Except.ok (w1, true) ∧
      w1.arrivals = isolatedWorld.arrivals ++ []) ∧
    isolatedWorld.arrivals = [] ∧
    NetDevice.Send (dropHeadOps 0) lineEnv 0 (worldOf directionalDevice) packet1000 9 2048 =
      Except.ok
        ((worldOf directionalDevice).observe
          (Observation.macTx (framed packet1000 (worldOf directionalDevice).dev.m_address 9 2048)),
          true) :=
  ⟨(fire_and_forget rejectingOps lineEnv 0 rejectingWorld (framed packet1000 1 2 2048) 1 2 1 2
      2048 NO_DIRECTIONAL_NBR).2.2.2.1 () () (by with_unfolding_all rfl)
      (by with_unfolding_all rfl),
    (fire_and_forget (dropHeadOps 0) lineEnv 0 isolatedWorld (framed packet1000 1 2 2048) 1 2 1 2
      2048 NO_DIRECTIONAL_NBR).2.2.2.2.2.2.1
      { m_source := 1, m_destination := 2, m_lengthType := 2048 } packet1000 _ []
      (by with_unfolding_all rfl) (by with_unfolding_all rfl) (by with_unfolding_all rfl),
    by with_unfolding_all rfl,
    ((fire_and_forget (dropHeadOps 0) lineEnv 0 (worldOf directionalDevice) packet1000 1 9 1 9
      2048 NO_DIRECTIONAL_NBR).2.2.2.2.2.2.2.2.2 (by with_unfolding_all rfl)
      (by with_unfolding_all rfl) (by decide)).2⟩

/-! ## Replay of the stochastic link state -/

theorem replayDurations_off (env : Env) (k up down : Nat) :
    replayDurations env (k + 1) false up down =
      MicroSeconds (env.randomUp up) :: replayDurations env k true (up + 1) down := rfl

theorem replayDurations_on (env : Env) (k up down : Nat) :
    replayDurations env (k + 1) true up down =
      MicroSeconds (env.randomDown down) :: replayDurations env k false up (down + 1) := rfl

/-- Assigning to a key the value stored under it leaves the map as it is. -/
theorem omAssign_self {κ β : Type} (lt : κ → κ → Bool) (k : κ) (v : β) (m : List (κ × β))
    (h : omFind lt k m = some v) : omAssign lt k v m = m := by
  induction m with
  | nil => rfl
  | cons x rest ih =>
    obtain ⟨k1, v1⟩ := x
    unfold omFind at h
    unfold omAssign
    by_cases hk : (!(lt k k1) && !(lt k1 k)) = true
    · rw [if_pos hk] at h
      rw [if_pos hk]
      injection h with h
      rw [h]
    · rw [if_neg hk] at h
      rw [if_neg hk, ih h]

/-- The replay loop makes exactly the least number of transitions that brings
the end time to the current time, when the iteration bound allows them. -/
theorem replayLoop_replays (env : Env) (t : Time) :
    ∀ (k fuel : Nat) (e : Time) (s : Bool) (up down : Nat), k ≤ fuel →
      LeastReplay env t e s up down k →
      replayLoop env t fuel e s up down =
        Except.ok (e + (replayDurations env k s up down).sum, toggled k s, up + upDraws k s,
          down + downDraws k s) := by
  intro k
  induction k with
  | zero =>
    intro fuel e s up down _ hl
    have h0 : ¬ e < t := by
      have := hl.1
      simp only [replayDurations, List.sum_nil, add_zero] at this
      exact not_lt.mpr this
    rw [replayLoop_done env t fuel e s up down h0]
    cases s <;> simp [replayDurations, toggled, upDraws, downDraws]
  | succ k ih =>
    intro fuel e s up down hk hl
    obtain ⟨f, rfl⟩ : ∃ f, fuel = f + 1 := ⟨fuel - 1, by omega⟩
    have h0 : e < t := by
      have := hl.2 0 (Nat.succ_pos k)
      simp only [replayDurations, List.sum_nil, add_zero] at this
      exact this
    rw [replayLoop, if_pos h0]
    cases s with
    | false =>
      rw [if_pos (by decide)]
      have hl1 : LeastReplay env t (e + MicroSeconds (env.randomUp up)) (!false) (up + 1) down
          k := by
        constructor
        · have := hl.1
          rw [replayDurations_off, List.sum_cons, ← add_assoc] at this
          exact this
        · intro j hj
          have := hl.2 (j + 1) (Nat.succ_lt_succ hj)
          rw [replayDurations_off, List.sum_cons, ← add_assoc] at this
          exact this
      rw [ih f _ _ _ _ (Nat.le_of_succ_le_succ hk) hl1, replayDurations_off, List.sum_cons,
        ← add_assoc]
      have e1 : up + 1 + upDraws k (!false) = up + upDraws (k + 1) false := by
        simp only [upDraws, Bool.not_false, if_true, Bool.false_eq_true, if_false]
        omega
      have e2 : down + downDraws k (!false) = down + downDraws (k + 1) false := by
        simp only [downDraws, Bool.not_false, if_true, Bool.false_eq_true, if_false]
      rw [e1, e2]
      rfl
    | true =>
      rw [if_neg (by decide)]
      have hl1 : LeastReplay env t (e + MicroSeconds (env.randomDown down)) (!true) up
          (down + 1) k := by
        constructor
        · have := hl.1
          rw [replayDurations_on, List.sum_cons, ← add_assoc] at this
          exact this
        · intro j hj
          have := hl.2 (j + 1) (Nat.succ_lt_succ hj)
          rw [replayDurations_on, List.sum_cons, ← add_assoc] at this
          exact this
      rw [ih f _ _ _ _ (Nat.le_of_succ_le_succ hk) hl1, replayDurations_on, List.sum_cons,
        ← add_assoc]
      have e1 : up + upDraws k (!true) = up + upDraws (k + 1) true := by
        simp only [upDraws, Bool.not_true, if_true, Bool.false_eq_true, if_false]
      have e2 : down + 1 + downDraws k (!true) = down + downDraws (k + 1) true := by
        simp only [downDraws, Bool.not_true, if_true, Bool.false_eq_true, if_false]
        omega
      rw [e1, e2]
      rfl

theorem replayDurations_length (env : Env) :
    ∀ (k : Nat) (s : Bool) (up down : Nat), (replayDurations env k s up down).length = k := by
  intro k
  induction k with
  | zero =>
    intro s up down
    rfl
  | succ k ih =>
    intro s up down
    cases s
    · rw [replayDurations_off, List.length_cons, ih]
    · rw [replayDurations_on, List.length_cons, ih]

/-- C29: `CheckStochasticError` under STOCHASTIC for a pair whose link is
stored with state s and expiry e, read at time t.  If t <= e the whole channel
(state, expiry and the positions in the duration streams) is unchanged and the
verdict is "suppress" exactly when s is OFF.  If t > e and k is the least
number such that e + d1 + ... + dk >= t, where each di is the next value of the
up stream when the state being entered is ON and of the down stream when it is
OFF, then, when the iteration bound allows k iterations, the call returns with
the link stored as s toggled k times with expiry e + d1 + ... + dk, which is
not before t, exactly k values consumed from the streams, and the verdict
"suppress" exactly when the toggled state is OFF.  Whenever the call returns,
the verdict is "suppress" if and only if the state stored on return is OFF. -/
theorem CheckStochasticError_replay (env : Env) (fuel : Nat) (c : Channel) (srcId dstId : Nat)
    (link : StochasticLink) (hm : c.m_ErrorModel = ErrorModelType.STOCHASTIC)
    (hf : omFind StochasticKey.lt (linkKey srcId dstId) c.m_StochasticLinks = some link) :
    (env.now ≤ link.stateExpireTime →
      CheckStochasticError env fuel c srcId dstId = Except.ok (c, !link.linkState)) ∧
    (∀ k, link.stateExpireTime < env.now →
      LeastReplay env env.now link.stateExpireTime link.linkState c.upPos c.downPos k →
      k ≤ fuel →
      CheckStochasticError env fuel c srcId dstId =
        Except.ok
          ({ c with
             m_StochasticLinks :=
               omAssign StochasticKey.lt (linkKey srcId dstId)
                 { linkState := toggled k link.linkState
                   stateExpireTime := link.stateExpireTime +
                     (replayDurations env k link.linkState c.upPos c.downPos).sum }
                 c.m_StochasticLinks
             upPos := c.upPos + upDraws k link.linkState
             downPos := c.downPos + downDraws k link.linkState },
           !toggled k link.linkState) ∧
      omFind StochasticKey.lt (linkKey srcId dstId)
          (omAssign StochasticKey.lt (linkKey srcId dstId)
            { linkState := toggled k link.linkState
              stateExpireTime := link.stateExpireTime +
                (replayDurations env k link.linkState c.upPos c.downPos).sum }
            c.m_StochasticLinks) =
        some { linkState := toggled k link.linkState
               stateExpireTime := link.stateExpireTime +
                 (replayDurations env k link.linkState c.upPos c.downPos).sum } ∧
      env.now ≤ link.stateExpireTime +
        (replayDurations env k link.linkState c.upPos c.downPos).sum ∧
      (replayDurations env k link.linkState c.upPos c.downPos).length = k ∧
      upDraws k link.linkState + downDraws k link.linkState = k) ∧
    (∀ c1 v, CheckStochasticError env fuel c srcId dstId = Except.ok (c1, v) →
      ∃ l, omFind StochasticKey.lt (linkKey srcId dstId) c1.m_StochasticLinks = some l ∧
        env.now ≤ l.stateExpireTime ∧ (v = true ↔ l.linkState = false)) := by
  refine ⟨?_, ?_, ?_⟩
  · intro hle
    rcases lt_or_eq_of_le hle with hlt | heq
    · exact CheckStochasticError_fresh env fuel c srcId dstId link hm hf hlt
    · rw [CheckStochasticError_at_expiry env fuel c srcId dstId link hm hf heq,
        omAssign_self _ _ _ _ hf]
  · intro k hlt hl hk
    refine ⟨?_, ?_, hl.1, replayDurations_length env k _ _ _, ?_⟩
    · unfold CheckStochasticError
      rw [if_pos hm]
      dsimp only
      rw [hf]
      dsimp only
      rw [if_pos (le_of_lt hlt),
        replayLoop_replays env env.now k fuel link.stateExpireTime link.linkState c.upPos
          c.downPos hk hl]
    · apply omFind_omAssign_same
      rw [hf]
      rfl
    · unfold upDraws downDraws
      by_cases hs : link.linkState = true
      · rw [if_pos hs, if_pos hs]
        omega
      · rw [if_neg hs, if_neg hs]
        omega
  · intro c1 v h
    obtain ⟨l, hl, hexp, hv⟩ := CheckStochasticError_settles hm h
    refine ⟨l, hl, hexp, ?_⟩
    rw [hv]
    cases l.linkState <;> decide

/-- C29 on the link from node 0 to node 1 of `stochChannel`, ON until 1000 ns,
read at 3500 ns with every duration 1 microsecond: three durations are
replayed (1000 + 3 * 1000 is the first end time not before 3500), one from the
up stream and two from the down stream, the link is stored OFF until 4000 ns
and the verdict is "suppress". -/
theorem CheckStochasticError_replay_witness :
    omFind StochasticKey.lt (linkKey 0 1) stochChannel.m_StochasticLinks =
      some { linkState := true, stateExpireTime := 1000 } ∧
    LeastReplay lateEnv lateEnv.now 1000 true stochChannel.upPos stochChannel.downPos 3 ∧
    replayDurations lateEnv 3 true stochChannel.upPos stochChannel.downPos = [1000, 1000, 1000] ∧
    CheckStochasticError lateEnv 10 stochChannel 0 1 =
      Except.ok
        ({ stochChannel with
           m_StochasticLinks :=
             omAssign StochasticKey.lt (linkKey 0 1)
               { linkState := toggled 3 true
                 stateExpireTime := 1000 +
                   (replayDurations lateEnv 3 true stochChannel.upPos stochChannel.downPos).sum }
               stochChannel.m_StochasticLinks
           upPos := stochChannel.upPos + upDraws 3 true
           downPos := stochChannel.downPos + downDraws 3 true },
         !toggled 3 true) ∧
    CheckStochasticError lateEnv 10 stochChannel 0 1 = Except.ok (stochChannelRead, true) :=
  ⟨by with_unfolding_all rfl,
    ⟨of_decide_eq_true (by with_unfolding_all rfl), fun j hj => by
      interval_cases j <;> exact of_decide_eq_true (by with_unfolding_all rfl)⟩,
    by with_unfolding_all rfl,
    ((CheckStochasticError_replay lateEnv 10 stochChannel 0 1
      { linkState := true, stateExpireTime := 1000 } (by with_unfolding_all rfl)
      (by with_unfolding_all rfl)).2.1 3 (of_decide_eq_true (by with_unfolding_all rfl))
      ⟨of_decide_eq_true (by with_unfolding_all rfl), fun j hj => by
        interval_cases j <;> exact of_decide_eq_true (by with_unfolding_all rfl)⟩
      (by decide)).1,
    by with_unfolding_all rfl⟩

/-- When no number of durations brings the end time to the current time (the
values drawn stay 0), the replay loop does not end: it exhausts every
iteration bound. -/
theorem replayLoop_exhausts (env : Env) (t : Time) :
    ∀ (fuel : Nat) (e : Time) (s : Bool) (up down : Nat),
      (∀ k, e + (replayDurations env k s up down).sum < t) →
      replayLoop env t fuel e s up down = Except.error Fault.outOfFuel := by
  intro fuel
  induction fuel with
  | zero =>
    intro e s up down h
    have h0 : e < t := by
      have := h 0
      simp only [replayDurations, List.sum_nil, add_zero] at this
      exact this
    rw [replayLoop, if_pos h0]
  | succ f ih =>
    intro e s up down h
    have h0 : e < t := by
      have := h 0
      simp only [replayDurations, List.sum_nil, add_zero] at this
      exact this
    rw [replayLoop, if_pos h0]
    cases s with
    | false =>
      rw [if_pos (by decide)]
      apply ih
      intro k
      have := h (k + 1)
      rw [replayDurations_off, List.sum_cons, ← add_assoc] at this
      exact this
    | true =>
      rw [if_neg (by decide)]
      apply ih
      intro k
      have := h (k + 1)
      rw [replayDurations_on, List.sum_cons, ← add_assoc] at this
      exact this

/-! ## Re-adding a directional neighbor -/

theorem omInsert_present {ν : Type} (k : Nat) (v a : ν) (m : List (Nat × ν))
    (h : omFind nlt k m = some a) : omInsert nlt k v m = m := by
  unfold omInsert
  rw [h]

theorem omFind_omInsert_some {ν : Type} (k k2 : Nat) (v a : ν) (m : List (Nat × ν))
    (h : omFind nlt k2 m = some a) : omFind nlt k2 (omInsert nlt k v m) = some a := by
  rw [omFind_omInsert_nlt, h]

theorem foldl_omInsert_some {ν : Type} (l : List (Nat × ν)) :
    ∀ (m : List (Nat × ν)) (k : Nat) (a : ν), omFind nlt k m = some a →
      omFind nlt k (l.foldl (fun m it => omInsert nlt it.1 it.2 m) m) = some a := by
  induction l with
  | nil =>
    intro m k a h
    exact h
  | cons it rest ih =>
    intro m k a h
    rw [List.foldl_cons]
    exact ih _ k a (omFind_omInsert_some it.1 k it.2 a m h)

/-- C40: with directional mode enabled, on a table that maps `nodeid` to
`addr1`, `AddDirectionalNeighbor (nodeid, addr2)` and `AddDirectionalNeighbors`
with that pair alone return true and leave the whole device, hence the table
with its entry `nodeid` to `addr1` and every other entry, as it is
(`std::map::insert` does not overwrite).  `AddDirectionalNeighbors` with any
map, whether or not it contains the pair, returns true, still maps `nodeid` to
`addr1`, and leaves every entry the table had with the address it had. -/
theorem AddDirectionalNeighbor_keeps_existing {Q : Type} (d : NetDevice Q) (nodeid : Nat)
    (addr1 addr2 : Mac48Address) (nodesToAdd : List (Nat × Mac48Address))
    (hen : d.m_fixedNbrListEnabled = true)
    (hold : omFind nlt nodeid d.mDirectionalNbrs = some addr1) :
    d.AddDirectionalNeighbor nodeid addr2 = (d, true) ∧
    d.AddDirectionalNeighbors [(nodeid, addr2)] = (d, true) ∧
    (d.AddDirectionalNeighbors nodesToAdd).2 = true ∧
    omFind nlt nodeid (d.AddDirectionalNeighbors nodesToAdd).1.mDirectionalNbrs = some addr1 ∧
    (∀ k a, omFind nlt k d.mDirectionalNbrs = some a →
      omFind nlt k (d.AddDirectionalNeighbors nodesToAdd).1.mDirectionalNbrs = some a) ∧
    (d.AddDirectionalNeighbors nodesToAdd).1 =
      { d with mDirectionalNbrs := (d.AddDirectionalNeighbors nodesToAdd).1.mDirectionalNbrs } := by
  obtain ⟨self, addr, bps, st, cur, q, pcap, dir, nbrs, cnt, tot, drop, em, pc⟩ := d
  dsimp only at hen hold
  subst hen
  have h1 : omInsert nlt nodeid addr2 nbrs = nbrs :=
    omInsert_present nodeid addr2 addr1 nbrs hold
  refine ⟨?_, ?_, rfl, ?_, ?_, rfl⟩
  · show (_, true) = _
    dsimp only
    rw [h1]
  · show (_, true) = _
    dsimp only [List.foldl]
    rw [h1]
  · exact foldl_omInsert_some nodesToAdd nbrs nodeid addr1 hold
  · intro k a hk
    exact foldl_omInsert_some nodesToAdd nbrs k a hk

/-- C40 on the directional device with neighbors 1, 2 and 3 at the addresses
2, 3 and 4: adding node 2 again with address 9, alone or together with a new
node 7, leaves node 2 at address 3. -/
theorem AddDirectionalNeighbor_keeps_existing_witness :
    directionalDevice.AddDirectionalNeighbor 2 9 = (directionalDevice, true) ∧
    directionalDevice.AddDirectionalNeighbors [(2, 9)] = (directionalDevice, true) ∧
    (directionalDevice.AddDirectionalNeighbors [(2, 9), (7, 8)]).2 = true ∧
    omFind nlt 2 (directionalDevice.AddDirectionalNeighbors [(2, 9), (7, 8)]).1.mDirectionalNbrs
      = some 3 ∧
    (∀ k a, omFind nlt k directionalDevice.mDirectionalNbrs = some a →
      omFind nlt k (directionalDevice.AddDirectionalNeighbors [(2, 9), (7, 8)]).1.mDirectionalNbrs
        = some a) ∧
    (directionalDevice.AddDirectionalNeighbors [(2, 9), (7, 8)]).1 =
      { directionalDevice with
        mDirectionalNbrs :=
          (directionalDevice.AddDirectionalNeighbors [(2, 9), (7, 8)]).1.mDirectionalNbrs } :=
  AddDirectionalNeighbor_keeps_existing directionalDevice 2 3 9 [(2, 9), (7, 8)] (Eq.refl _)
    (by with_unfolding_all rfl)

/-! ## Byte count and eviction of the drop-head queue -/

theorem DoDequeue_consistent (q : DropHeadQueue) (h : BytesConsistent q) :
    BytesConsistent q.DoDequeue.1 := by
  unfold DropHeadQueue.DoDequeue
  cases hq : q.m_packets with
  | nil =>
    exact h
  | cons a t =>
    unfold BytesConsistent at h ⊢
    rw [hq, sumSizes_cons] at h
    show (q.m_bytesInQueue + 4294967296 - a.GetSize % 4294967296) % 4294967296
      = sumSizes t % 4294967296
    omega

theorem evict_consistent {q q1 : DropHeadQueue} (h : BytesConsistent q)
    (he : q.evict = Except.ok q1) : BytesConsistent q1 := by
  cases hq : q.m_packets with
  | nil =>
    rw [evict_nil q hq] at he
    cases he
  | cons a t =>
    rw [evict_cons q a t hq] at he
    injection he with he
    rw [← he]
    unfold BytesConsistent at h ⊢
    rw [hq, sumSizes_cons] at h
    show (q.m_bytesInQueue + 4294967296 - a.GetSize % 4294967296) % 4294967296
      = sumSizes t % 4294967296
    omega

theorem evictLoop_consistent (p : Packet) (fuel : Nat) :
    ∀ q q1 : DropHeadQueue, BytesConsistent q →
      DropHeadQueue.evictLoop p fuel q = Except.ok q1 → BytesConsistent q1 := by
  induction fuel with
  | zero =>
    intro q q1 h he
    unfold DropHeadQueue.evictLoop at he
    split at he
    · cases he
    · injection he with he
      rw [← he]
      exact h
  | succ n ih =>
    intro q q1 h he
    rw [DropHeadQueue.evictLoop] at he
    split at he
    · cases hev : q.evict with
      | error f =>
        rw [hev] at he
        cases he
      | ok q2 =>
        rw [hev] at he
        exact ih q2 q1 (evict_consistent h hev) he
    · injection he with he
      rw [← he]
      exact h

/-- A call of `DoEnqueue` that returns has evicted some packets, reaching a
state `q2`, and then added the size of the packet to the byte count and the
packet to the end of the queue; it returns true. -/
theorem DoEnqueue_inv {fuel : Nat} {q q1 : DropHeadQueue} {p : Packet} {r : Bool}
    (he : DropHeadQueue.DoEnqueue fuel q p = Except.ok (q1, r)) :
    r = true ∧
    ∃ q2, (BytesConsistent q → BytesConsistent q2) ∧
      q1 = { q2 with
             m_bytesInQueue := (q2.m_bytesInQueue + p.GetSize) % 4294967296
             m_packets := q2.m_packets ++ [p] } := by
  unfold DropHeadQueue.DoEnqueue at he
  dsimp only at he
  have key : ∀ qa : DropHeadQueue, (BytesConsistent q → BytesConsistent qa) →
      (match (if qa.m_mode = QueueMode.QUEUE_MODE_BYTES then DropHeadQueue.evictLoop p fuel qa
          else Except.ok qa : Except Fault DropHeadQueue) with
        | Except.error f => Except.error f
        | Except.ok q2 =>
          Except.ok
            ({ q2 with
               m_bytesInQueue := (q2.m_bytesInQueue + p.GetSize) % 4294967296
               m_packets := q2.m_packets ++ [p] }, true)) = Except.ok (q1, r) →
      r = true ∧
      ∃ q2, (BytesConsistent q → BytesConsistent q2) ∧
        q1 = { q2 with
               m_bytesInQueue := (q2.m_bytesInQueue + p.GetSize) % 4294967296
               m_packets := q2.m_packets ++ [p] } := by
    intro qa hqa h2
    by_cases hm : qa.m_mode = QueueMode.QUEUE_MODE_BYTES
    · rw [if_pos hm] at h2
      cases hl : DropHeadQueue.evictLoop p fuel qa with
      | error f =>
        rw [hl] at h2
        cases h2
      | ok q2 =>
        rw [hl] at h2
        injection h2 with h2
        injection h2 with h3 h4
        exact ⟨h4.symm, q2, fun hc => evictLoop_consistent p fuel qa q2 (hqa hc) hl, h3.symm⟩
    · rw [if_neg hm] at h2
      injection h2 with h2
      injection h2 with h3 h4
      exact ⟨h4.symm, qa, hqa, h3.symm⟩
  by_cases hc : q.m_mode = QueueMode.QUEUE_MODE_PACKETS ∧ q.m_packets.length ≥ q.m_maxPackets
  · rw [if_pos hc] at he
    cases hev : q.evict with
    | error f =>
      rw [hev] at he
      cases he
    | ok qa =>
      rw [hev] at he
      exact key qa (fun h => evict_consistent h hev) he
  · rw [if_neg hc] at he
    exact key q (fun h => h) he

theorem DoEnqueue_consistent {fuel : Nat} {q q1 : DropHeadQueue} {p : Packet} {r : Bool}
    (h : BytesConsistent q) (he : DropHeadQueue.DoEnqueue fuel q p = Except.ok (q1, r)) :
    BytesConsistent q1 := by
  obtain ⟨_, q2, h2, hq1⟩ := DoEnqueue_inv he
  have hb := h2 h
  rw [hq1]
  unfold BytesConsistent at hb ⊢
  show (q2.m_bytesInQueue + p.GetSize) % 4294967296 = sumSizes (q2.m_packets ++ [p]) % 4294967296
  rw [sumSizes_append, sumSizes_cons]
  have : sumSizes [] = 0 := rfl
  rw [this]
  omega

theorem DropHeadReachable_consistent {q : DropHeadQueue} (hr : DropHeadReachable q) :
    BytesConsistent q := by
  induction hr with
  | empty q hp hb =>
    unfold BytesConsistent
    rw [hp, hb]
    rfl
  | enqueue fuel q q1 p r _ he ih => exact DoEnqueue_consistent ih he
  | dequeue q _ ih => exact DoDequeue_consistent q ih

/-- C35: in every state of a drop-head queue reachable from an empty queue
through `DoEnqueue` and `DoDequeue`, in either mode, the byte count is the sum
of the sizes of the packets held, computed as the `uint32_t` it is (modulo
2^32), hence equal to the sum whenever the sum is below 2^32.  From such a
state a dequeue and an eviction take exactly the size of the removed head
packet off the byte count, and a call of `DoEnqueue` that returns adds exactly
the size of the new packet to the byte count its evictions left. -/
theorem DropHead_byte_count_invariant (q : DropHeadQueue) (hr : DropHeadReachable q) :
    q.m_bytesInQueue = sumSizes q.m_packets % 4294967296 ∧
    (sumSizes q.m_packets < 4294967296 → q.m_bytesInQueue = sumSizes q.m_packets) ∧
    (∀ h t, q.m_packets = h :: t → sumSizes q.m_packets < 4294967296 →
      q.DoDequeue =
        ({ q with m_packets := t, m_bytesInQueue := q.m_bytesInQueue - h.GetSize }, some h) ∧
      h.GetSize ≤ q.m_bytesInQueue ∧
      q.evict =
        Except.ok
          { q with
            m_packets := t
            m_bytesInQueue := q.m_bytesInQueue - h.GetSize
            dropped := q.dropped ++ [h] }) ∧
    (∀ fuel p q1 r, DropHeadQueue.DoEnqueue fuel q p = Except.ok (q1, r) →
      sumSizes q1.m_packets < 4294967296 →
      ∃ q2 : DropHeadQueue, q2.m_bytesInQueue = sumSizes q2.m_packets ∧
        q1 = { q2 with
               m_bytesInQueue := q2.m_bytesInQueue + p.GetSize
               m_packets := q2.m_packets ++ [p] }) := by
  have hinv : BytesConsistent q := DropHeadReachable_consistent hr
  refine ⟨hinv, ?_, ?_, ?_⟩
  · intro hlt
    unfold BytesConsistent at hinv
    rw [hinv]
    exact Nat.mod_eq_of_lt hlt
  · intro h t hq hlt
    unfold BytesConsistent at hinv
    rw [Nat.mod_eq_of_lt hlt] at hinv
    have hs : sumSizes q.m_packets = h.GetSize + sumSizes t := by
      rw [hq, sumSizes_cons]
    have e : (q.m_bytesInQueue + 4294967296 - h.GetSize % 4294967296) % 4294967296
        = q.m_bytesInQueue - h.GetSize := by omega
    refine ⟨?_, by omega, ?_⟩
    · unfold DropHeadQueue.DoDequeue
      rw [hq]
      dsimp only
      rw [e]
    · rw [evict_cons q h t hq, e]
  · intro fuel p q1 r he hlt
    obtain ⟨_, q2, h2, hq1⟩ := DoEnqueue_inv he
    have hb := h2 hinv
    unfold BytesConsistent at hb
    have hp1 : q1.m_packets = q2.m_packets ++ [p] := by rw [hq1]
    have hs : sumSizes q1.m_packets = sumSizes q2.m_packets + p.GetSize := by
      rw [hp1, sumSizes_append, sumSizes_cons]
      rfl
    have hb2 : q2.m_bytesInQueue = sumSizes q2.m_packets := by omega
    refine ⟨q2, hb2, ?_⟩
    rw [hq1]
    have e : (q2.m_bytesInQueue + p.GetSize) % 4294967296 = q2.m_bytesInQueue + p.GetSize := by
      omega
    rw [e]

/-- The byte-mode queue with limit 100 after packets of 30, 30, 30 and 40 bytes
have been enqueued and one packet dequeued is reachable. -/
theorem servedQueue_reachable : DropHeadReachable servedQueue :=
  DropHeadReachable.dequeue
    { byteQueue with
      m_packets := [packetOf 30, packetOf 40]
      m_bytesInQueue := 70
      dropped := [packetOf 30, packetOf 30] }
    (DropHeadReachable.enqueue 3 byteQueue _ (packetOf 40) true
      (DropHeadReachable.enqueue 0
        { byteQueue with m_packets := [packetOf 30, packetOf 30], m_bytesInQueue := 60 } _
        (packetOf 30) true
        (DropHeadReachable.enqueue 0
          { byteQueue with m_packets := [packetOf 30], m_bytesInQueue := 30 } _ (packetOf 30) true
          (DropHeadReachable.enqueue 0 { byteQueue with m_packets := [], m_bytesInQueue := 0 } _
            (packetOf 30) true
            (DropHeadReachable.empty { byteQueue with m_packets := [], m_bytesInQueue := 0 }
              (Eq.refl _) (Eq.refl _))
            (by with_unfolding_all rfl))
          (by with_unfolding_all rfl))
        (by with_unfolding_all rfl))
      (by with_unfolding_all rfl))

/-- C35 on the byte-mode queue with limit 100 after packets of 30, 30, 30 and
40 bytes have been enqueued and one packet dequeued: it holds the packet of 40
bytes and counts 40 bytes. -/
theorem DropHead_byte_count_invariant_witness :
    servedQueue.m_packets = [packetOf 40] ∧
    servedQueue.m_bytesInQueue = sumSizes servedQueue.m_packets % 4294967296 ∧
    (sumSizes servedQueue.m_packets < 4294967296 →
      servedQueue.m_bytesInQueue = sumSizes servedQueue.m_packets) ∧
    servedQueue.m_bytesInQueue = 40 :=
  ⟨by with_unfolding_all rfl,
    (DropHead_byte_count_invariant servedQueue servedQueue_reachable).1,
    (DropHead_byte_count_invariant servedQueue servedQueue_reachable).2.1,
    by with_unfolding_all rfl⟩

/-- The eviction loop of `DoEnqueue` in byte mode, from a state whose byte
count is the sum of the sizes of its packets, for a packet smaller than the
byte limit: it ends after at most as many evictions as there are packets and
never evicts from an empty queue. -/
theorem evictLoop_terminates (p : Packet) (fuel : Nat) :
    ∀ q : DropHeadQueue, q.m_bytesInQueue = sumSizes q.m_packets →
      q.m_bytesInQueue < 4294967296 → p.GetSize < q.m_maxBytes → q.m_packets.length ≤ fuel →
      ∃ j q1, DropHeadQueue.evictLoop p fuel q = Except.ok q1 ∧ j ≤ q.m_packets.length ∧
        q1.m_packets = q.m_packets.drop j ∧
        q1.dropped = q.dropped ++ q.m_packets.take j := by
  induction fuel with
  | zero =>
    intro q hinv _ hsz hlen
    have hnil : q.m_packets = [] := List.length_eq_zero.mp (Nat.le_zero.mp hlen)
    have hb : q.m_bytesInQueue = 0 := by
      rw [hinv, hnil]
      rfl
    refine ⟨0, q, ?_, Nat.zero_le _, rfl, ?_⟩
    · unfold DropHeadQueue.evictLoop
      rw [if_neg]
      rw [hb]
      omega
    · rw [List.take_zero, List.append_nil]
  | succ n ih =>
    intro q hinv hrep hsz hlen
    by_cases hc : (q.m_bytesInQueue + p.GetSize) % 4294967296 ≥ q.m_maxBytes
    · obtain ⟨h, t, hp⟩ : ∃ h t, q.m_packets = h :: t := by
        cases hq : q.m_packets with
        | nil =>
          rw [hq] at hinv
          have : q.m_bytesInQueue = 0 := hinv
          omega
        | cons h t => exact ⟨h, t, rfl⟩
      have hsum : q.m_bytesInQueue = h.GetSize + sumSizes t := by
        rw [hinv, hp, sumSizes_cons]
      have hsub : (q.m_bytesInQueue + 4294967296 - h.GetSize % 4294967296) % 4294967296
          = sumSizes t := by omega
      obtain ⟨j, q2, h2, hj, hpk, hdr⟩ :=
        ih { q with
             m_packets := t
             m_bytesInQueue :=
               (q.m_bytesInQueue + 4294967296 - h.GetSize % 4294967296) % 4294967296
             dropped := q.dropped ++ [h] }
          hsub
          (show (q.m_bytesInQueue + 4294967296 - h.GetSize % 4294967296) % 4294967296
              < 4294967296 from Nat.mod_lt _ (by decide))
          hsz
          (show t.length ≤ n from by rw [hp] at hlen; simp at hlen; exact hlen)
      refine ⟨j + 1, q2, ?_, ?_, ?_, ?_⟩
      · rw [DropHeadQueue.evictLoop, if_pos hc, evict_cons q h t hp]
        exact h2
      · rw [hp]
        exact Nat.succ_le_succ hj
      · rw [hp]
        exact hpk
      · rw [hdr, hp]
        show (q.dropped ++ [h]) ++ t.take j = q.dropped ++ (h :: t).take (j + 1)
        rw [List.take_succ_cons, List.append_assoc]
        rfl
    · refine ⟨0, q, ?_, Nat.zero_le _, rfl, ?_⟩
      · rw [DropHeadQueue.evictLoop, if_neg hc]
      · rw [List.take_zero, List.append_nil]

/-- C36: the evictions of `DoEnqueue` of the drop-head queue end and are never
applied to an empty queue.  In byte mode, from every state whose byte count
(a `uint32_t`) is the sum of the sizes of its packets and for every packet
smaller than the byte limit, `DoEnqueue` returns after j evictions with j at
most the number of queued packets: the j packets dropped are the first j of
the queue, and as many iterations as there are packets suffice.  In packet mode
with a capacity of at least 1 the eviction is applied only when the queue holds
at least the capacity, hence at least one packet; it succeeds, at most one
packet is dropped and `DoEnqueue` returns. -/
theorem DropHead_eviction_terminates (q : DropHeadQueue) (p : Packet) :
    (q.m_mode = QueueMode.QUEUE_MODE_BYTES → q.m_bytesInQueue = sumSizes q.m_packets →
      q.m_bytesInQueue < 4294967296 → p.GetSize < q.m_maxBytes →
      ∀ fuel, q.m_packets.length ≤ fuel →
        ∃ j q1, DropHeadQueue.DoEnqueue fuel q p = Except.ok (q1, true) ∧
          j ≤ q.m_packets.length ∧
          q1.dropped = q.dropped ++ q.m_packets.take j ∧
          q1.m_packets = q.m_packets.drop j ++ [p]) ∧
    (q.m_mode = QueueMode.QUEUE_MODE_PACKETS → 1 ≤ q.m_maxPackets →
      (q.m_maxPackets ≤ q.m_packets.length →
        q.m_packets ≠ [] ∧ ∃ q1, q.evict = Except.ok q1) ∧
      ∀ fuel, ∃ q1, DropHeadQueue.DoEnqueue fuel q p = Except.ok (q1, true) ∧
        q1.dropped.length ≤ q.dropped.length + 1) := by
  constructor
  · intro hmode hinv hrep hsz fuel hfuel
    obtain ⟨j, q2, h2, hj, hpk, hdr⟩ := evictLoop_terminates p fuel q hinv hrep hsz hfuel
    refine ⟨j, { q2 with
                 m_bytesInQueue := (q2.m_bytesInQueue + p.GetSize) % 4294967296
                 m_packets := q2.m_packets ++ [p] }, ?_, hj, hdr, ?_⟩
    · unfold DropHeadQueue.DoEnqueue
      dsimp only
      rw [if_neg (by rw [hmode]; intro hc; cases hc.1)]
      dsimp only
      rw [if_pos hmode, h2]
    · show q2.m_packets ++ [p] = _
      rw [hpk]
  · intro hmode hcap
    constructor
    · intro hfull
      cases hq : q.m_packets with
      | nil =>
        rw [hq] at hfull
        simp at hfull
        omega
      | cons h t =>
        exact ⟨fun hc => (by cases hc), _, evict_cons q h t hq⟩
    · intro fuel
      obtain ⟨q1, h1, _, hdr, _⟩ := DoEnqueue_packets fuel q p hmode hcap
      refine ⟨q1, h1, ?_⟩
      rw [hdr, List.length_append]
      by_cases hfull : q.m_maxPackets ≤ q.m_packets.length
      · rw [if_pos hfull, List.length_take]
        omega
      · rw [if_neg hfull]
        simp

/-- C36 on the byte-mode queue with limit 100 that holds three packets of 30
bytes: a packet of 99 bytes is accepted after all three packets have been
evicted, with three iterations; and without the precondition, on a queue in
packet mode with capacity 0, the eviction is applied to the empty queue. -/
theorem DropHead_eviction_terminates_witness :
    DropHeadQueue.DoEnqueue 3 byteQueue (packetOf 99) =
      Except.ok
        ({ byteQueue with
           m_packets := [packetOf 99]
           m_bytesInQueue := 99
           dropped := [packetOf 30, packetOf 30, packetOf 30] }, true) ∧
    (∃ j q1, DropHeadQueue.DoEnqueue 3 byteQueue (packetOf 99) = Except.ok (q1, true) ∧
      j ≤ byteQueue.m_packets.length ∧
      q1.dropped = byteQueue.dropped ++ byteQueue.m_packets.take j ∧
      q1.m_packets = byteQueue.m_packets.drop j ++ [packetOf 99]) ∧
    DropHeadQueue.DoEnqueue 0 zeroQueue (packetOf 99) = Except.error Fault.undefinedBehaviour :=
  ⟨by with_unfolding_all rfl,
    (DropHead_eviction_terminates byteQueue (packetOf 99)).1 (Eq.refl _)
      (by with_unfolding_all rfl) (by with_unfolding_all decide) (by with_unfolding_all decide) 3
      (by decide),
    by with_unfolding_all rfl⟩

/-! ## Termination of the replay -/

/-- When every duration drawn is at least one microsecond, a least number of
durations that brings the end time to the current time exists and is at most
`n` as soon as the current time is at most `n` microseconds after the end
time. -/
theorem LeastReplay_exists (env : Env) (t : Int)
    (hpos : ∀ i, 1 ≤ env.randomUp i ∧ 1 ≤ env.randomDown i) :
    ∀ (n : Nat) (e : Int) (s : Bool) (up down : Nat), t - e ≤ 1000 * (n : Int) →
      ∃ k, k ≤ n ∧ LeastReplay env t e s up down k := by
  intro n
  induction n with
  | zero =>
    intro e s up down h
    have h2 : t ≤ e := by
      simp only [Nat.cast_zero, mul_zero] at h
      omega
    refine ⟨0, Nat.le_refl _, ?_, ?_⟩
    · simp only [replayDurations, List.sum_nil, add_zero]
      exact h2
    · intro j hj
      omega
  | succ n ih =>
    intro e s up down h
    by_cases hlt : e < t
    · cases s with
      | false =>
        have hd : (1000 : Int) ≤ 1000 * (env.randomUp up : Int) := by
          have := (hpos up).1
          omega
        obtain ⟨k, hk, hl⟩ := ih (e + 1000 * (env.randomUp up : Int)) true (up + 1) down
          (by push_cast at h; omega)
        refine ⟨k + 1, Nat.succ_le_succ hk, ?_, ?_⟩
        · rw [replayDurations_off, List.sum_cons, ← add_assoc]
          exact hl.1
        · intro j hj
          cases j with
          | zero =>
            simp only [replayDurations, List.sum_nil, add_zero]
            exact hlt
          | succ j1 =>
            rw [replayDurations_off, List.sum_cons, ← add_assoc]
            exact hl.2 j1 (by omega)
      | true =>
        have hd : (1000 : Int) ≤ 1000 * (env.randomDown down : Int) := by
          have := (hpos down).2
          omega
        obtain ⟨k, hk, hl⟩ := ih (e + 1000 * (env.randomDown down : Int)) false up (down + 1)
          (by push_cast at h; omega)
        refine ⟨k + 1, Nat.succ_le_succ hk, ?_, ?_⟩
        · rw [replayDurations_on, List.sum_cons, ← add_assoc]
          exact hl.1
        · intro j hj
          cases j with
          | zero =>
            simp only [replayDurations, List.sum_nil, add_zero]
            exact hlt
          | succ j1 =>
            rw [replayDurations_on, List.sum_cons, ← add_assoc]
            exact hl.2 j1 (by omega)
    · have h2 : t ≤ e := by omega
      refine ⟨0, Nat.zero_le _, ?_, ?_⟩
      · simp only [replayDurations, List.sum_nil, add_zero]
        exact h2
      · intro j hj
        omega

theorem replayBound_covers (t e : Int) : t - e ≤ 1000 * (replayBound t e : Int) := by
  unfold replayBound
  omega

/-- The replay loop ends when every duration drawn is at least one
microsecond: it makes the least number k of iterations that brings the end
time to the current time, and k is at most the time from the expiry to the
current time in microseconds, rounded up. -/
theorem replayLoop_terminates (env : Env) (t e : Int) (s : Bool) (up down : Nat)
    (hpos : ∀ i, 1 ≤ env.randomUp i ∧ 1 ≤ env.randomDown i) :
    ∃ k, k ≤ replayBound t e ∧ LeastReplay env t e s up down k ∧
      ∀ fuel, k ≤ fuel →
        replayLoop env t fuel e s up down =
          Except.ok (e + (replayDurations env k s up down).sum, toggled k s, up + upDraws k s,
            down + downDraws k s) := by
  obtain ⟨k, hk, hl⟩ :=
    LeastReplay_exists env t hpos (replayBound t e) e s up down (replayBound_covers t e)
  exact ⟨k, hk, hl, fun fuel hf => replayLoop_replays env t k fuel e s up down hf hl⟩

/-- C37: when every duration drawn is at least one microsecond, the replay
loop of `CheckStochasticError` ends, for every link state, expiry and current
time: it makes exactly the least number k of iterations that brings the end
time to the current time, k is at most the time from the expiry to the current
time measured in microseconds and rounded up to a whole number, and that many
iterations suffice as iteration bound; `CheckStochasticError` then returns for
every stored link. -/
theorem replay_terminates (env : Env) (t e : Time) (s : Bool) (up down : Nat)
    (hpos : ∀ i, 1 ≤ env.randomUp i ∧ 1 ≤ env.randomDown i) :
    (∃ k, k ≤ replayBound t e ∧ LeastReplay env t e s up down k ∧
      (∀ fuel, k ≤ fuel →
        replayLoop env t fuel e s up down =
          Except.ok (e + (replayDurations env k s up down).sum, toggled k s, up + upDraws k s,
            down + downDraws k s)) ∧
      (up + upDraws k s) + (down + downDraws k s) = up + down + k) ∧
    (∀ fuel, replayBound t e ≤ fuel →
      ∃ r, replayLoop env t fuel e s up down = Except.ok r) ∧
    (∀ (c : Channel) (srcId dstId : Nat) (link : StochasticLink) (fuel : Nat),
      c.m_ErrorModel = ErrorModelType.STOCHASTIC →
      omFind StochasticKey.lt (linkKey srcId dstId) c.m_StochasticLinks = some link →
      replayBound env.now link.stateExpireTime ≤ fuel →
      ∃ c1 v, CheckStochasticError env fuel c srcId dstId = Except.ok (c1, v)) := by
  refine ⟨?_, ?_, ?_⟩
  · obtain ⟨k, hk, hl, hr⟩ := replayLoop_terminates env t e s up down hpos
    refine ⟨k, hk, hl, hr, ?_⟩
    unfold upDraws downDraws
    by_cases hs : s = true
    · rw [if_pos hs, if_pos hs]
      omega
    · rw [if_neg hs, if_neg hs]
      omega
  · intro fuel hf
    obtain ⟨k, hk, _, hr⟩ := replayLoop_terminates env t e s up down hpos
    exact ⟨_, hr fuel (Nat.le_trans hk hf)⟩
  · intro c srcId dstId link fuel hm hfind hf
    obtain ⟨k, hk, _, hr⟩ :=
      replayLoop_terminates env env.now link.stateExpireTime link.linkState c.upPos c.downPos
        hpos
    unfold CheckStochasticError
    rw [if_pos hm]
    dsimp only
    rw [hfind]
    dsimp only
    by_cases hge : env.now ≥ link.stateExpireTime
    · rw [if_pos hge, hr fuel (Nat.le_trans hk hf)]
      exact ⟨_, _, rfl⟩
    · rw [if_neg hge]
      exact ⟨_, _, rfl⟩

/-- C37 on the link that is ON until 1000 ns, read at 3500 ns with every
duration 1 microsecond: the time since the expiry is 2.5 microseconds, rounded
up 3, and the loop ends after 3 iterations. -/
theorem replay_terminates_witness :
    (∀ i, 1 ≤ lateEnv.randomUp i ∧ 1 ≤ lateEnv.randomDown i) ∧
    replayBound lateEnv.now 1000 = 3 ∧
    (∃ k, k ≤ replayBound lateEnv.now 1000 ∧ LeastReplay lateEnv lateEnv.now 1000 true 2 2 k ∧
      (∀ fuel, k ≤ fuel →
        replayLoop lateEnv lateEnv.now fuel 1000 true 2 2 =
          Except.ok (1000 + (replayDurations lateEnv k true 2 2).sum, toggled k true,
            2 + upDraws k true, 2 + downDraws k true)) ∧
      (2 + upDraws k true) + (2 + downDraws k true) = 2 + 2 + k) :=
  ⟨fun _ => ⟨Nat.le_refl 1, Nat.le_refl 1⟩, by with_unfolding_all rfl,
    (replay_terminates lateEnv lateEnv.now 1000 true 2 2
      (fun _ => ⟨Nat.le_refl 1, Nat.le_refl 1⟩)).1⟩

/-- The bound of C37 without rounding fails: on the link that is ON until
1000 ns, read at 3500 ns with every duration exactly 1 microsecond, 2.5
microseconds have passed since the expiry, yet the loop has not ended after 2
iterations (their end time 3000 ns is before the current time); it ends after
the third. -/
theorem replay_needs_rounding :
    (∀ i, 1 ≤ lateEnv.randomUp i ∧ 1 ≤ lateEnv.randomDown i) ∧
    lateEnv.now - 1000 = 2500 ∧
    MicroSeconds 1 = 1000 ∧
    replayLoop lateEnv lateEnv.now 2 1000 true 2 2 = Except.error Fault.outOfFuel ∧
    replayLoop lateEnv lateEnv.now 3 1000 true 2 2 = Except.ok (4000, false, 3, 4) ∧
    LeastReplay lateEnv lateEnv.now 1000 true 2 2 3 ∧
    lateEnv.now - 1000 < 3 * MicroSeconds 1 ∧
    CheckStochasticError lateEnv 2 stochChannel 0 1 = Except.error Fault.outOfFuel ∧
    CheckStochasticError lateEnv 3 stochChannel 0 1 = Except.ok (stochChannelRead, true) :=
  ⟨fun _ => ⟨Nat.le_refl 1, Nat.le_refl 1⟩, by with_unfolding_all rfl, by with_unfolding_all rfl,
    by with_unfolding_all rfl, by with_unfolding_all rfl,
    ⟨of_decide_eq_true (by with_unfolding_all rfl), fun j hj => by
      interval_cases j <;> exact of_decide_eq_true (by with_unfolding_all rfl)⟩,
    of_decide_eq_true (by with_unfolding_all rfl),
    by with_unfolding_all rfl, by with_unfolding_all rfl⟩

/-! ## Range under the PER curve -/

theorem addToPERmodel_range (c : Channel) (distance error : ℚ) :
    (addToPERmodel c distance error).m_range = max c.m_range distance := by
  unfold addToPERmodel
  dsimp only
  by_cases h : distance > c.m_range
  · rw [if_pos h]
    exact (max_eq_right (le_of_lt h)).symm
  · rw [if_neg h]
    exact (max_eq_left (not_lt.mp h)).symm

theorem addToPERmodel_map (c : Channel) (distance error : ℚ) :
    (addToPERmodel c distance error).mPERmap = omInsert dlt distance error c.mPERmap := by
  unfold addToPERmodel
  dsimp only
  split <;> rfl

theorem addToPERmodel_frame (c : Channel) (distance error : ℚ) :
    (addToPERmodel c distance error).m_ErrorModel = c.m_ErrorModel ∧
    (addToPERmodel c distance error).m_devices = c.m_devices := by
  unfold addToPERmodel
  dsimp only
  split <;> exact ⟨rfl, rfl⟩

theorem addPoints_range (pts : List (ℚ × ℚ)) :
    ∀ c : Channel, (addPoints c pts).m_range = largestDistance c.m_range pts := by
  induction pts with
  | nil =>
    intro c
    rfl
  | cons pt rest ih =>
    intro c
    show (addPoints (addToPERmodel c pt.1 pt.2) rest).m_range = _
    rw [ih, addToPERmodel_range]
    rfl

theorem addPoints_frame (pts : List (ℚ × ℚ)) :
    ∀ c : Channel, (addPoints c pts).m_ErrorModel = c.m_ErrorModel ∧
      (addPoints c pts).m_devices = c.m_devices := by
  induction pts with
  | nil =>
    intro c
    exact ⟨rfl, rfl⟩
  | cons pt rest ih =>
    intro c
    show (addPoints (addToPERmodel c pt.1 pt.2) rest).m_ErrorModel = _ ∧
      (addPoints (addToPERmodel c pt.1 pt.2) rest).m_devices = _
    rw [(ih _).1, (ih _).2]
    exact addToPERmodel_frame c pt.1 pt.2

theorem largestDistance_ge (pts : List (ℚ × ℚ)) :
    ∀ r : ℚ, r ≤ largestDistance r pts ∧ ∀ pt ∈ pts, pt.1 ≤ largestDistance r pts := by
  induction pts with
  | nil =>
    intro r
    exact ⟨le_refl _, fun pt h => by cases h⟩
  | cons x rest ih =>
    intro r
    have h := ih (max r x.1)
    refine ⟨le_trans (le_max_left _ _) h.1, ?_⟩
    intro pt hpt
    rcases List.mem_cons.mp hpt with h1 | h1
    · rw [h1]
      exact le_trans (le_max_right _ _) h.1
    · exact h.2 pt h1

theorem largestDistance_attained (pts : List (ℚ × ℚ)) :
    ∀ r : ℚ, largestDistance r pts = r ∨ ∃ pt ∈ pts, pt.1 = largestDistance r pts := by
  induction pts with
  | nil =>
    intro r
    exact Or.inl rfl
  | cons x rest ih =>
    intro r
    rcases ih (max r x.1) with h | ⟨pt, hpt, h⟩
    · rcases le_total r x.1 with hle | hle
      · right
        refine ⟨x, List.mem_cons_self _ _, ?_⟩
        show x.1 = largestDistance (max r x.1) rest
        rw [h, max_eq_right hle]
      · left
        show largestDistance (max r x.1) rest = r
        rw [h, max_eq_left hle]
    · exact Or.inr ⟨pt, List.mem_cons_of_mem _ hpt, h⟩

theorem omFind_dlt_mem (k v : ℚ) (m : List (ℚ × ℚ)) (h : omFind dlt k m = some v) :
    (k, v) ∈ m := by
  induction m with
  | nil => cases h
  | cons x rest ih =>
    obtain ⟨k1, v1⟩ := x
    unfold omFind at h
    by_cases hk : (!(dlt k k1) && !(dlt k1 k)) = true
    · rw [if_pos hk] at h
      injection h with h
      rw [(dlt_equiv k k1).mp hk, h]
      exact List.mem_cons_self _ _
    · rw [if_neg hk] at h
      exact List.mem_cons_of_mem _ (ih h)

theorem mem_omPlace_self (k v : ℚ) (m : List (ℚ × ℚ)) : (k, v) ∈ omPlace dlt k v m := by
  induction m with
  | nil => exact List.mem_singleton_self _
  | cons x rest ih =>
    obtain ⟨k1, v1⟩ := x
    unfold omPlace
    by_cases hk : dlt k k1 = true
    · rw [if_pos hk]
      exact List.mem_cons_self _ _
    · rw [if_neg hk]
      exact List.mem_cons_of_mem _ ih

theorem mem_omPlace_of_mem (k v : ℚ) (m : List (ℚ × ℚ)) (e : ℚ × ℚ) (h : e ∈ m) :
    e ∈ omPlace dlt k v m := by
  induction m with
  | nil => cases h
  | cons x rest ih =>
    obtain ⟨k1, v1⟩ := x
    unfold omPlace
    by_cases hk : dlt k k1 = true
    · rw [if_pos hk]
      exact List.mem_cons_of_mem _ h
    · rw [if_neg hk]
      rcases List.mem_cons.mp h with h1 | h1
      · rw [h1]
        exact List.mem_cons_self _ _
      · exact List.mem_cons_of_mem _ (ih h1)

/-- After `insert (k, v)` the map has a point at `k`, keeps every point it had
and has no other point. -/
theorem omInsert_dlt_mem (k v : ℚ) (m : List (ℚ × ℚ)) :
    (∃ p, (k, p) ∈ omInsert dlt k v m) ∧ (∀ e ∈ m, e ∈ omInsert dlt k v m) ∧
    (∀ e ∈ omInsert dlt k v m, e.1 = k ∨ e ∈ m) := by
  unfold omInsert
  cases hf : omFind dlt k m with
  | some p =>
    exact ⟨⟨p, omFind_dlt_mem k p m hf⟩, fun e he => he, fun e he => Or.inr he⟩
  | none =>
    refine ⟨⟨v, mem_omPlace_self k v m⟩, fun e he => mem_omPlace_of_mem k v m e he, ?_⟩
    intro e he
    rcases mem_omPlace_dlt k v m e he with h | h
    · left
      rw [h]
    · exact Or.inr h

theorem addPoints_map (pts : List (ℚ × ℚ)) :
    ∀ c : Channel,
      (∀ pt ∈ pts, ∃ p, (pt.1, p) ∈ (addPoints c pts).mPERmap) ∧
      (∀ e ∈ c.mPERmap, e ∈ (addPoints c pts).mPERmap) ∧
      (∀ e ∈ (addPoints c pts).mPERmap, (∃ pt ∈ pts, pt.1 = e.1) ∨ e ∈ c.mPERmap) := by
  induction pts with
  | nil =>
    intro c
    exact ⟨fun pt h => (by cases h), fun e he => he, fun e he => Or.inr he⟩
  | cons x rest ih =>
    intro c
    obtain ⟨h1, h2, h3⟩ := ih (addToPERmodel c x.1 x.2)
    obtain ⟨g1, g2, g3⟩ := omInsert_dlt_mem x.1 x.2 c.mPERmap
    rw [← addToPERmodel_map] at g1 g2 g3
    refine ⟨?_, ?_, ?_⟩
    · intro pt hpt
      rcases List.mem_cons.mp hpt with h | h
      · obtain ⟨p, hp⟩ := g1
        rw [h]
        exact ⟨p, h2 _ hp⟩
      · exact h1 pt h
    · intro e he
      exact h2 e (g2 e he)
    · intro e he
      rcases h3 e he with ⟨pt, hpt, h⟩ | h
      · exact Or.inl ⟨pt, List.mem_cons_of_mem _ hpt, h⟩
      · rcases g3 e h with h4 | h4
        · exact Or.inl ⟨x, List.mem_cons_self _ _, h4.symm⟩
        · exact Or.inr h4

/-- C34: after `setErrorModelType (PER_CURVE)` followed by the calls
`addToPERmodel (d_i, e_i)` for any list of points with non-negative distances,
the max range of the channel is the largest d_i, 0 when no point was added,
whatever range was configured before; the model is PER_CURVE; the largest d_i
is the distance of a control point of the curve, the last one when the curve
was empty before; and a `Send` on a channel with that range schedules no
arrival for a device farther from the sender than the largest d_i. -/
theorem PER_curve_range (c : Channel) (pts : List (ℚ × ℚ)) (hnn : ∀ pt ∈ pts, 0 ≤ pt.1) :
    (addPoints (setErrorModelType c ErrorModelType.PER_CURVE) pts).m_range
      = largestDistance 0 pts ∧
    (pts = [] → largestDistance 0 pts = 0) ∧
    (∀ pt ∈ pts, pt.1 ≤ largestDistance 0 pts) ∧
    (pts ≠ [] → ∃ pt ∈ pts, pt.1 = largestDistance 0 pts) ∧
    (∀ r : ℚ,
      (addPoints (setErrorModelType { c with m_range := r } ErrorModelType.PER_CURVE) pts).m_range
        = largestDistance 0 pts) ∧
    (addPoints (setErrorModelType c ErrorModelType.PER_CURVE) pts).m_ErrorModel
      = ErrorModelType.PER_CURVE ∧
    (pts ≠ [] → ∃ p,
      (largestDistance 0 pts, p)
        ∈ (addPoints (setErrorModelType c ErrorModelType.PER_CURVE) pts).mPERmap) ∧
    (c.mPERmap = [] →
      ∀ e ∈ (addPoints (setErrorModelType c ErrorModelType.PER_CURVE) pts).mPERmap,
        e.1 ≤ largestDistance 0 pts) ∧
    (∀ (P : Type) (env : Env) (fuel : Nat) (c2 : Channel) (p : P) (protocol : Nat)
        (toAddr fromAddr : Mac48Address) (sender : Device) (nbrCount : Int) (txTime : Time)
        (destId : Nat) (st : SendState) (evs : List (Event P)),
      c2.m_range = largestDistance 0 pts →
      Send env fuel c2 p protocol toAddr fromAddr sender nbrCount txTime destId
        = Except.ok (st, evs) →
      ∀ e ∈ evs, env.distance sender.nodeId e.device.nodeId ≤ largestDistance 0 pts) := by
  have hset : ∀ c0 : Channel,
      (setErrorModelType c0 ErrorModelType.PER_CURVE).m_range = 0 ∧
      (setErrorModelType c0 ErrorModelType.PER_CURVE).m_ErrorModel = ErrorModelType.PER_CURVE ∧
      (setErrorModelType c0 ErrorModelType.PER_CURVE).mPERmap = c0.mPERmap := by
    intro c0
    unfold setErrorModelType
    rw [if_pos rfl]
    exact ⟨rfl, rfl, rfl⟩
  have hatt : pts ≠ [] → ∃ pt ∈ pts, pt.1 = largestDistance 0 pts := by
    intro hne
    rcases largestDistance_attained pts 0 with h | h
    · obtain ⟨x, hx⟩ := List.exists_mem_of_ne_nil pts hne
      refine ⟨x, hx, ?_⟩
      have h1 := (largestDistance_ge pts 0).2 x hx
      rw [h] at h1 ⊢
      exact le_antisymm h1 (hnn x hx)
    · exact h
  refine ⟨?_, ?_, (largestDistance_ge pts 0).2, hatt, ?_, ?_, ?_, ?_, ?_⟩
  · rw [addPoints_range, (hset c).1]
  · intro h
    rw [h]
    rfl
  · intro r
    rw [addPoints_range, (hset _).1]
  · rw [(addPoints_frame pts _).1]
    exact (hset c).2.1
  · intro hne
    obtain ⟨pt, hpt, h⟩ := hatt hne
    obtain ⟨p, hp⟩ := (addPoints_map pts (setErrorModelType c ErrorModelType.PER_CURVE)).1 pt hpt
    rw [h] at hp
    exact ⟨p, hp⟩
  · intro hempty e he
    rcases (addPoints_map pts (setErrorModelType c ErrorModelType.PER_CURVE)).2.2 e he with
      ⟨pt, hpt, h⟩ | h
    · rw [← h]
      exact (largestDistance_ge pts 0).2 pt hpt
    · rw [(hset c).2.2, hempty] at h
      cases h
  · intro P env fuel c2 p protocol toAddr fromAddr sender nbrCount txTime destId st evs hr hs e he
    obtain ⟨tmp, _, _, h2, h3⟩ := Send_events hs e he
    have hdev : e.device = tmp := by rw [h2]; rfl
    rw [hdev, ← hr]
    exact h3

/-- C34 on a channel configured with range 500 and then given the curve points
at 20, 80 and 50: the max range is 80, and with the receivers at distance 50
and 150 of the line scenario only the one at 50 can get an arrival. -/
theorem PER_curve_range_witness :
    shortCurveChannel.m_range = 80 ∧
    largestDistance 0 [(20, 1 / 10), (80, 1 / 2), (50, 3 / 10)] = 80 ∧
    (addPoints (setErrorModelType { Channel.new with m_range := 500 } ErrorModelType.PER_CURVE)
      [(20, 1 / 10), (80, 1 / 2), (50, 3 / 10)]).m_range
      = largestDistance 0 [(20, 1 / 10), (80, 1 / 2), (50, 3 / 10)] ∧
    (∀ (st : SendState) (evs : List (Event Unit)),
      Send lineEnv 0 shortCurveChannel () 2048 1 2 dev0 0 8000000 NO_DIRECTIONAL_NBR
        = Except.ok (st, evs) →
      ∀ e ∈ evs, lineEnv.distance dev0.nodeId e.device.nodeId
        ≤ largestDistance 0 [(20, 1 / 10), (80, 1 / 2), (50, 3 / 10)]) :=
  ⟨by with_unfolding_all rfl, by with_unfolding_all rfl,
    (PER_curve_range { Channel.new with m_range := 500 }
      [(20, 1 / 10), (80, 1 / 2), (50, 3 / 10)]
      (by
        simp only [List.mem_cons, List.mem_singleton, forall_eq_or_imp, forall_eq,
          List.not_mem_nil, IsEmpty.forall_iff, implies_true, and_true]
        norm_num)).1,
    fun st evs h =>
      (PER_curve_range { Channel.new with m_range := 500 }
        [(20, 1 / 10), (80, 1 / 2), (50, 3 / 10)]
        (by
          simp only [List.mem_cons, List.mem_singleton, forall_eq_or_imp, forall_eq,
            List.not_mem_nil, IsEmpty.forall_iff, implies_true, and_true]
          norm_num)).2.2.2.2.2.2.2.2 Unit lineEnv 0 shortCurveChannel () 2048 1 2 dev0 0 8000000
        NO_DIRECTIONAL_NBR st evs (by with_unfolding_all rfl) h⟩

/-! ## Bracketing points of the PER curve -/

theorem packetInError_exact (env : Env) (c : Channel) (d p : ℚ)
    (hm : c.m_ErrorModel = ErrorModelType.PER_CURVE) (hs : SortedKeys c.mPERmap)
    (hmem : (d, p) ∈ c.mPERmap) :
    packetInError env c d =
      Except.ok ({ c with randomPos := c.randomPos + 1 },
        decide (env.uniform c.randomPos < p)) := by
  have hne : ¬ c.m_ErrorModel = ErrorModelType.CONSTANT := by
    rw [hm]
    decide
  unfold packetInError
  rw [if_neg hne, if_pos hm, omFind_dlt_of_mem d p c.mPERmap hs hmem]

/-- Between two adjacent control points `upper_bound` returns the upper one,
the decrement stays inside the map, and the two distances differ. -/
theorem packetInError_between (env : Env) (c : Channel) (d : ℚ)
    (hm : c.m_ErrorModel = ErrorModelType.PER_CURVE) (hs : SortedKeys c.mPERmap)
    (pre post : List (ℚ × ℚ)) (dl pl du pu : ℚ)
    (hcurve : c.mPERmap = pre ++ (dl, pl) :: (du, pu) :: post) (hl : dl < d) (hu : d < du) :
    omFind dlt d c.mPERmap = none ∧
    omUpperBound dlt d c.mPERmap = pre.length + 1 ∧
    c.mPERmap.get? pre.length = some (dl, pl) ∧
    c.mPERmap.get? (pre.length + 1) = some (du, pu) ∧
    packetInError env c d =
      Except.ok ({ c with randomPos := c.randomPos + 1 },
        decide (env.uniform c.randomPos < pl + ((d - dl) / (du - dl)) * (pu - pl))) := by
  have hne : ¬ c.m_ErrorModel = ErrorModelType.CONSTANT := by
    rw [hm]
    decide
  have hs2 := hs
  unfold SortedKeys at hs2
  rw [hcurve, List.pairwise_append] at hs2
  obtain ⟨_, hrest, hcross⟩ := hs2
  rw [List.pairwise_cons] at hrest
  have hpre : ∀ e ∈ pre, e.1 < dl := fun e he =>
    hcross e he (dl, pl) (List.mem_cons_self _ _)
  have hpost : ∀ e ∈ post, du < e.1 := by
    intro e he
    have h2 := hrest.2
    rw [List.pairwise_cons] at h2
    exact h2.1 e he
  have hnone : omFind dlt d c.mPERmap = none := by
    apply omFind_dlt_none
    intro e he
    rw [hcurve] at he
    simp only [List.mem_append, List.mem_cons] at he
    rcases he with he | he | he | he
    · exact ne_of_lt (lt_trans (hpre e he) hl)
    · rw [he]
      exact ne_of_lt hl
    · rw [he]
      exact ne_of_gt hu
    · exact ne_of_gt (lt_trans hu (hpost e he))
  have hub : omUpperBound dlt d c.mPERmap = pre.length + 1 := by
    rw [hcurve, omUpperBound_dlt_append d pre _
      (fun e he => not_lt.mpr (le_of_lt (lt_trans (hpre e he) hl)))]
    have h1 : dlt d dl = false := by
      simp only [dlt, decide_eq_false_iff_not]
      exact not_lt.mpr (le_of_lt hl)
    have h2 : dlt d du = true := by
      simp only [dlt, decide_eq_true_eq]
      exact hu
    simp only [omUpperBound, h1, h2, Bool.false_eq_true, if_false, if_true]
  have hlen : ¬ pre.length + 1 = c.mPERmap.length := by
    rw [hcurve]
    simp only [List.length_append, List.length_cons]
    omega
  have hlow : c.mPERmap.get? pre.length = some (dl, pl) := by
    rw [hcurve]
    exact (get_append_mid pre _ _ post).1
  have hup : c.mPERmap.get? (pre.length + 1) = some (du, pu) := by
    rw [hcurve]
    exact (get_append_mid pre _ _ post).2
  refine ⟨hnone, hub, hlow, hup, ?_⟩
  unfold packetInError
  rw [if_neg hne, if_pos hm, hnone]
  dsimp only
  rw [hub, if_neg hlen]
  dsimp only
  rw [hlow, hup]

theorem packetInError_past (env : Env) (c : Channel) (d : ℚ)
    (hm : c.m_ErrorModel = ErrorModelType.PER_CURVE) (h : ∀ e ∈ c.mPERmap, e.1 < d) :
    packetInError env c d = Except.ok (c, true) := by
  have hne : ¬ c.m_ErrorModel = ErrorModelType.CONSTANT := by
    rw [hm]
    decide
  have hnone : omFind dlt d c.mPERmap = none :=
    omFind_dlt_none d c.mPERmap (fun e he => ne_of_lt (h e he))
  have hub : omUpperBound dlt d c.mPERmap = c.mPERmap.length := by
    have := omUpperBound_dlt_append d c.mPERmap []
      (fun e he => not_lt.mpr (le_of_lt (h e he)))
    simpa [omUpperBound] using this
  unfold packetInError
  rw [if_neg hne, if_pos hm, hnone]
  dsimp only
  rw [if_pos hub]

/-- In a curve with increasing distances that has a point at a distance less
than `d` and a point at a distance greater than `d`, and no point at `d`, two
adjacent points bracket `d`. -/
theorem bracket_exists (d : ℚ) (m : List (ℚ × ℚ)) (hs : SortedKeys m) :
    ∀ a ∈ m, a.1 < d → ∀ b ∈ m, d < b.1 → (∀ e ∈ m, e.1 ≠ d) →
      ∃ pre post dl pl du pu, m = pre ++ (dl, pl) :: (du, pu) :: post ∧ dl < d ∧ d < du := by
  induction m with
  | nil =>
    intro a ha
    cases ha
  | cons x rest ih =>
    intro a ha hlt b hb hgt hne
    unfold SortedKeys at hs
    rw [List.pairwise_cons] at hs
    obtain ⟨hx, hrest⟩ := hs
    have hxd : x.1 < d := by
      rcases List.mem_cons.mp ha with h | h
      · rw [← h]
        exact hlt
      · exact lt_trans (hx a h) hlt
    have hbr : b ∈ rest := by
      rcases List.mem_cons.mp hb with h | h
      · rw [h] at hgt
        exact absurd hgt (not_lt.mpr (le_of_lt hxd))
      · exact h
    cases rest with
    | nil => cases hbr
    | cons y rest1 =>
      rcases lt_trichotomy d y.1 with h | h | h
      · exact ⟨[], rest1, x.1, x.2, y.1, y.2, rfl, hxd, h⟩
      · exact absurd h.symm (hne y (List.mem_cons_of_mem _ (List.mem_cons_self _ _)))
      · obtain ⟨pre, post, dl, pl, du, pu, hm, h1, h2⟩ :=
          ih hrest y (List.mem_cons_self _ _) h b hbr hgt
            (fun e he => hne e (List.mem_cons_of_mem _ he))
        exact ⟨x :: pre, post, dl, pl, du, pu, by rw [hm]; rfl, h1, h2⟩

/-- C38: under the PER curve model, for every curve (distances increasing, as
in a `std::map`) with a control point at a distance <= d and a control point
at a distance > d, `packetInError` is defined at d: either d is the distance of
a control point and its probability is used, or `upper_bound` returns a point
(du, pu) that is not the first of the map, the point before it is (dl, pl)
with dl < d < du, so the two distances differ and the interpolation divides by
du - dl which is not 0.  Hence for every d >= 0 on a curve with a point at
distance 0 the call returns, and when moreover d is within a range that is the
distance of a control point, d is a control point or is bracketed. -/
theorem packetInError_bracket_defined (env : Env) (c : Channel) (d : ℚ)
    (hm : c.m_ErrorModel = ErrorModelType.PER_CURVE) (hs : SortedKeys c.mPERmap) :
    ((∃ a ∈ c.mPERmap, a.1 ≤ d) → (∃ b ∈ c.mPERmap, d < b.1) →
      (∃ p, (d, p) ∈ c.mPERmap ∧
        packetInError env c d =
          Except.ok ({ c with randomPos := c.randomPos + 1 },
            decide (env.uniform c.randomPos < p))) ∨
      (∃ pre post dl pl du pu,
        c.mPERmap = pre ++ (dl, pl) :: (du, pu) :: post ∧ dl < d ∧ d < du ∧ du - dl ≠ 0 ∧
        omFind dlt d c.mPERmap = none ∧
        0 < omUpperBound dlt d c.mPERmap ∧
        omUpperBound dlt d c.mPERmap < c.mPERmap.length ∧
        c.mPERmap.get? (omUpperBound dlt d c.mPERmap) = some (du, pu) ∧
        c.mPERmap.get? (omUpperBound dlt d c.mPERmap - 1) = some (dl, pl) ∧
        packetInError env c d =
          Except.ok ({ c with randomPos := c.randomPos + 1 },
            decide (env.uniform c.randomPos < pl + ((d - dl) / (du - dl)) * (pu - pl))))) ∧
    (∀ p0, (0, p0) ∈ c.mPERmap → 0 ≤ d → ∃ c1 v, packetInError env c d = Except.ok (c1, v)) ∧
    (∀ p0 pr, (0, p0) ∈ c.mPERmap → (c.m_range, pr) ∈ c.mPERmap → 0 ≤ d → d ≤ c.m_range →
      (∃ p, (d, p) ∈ c.mPERmap) ∨
      (∃ pre post dl pl du pu,
        c.mPERmap = pre ++ (dl, pl) :: (du, pu) :: post ∧ dl < d ∧ d < du)) := by
  have part1 : (∃ a ∈ c.mPERmap, a.1 ≤ d) → (∃ b ∈ c.mPERmap, d < b.1) →
      (∃ p, (d, p) ∈ c.mPERmap) ∨
      (∃ pre post dl pl du pu,
        c.mPERmap = pre ++ (dl, pl) :: (du, pu) :: post ∧ dl < d ∧ d < du) := by
    rintro ⟨a, ha, hle⟩ ⟨b, hb, hgt⟩
    by_cases hex : ∃ p, (d, p) ∈ c.mPERmap
    · exact Or.inl hex
    · have hne : ∀ e ∈ c.mPERmap, e.1 ≠ d := by
        intro e he hc
        apply hex
        refine ⟨e.2, ?_⟩
        rw [← hc]
        exact he
      exact Or.inr (bracket_exists d c.mPERmap hs a ha (lt_of_le_of_ne hle (hne a ha)) b hb hgt
        hne)
  refine ⟨?_, ?_, ?_⟩
  · intro h1 h2
    rcases part1 h1 h2 with ⟨p, hp⟩ | ⟨pre, post, dl, pl, du, pu, hcurve, hl, hu⟩
    · exact Or.inl ⟨p, hp, packetInError_exact env c d p hm hs hp⟩
    · obtain ⟨hnone, hub, hlow, hup, hres⟩ :=
        packetInError_between env c d hm hs pre post dl pl du pu hcurve hl hu
      refine Or.inr ⟨pre, post, dl, pl, du, pu, hcurve, hl, hu, ?_, hnone, ?_, ?_, ?_, ?_, hres⟩
      · intro hz
        have : dl < du := lt_trans hl hu
        rw [sub_eq_zero] at hz
        rw [hz] at this
        exact lt_irrefl _ this
      · rw [hub]
        exact Nat.succ_pos _
      · rw [hub, hcurve]
        simp only [List.length_append, List.length_cons]
        omega
      · rw [hub]
        exact hup
      · rw [hub]
        exact hlow
  · intro p0 h0 hd
    by_cases hb : ∃ b ∈ c.mPERmap, d < b.1
    · rcases part1 ⟨(0, p0), h0, hd⟩ hb with ⟨p, hp⟩ | ⟨pre, post, dl, pl, du, pu, hcurve, hl, hu⟩
      · exact ⟨_, _, packetInError_exact env c d p hm hs hp⟩
      · exact ⟨_, _, (packetInError_between env c d hm hs pre post dl pl du pu hcurve hl hu).2.2.2.2⟩
    · by_cases hex : ∃ p, (d, p) ∈ c.mPERmap
      · obtain ⟨p, hp⟩ := hex
        exact ⟨_, _, packetInError_exact env c d p hm hs hp⟩
      · have hall : ∀ e ∈ c.mPERmap, e.1 < d := by
          intro e he
          have h1 : e.1 ≤ d := not_lt.mp (fun hc => hb ⟨e, he, hc⟩)
          refine lt_of_le_of_ne h1 ?_
          intro hc
          apply hex
          refine ⟨e.2, ?_⟩
          rw [← hc]
          exact he
        exact ⟨_, _, packetInError_past env c d hm hall⟩
  · intro p0 pr h0 hr hd hle
    rcases lt_or_eq_of_le hle with hlt | heq
    · exact part1 ⟨(0, p0), h0, hd⟩ ⟨(c.m_range, pr), hr, hlt⟩
    · left
      rw [heq]
      exact ⟨pr, hr⟩

/-- C38 on the curve of `error_model_test.cc` at distance 25: the bracketing
points are (20, 5/100) and (30, 7/100); and on a curve that starts at distance
10, where the precondition fails at distance 5, the decrement steps before the
first control point. -/
theorem packetInError_bracket_defined_witness :
    ((∃ p, (25, p) ∈ curveChannel.mPERmap ∧
        packetInError lineEnv curveChannel 25 =
          Except.ok ({ curveChannel with randomPos := curveChannel.randomPos + 1 },
            decide (lineEnv.uniform curveChannel.randomPos < p))) ∨
      (∃ pre post dl pl du pu,
        curveChannel.mPERmap = pre ++ (dl, pl) :: (du, pu) :: post ∧ dl < 25 ∧ 25 < du ∧
        du - dl ≠ 0 ∧
        omFind dlt 25 curveChannel.mPERmap = none ∧
        0 < omUpperBound dlt 25 curveChannel.mPERmap ∧
        omUpperBound dlt 25 curveChannel.mPERmap < curveChannel.mPERmap.length ∧
        curveChannel.mPERmap.get? (omUpperBound dlt 25 curveChannel.mPERmap) = some (du, pu) ∧
        curveChannel.mPERmap.get? (omUpperBound dlt 25 curveChannel.mPERmap - 1)
          = some (dl, pl) ∧
        packetInError lineEnv curveChannel 25 =
          Except.ok ({ curveChannel with randomPos := curveChannel.randomPos + 1 },
            decide (lineEnv.uniform curveChannel.randomPos
              < pl + ((25 - dl) / (du - dl)) * (pu - pl))))) ∧
    (0, 0) ∈ curveChannel.mPERmap ∧ (30, 7 / 100) ∈ curveChannel.mPERmap ∧
    omUpperBound dlt 25 curveChannel.mPERmap = 3 ∧
    packetInError lineEnv lateCurveChannel 5 = Except.error Fault.undefinedBehaviour :=
  ⟨(packetInError_bracket_defined lineEnv curveChannel 25 curveChannel_model
      curveChannel_sorted).1
      ⟨(20, 5 / 100), by rw [curveChannel_points]; simp [curvePoints], by norm_num⟩
      ⟨(30, 7 / 100), by rw [curveChannel_points]; simp [curvePoints], by norm_num⟩,
    by rw [curveChannel_points]; simp [curvePoints],
    by rw [curveChannel_points]; simp [curvePoints],
    by with_unfolding_all rfl,
    by with_unfolding_all rfl⟩

/-! ## The drop-head queue from the empty state -/

theorem evictLoop_empty (p : Packet) (fuel : Nat) (q q2 : DropHeadQueue)
    (hq : q.m_packets = []) (h : DropHeadQueue.evictLoop p fuel q = Except.ok q2) : q2 = q := by
  cases fuel with
  | zero =>
    unfold DropHeadQueue.evictLoop at h
    split at h
    · cases h
    · injection h with h
      exact h.symm
  | succ n =>
    rw [DropHeadQueue.evictLoop] at h
    split at h
    · rw [evict_nil q hq] at h
      cases h
    · injection h with h
      exact h.symm

/-- A call of `DoEnqueue` on an empty queue that returns leaves the queue with
the new packet alone. -/
theorem DoEnqueue_empty {fuel : Nat} {q q1 : DropHeadQueue} {p : Packet} {r : Bool}
    (hq : q.m_packets = []) (he : DropHeadQueue.DoEnqueue fuel q p = Except.ok (q1, r)) :
    r = true ∧ q1.m_packets = [p] := by
  unfold DropHeadQueue.DoEnqueue at he
  dsimp only at he
  by_cases hc : q.m_mode = QueueMode.QUEUE_MODE_PACKETS ∧ q.m_packets.length ≥ q.m_maxPackets
  · rw [if_pos hc, evict_nil q hq] at he
    cases he
  · rw [if_neg hc] at he
    dsimp only at he
    by_cases hm : q.m_mode = QueueMode.QUEUE_MODE_BYTES
    · rw [if_pos hm] at he
      cases hl : DropHeadQueue.evictLoop p fuel q with
      | error f =>
        rw [hl] at he
        cases he
      | ok q2 =>
        rw [hl] at he
        have h2 := evictLoop_empty p fuel q q2 hq hl
        injection he with he
        injection he with h3 h4
        refine ⟨h4.symm, ?_⟩
        rw [← h3, h2]
        show q.m_packets ++ [p] = [p]
        rw [hq]
        rfl
    · rw [if_neg hm] at he
      injection he with he
      injection he with h3 h4
      refine ⟨h4.symm, ?_⟩
      rw [← h3]
      show q.m_packets ++ [p] = [p]
      rw [hq]
      rfl

/-- The drop-head queue satisfies the laws of `QueueLaws`. -/
theorem dropHead_laws (n : Nat) : QueueLaws (dropHeadOps n) DropHeadQueue.IsEmpty := by
  constructor
  · intro q q1 q2 p r hq he hd
    have h1 := (DoEnqueue_empty hq he).2
    have hd2 : Except.ok q1.DoDequeue = (Except.ok (q2, r) : Except Fault _) := hd
    injection hd2 with hd2
    have h3 := (DoDequeue_packets q1).1
    rw [hd2, h1] at h3
    exact h3
  · intro q q1 p hq he
    have h1 := (DoEnqueue_empty hq he).1
    cases h1
  · intro q q1 hd
    have hd2 : Except.ok q.DoDequeue = (Except.ok (q1, none) : Except Fault _) := hd
    injection hd2 with hd2
    unfold DropHeadQueue.DoDequeue at hd2
    cases hq : q.m_packets with
    | nil =>
      rw [hq] at hd2
      injection hd2 with h1 h2
      unfold DropHeadQueue.IsEmpty
      rw [← h1]
      exact hq
    | cons a t =>
      rw [hq] at hd2
      injection hd2 with h1 h2
      cases h2

/-! ## Invariant of a device with a queue -/

theorem EnqueuePacket_queued {Q : Type} {ops : QueueOps Q} {isEmpty : Q → Prop} {env : Env}
    {fuel : Nat} {w w1 : World Q} {packet : Packet} {fromAddr toAddr : Mac48Address}
    {protocolNumber destId : Nat} {r : Bool} (laws : QueueLaws ops isEmpty)
    (hc : QueuedConsistent isEmpty w)
    (h : NetDevice.EnqueuePacket ops env fuel w packet fromAddr toAddr protocolNumber destId
      = Except.ok (w1, r)) : QueuedConsistent isEmpty w1 := by
  obtain ⟨q, hq, hcase⟩ := hc
  rw [EnqueuePacket_queue ops env fuel w q packet fromAddr toAddr protocolNumber destId hq] at h
  unfold offerToQueue at h
  cases henq : ops.Enqueue q
      ((packet.AddPacketTag (Tag.timestamp env.now)).AddPacketTag (Tag.destinationId destId)) with
  | error f =>
    rw [henq] at h
    cases h
  | ok res =>
    obtain ⟨q1, acc⟩ := res
    rw [henq] at h
    cases acc with
    | false =>
      dsimp only at h
      injection h with h
      injection h with h1 h2
      rw [← h1]
      refine ⟨q1, rfl, ?_⟩
      rcases hcase with ⟨a, b, c, d⟩ | ⟨a, b, c⟩
      · exact Or.inl ⟨a, b, c, laws.reject_empty q q1 _ d henq⟩
      · exact Or.inr ⟨a, b, c⟩
    | true =>
      dsimp only at h
      by_cases hst : w.dev.m_txMachineState = TxMachineState.READY
      · rw [if_pos hst] at h
        cases hdq : ops.Dequeue q1 with
        | error f =>
          rw [hdq] at h
          cases h
        | ok res2 =>
          obtain ⟨q2, op⟩ := res2
          rw [hdq] at h
          cases op with
          | none => cases h
          | some pk =>
            dsimp only at h
            have hts := returnTrue_ok h
            have htx : w.txComplete = [] := by
              rcases hcase with ⟨_, b, _, _⟩ | ⟨a, _, _⟩
              · exact b
              · rw [hst] at a
                cases a
            obtain ⟨_, hbusy, ⟨t, ht⟩, hcur, hqueue⟩ := TransmitStart_effect hts
            refine ⟨q2, hqueue, Or.inr ⟨hbusy, ?_, hcur⟩⟩
            rw [ht]
            show (w.txComplete ++ [t]).length = 1
            rw [htx]
            rfl
      · rw [if_neg hst] at h
        injection h with h
        injection h with h1 h2
        rw [← h1]
        refine ⟨q1, rfl, ?_⟩
        rcases hcase with ⟨a, _, _, _⟩ | ⟨a, b, c⟩
        · exact absurd a hst
        · exact Or.inr ⟨a, b, c⟩

theorem enqueueEach_queued {Q : Type} {ops : QueueOps Q} {isEmpty : Q → Prop} {env : Env}
    {fuel : Nat} (laws : QueueLaws ops isEmpty) (calls : List EnqueueCall) :
    ∀ {w w1 : World Q}, QueuedConsistent isEmpty w →
      enqueueEach ops env fuel calls w = Except.ok w1 → QueuedConsistent isEmpty w1 := by
  induction calls with
  | nil =>
    intro w w1 hc h
    unfold enqueueEach at h
    injection h with h
    rw [← h]
    exact hc
  | cons c rest ih =>
    intro w w1 hc h
    rw [enqueueEach] at h
    cases he : NetDevice.EnqueuePacket ops env fuel w c.packet c.fromAddr c.toAddr
        c.protocolNumber c.destId with
    | error f =>
      rw [he] at h
      cases h
    | ok res =>
      obtain ⟨w2, b⟩ := res
      rw [he] at h
      exact ih (EnqueuePacket_queued laws hc he) h

theorem SendFrom_queued {Q : Type} {ops : QueueOps Q} {isEmpty : Q → Prop} {env : Env}
    {fuel : Nat} {w w1 : World Q} {packet : Packet} {source dest : Mac48Address}
    {protocolNumber : Nat} {r : Bool} (laws : QueueLaws ops isEmpty)
    (hc : QueuedConsistent isEmpty w)
    (h : NetDevice.SendFrom ops env fuel w packet source dest protocolNumber
      = Except.ok (w1, r)) : QueuedConsistent isEmpty w1 := by
  rw [SendFrom_calls] at h
  have hc1 : QueuedConsistent isEmpty
      (w.observe (Observation.macTx (framed packet source dest protocolNumber))) := hc
  exact enqueueEach_queued laws _ hc1 (returnTrue_ok h)

theorem TransmitComplete_queued {Q : Type} {ops : QueueOps Q} {isEmpty : Q → Prop} {env : Env}
    {fuel : Nat} {w w1 : World Q} {pre post : List Time} {t : Time}
    (laws : QueueLaws ops isEmpty) (hc : QueuedConsistent isEmpty w)
    (htx : w.txComplete = pre ++ t :: post)
    (h : NetDevice.TransmitComplete ops env fuel { w with txComplete := pre ++ post }
      = Except.ok w1) : QueuedConsistent isEmpty w1 := by
  obtain ⟨q, hq, hcase⟩ := hc
  rcases hcase with ⟨_, b, _, _⟩ | ⟨hb, hlen, hcur⟩
  · rw [b] at htx
    cases pre <;> cases htx
  · have hnil : pre ++ post = [] := by
      rw [htx, List.length_append, List.length_cons] at hlen
      have h1 : pre.length = 0 := by omega
      have h2 : post.length = 0 := by omega
      rw [List.length_eq_zero.mp h1, List.length_eq_zero.mp h2]
      rfl
    obtain ⟨herr, hnone, hsome⟩ :=
      TransmitComplete_eq ops env fuel { w with txComplete := pre ++ post } q hb hcur hq
    cases hdq : ops.Dequeue q with
    | error f =>
      rw [herr f hdq] at h
      cases h
    | ok res =>
      obtain ⟨q1, op⟩ := res
      cases op with
      | none =>
        rw [hnone q1 hdq] at h
        injection h with h
        rw [← h]
        exact ⟨q1, rfl, Or.inl ⟨rfl, hnil, rfl, laws.dequeue_none q q1 hdq⟩⟩
      | some p =>
        rw [hsome q1 p hdq] at h
        obtain ⟨_, hbusy, ⟨t1, ht1⟩, hcp, hqueue⟩ := TransmitStart_effect h
        refine ⟨q1, hqueue, Or.inr ⟨hbusy, ?_, hcp⟩⟩
        rw [ht1]
        show ((pre ++ post) ++ [t1]).length = 1
        rw [hnil]
        rfl

theorem ReachableQueued_consistent {Q : Type} {ops : QueueOps Q} {fuel : Nat}
    {isEmpty : Q → Prop} {w : World Q} (laws : QueueLaws ops isEmpty)
    (hr : ReachableQueued ops fuel isEmpty w) : QueuedConsistent isEmpty w := by
  induction hr with
  | init w q hi hq he => exact ⟨q, hq, Or.inl ⟨hi.1, hi.2.2, hi.2.1, he⟩⟩
  | send env w w1 packet dest protocolNumber r _ h ih =>
    rw [Send_eq_SendFrom] at h
    exact SendFrom_queued laws ih h
  | sendFrom env w w1 packet source dest protocolNumber r _ h ih =>
    exact SendFrom_queued laws ih h
  | complete env w w1 pre t post _ htx h ih =>
    exact TransmitComplete_queued laws ih htx h
  | channel w ch _ ih => exact ih

/-- C39: for a device with a queue attached whose queue satisfies the laws
`QueueLaws` (the drop-head queue does), in every state reachable between
events, that is from the initial state with an empty queue through calls of
`Send` and `SendFrom` and scheduled `TransmitComplete` events that return: a
queue is attached; if the transmit state is READY the queue is empty, no
`TransmitComplete` is pending and no packet is in flight; if it is BUSY exactly
one `TransmitComplete` is pending and a packet is recorded as in flight. -/
theorem queued_device_invariant {Q : Type} (ops : QueueOps Q) (fuel : Nat) (isEmpty : Q → Prop)
    (w : World Q) (laws : QueueLaws ops isEmpty) (hr : ReachableQueued ops fuel isEmpty w) :
    (∃ q, w.dev.m_queue = some q ∧
      (w.dev.m_txMachineState = TxMachineState.READY →
        isEmpty q ∧ w.txComplete = [] ∧ w.dev.m_currentPkt = none) ∧
      (w.dev.m_txMachineState = TxMachineState.BUSY →
        w.txComplete.length = 1 ∧ w.dev.m_currentPkt.isSome = true)) ∧
    (w.dev.m_txMachineState = TxMachineState.READY ∨
      w.dev.m_txMachineState = TxMachineState.BUSY) ∧
    (∀ n, QueueLaws (dropHeadOps n) DropHeadQueue.IsEmpty) := by
  obtain ⟨q, hq, hcase⟩ := ReachableQueued_consistent laws hr
  refine ⟨⟨q, hq, ?_, ?_⟩, ?_, dropHead_laws⟩
  · intro hready
    rcases hcase with ⟨_, b, c, d⟩ | ⟨a, _, _⟩
    · exact ⟨d, b, c⟩
    · rw [hready] at a
      cases a
  · intro hbusy
    rcases hcase with ⟨a, _, _, _⟩ | ⟨_, b, c⟩
    · rw [hbusy] at a
      cases a
    · exact ⟨b, c⟩
  · rcases hcase with ⟨a, _, _, _⟩ | ⟨a, _, _⟩
    · exact Or.inl a
    · exact Or.inr a

/-- The device of node 0 of the line scenario after it has sent the 1000-byte
packet at time 0 and the transmission has completed at 8 ms is reachable. -/
theorem idleWorld_reachable :
    ReachableQueued (dropHeadOps 0) 0 DropHeadQueue.IsEmpty idleWorld :=
  ReachableQueued.complete doneEnv busyWorld idleWorld [] 8000000 []
    (ReachableQueued.send lineEnv (worldOf omniDevice) busyWorld packet1000 broadcastAddress 2048
      true
      (ReachableQueued.init (worldOf omniDevice) emptyQueue ⟨Eq.refl _, Eq.refl _, Eq.refl _⟩
        (Eq.refl _) (Eq.refl _))
      (by with_unfolding_all rfl))
    (by with_unfolding_all rfl) (by with_unfolding_all rfl)

/-- C39 on the device of node 0 of the line scenario after it has sent the
1000-byte packet at time 0 and the transmission has completed at 8 ms: the
device is READY again, with its queue empty and nothing pending. -/
theorem queued_device_invariant_witness :
    idleWorld.dev.m_txMachineState = TxMachineState.READY ∧
    (∃ q, idleWorld.dev.m_queue = some q ∧
      (idleWorld.dev.m_txMachineState = TxMachineState.READY →
        DropHeadQueue.IsEmpty q ∧ idleWorld.txComplete = [] ∧ idleWorld.dev.m_currentPkt = none) ∧
      (idleWorld.dev.m_txMachineState = TxMachineState.BUSY →
        idleWorld.txComplete.length = 1 ∧ idleWorld.dev.m_currentPkt.isSome = true)) :=
  ⟨by with_unfolding_all rfl,
    (queued_device_invariant (dropHeadOps 0) 0 DropHeadQueue.IsEmpty idleWorld (dropHead_laws 0)
      idleWorld_reachable).1⟩

/-! ## Cut-through of `EnqueuePacket` -/

/-- An empty drop-head queue, in packet mode with a capacity of at least 1 or
in byte mode with a byte count of 0 and a limit above the size of the packet,
accepts the packet, and the next `Dequeue` hands it back and leaves the queue
empty. -/
theorem dropHead_cut_through (n : Nat) (d : DropHeadQueue) (pk : Packet)
    (hempty : d.m_packets = [])
    (hp : d.m_mode = QueueMode.QUEUE_MODE_PACKETS → 1 ≤ d.m_maxPackets)
    (hb : d.m_mode = QueueMode.QUEUE_MODE_BYTES →
      d.m_bytesInQueue = 0 ∧ pk.GetSize < d.m_maxBytes) :
    ∃ d1 d2, (dropHeadOps n).Enqueue d pk = Except.ok (d1, true) ∧
      (dropHeadOps n).Dequeue d1 = Except.ok (d2, some pk) ∧
      d1.m_packets = [pk] ∧ d2.m_packets = [] := by
  have henq : ∃ d1, DropHeadQueue.DoEnqueue n d pk = Except.ok (d1, true) := by
    cases hm : d.m_mode with
    | QUEUE_MODE_PACKETS =>
      obtain ⟨d1, h1, _⟩ := DoEnqueue_packets n d pk hm (hp hm)
      exact ⟨d1, h1⟩
    | QUEUE_MODE_BYTES =>
      obtain ⟨hz, hsz⟩ := hb hm
      obtain ⟨j, q2, h2, _⟩ := evictLoop_terminates pk n d
        (by rw [hz, hempty]; rfl) (by rw [hz]; decide) hsz
        (by rw [hempty]; exact Nat.zero_le _)
      refine ⟨{ q2 with
                m_bytesInQueue := (q2.m_bytesInQueue + pk.GetSize) % 4294967296
                m_packets := q2.m_packets ++ [pk] }, ?_⟩
      unfold DropHeadQueue.DoEnqueue
      dsimp only
      rw [if_neg (by rw [hm]; intro hc; cases hc.1)]
      dsimp only
      rw [if_pos hm, h2]
  obtain ⟨d1, h1⟩ := henq
  have hpk : d1.m_packets = [pk] := (DoEnqueue_empty hempty h1).2
  refine ⟨d1, d1.DoDequeue.1, h1, ?_, hpk, ?_⟩
  · show Except.ok d1.DoDequeue = Except.ok (d1.DoDequeue.1, some pk)
    have h2 := (DoDequeue_packets d1).2
    rw [hpk] at h2
    congr 1
    exact Prod.ext rfl h2
  · rw [(DoDequeue_packets d1).1, hpk]
    rfl

/-- C31: `EnqueuePacket` on a device with a queue attached, for a packet
framed by `Send` or `SendFrom`.  If the device is READY with nothing pending,
the queue accepts the packet and hands it back at the `Dequeue` that follows
(as an empty queue does), then, when the channel's `Send` returns, the call
returns with the device BUSY, the packet in flight, one `TransmitComplete`
pending, the queue as the `Dequeue` left it, and the queue latency observed for
the packet is 0 before the channel is called.  If the device is not READY and
the queue accepts, or if the queue rejects, the call returns with nothing
changed but the queue: the transmit state is the same, nothing is observed and
the channel is not called.  An empty drop-head queue accepts the packet and
hands it back, remaining empty, so its length is unchanged by the call. -/
theorem EnqueuePacket_cut_through {Q : Type} (ops : QueueOps Q) (env : Env) (fuel : Nat)
    (w : World Q) (q : Q) (packet : Packet) (source dest fromAddr toAddr : Mac48Address)
    (protocolNumber protocolArg destId : Nat) (hq : w.dev.m_queue = some q) :
    (∀ (q1 q2 : Q) (st : SendState) (evs : List (Event Packet)),
      w.dev.m_txMachineState = TxMachineState.READY → w.txComplete = [] →
      ops.Enqueue q (queuedForm env packet source dest protocolNumber destId)
        = Except.ok (q1, true) →
      ops.Dequeue q1
        = Except.ok (q2, some (queuedForm env packet source dest protocolNumber destId)) →
      Send env fuel w.ch packet protocolNumber dest source w.dev.self w.dev.m_nbrCount
        (scaledDuration (baseDuration w.dev.m_bps packet) w.dev.m_nbrCount
          w.dev.m_fixedNbrListEnabled) destId = Except.ok (st, evs) →
      ∃ w1,
        NetDevice.EnqueuePacket ops env fuel w (framed packet source dest protocolNumber)
          fromAddr toAddr protocolArg destId = Except.ok (w1, true) ∧
        w1.dev.m_txMachineState = TxMachineState.BUSY ∧
        w1.dev.m_currentPkt = some packet ∧
        w1.dev.m_queue = some q2 ∧
        w1.txComplete =
          [scaledDuration (baseDuration w.dev.m_bps packet) w.dev.m_nbrCount
            w.dev.m_fixedNbrListEnabled] ∧
        w1.arrivals = w.arrivals ++ evs ∧
        w1.trace =
          (if w.dev.m_pcapEnabled then
              w.trace ++ [Observation.promiscSniffer
                (queuedForm env packet source dest protocolNumber destId)]
            else w.trace) ++
            [Observation.queueLatency
               ((framed packet source dest protocolNumber).AddPacketTag
                 (Tag.destinationId destId)) 0,
             Observation.txBegin packet source dest protocolNumber] ++
            [Observation.channelSend packet protocolNumber dest source
              (scaledDuration (baseDuration w.dev.m_bps packet) w.dev.m_nbrCount
                w.dev.m_fixedNbrListEnabled) destId]) ∧
    (∀ q1 : Q, w.dev.m_txMachineState ≠ TxMachineState.READY →
      ops.Enqueue q (queuedForm env packet source dest protocolNumber destId)
        = Except.ok (q1, true) →
      NetDevice.EnqueuePacket ops env fuel w (framed packet source dest protocolNumber)
        fromAddr toAddr protocolArg destId =
        Except.ok ({ w with dev := { w.dev with m_queue := some q1 } }, true)) ∧
    (∀ q1 : Q,
      ops.Enqueue q (queuedForm env packet source dest protocolNumber destId)
        = Except.ok (q1, false) →
      NetDevice.EnqueuePacket ops env fuel w (framed packet source dest protocolNumber)
        fromAddr toAddr protocolArg destId =
        Except.ok ({ w with dev := { w.dev with m_queue := some q1 } }, true)) ∧
    (∀ (n : Nat) (d : DropHeadQueue) (pk : Packet), d.m_packets = [] →
      (d.m_mode = QueueMode.QUEUE_MODE_PACKETS → 1 ≤ d.m_maxPackets) →
      (d.m_mode = QueueMode.QUEUE_MODE_BYTES →
        d.m_bytesInQueue = 0 ∧ pk.GetSize < d.m_maxBytes) →
      ∃ d1 d2, (dropHeadOps n).Enqueue d pk = Except.ok (d1, true) ∧
        (dropHeadOps n).Dequeue d1 = Except.ok (d2, some pk) ∧
        d1.m_packets = [pk] ∧ d2.m_packets = []) := by
  have heq := EnqueuePacket_queue ops env fuel w q (framed packet source dest protocolNumber)
    fromAddr toAddr protocolArg destId hq
  have hform : ((framed packet source dest protocolNumber).AddPacketTag
      (Tag.timestamp env.now)).AddPacketTag (Tag.destinationId destId)
      = queuedForm env packet source dest protocolNumber destId := rfl
  rw [hform] at heq
  refine ⟨?_, ?_, ?_, dropHead_cut_through⟩
  · intro q1 q2 st evs hready htx henq hdq hs
    rw [heq]
    unfold offerToQueue
    rw [henq]
    dsimp only
    rw [if_pos hready, hdq]
    dsimp only
    rw [(TransmitStart_queuedForm env env fuel { w with dev := { w.dev with m_queue := some q2 } }
      packet source dest protocolNumber destId hready).2]
    have hcs := callChannelSend_ok
      (w := startedWorld env { w with dev := { w.dev with m_queue := some q2 } }
        (queuedForm env packet source dest protocolNumber destId) packet
        { m_source := source, m_destination := dest, m_lengthType := protocolNumber }
        (scaledDuration (baseDuration w.dev.m_bps packet) w.dev.m_nbrCount
          w.dev.m_fixedNbrListEnabled)) hs
    rw [hcs]
    refine ⟨_, rfl, rfl, rfl, rfl, ?_, rfl, ?_⟩
    · show w.txComplete ++ [_] = _
      rw [htx]
      rfl
    · show ((if w.dev.m_pcapEnabled then _ else _) ++
          [Observation.queueLatency _ (env.now - env.now), _]) ++ [_] = _
      rw [sub_self]
      rfl
  · intro q1 hst henq
    rw [heq]
    unfold offerToQueue
    rw [henq]
    dsimp only
    rw [if_neg hst]
  · intro q1 henq
    rw [heq]
    unfold offerToQueue
    rw [henq]

/-- C31 on the device of node 0 of the line scenario at time 0.  READY with an
empty queue, it starts the transmission of the 1000-byte packet in the call
and the queue is empty again; BUSY with that packet, it leaves the two-byte
packet in the queue and nothing else changes. -/
theorem EnqueuePacket_cut_through_witness :
    (∃ w1,
      NetDevice.EnqueuePacket (dropHeadOps 0) lineEnv 0 (worldOf omniDevice)
        (framed packet1000 1 broadcastAddress 2048) 1 broadcastAddress 2048 NO_DIRECTIONAL_NBR
        = Except.ok (w1, true) ∧
      w1.dev.m_txMachineState = TxMachineState.BUSY ∧
      w1.dev.m_currentPkt = some packet1000 ∧
      w1.dev.m_queue = some emptyQueue) ∧
    busyWorld.dev.m_txMachineState = TxMachineState.BUSY ∧
    NetDevice.EnqueuePacket (dropHeadOps 0) lineEnv 0 busyWorld (framed packetTwo 1 2 2054) 1 2
        2054 NO_DIRECTIONAL_NBR =
      Except.ok ({ busyWorld with dev := { busyWorld.dev with m_queue := some waitingQueue } },
        true) :=
  ⟨Exists.elim
      ((EnqueuePacket_cut_through (dropHeadOps 0) lineEnv 0 (worldOf omniDevice) emptyQueue
        packet1000 1 broadcastAddress 1 broadcastAddress 2048 2048 NO_DIRECTIONAL_NBR
        (Eq.refl _)).1 _ emptyQueue _ _ (Eq.refl _) (Eq.refl _) (by with_unfolding_all rfl)
        (by with_unfolding_all rfl) (by with_unfolding_all rfl))
      (fun w1 h => ⟨w1, h.1, h.2.1, h.2.2.1, h.2.2.2.1⟩),
    by with_unfolding_all rfl,
    (EnqueuePacket_cut_through (dropHeadOps 0) lineEnv 0 busyWorld emptyQueue packetTwo 1 2 1 2
      2054 2054 NO_DIRECTIONAL_NBR (by with_unfolding_all rfl)).2.1 waitingQueue
      (of_decide_eq_true (by with_unfolding_all rfl)) (by with_unfolding_all rfl)⟩

/-! ## The path without a queue -/

/-- C32: for every packet, data rate, neighbor count and directional flag, on
a device without a queue `EnqueuePacket`, called as `Send` and `SendFrom` call
it (the packet framed with the source, destination and protocol passed),
strips the link-layer header and calls the channel with the packet as it was
submitted, the protocol, destination, source and destination hint of the call
and the duration `scaledDuration` of the stripped packet; `TransmitStart` on
the same device state (READY, with or without a queue) for the same packet as
the queue would hold it calls the channel with exactly the same packet,
protocol, to, from, duration and hint.  Hence the channel's `Send` is the same
call in both, and both record the same channel call and, when it returns, the
same arrivals, channel state and neighbor count. -/
theorem noqueue_path_matches_TransmitStart {Q : Type} (ops : QueueOps Q) (env0 env : Env)
    (fuel : Nat) (w : World Q) (oq : Option Q) (packet : Packet) (source dest : Mac48Address)
    (protocolNumber destId : Nat)
    (hq : w.dev.m_queue = none) (hready : w.dev.m_txMachineState = TxMachineState.READY) :
    (framed packet source dest protocolNumber).RemoveHeader =
      some ({ m_source := source, m_destination := dest, m_lengthType := protocolNumber },
        packet) ∧
    NetDevice.EnqueuePacket ops env fuel w (framed packet source dest protocolNumber) source dest
        protocolNumber destId =
      returnTrue (callChannelSend env fuel
        (directWorld w (framed packet source dest protocolNumber) packet dest protocolNumber)
        packet protocolNumber dest source
        (scaledDuration (baseDuration w.dev.m_bps packet) w.dev.m_nbrCount
          w.dev.m_fixedNbrListEnabled) destId) ∧
    NetDevice.TransmitStart env fuel { w with dev := { w.dev with m_queue := oq } }
        (queuedForm env0 packet source dest protocolNumber destId) =
      callChannelSend env fuel
        (startedWorld env { w with dev := { w.dev with m_queue := oq } }
          (queuedForm env0 packet source dest protocolNumber destId) packet
          { m_source := source, m_destination := dest, m_lengthType := protocolNumber }
          (scaledDuration (baseDuration w.dev.m_bps packet) w.dev.m_nbrCount
            w.dev.m_fixedNbrListEnabled))
        packet protocolNumber dest source
        (scaledDuration (baseDuration w.dev.m_bps packet) w.dev.m_nbrCount
          w.dev.m_fixedNbrListEnabled) destId ∧
    (scaledDuration (baseDuration w.dev.m_bps packet) w.dev.m_nbrCount
        w.dev.m_fixedNbrListEnabled =
      if w.dev.m_nbrCount = 0 then baseDuration w.dev.m_bps packet
      else if w.dev.m_fixedNbrListEnabled = true then 2 * baseDuration w.dev.m_bps packet
      else w.dev.m_nbrCount * baseDuration w.dev.m_bps packet) ∧
    (∀ (st : SendState) (evs : List (Event Packet)),
      Send env fuel w.ch packet protocolNumber dest source w.dev.self w.dev.m_nbrCount
        (scaledDuration (baseDuration w.dev.m_bps packet) w.dev.m_nbrCount
          w.dev.m_fixedNbrListEnabled) destId = Except.ok (st, evs) →
      ∃ w1 w2,
        NetDevice.EnqueuePacket ops env fuel w (framed packet source dest protocolNumber) source
          dest protocolNumber destId = Except.ok (w1, true) ∧
        NetDevice.TransmitStart env fuel { w with dev := { w.dev with m_queue := oq } }
          (queuedForm env0 packet source dest protocolNumber destId) = Except.ok w2 ∧
        w1.trace.getLast? =
          some (Observation.channelSend packet protocolNumber dest source
            (scaledDuration (baseDuration w.dev.m_bps packet) w.dev.m_nbrCount
              w.dev.m_fixedNbrListEnabled) destId) ∧
        w2.trace.getLast? = w1.trace.getLast? ∧
        w1.arrivals = w.arrivals ++ evs ∧ w2.arrivals = w1.arrivals ∧
        w1.ch = st.ch ∧ w2.ch = w1.ch ∧
        w1.dev.m_nbrCount = st.nbrCount ∧ w2.dev.m_nbrCount = w1.dev.m_nbrCount) ∧
    (∀ f,
      Send env fuel w.ch packet protocolNumber dest source w.dev.self w.dev.m_nbrCount
        (scaledDuration (baseDuration w.dev.m_bps packet) w.dev.m_nbrCount
          w.dev.m_fixedNbrListEnabled) destId = Except.error f →
      NetDevice.EnqueuePacket ops env fuel w (framed packet source dest protocolNumber) source
        dest protocolNumber destId = Except.error (DevFault.channel f) ∧
      NetDevice.TransmitStart env fuel { w with dev := { w.dev with m_queue := oq } }
        (queuedForm env0 packet source dest protocolNumber destId)
        = Except.error (DevFault.channel f)) := by
  have h1 := EnqueuePacket_noqueue ops env fuel w (framed packet source dest protocolNumber)
    source dest protocolNumber destId
    { m_source := source, m_destination := dest, m_lengthType := protocolNumber } packet hq rfl
  have h2 := (TransmitStart_queuedForm env0 env fuel
    { w with dev := { w.dev with m_queue := oq } } packet source dest protocolNumber destId
    hready).2
  refine ⟨rfl, h1, h2, rfl, ?_, ?_⟩
  · intro st evs hs
    have hc1 := callChannelSend_ok
      (w := directWorld w (framed packet source dest protocolNumber) packet dest protocolNumber)
      hs
    have hc2 := callChannelSend_ok
      (w := startedWorld env { w with dev := { w.dev with m_queue := oq } }
        (queuedForm env0 packet source dest protocolNumber destId) packet
        { m_source := source, m_destination := dest, m_lengthType := protocolNumber }
        (scaledDuration (baseDuration w.dev.m_bps packet) w.dev.m_nbrCount
          w.dev.m_fixedNbrListEnabled)) hs
    rw [h1, h2, hc1, hc2]
    refine ⟨_, _, rfl, rfl, ?_, ?_, rfl, rfl, rfl, rfl, rfl, rfl⟩
    · show (_ ++ [_]).getLast? = _
      rw [List.getLast?_append]
      rfl
    · show (_ ++ [_]).getLast? = (_ ++ [_]).getLast?
      rw [List.getLast?_append, List.getLast?_append]
      rfl
  · intro f hs
    rw [h1, h2]
    unfold callChannelSend
    constructor
    · show returnTrue (match Send env fuel w.ch packet protocolNumber dest source w.dev.self
          w.dev.m_nbrCount _ destId with
        | Except.error f => Except.error (DevFault.channel f)
        | Except.ok (st, evs) => _) = _
      rw [hs]
      rfl
    · show (match Send env fuel w.ch packet protocolNumber dest source w.dev.self
          w.dev.m_nbrCount _ destId with
        | Except.error f => Except.error (DevFault.channel f)
        | Except.ok (st, evs) => _) = _
      rw [hs]

/-- C32 on the device of node 0 without a queue, 1 Mbit/s and neighbor count
0, for the 1000-byte packet from address 1 to address 2: both paths call the
channel with the packet, protocol 2048, to 2, from 1, 8 ms and the sentinel. -/
theorem noqueue_path_matches_TransmitStart_witness :
    scaledDuration (baseDuration isolatedWorld.dev.m_bps packet1000) isolatedWorld.dev.m_nbrCount
      isolatedWorld.dev.m_fixedNbrListEnabled = 8000000 ∧
    (∃ w1 w2,
      NetDevice.EnqueuePacket (dropHeadOps 0) lineEnv 0 isolatedWorld (framed packet1000 1 2 2048)
        1 2 2048 NO_DIRECTIONAL_NBR = Except.ok (w1, true) ∧
      NetDevice.TransmitStart lineEnv 0
        { isolatedWorld with dev := { isolatedWorld.dev with m_queue := some emptyQueue } }
        (queuedForm lineEnv packet1000 1 2 2048 NO_DIRECTIONAL_NBR) = Except.ok w2 ∧
      w1.trace.getLast? =
        some (Observation.channelSend packet1000 2048 2 1
          (scaledDuration (baseDuration isolatedWorld.dev.m_bps packet1000)
            isolatedWorld.dev.m_nbrCount isolatedWorld.dev.m_fixedNbrListEnabled)
          NO_DIRECTIONAL_NBR) ∧
      w2.trace.getLast? = w1.trace.getLast?) :=
  ⟨by with_unfolding_all rfl,
    Exists.elim
      ((noqueue_path_matches_TransmitStart (dropHeadOps 0) lineEnv lineEnv 0 isolatedWorld
        (some emptyQueue) packet1000 1 2 2048 NO_DIRECTIONAL_NBR (Eq.refl _)
        (Eq.refl _)).2.2.2.2.1 _ [] (by with_unfolding_all rfl))
      (fun w1 h1 => Exists.elim h1
        (fun w2 h => ⟨w1, w2, h.1, h.2.1, h.2.2.1, h.2.2.2.1⟩))⟩

/-! ## The first packet under fixed contention -/

theorem foldl_clear_absent (devs : List Device) :
    ∀ (f : Nat → Int) (x : Nat), (∀ tmp ∈ devs, tmp.ptr ≠ x) →
      devs.foldl (fun f tmp => Function.update f tmp.ptr (ClearNbrCount (f tmp.ptr))) f x
        = f x := by
  induction devs with
  | nil =>
    intro f x _
    rfl
  | cons d rest ih =>
    intro f x h
    rw [List.foldl_cons, ih _ x (fun tmp ht => h tmp (List.mem_cons_of_mem _ ht))]
    exact Function.update_noteq (fun hc => h d (List.mem_cons_self _ _) hc.symm) _ _

theorem scaledDuration_zero (base : Time) (directional : Bool) :
    scaledDuration base 0 directional = base := by
  unfold scaledDuration
  rw [if_pos rfl]

theorem scaledDuration_nonzero (base : Time) (n : Int) (directional : Bool) (hn : n ≠ 0) :
    scaledDuration base n directional = if directional = true then 2 * base else n * base := by
  unfold scaledDuration
  rw [if_neg hn]

/-- C33: a device that is not attached when `EnableFixedContention` is called
keeps the neighbor count 0 of its constructor, and the channel it is then added
to has contention enabled.  For such a device (count 0, contention enabled,
fewer than 2^31 - 1 devices attached), READY: `TransmitStart` of its first
packet calls the channel with the unscaled duration, the time to send the
packet's bytes at the data rate, in directional mode too; when that call
returns the neighbor count is at least 1 and the `TransmitComplete` was
scheduled after the unscaled duration; and `TransmitStart` of every later
packet from the READY state with that count calls the channel with the base
duration of that packet times the count, or times 2 in directional mode. -/
theorem first_packet_unscaled {Q : Type} (env0 env : Env) (fuel : Nat) (w : World Q)
    (packet : Packet) (source dest : Mac48Address) (protocolNumber destId : Nat)
    (hzero : w.dev.m_nbrCount = 0) (hen : w.ch.m_fixedContentionEnabled = true)
    (hready : w.dev.m_txMachineState = TxMachineState.READY)
    (hlen : w.ch.m_devices.length < 2147483647) :
    (∀ (c : Channel) (nbr : Nat → Int) (d : Device), (∀ tmp ∈ c.m_devices, tmp.ptr ≠ d.ptr) →
      nbr d.ptr = 0 →
      (EnableFixedContention c nbr).2 d.ptr = 0 ∧
      (Add (EnableFixedContention c nbr).1 d).m_fixedContentionEnabled = true) ∧
    NetDevice.TransmitStart env fuel w (queuedForm env0 packet source dest protocolNumber destId) =
      callChannelSend env fuel
        (startedWorld env w (queuedForm env0 packet source dest protocolNumber destId) packet
          { m_source := source, m_destination := dest, m_lengthType := protocolNumber }
          (baseDuration w.dev.m_bps packet))
        packet protocolNumber dest source (baseDuration w.dev.m_bps packet) destId ∧
    baseDuration w.dev.m_bps packet = Seconds (CalculateTxTime w.dev.m_bps packet.GetSize) ∧
    (∀ w1,
      NetDevice.TransmitStart env fuel w (queuedForm env0 packet source dest protocolNumber destId)
        = Except.ok w1 →
      1 ≤ w1.dev.m_nbrCount ∧
      w1.txComplete = w.txComplete ++ [baseDuration w.dev.m_bps packet] ∧
      w1.dev.m_bps = w.dev.m_bps ∧
      w1.dev.m_fixedNbrListEnabled = w.dev.m_fixedNbrListEnabled ∧
      ∀ (env1 env2 : Env) (q1 : Q) (packet2 : Packet) (source2 dest2 : Mac48Address)
          (protocol2 destId2 : Nat),
        NetDevice.TransmitStart env2 fuel (completedWorld w1 q1)
            (queuedForm env1 packet2 source2 dest2 protocol2 destId2) =
          callChannelSend env2 fuel
            (startedWorld env2 (completedWorld w1 q1)
              (queuedForm env1 packet2 source2 dest2 protocol2 destId2) packet2
              { m_source := source2, m_destination := dest2, m_lengthType := protocol2 }
              (if w.dev.m_fixedNbrListEnabled = true then 2 * baseDuration w.dev.m_bps packet2
               else w1.dev.m_nbrCount * baseDuration w.dev.m_bps packet2))
            packet2 protocol2 dest2 source2
            (if w.dev.m_fixedNbrListEnabled = true then 2 * baseDuration w.dev.m_bps packet2
             else w1.dev.m_nbrCount * baseDuration w.dev.m_bps packet2) destId2) := by
  have h0 := (TransmitStart_queuedForm env0 env fuel w packet source dest protocolNumber destId
    hready).2
  rw [hzero, scaledDuration_zero] at h0
  refine ⟨?_, h0, rfl, ?_⟩
  · intro c nbr d habs hn
    constructor
    · show c.m_devices.foldl _ nbr d.ptr = 0
      rw [foldl_clear_absent c.m_devices nbr d.ptr habs]
      exact hn
    · rfl
  · intro w1 h1
    rw [h0] at h1
    obtain ⟨st, evs, hs, hw1⟩ := callChannelSend_inv h1
    have hcount := (Send_count_contends
      (show (startedWorld env w (queuedForm env0 packet source dest protocolNumber destId) packet
        { m_source := source, m_destination := dest, m_lengthType := protocolNumber }
        (baseDuration w.dev.m_bps packet)).ch.m_fixedContentionEnabled = true from hen)
      (show (startedWorld env w (queuedForm env0 packet source dest protocolNumber destId) packet
        { m_source := source, m_destination := dest, m_lengthType := protocolNumber }
        (baseDuration w.dev.m_bps packet)).ch.m_devices.length < 2147483647 from hlen) hs).1
    have hn1 : w1.dev.m_nbrCount = st.nbrCount := by rw [hw1]
    have hge : 1 ≤ w1.dev.m_nbrCount := by
      rw [hn1, hcount]
      have : (0 : Int) ≤ ((w.ch.m_devices.filter (contends env st.ch
        (startedWorld env w (queuedForm env0 packet source dest protocolNumber destId) packet
          { m_source := source, m_destination := dest, m_lengthType := protocolNumber }
          (baseDuration w.dev.m_bps packet)).dev.self destId)).length : Int) :=
        Int.natCast_nonneg _
      exact le_add_of_nonneg_right this
    have hbps : w1.dev.m_bps = w.dev.m_bps := by rw [hw1]; rfl
    have hdir : w1.dev.m_fixedNbrListEnabled = w.dev.m_fixedNbrListEnabled := by rw [hw1]; rfl
    refine ⟨hge, ?_, hbps, hdir, ?_⟩
    · rw [hw1]
      rfl
    · intro env1 env2 q1 packet2 source2 dest2 protocol2 destId2
      have h2 := (TransmitStart_queuedForm env1 env2 fuel (completedWorld w1 q1) packet2 source2
        dest2 protocol2 destId2 rfl).2
      have hne : w1.dev.m_nbrCount ≠ 0 := by
        intro hc
        rw [hc] at hge
        exact absurd hge (by decide)
      have e : scaledDuration (baseDuration (completedWorld w1 q1).dev.m_bps packet2)
          (completedWorld w1 q1).dev.m_nbrCount (completedWorld w1 q1).dev.m_fixedNbrListEnabled
          = (if w.dev.m_fixedNbrListEnabled = true then 2 * baseDuration w.dev.m_bps packet2
             else w1.dev.m_nbrCount * baseDuration w.dev.m_bps packet2) := by
        show scaledDuration (baseDuration w1.dev.m_bps packet2) w1.dev.m_nbrCount
          w1.dev.m_fixedNbrListEnabled = _
        rw [scaledDuration_nonzero _ _ _ hne, hbps, hdir]
      rw [e] at h2
      exact h2

/-- C33 on the device of node 0 of the line scenario, attached after
`EnableFixedContention` with contention range 200: its first packet of 1000
bytes at 1 Mbit/s is sent with the unscaled 8 ms, the channel leaves the
neighbor count 3 (itself and the nodes at distance 50 and 150), and the
two-byte packet sent next takes 3 times 16 microseconds. -/
theorem first_packet_unscaled_witness :
    lateJoinWorld.dev.m_nbrCount = 0 ∧
    lateJoinWorld.ch.m_fixedContentionEnabled = true ∧
    baseDuration lateJoinWorld.dev.m_bps packet1000 = 8000000 ∧
    NetDevice.TransmitStart lineEnv 0 lateJoinWorld
        (queuedForm lineEnv packet1000 1 broadcastAddress 2048 NO_DIRECTIONAL_NBR) =
      callChannelSend lineEnv 0
        (startedWorld lineEnv lateJoinWorld
          (queuedForm lineEnv packet1000 1 broadcastAddress 2048 NO_DIRECTIONAL_NBR) packet1000
          { m_source := 1, m_destination := broadcastAddress, m_lengthType := 2048 }
          (baseDuration lateJoinWorld.dev.m_bps packet1000))
        packet1000 2048 broadcastAddress 1 (baseDuration lateJoinWorld.dev.m_bps packet1000)
        NO_DIRECTIONAL_NBR ∧
    (∃ w1,
      NetDevice.TransmitStart lineEnv 0 lateJoinWorld
        (queuedForm lineEnv packet1000 1 broadcastAddress 2048 NO_DIRECTIONAL_NBR)
        = Except.ok w1 ∧
      w1.dev.m_nbrCount = 3 ∧ w1.txComplete = [8000000] ∧
      (if lateJoinWorld.dev.m_fixedNbrListEnabled = true then
          2 * baseDuration lateJoinWorld.dev.m_bps packetTwo
        else w1.dev.m_nbrCount * baseDuration lateJoinWorld.dev.m_bps packetTwo) = 48000) :=
  ⟨Eq.refl _, by with_unfolding_all rfl, by with_unfolding_all rfl,
    (first_packet_unscaled lineEnv lineEnv 0 lateJoinWorld packet1000 1 broadcastAddress 2048
      NO_DIRECTIONAL_NBR (Eq.refl _) (by with_unfolding_all rfl) (Eq.refl _)
      (of_decide_eq_true (by with_unfolding_all rfl))).2.1,
    ⟨_, by with_unfolding_all rfl, by with_unfolding_all rfl, by with_unfolding_all rfl,
      by with_unfolding_all rfl⟩⟩

/-- C10 as stated fails at a candidate standing exactly at the contention
range: on the line scenario with max range 100 and a configured contention
range of 50, node 0 sends; node 1 stands at distance exactly 50, so it lies
within the contention range and, being within the max range, gets an arrival,
but the strict test of `Send` does not count it: the count is 1 and not 1 plus
the one candidate within the contention range. -/
theorem Send_contention_range_boundary :
    Send lineEnv 0 edgeContentionChannel () 2048 1 2 dev0 0 8000000 NO_DIRECTIONAL_NBR
      = Except.ok (edgeContentionAfter,
          [arrival lineEnv () 2048 1 2 dev0 8000000 dev1]) ∧
    edgeContentionChannel.m_fixedContentionEnabled = true ∧
    edgeContentionAfter.ch.m_fixedContentionRange = 50 ∧
    lineEnv.distance dev0.nodeId dev1.nodeId = edgeContentionAfter.ch.m_fixedContentionRange ∧
    withinContentionRange lineEnv edgeContentionAfter.ch dev0 NO_DIRECTIONAL_NBR dev1 = true ∧
    contends lineEnv edgeContentionAfter.ch dev0 NO_DIRECTIONAL_NBR dev1 = false ∧
    (edgeContentionChannel.m_devices.filter
      (withinContentionRange lineEnv edgeContentionAfter.ch dev0 NO_DIRECTIONAL_NBR)).length
        = 1 ∧
    edgeContentionAfter.nbrCount = 1 ∧
    ¬ (edgeContentionAfter.nbrCount =
        1 + ((edgeContentionChannel.m_devices.filter
          (withinContentionRange lineEnv edgeContentionAfter.ch dev0 NO_DIRECTIONAL_NBR)).length
            : Int)) := by
  refine ⟨by with_unfolding_all rfl, by with_unfolding_all rfl, by with_unfolding_all rfl,
    by with_unfolding_all rfl, by with_unfolding_all rfl, by with_unfolding_all rfl,
    by with_unfolding_all rfl, Eq.refl _, ?_⟩
  have hlen : (edgeContentionChannel.m_devices.filter
      (withinContentionRange lineEnv edgeContentionAfter.ch dev0 NO_DIRECTIONAL_NBR)).length
        = 1 := by
    with_unfolding_all rfl
  rw [hlen]
  show ¬ ((1 : Int) = 1 + ((1 : Nat) : Int))
  omega

end SimpleWireless
